import Mathlib

/-!
# Batched LLVM code generator of Open Shading Language

A verification development for `src/liboslexec/batched_llvm_gen.cpp`.

The generators of that file (`LLVMGEN (llvm_gen_if)`, `llvm_gen_loop_op`, ...) drive an
instruction builder `rop.ll` (class `LLVM_Util`).  Two views of a generator are used here:

* the *generation-time* view: the generator is a transformer of the state of the
  instruction builder (mask stack, block stacks, counters, emitted instructions); values
  (`llvm::Value*`) are opaque handles of a type `V`;
* the *run-time* view: the instructions that a generator emits are run on concrete lanes;
  a wide value is one value per lane and a mask is one boolean per lane.
-/

namespace OSL

/-! ## Lanes, masks and wide values -/

/-- A mask (`<W x i1>`): one boolean per SIMD lane. -/
abbrev Mask (W : Nat) := Fin W → Bool

/-- A wide value: one value per SIMD lane. -/
abbrev Wide (W : Nat) (α : Type) := Fin W → α

namespace Mask

/-- The constant mask `wide_constant_bool(b)`. -/
def const (W : Nat) (b : Bool) : Mask W := fun _ => b

/-- Lane-wise `op_and`. -/
def and {W : Nat} (a b : Mask W) : Mask W := fun i => a i && b i

/-- Lane-wise `op_or`. -/
def or {W : Nat} (a b : Mask W) : Mask W := fun i => a i || b i

/-- Lane-wise `op_xor`. -/
def xor {W : Nat} (a b : Mask W) : Mask W := fun i => Bool.xor (a i) (b i)

/-- Lane-wise `op_not`. -/
def not {W : Nat} (a : Mask W) : Mask W := fun i => !a i

/-- Lane-wise `op_select(c, x, y)` on masks. -/
def select {W : Nat} (c x y : Mask W) : Mask W := fun i => if c i then x i else y i

/-- The run-time meaning of `test_if_mask_is_non_zero` (and of `mask_as_int(m) != 0`). -/
def nonzero {W : Nat} (m : Mask W) : Bool := decide (∃ i, m i = true)

/-- Number of active lanes of a mask. -/
def count {W : Nat} (m : Mask W) : Nat := (Finset.univ.filter (fun i => m i = true)).card

end Mask

/-! ## Symbols and opcodes (read-only input of the generator) -/

/-- Base type of a `TypeDesc`. -/
inductive BaseType
  | INT
  | FLOAT
  | STRING
  | UNKNOWN
  deriving DecidableEq, Repr

/-- The part of `TypeSpec` / `TypeDesc` that the generators consult. -/
structure TypeSpec where
  basetype : BaseType
  aggregate : Nat
  arraylen : Int
  is_closure : Bool
  is_matrix : Bool
  is_structure : Bool := false
  deriving DecidableEq, Repr

/-- The part of `Symbol` that the generators consult; `string_data` is the string held by a
string symbol (`*(ustring *)sym.data()`) and `int_data` the integer held by an int symbol
(`*(int *)sym.data()`). -/
structure Symbol where
  name : String
  typespec : TypeSpec
  is_uniform : Bool
  is_constant : Bool
  has_derivs : Bool
  string_data : String := ""
  int_data : Int := 0
  deriving DecidableEq, Repr

/-- An `Opcode`: operation name, argument symbols, jump targets and analysis flag. -/
structure Opcode where
  opname : String
  args : List Symbol
  jump : Nat → Nat
  analysis_flag : Bool

/-- An `int` scalar type (`TypeDesc::INT`, aggregate 1). -/
def TypeSpec.int : TypeSpec :=
  { basetype := BaseType.INT, aggregate := 1, arraylen := 0, is_closure := false, is_matrix := false }

/-- A `float` scalar type. -/
def TypeSpec.float : TypeSpec :=
  { basetype := BaseType.FLOAT, aggregate := 1, arraylen := 0, is_closure := false, is_matrix := false }

/-- A `string` scalar type. -/
def TypeSpec.string : TypeSpec :=
  { basetype := BaseType.STRING, aggregate := 1, arraylen := 0, is_closure := false, is_matrix := false }

/-- The test `typespec().is_string()`: a single string, neither array nor closure. -/
def TypeSpec.is_string (t : TypeSpec) : Bool :=
  t.basetype = BaseType.STRING && t.aggregate = 1 && t.arraylen = 0 && !t.is_closure

/-- The test `typespec().is_int()`: a single int, neither array nor closure. -/
def TypeSpec.is_int (t : TypeSpec) : Bool :=
  t.basetype = BaseType.INT && t.aggregate = 1 && t.arraylen = 0 && !t.is_closure

/-- The test `typespec().is_float()`: a single float, neither array nor closure. -/
def TypeSpec.is_float (t : TypeSpec) : Bool :=
  t.basetype = BaseType.FLOAT && t.aggregate = 1 && t.arraylen = 0 && !t.is_closure

/-- The test `typespec().is_array()`. -/
def TypeSpec.is_array (t : TypeSpec) : Bool := t.arraylen ≠ 0

/-- The test `typespec().is_closure_based()`: a closure or an array of closures. -/
def TypeSpec.is_closure_based (t : TypeSpec) : Bool := t.is_closure

/-- The test `typespec().is_float_based()`: the base type is float. -/
def TypeSpec.is_float_based (t : TypeSpec) : Bool := t.basetype = BaseType.FLOAT

/-- The symbol `rop.opargsym (op, i)`; a missing argument reads as an unnamed uniform int. -/
def Opcode.opargsym (op : Opcode) (i : Nat) : Symbol :=
  op.args.getD i { name := "", typespec := TypeSpec.int, is_uniform := true,
                   is_constant := false, has_derivs := false }

/-- Number of arguments `op.nargs()`. -/
def Opcode.nargs (op : Opcode) : Nat := op.args.length

/-! ## Generation-time state of the instruction builder

`LLVM_Util` (`rop.ll`) is declared outside of the translated file.  Its state and its
operations are modelled from the specification of the mask stack and control-flow engine. -/

/-- A basic block handle (`llvm::BasicBlock*`). -/
abbrev BasicBlock := Nat

/-- A stack slot holding a mask (`rop.getTempMask`). -/
abbrev Slot := Nat

/-- Modelled from the spec: a mask stack entry (the declaration of `LLVM_Util::MaskInfo` is
missing): a mask value, a negated flag and an absolute-versus-relative flag. -/
structure MaskInfo (V : Type) where
  mask : V
  negate : Bool
  absolute : Bool

/-- Modelled from the spec: per-loop state kept by `push_masked_loop` (declaration missing):
the control-mask slot, the continue-mask slot and the counts of masked breaks and continues
generated so far inside the loop. -/
structure MaskedLoopContext where
  location_of_control_mask : Option Slot
  location_of_continue_mask : Option Slot
  break_count : Nat
  continue_count : Nat

/-- Modelled from the spec: per-inlined-function state kept by `push_function_mask`
(declaration missing): the count of masked returns generated so far inside the function. -/
structure MaskedSubroutineContext where
  return_count : Nat

/-- Instructions and builder events recorded while generating; `masked_break` and
`masked_continue` stand for the instructions that `op_masked_break` and `op_masked_continue`
emit on the control-mask slot and on the continue-mask slot of the innermost loop. -/
inductive Instr (V : Type)
  | branch (dest : BasicBlock)
  | cond_branch (cond : V) (t f : BasicBlock)
  | store_mask (v : V) (loc : Slot)
  | set_insert_point (b : BasicBlock)
  | debug_push_inlined_function (name : String)
  | debug_pop_inlined_function
  | masked_break (loc_of_control_mask : Option Slot)
  | masked_continue (loc_of_continue_mask : Option Slot)

/-- Modelled from the spec: the value-level services of `LLVM_Util` and of the backend that
the control-flow generators call (their definitions are missing).  Values are opaque at
generation time, so each service is a function on handles. -/
structure Prims (V : Type) where
  wide_constant_bool : Bool → V
  op_and : V → V → V
  op_not : V → V
  op_load_mask : Slot → V
  test_if_mask_is_non_zero : V → V
  llvm_load_mask : Symbol → V
  llvm_test_nonzero : Symbol → V
  apply_return_to : V → V
  apply_break_to : V → V
  apply_continue_to : V → V
  apply_exit_to : V → V

/-- Modelled from the spec: the state of `LLVM_Util` (class declaration missing) together
with the temporary allocator of the backend.  `push_mask_calls` and `pop_mask_calls` count the
calls made so far. -/
structure LLVM_Util (V : Type) where
  mask_stack : List (MaskInfo V)
  masked_return_block_stack : List BasicBlock
  loop_step_block_stack : List BasicBlock
  loop_after_block_stack : List BasicBlock
  masked_loop_stack : List MaskedLoopContext
  masked_subroutine_stack : List MaskedSubroutineContext
  return_block_stack : List BasicBlock
  masked_exit_count : Nat
  exit_instance_block : BasicBlock
  debug_is_enabled : Bool
  block_count : Nat
  temp_count : Nat
  code : List (Instr V)
  push_mask_calls : Nat
  pop_mask_calls : Nat

namespace LLVM_Util

variable {V : Type}

/-- Modelled from the spec: `push_mask(mask, negate, absolute)` puts a new entry on top of the
mask stack. -/
def push_mask (s : LLVM_Util V) (mask : V) (negate : Bool) (absolute : Bool) : LLVM_Util V :=
  { s with mask_stack := { mask := mask, negate := negate, absolute := absolute } :: s.mask_stack,
           push_mask_calls := s.push_mask_calls + 1 }

/-- Modelled from the spec: `pop_mask()` removes the top entry of the mask stack. -/
def pop_mask (s : LLVM_Util V) : LLVM_Util V :=
  { s with mask_stack := s.mask_stack.tail, pop_mask_calls := s.pop_mask_calls + 1 }

/-- The value of one entry: the mask, complemented when the entry is negated. -/
def entry_value (P : Prims V) (e : MaskInfo V) : V :=
  if e.negate then P.op_not e.mask else e.mask

/-- Modelled from the spec: the current effective mask of a stack is the conjunction of its
entries, from the top down to the nearest absolute entry (the top alone when the top is
absolute); an empty stack means all lanes. -/
def effective_mask (P : Prims V) : List (MaskInfo V) → V
  | [] => P.wide_constant_bool true
  | e :: rest => if e.absolute then entry_value P e
                 else P.op_and (entry_value P e) (effective_mask P rest)

/-- Modelled from the spec: `current_mask()`. -/
def current_mask (P : Prims V) (s : LLVM_Util V) : V := effective_mask P s.mask_stack

/-- The lane-wise conjunction of all entries of the stack, whatever their absolute flags. -/
def conjunction_of_entries (P : Prims V) : List (MaskInfo V) → V
  | [] => P.wide_constant_bool true
  | e :: rest => P.op_and (entry_value P e) (conjunction_of_entries P rest)

/-- Modelled from the spec: `new_basic_block()` returns a fresh block handle. -/
def new_basic_block (s : LLVM_Util V) : BasicBlock × LLVM_Util V :=
  (s.block_count, { s with block_count := s.block_count + 1 })

/-- Record an emitted instruction. -/
def emit (s : LLVM_Util V) (i : Instr V) : LLVM_Util V := { s with code := s.code ++ [i] }

/-- Modelled from the spec: `op_branch(block)`, an unconditional branch. -/
def op_branch (s : LLVM_Util V) (b : BasicBlock) : LLVM_Util V := s.emit (Instr.branch b)

/-- Modelled from the spec: `op_branch(cond, true_block, false_block)`. -/
def op_cond_branch (s : LLVM_Util V) (c : V) (t f : BasicBlock) : LLVM_Util V :=
  s.emit (Instr.cond_branch c t f)

/-- Modelled from the spec: `set_insert_point(block)`. -/
def set_insert_point (s : LLVM_Util V) (b : BasicBlock) : LLVM_Util V :=
  s.emit (Instr.set_insert_point b)

/-- Modelled from the spec: `op_store_mask(value, slot)`. -/
def op_store_mask (s : LLVM_Util V) (v : V) (loc : Slot) : LLVM_Util V :=
  s.emit (Instr.store_mask v loc)

/-- Modelled from the spec: `rop.getTempMask(name)` allocates a fresh mask slot. -/
def getTempMask (s : LLVM_Util V) : Slot × LLVM_Util V :=
  (s.temp_count, { s with temp_count := s.temp_count + 1 })

/-- Modelled from the spec: `push_masked_return_block(dest)`. -/
def push_masked_return_block (s : LLVM_Util V) (b : BasicBlock) : LLVM_Util V :=
  { s with masked_return_block_stack := b :: s.masked_return_block_stack }

/-- Modelled from the spec: `pop_masked_return_block()`. -/
def pop_masked_return_block (s : LLVM_Util V) : LLVM_Util V :=
  { s with masked_return_block_stack := s.masked_return_block_stack.tail }

/-- Modelled from the spec: `has_masked_return_block()`. -/
def has_masked_return_block (s : LLVM_Util V) : Bool := !s.masked_return_block_stack.isEmpty

/-- Modelled from the spec: `masked_return_block()`. -/
def masked_return_block (s : LLVM_Util V) : BasicBlock := s.masked_return_block_stack.headD 0

/-- Modelled from the spec: `inside_function()`. -/
def inside_function (s : LLVM_Util V) : Bool := !s.return_block_stack.isEmpty

/-- Modelled from the spec: `return_block()`. -/
def return_block (s : LLVM_Util V) : BasicBlock := s.return_block_stack.headD 0

/-- Modelled from the spec: `push_loop(step_block, after_block)`. -/
def push_loop (s : LLVM_Util V) (step after : BasicBlock) : LLVM_Util V :=
  { s with loop_step_block_stack := step :: s.loop_step_block_stack,
           loop_after_block_stack := after :: s.loop_after_block_stack }

/-- Modelled from the spec: `pop_loop()`. -/
def pop_loop (s : LLVM_Util V) : LLVM_Util V :=
  { s with loop_step_block_stack := s.loop_step_block_stack.tail,
           loop_after_block_stack := s.loop_after_block_stack.tail }

/-- Modelled from the spec: `push_masked_loop(control_mask_slot, continue_mask_slot)`. -/
def push_masked_loop (s : LLVM_Util V) (control continue_mask : Option Slot) : LLVM_Util V :=
  { s with masked_loop_stack :=
      { location_of_control_mask := control, location_of_continue_mask := continue_mask,
        break_count := 0, continue_count := 0 } :: s.masked_loop_stack }

/-- Modelled from the spec: `pop_masked_loop()`. -/
def pop_masked_loop (s : LLVM_Util V) : LLVM_Util V :=
  { s with masked_loop_stack := s.masked_loop_stack.tail }

/-- Modelled from the spec: `masked_break_count()`, the count of the innermost loop. -/
def masked_break_count (s : LLVM_Util V) : Nat :=
  match s.masked_loop_stack with
  | [] => 0
  | c :: _ => c.break_count

/-- Modelled from the spec: `masked_continue_count()`, the count of the innermost loop. -/
def masked_continue_count (s : LLVM_Util V) : Nat :=
  match s.masked_loop_stack with
  | [] => 0
  | c :: _ => c.continue_count

/-- Modelled from the spec: `masked_return_count()`, the count of the innermost function. -/
def masked_return_count (s : LLVM_Util V) : Nat :=
  match s.masked_subroutine_stack with
  | [] => 0
  | c :: _ => c.return_count

/-- Apply a function to the mask of the top entry of the mask stack. -/
def map_top (s : LLVM_Util V) (f : V → V) : LLVM_Util V :=
  { s with mask_stack :=
      match s.mask_stack with
      | [] => []
      | e :: rest => { e with mask := f e.mask } :: rest }

/-- Modelled from the spec: `apply_return_to_mask_stack()` folds the lanes that returned into
the current stack top. -/
def apply_return_to_mask_stack (P : Prims V) (s : LLVM_Util V) : LLVM_Util V :=
  s.map_top P.apply_return_to

/-- Modelled from the spec: `apply_break_to_mask_stack()`. -/
def apply_break_to_mask_stack (P : Prims V) (s : LLVM_Util V) : LLVM_Util V :=
  s.map_top P.apply_break_to

/-- Modelled from the spec: `apply_continue_to_mask_stack()`. -/
def apply_continue_to_mask_stack (P : Prims V) (s : LLVM_Util V) : LLVM_Util V :=
  s.map_top P.apply_continue_to

/-- Modelled from the spec: `apply_exit_to_mask_stack()`. -/
def apply_exit_to_mask_stack (P : Prims V) (s : LLVM_Util V) : LLVM_Util V :=
  s.map_top P.apply_exit_to

/-- Modelled from the spec: `push_function_mask(start_mask)` opens the mask-stack frame of an
inlined function: a fresh return count, and the start mask pushed as an absolute entry. -/
def push_function_mask (s : LLVM_Util V) (start_mask : V) : LLVM_Util V :=
  ({ s with masked_subroutine_stack := { return_count := 0 } :: s.masked_subroutine_stack }
    ).push_mask start_mask false true

/-- Modelled from the spec: `pop_function_mask()` closes the frame of an inlined function. -/
def pop_function_mask (s : LLVM_Util V) : LLVM_Util V :=
  let s := s.pop_mask
  { s with masked_subroutine_stack := s.masked_subroutine_stack.tail }

/-- Modelled from the spec: `push_function()` creates the block that follows the inlined
function, makes it the return target and returns it. -/
def push_function (s : LLVM_Util V) : BasicBlock × LLVM_Util V :=
  let (after_block, s) := s.new_basic_block
  (after_block, { s with return_block_stack := after_block :: s.return_block_stack })

/-- Modelled from the spec: `pop_function()` leaves the inlined function; the insertion point
moves to its after block. -/
def pop_function (s : LLVM_Util V) : LLVM_Util V :=
  let s := s.set_insert_point s.return_block
  { s with return_block_stack := s.return_block_stack.tail }

end LLVM_Util

/-- Generation of a nested opcode range, `rop.build_llvm_code (beginop, endop, bb)`: the new
builder state and whether every opcode of the range was generated. -/
abbrev BuildCode (V : Type) := Nat → Nat → Option BasicBlock → LLVM_Util V → Bool × LLVM_Util V

/-- Result of one generator (`LLVMGEN`): it returns `true` or `false` to its caller, or it
stops the process at a failed `OSL_ASSERT`; the builder state reached is kept in both cases. -/
inductive GenResult (σ : Type)
  | returned (ok : Bool) (s : σ)
  | fatal (s : σ)

namespace GenResult

variable {σ : Type}

/-- The builder state reached. -/
def state : GenResult σ → σ
  | returned _ s => s
  | fatal s => s

/-- The value returned to the caller, if the generator returned. -/
def value : GenResult σ → Option Bool
  | returned ok _ => some ok
  | fatal _ => none

/-- Whether the generator stopped at a failed assertion. -/
def is_fatal : GenResult σ → Bool
  | returned _ _ => false
  | fatal _ => true

end GenResult

/-! ## Control-flow generators, generation-time view -/

section ControlFlow

variable {V : Type}

/-- The blocks created by the varying path of `llvm_gen_if`. -/
structure IfBlocks where
  then_block : BasicBlock
  test_else_block : Option BasicBlock
  else_block : Option BasicBlock
  after_block : BasicBlock

/-- Varying path of `llvm_gen_if`, from the load of the condition mask to the point where the
then-range is generated: `push_mask(mask)`, the test for active lanes, the blocks, the branch,
`push_masked_return_block`.  (`llvm_load_mask` yields a wide boolean, so the `OSL_ASSERT` on
the type of the loaded value holds.) -/
def llvm_gen_if_then_entry (P : Prims V) (op : Opcode) (s : LLVM_Util V) :
    IfBlocks × LLVM_Util V :=
  let cond := op.opargsym 0
  let elseBlockRequired := op.jump 0 != op.jump 1
  let mask := P.llvm_load_mask cond
  let s := s.push_mask mask false false
  let anyThenLanesActive := P.test_if_mask_is_non_zero (s.current_mask P)
  let (then_block, s) := s.new_basic_block
  let (test_else_block, s) :=
    if elseBlockRequired then (let (b, s) := s.new_basic_block; (some b, s)) else (none, s)
  let (else_block, s) :=
    if elseBlockRequired then (let (b, s) := s.new_basic_block; (some b, s)) else (none, s)
  let (after_block, s) := s.new_basic_block
  let next := if elseBlockRequired then test_else_block.getD after_block else after_block
  let s := s.op_cond_branch anyThenLanesActive then_block next
  let s := s.set_insert_point then_block
  let s := s.push_masked_return_block next
  ({ then_block := then_block, test_else_block := test_else_block,
     else_block := else_block, after_block := after_block }, s)

/-- Varying path of `llvm_gen_if`, after the then-range: `pop_masked_return_block`, `pop_mask`
and the branch to the else test or to the after block. -/
def llvm_gen_if_then_exit (op : Opcode) (b : IfBlocks) (s : LLVM_Util V) : LLVM_Util V :=
  let elseBlockRequired := op.jump 0 != op.jump 1
  let s := s.pop_masked_return_block
  let s := s.pop_mask
  s.op_branch (if elseBlockRequired then b.test_else_block.getD b.after_block else b.after_block)

/-- Varying path of `llvm_gen_if` with an else arm, up to the point where the else-range is
generated: `push_mask(mask, true)`, the test for active lanes, the branch,
`push_masked_return_block(after_block)`. -/
def llvm_gen_if_else_entry (P : Prims V) (op : Opcode) (b : IfBlocks) (s : LLVM_Util V) :
    LLVM_Util V :=
  let mask := P.llvm_load_mask (op.opargsym 0)
  let s := s.push_mask mask true false
  let anyElseLanesActive := P.test_if_mask_is_non_zero (s.current_mask P)
  let s := s.op_cond_branch anyElseLanesActive (b.else_block.getD b.after_block) b.after_block
  let s := s.set_insert_point (b.else_block.getD b.after_block)
  s.push_masked_return_block b.after_block

/-- Varying path of `llvm_gen_if`, after the else-range. -/
def llvm_gen_if_else_exit (b : IfBlocks) (s : LLVM_Util V) : LLVM_Util V :=
  let s := s.pop_masked_return_block
  let s := s.pop_mask
  s.op_branch b.after_block

/-- The block to which control goes when no lane is left: the masked return block if there is
one, else the return block of the function or the exit block of the shader instance. -/
def nextMaskScope (s : LLVM_Util V) : BasicBlock :=
  if s.has_masked_return_block then s.masked_return_block
  else if s.inside_function then s.return_block else s.exit_instance_block

/-- Tail of `llvm_gen_if`: fold masked continue, break and return events of the arms into the
mask stack and, if there was one, test whether any lane is still active. -/
def llvm_gen_if_after (P : Prims V) (beforeThenElseReturnCount beforeThenElseBreakCount
    beforeThenElseContinueCount : Nat) (s : LLVM_Util V) : LLVM_Util V :=
  let requiresTestForActiveLanes := false
  let (requiresTestForActiveLanes, s) :=
    if s.masked_continue_count > beforeThenElseContinueCount then
      (true, s.apply_continue_to_mask_stack P)
    else (requiresTestForActiveLanes, s)
  let (requiresTestForActiveLanes, s) :=
    if s.masked_break_count > beforeThenElseBreakCount then
      (true, s.apply_break_to_mask_stack P)
    else (requiresTestForActiveLanes, s)
  let (requiresTestForActiveLanes, s) :=
    if s.masked_return_count > beforeThenElseReturnCount then
      (true, s.apply_return_to_mask_stack P)
    else (requiresTestForActiveLanes, s)
  if requiresTestForActiveLanes then
    let anyLanesActive := P.test_if_mask_is_non_zero (s.current_mask P)
    let next := nextMaskScope s
    let (after_applying_return_block, s) := s.new_basic_block
    s.op_cond_branch anyLanesActive after_applying_return_block next
  else s

/-- The generator `llvm_gen_if`. -/
def llvm_gen_if (P : Prims V) (build_llvm_code : BuildCode V) (opnum : Nat) (op : Opcode)
    (s : LLVM_Util V) : GenResult (LLVM_Util V) :=
  let cond := op.opargsym 0
  let op_is_uniform := cond.is_uniform
  let elseBlockRequired := op.jump 0 != op.jump 1
  let beforeThenElseReturnCount := s.masked_return_count
  let beforeThenElseBreakCount := s.masked_break_count
  let beforeThenElseContinueCount := s.masked_continue_count
  let s :=
    if op_is_uniform then
      let cond_val := P.llvm_test_nonzero cond
      let (then_block, s) := s.new_basic_block
      let (else_block, s) :=
        if elseBlockRequired then (let (b, s) := s.new_basic_block; (some b, s)) else (none, s)
      let (after_block, s) := s.new_basic_block
      let s := s.op_cond_branch cond_val then_block
                 (if elseBlockRequired then else_block.getD after_block else after_block)
      let s := (build_llvm_code (opnum + 1) (op.jump 0) (some then_block) s).2
      let s := s.op_branch after_block
      if elseBlockRequired then
        let s := (build_llvm_code (op.jump 0) (op.jump 1) else_block s).2
        s.op_branch after_block
      else s
    else
      let (b, s) := llvm_gen_if_then_entry P op s
      let s := (build_llvm_code (opnum + 1) (op.jump 0) (some b.then_block) s).2
      let s := llvm_gen_if_then_exit op b s
      if elseBlockRequired then
        let s := llvm_gen_if_else_entry P op b s
        let s := (build_llvm_code (op.jump 0) (op.jump 1) b.else_block s).2
        llvm_gen_if_else_exit b s
      else s
  let s := llvm_gen_if_after P beforeThenElseReturnCount beforeThenElseBreakCount
             beforeThenElseContinueCount s
  GenResult.returned true s

/-- Uniform path of `llvm_gen_loop_op`: plain branching between the condition, body and step
blocks; the mask stack is not touched. -/
def llvm_gen_loop_op_uniform (P : Prims V) (build_llvm_code : BuildCode V) (opnum : Nat)
    (op : Opcode) (s : LLVM_Util V) : LLVM_Util V :=
  let cond := op.opargsym 0
  let (cond_block, s) := s.new_basic_block
  let (body_block, s) := s.new_basic_block
  let (step_block, s) := s.new_basic_block
  let (after_block, s) := s.new_basic_block
  let s := s.push_loop step_block after_block
  let s := s.push_masked_loop none none
  let s := (build_llvm_code (opnum + 1) (op.jump 0) none s).2
  let s := s.op_branch (if op.opname = "dowhile" then body_block else cond_block)
  let s := (build_llvm_code (op.jump 0) (op.jump 1) (some cond_block) s).2
  let cond_val := P.llvm_test_nonzero cond
  let s := s.op_cond_branch cond_val body_block after_block
  let s := (build_llvm_code (op.jump 1) (op.jump 2) (some body_block) s).2
  let s := s.op_branch step_block
  let s := (build_llvm_code (op.jump 2) (op.jump 3) (some step_block) s).2
  let s := s.op_branch cond_block
  let s := s.set_insert_point after_block
  let s := s.pop_masked_loop
  s.pop_loop

/-- The blocks and mask slots created by the varying path of `llvm_gen_loop_op`, and the count
of masked returns read before the loop. -/
structure LoopBlocks where
  cond_block : BasicBlock
  body_block : BasicBlock
  step_block : BasicBlock
  after_block : BasicBlock
  loc_of_control_mask : Slot
  loc_of_continue_mask : Option Slot
  return_count_before_loop : Nat

/-- Varying path of `llvm_gen_loop_op`, up to the choice between the two loop forms: the
blocks, `push_loop`, the mask slots, `push_masked_loop`, the initialization range, the store of
the current mask into the control-mask slot and `push_masked_return_block`.  (The `TempScope`
that keeps the slots alive until the end of the generator is not represented.) -/
def llvm_gen_loop_op_entry (P : Prims V) (build_llvm_code : BuildCode V) (opnum : Nat)
    (op : Opcode) (s : LLVM_Util V) : LoopBlocks × LLVM_Util V :=
  let (cond_block, body_block, s) :=
    if op.opname = "dowhile" then
      let (body_block, s) := s.new_basic_block
      let (cond_block, s) := s.new_basic_block
      (cond_block, body_block, s)
    else
      let (cond_block, s) := s.new_basic_block
      let (body_block, s) := s.new_basic_block
      (cond_block, body_block, s)
  let (step_block, s) := s.new_basic_block
  let (after_block, s) := s.new_basic_block
  let return_count_before_loop := s.masked_return_count
  let s := s.push_loop step_block after_block
  let loopHasContinue := op.analysis_flag
  let (loc_of_control_mask, s) := s.getTempMask
  let (loc_of_continue_mask, s) :=
    if loopHasContinue then (let (l, s) := s.getTempMask; (some l, s)) else (none, s)
  let s := s.push_masked_loop (some loc_of_control_mask) loc_of_continue_mask
  let s := (build_llvm_code (opnum + 1) (op.jump 0) none s).2
  let initial_mask := s.current_mask P
  let s := s.op_store_mask initial_mask loc_of_control_mask
  let s := s.push_masked_return_block (if loopHasContinue then step_block else after_block)
  ({ cond_block := cond_block, body_block := body_block, step_block := step_block,
     after_block := after_block, loc_of_control_mask := loc_of_control_mask,
     loc_of_continue_mask := loc_of_continue_mask,
     return_count_before_loop := return_count_before_loop }, s)

/-- Varying path of `llvm_gen_loop_op`, `dowhile` form, from the branch to the body block to the
branch that closes the loop.  The boolean is `false` when `OSL_ASSERT(op.jump(2) == op.jump(3))`
fails; the state is then the one reached at the assertion. -/
def llvm_gen_loop_op_dowhile (P : Prims V) (build_llvm_code : BuildCode V) (op : Opcode)
    (b : LoopBlocks) (s : LLVM_Util V) : Bool × LLVM_Util V :=
  let cond := op.opargsym 0
  let loopHasContinue := op.analysis_flag
  let s := s.op_branch b.body_block
  let pre_condition_mask := P.op_load_mask b.loc_of_control_mask
  let s := s.push_mask pre_condition_mask false true
  let s := if loopHasContinue then
             s.op_store_mask (P.wide_constant_bool false) (b.loc_of_continue_mask.getD 0)
           else s
  let s := (build_llvm_code (op.jump 1) (op.jump 2) (some b.body_block) s).2
  let s := s.op_branch b.step_block
  let s :=
    if s.masked_continue_count > 0 then
      let s := s.pop_mask
      let pre_step_mask := pre_condition_mask
      let (pre_step_mask, s) :=
        if s.masked_break_count > 0 then
          let pre_step_mask := P.op_load_mask b.loc_of_control_mask
          let anyLanesActive := P.test_if_mask_is_non_zero pre_step_mask
          let (some_lanes_active_after_continue_break, s) := s.new_basic_block
          (pre_step_mask,
           s.op_cond_branch anyLanesActive some_lanes_active_after_continue_break b.after_block)
        else (pre_step_mask, s)
      s.push_mask pre_step_mask false true
    else s
  if op.jump 2 = op.jump 3 then
    let s := s.op_branch b.cond_block
    let s := (build_llvm_code (op.jump 0) (op.jump 1) (some b.cond_block) s).2
    let s := s.pop_mask
    let post_condition_mask := P.llvm_load_mask cond
    let post_condition_mask := P.op_and post_condition_mask pre_condition_mask
    let post_condition_mask :=
      if s.masked_return_count > b.return_count_before_loop then
        P.apply_return_to post_condition_mask
      else post_condition_mask
    let s := s.op_store_mask post_condition_mask b.loc_of_control_mask
    let cond_val := P.test_if_mask_is_non_zero post_condition_mask
    (true, s.op_cond_branch cond_val b.body_block b.after_block)
  else (false, s)

/-- Varying path of `llvm_gen_loop_op`, `for` / `while` form, from the branch to the condition
block to the branch that closes the loop. -/
def llvm_gen_loop_op_while (P : Prims V) (build_llvm_code : BuildCode V) (op : Opcode)
    (b : LoopBlocks) (s : LLVM_Util V) : LLVM_Util V :=
  let cond := op.opargsym 0
  let loopHasContinue := op.analysis_flag
  let s := s.op_branch b.cond_block
  let pre_condition_mask := P.op_load_mask b.loc_of_control_mask
  let s := s.push_mask pre_condition_mask false true
  let s := (build_llvm_code (op.jump 0) (op.jump 1) (some b.cond_block) s).2
  let s := s.pop_mask
  let post_condition_mask := P.llvm_load_mask cond
  let post_condition_mask := P.op_and post_condition_mask pre_condition_mask
  let s := s.op_store_mask post_condition_mask b.loc_of_control_mask
  let cond_val := P.test_if_mask_is_non_zero post_condition_mask
  let s := s.op_cond_branch cond_val b.body_block b.after_block
  let s := s.push_mask post_condition_mask false true
  let s := if loopHasContinue then
             s.op_store_mask (P.wide_constant_bool false) (b.loc_of_continue_mask.getD 0)
           else s
  let s := (build_llvm_code (op.jump 1) (op.jump 2) (some b.body_block) s).2
  let s := s.op_branch b.step_block
  let s :=
    if s.masked_continue_count > 0 then
      let s := s.pop_mask
      let pre_step_mask := post_condition_mask
      let pre_step_mask :=
        if s.masked_break_count > 0 then P.op_load_mask b.loc_of_control_mask else pre_step_mask
      s.push_mask pre_step_mask false true
    else s
  let s := (build_llvm_code (op.jump 2) (op.jump 3) (some b.step_block) s).2
  let s := s.pop_mask
  let s :=
    if s.masked_return_count > b.return_count_before_loop then
      let post_condition_mask :=
        if s.masked_break_count > 0 then P.op_load_mask b.loc_of_control_mask
        else post_condition_mask
      let post_step_mask := P.apply_return_to post_condition_mask
      s.op_store_mask post_step_mask b.loc_of_control_mask
    else s
  s.op_branch b.cond_block

/-- Tail of the varying path of `llvm_gen_loop_op`: leave the loop and, if a masked return was
generated inside it, fold it into the mask stack and test for active lanes. -/
def llvm_gen_loop_op_after (P : Prims V) (after_block : BasicBlock)
    (return_count_before_loop : Nat) (s : LLVM_Util V) : LLVM_Util V :=
  let s := s.pop_masked_loop
  let s := s.pop_loop
  let s := s.set_insert_point after_block
  let s := s.pop_masked_return_block
  if s.masked_return_count > return_count_before_loop then
    let s := s.apply_return_to_mask_stack P
    let anyLanesActive := P.test_if_mask_is_non_zero (s.current_mask P)
    let next := nextMaskScope s
    let (after_applying_return_block, s) := s.new_basic_block
    s.op_cond_branch anyLanesActive after_applying_return_block next
  else s

/-- The generator `llvm_gen_loop_op` (opcodes `for`, `while`, `dowhile`). -/
def llvm_gen_loop_op (P : Prims V) (build_llvm_code : BuildCode V) (opnum : Nat) (op : Opcode)
    (s : LLVM_Util V) : GenResult (LLVM_Util V) :=
  let cond := op.opargsym 0
  let op_is_uniform := cond.is_uniform
  if op_is_uniform then
    GenResult.returned true (llvm_gen_loop_op_uniform P build_llvm_code opnum op s)
  else
    let (b, s) := llvm_gen_loop_op_entry P build_llvm_code opnum op s
    if op.opname = "dowhile" then
      let r := llvm_gen_loop_op_dowhile P build_llvm_code op b s
      if r.1 then
        GenResult.returned true
          (llvm_gen_loop_op_after P b.after_block b.return_count_before_loop r.2)
      else GenResult.fatal r.2
    else
      let s := llvm_gen_loop_op_while P build_llvm_code op b s
      GenResult.returned true
        (llvm_gen_loop_op_after P b.after_block b.return_count_before_loop s)

/-- The generator `llvm_gen_functioncall` once its assertions hold: open the frame of the
inlined function, generate its body, close the frame, and propagate a masked exit. -/
def llvm_gen_functioncall_body (P : Prims V) (build_llvm_code : BuildCode V) (opnum : Nat)
    (op : Opcode) (s : LLVM_Util V) : LLVM_Util V :=
  let functionNameSymbol := op.opargsym 0
  let functionName := functionNameSymbol.string_data
  let exit_count_before_functioncall := s.masked_exit_count
  let s := s.push_function_mask (s.current_mask P)
  let (after_block, s) := s.push_function
  let op_num_function_starts_at := opnum + 1
  let op_num_function_ends_at := op.jump 0
  let s := if s.debug_is_enabled then
             s.emit (Instr.debug_push_inlined_function functionName)
           else s
  let s := (build_llvm_code op_num_function_starts_at op_num_function_ends_at none s).2
  let s := s.op_branch after_block
  let s := if s.debug_is_enabled then s.emit Instr.debug_pop_inlined_function else s
  let s := s.pop_function
  let s := s.pop_function_mask
  if s.masked_exit_count > exit_count_before_functioncall then
    s.apply_exit_to_mask_stack P
  else s

/-- The generator `llvm_gen_functioncall`: an inlined function call.  The three `OSL_ASSERT`s
on the argument come first. -/
def llvm_gen_functioncall (P : Prims V) (build_llvm_code : BuildCode V) (opnum : Nat)
    (op : Opcode) (s : LLVM_Util V) : GenResult (LLVM_Util V) :=
  if op.nargs ≠ 1 then GenResult.fatal s
  else
    let functionNameSymbol := op.opargsym 0
    if !functionNameSymbol.is_constant then GenResult.fatal s
    else if !functionNameSymbol.typespec.is_string then GenResult.fatal s
    else GenResult.returned true (llvm_gen_functioncall_body P build_llvm_code opnum op s)

end ControlFlow

end OSL

namespace OSL

section

variable {V : Type}


/-- Net number of mask-stack pushes made so far: calls of `push_mask` minus calls of
`pop_mask`. -/
def LLVM_Util.net_pushes (s : LLVM_Util V) : Int :=
  (s.push_mask_calls : Int) - (s.pop_mask_calls : Int)

/-- The mask stack is balanced between two builder states: same depth, and as many pushes as
pops in between. -/
def MaskBalanced (s s' : LLVM_Util V) : Prop :=
  s'.mask_stack.length = s.mask_stack.length ∧ s'.net_pushes = s.net_pushes


end

end OSL

namespace OSL

/-! ## Concrete inputs used to exercise the control-flow generators -/

/-- A builder state with empty stacks and no code. -/
def LLVM_Util.initial (V : Type) : LLVM_Util V :=
  { mask_stack := [], masked_return_block_stack := [], loop_step_block_stack := [],
    loop_after_block_stack := [], masked_loop_stack := [], masked_subroutine_stack := [],
    return_block_stack := [], masked_exit_count := 0, exit_instance_block := 0,
    debug_is_enabled := false, block_count := 1, temp_count := 0, code := [],
    push_mask_calls := 0, pop_mask_calls := 0 }

/-- Run-time meaning of the value-level services on masks of width `W`, for a given value of
the condition symbol: `op_and` and `op_not` act lane by lane; a scalar boolean is represented
by a constant mask; the lanes that returned, broke out or continued are given as masks. -/
def lanePrims (W : Nat) (cond_value : Mask W) (slot_value : Slot → Mask W)
    (not_returned not_broken not_continued not_exited : Mask W) : Prims (Mask W) :=
  { wide_constant_bool := Mask.const W,
    op_and := Mask.and,
    op_not := Mask.not,
    op_load_mask := slot_value,
    test_if_mask_is_non_zero := fun m => Mask.const W (Mask.nonzero m),
    llvm_load_mask := fun _ => cond_value,
    llvm_test_nonzero := fun _ => Mask.const W (Mask.nonzero cond_value),
    apply_return_to := fun m => Mask.and m not_returned,
    apply_break_to := fun m => Mask.and m not_broken,
    apply_continue_to := fun m => Mask.and m not_continued,
    apply_exit_to := fun m => Mask.and m not_exited }

/-- Value-level services on opaque handles numbered by natural numbers. -/
def handlePrims : Prims Nat :=
  { wide_constant_bool := fun b => if b then 1 else 0,
    op_and := fun a b => 2 * a + 3 * b,
    op_not := fun a => a + 1,
    op_load_mask := fun l => 100 + l,
    test_if_mask_is_non_zero := fun m => m + 1000,
    llvm_load_mask := fun _ => 5,
    llvm_test_nonzero := fun _ => 6,
    apply_return_to := fun m => m + 10,
    apply_break_to := fun m => m + 20,
    apply_continue_to := fun m => m + 30,
    apply_exit_to := fun m => m + 40 }

/-- A nested range whose generation succeeds and emits nothing. -/
def build_nothing (V : Type) : BuildCode V := fun _ _ _ s => (true, s)

/-- A nested range whose generation fails (one of its generators returned `false`, as
`llvm_gen_printf` does for a format string that is not constant). -/
def build_failing (V : Type) : BuildCode V := fun _ _ _ s => (false, s)

/-- A nested range that contains a varying `if` of its own: it pushes a mask, pops it, and
folds a masked return into the top of the stack. -/
def build_nested_if {V : Type} (P : Prims V) (m : V) : BuildCode V := fun _ _ _ s =>
  (true, ((s.push_mask m false false).pop_mask).apply_return_to_mask_stack P)

/-- A symbol of the given type and uniformity. -/
def Symbol.mk_simple (name : String) (t : TypeSpec) (is_uniform is_constant : Bool) : Symbol :=
  { name := name, typespec := t, is_uniform := is_uniform, is_constant := is_constant,
    has_derivs := false }

/-- An `if` opcode at position 0 with a varying condition: then-range `[1, 3)`, else-range
`[3, 5)`. -/
def example_if_varying : Opcode :=
  { opname := "if", args := [Symbol.mk_simple "c" TypeSpec.int false false],
    jump := fun i => if i = 0 then 3 else 5, analysis_flag := false }

/-- A `dowhile` opcode at position 0 with a varying condition and an empty step range. -/
def example_dowhile_varying : Opcode :=
  { opname := "dowhile", args := [Symbol.mk_simple "c" TypeSpec.int false false],
    jump := fun i => if i = 0 then 1 else if i = 1 then 3 else 6, analysis_flag := true }

/-- A `for` opcode at position 0 with a varying condition. -/
def example_for_varying : Opcode :=
  { opname := "for", args := [Symbol.mk_simple "c" TypeSpec.int false false],
    jump := fun i => if i = 0 then 2 else if i = 1 then 4 else if i = 2 then 7 else 9,
    analysis_flag := false }

/-- A `functioncall` opcode at position 0: body `[1, 4)`. -/
def example_functioncall : Opcode :=
  { opname := "functioncall", args := [Symbol.mk_simple "f" TypeSpec.string true true],
    jump := fun _ => 4, analysis_flag := false }

/-- Four lanes, lanes 0, 1 and 2 active: the mask of an enclosing scope. -/
def example_outer_mask : Mask 4 := fun i => decide (i.val ≠ 3)

/-- Four lanes, condition true in lanes 0, 2 and 3. -/
def example_cond_mask : Mask 4 := fun i => decide (i.val ≠ 1)

/-- Run-time services on four lanes with the condition `example_cond_mask`; lane 2 returns. -/
def example_prims : Prims (Mask 4) :=
  lanePrims 4 example_cond_mask (fun _ => Mask.const 4 true) (fun i => decide (i.val ≠ 2))
    (Mask.const 4 true) (Mask.const 4 true) (Mask.const 4 true)

/-- A builder state inside one enclosing scope with mask `example_outer_mask`. -/
def example_state : LLVM_Util (Mask 4) :=
  { LLVM_Util.initial (Mask 4) with
    mask_stack := [{ mask := example_outer_mask, negate := false, absolute := true }] }

end OSL

namespace OSL

/-! ## Loop modifiers (`break`, `continue`), generation-time view -/

section LoopMod

variable {V : Type}

namespace LLVM_Util

/-- Modelled from the spec: `is_innermost_loop_masked()` (definition missing): the innermost
loop is masked when it was pushed with a control-mask slot; a uniform loop is pushed with
null slots. -/
def is_innermost_loop_masked (s : LLVM_Util V) : Bool :=
  match s.masked_loop_stack with
  | [] => false
  | c :: _ => c.location_of_control_mask.isSome

/-- Modelled from the spec: `loop_after_block()`, the after block of the innermost loop. -/
def loop_after_block (s : LLVM_Util V) : BasicBlock := s.loop_after_block_stack.headD 0

/-- Modelled from the spec: `loop_step_block()`, the step block of the innermost loop. -/
def loop_step_block (s : LLVM_Util V) : BasicBlock := s.loop_step_block_stack.headD 0

/-- Modelled from the spec: `op_masked_break()` (definition missing) masks the lanes that
break off in the control-mask slot of the innermost loop and counts the break; it emits no
branch. -/
def op_masked_break (s : LLVM_Util V) : LLVM_Util V :=
  match s.masked_loop_stack with
  | [] => s
  | c :: rest =>
    { s.emit (Instr.masked_break c.location_of_control_mask) with
      masked_loop_stack := { c with break_count := c.break_count + 1 } :: rest }

/-- Modelled from the spec: `op_masked_continue()` (definition missing) records the lanes that
continue in the continue-mask slot of the innermost loop and counts the continue; it emits no
branch. -/
def op_masked_continue (s : LLVM_Util V) : LLVM_Util V :=
  match s.masked_loop_stack with
  | [] => s
  | c :: rest =>
    { s.emit (Instr.masked_continue c.location_of_continue_mask) with
      masked_loop_stack := { c with continue_count := c.continue_count + 1 } :: rest }

end LLVM_Util

/-- The generator `llvm_gen_loopmod_op`, used for `break` and `continue`. -/
def llvm_gen_loopmod_op (op : Opcode) (s : LLVM_Util V) : GenResult (LLVM_Util V) :=
  let inside_masked_loop := s.is_innermost_loop_masked
  if inside_masked_loop = false then
    let s :=
      if op.opname = "break" then s.op_branch s.loop_after_block
      else s.op_branch s.loop_step_block
    let (next_block, s) := s.new_basic_block
    GenResult.returned true (s.set_insert_point next_block)
  else
    if op.opname = "break" then GenResult.returned true s.op_masked_break
    else if op.opname ≠ "continue" then GenResult.fatal s
    else GenResult.returned true s.op_masked_continue

/-- Whether an instruction is a branch, unconditional or conditional. -/
def Instr.is_branch : Instr V → Bool
  | Instr.branch _ => true
  | Instr.cond_branch _ _ _ => true
  | _ => false

/-- A `break` or `continue` opcode. -/
def example_loopmod (opname : String) : Opcode :=
  { opname := opname, args := [], jump := fun _ => 0, analysis_flag := false }

/-- The builder state inside a uniform loop with step block 7 and after block 9. -/
def example_inside_uniform_loop : LLVM_Util Nat :=
  ((LLVM_Util.initial Nat).push_loop 7 9).push_masked_loop none none

/-- The builder state inside a varying loop with step block 7 and after block 9, control-mask
slot 3 and continue-mask slot 4. -/
def example_inside_varying_loop : LLVM_Util Nat :=
  ((LLVM_Util.initial Nat).push_loop 7 9).push_masked_loop (some 3) (some 4)

end LoopMod

end OSL

namespace OSL

/-! ## Noise: binning of varying options, run-time view

`llvm_gen_noise` emits, when a noise option (or the noise name) is varying, a loop that calls
the noise kernel once per group of lanes that agree on all varying options.  The definitions
below run the emitted loop on concrete lanes: a wide value is its per-lane content, and the
back edge of the loop is a recursive call. -/

section Noise

variable {W : Nat} {α : Type}

/-- Modelled from the spec: `op_1st_active_lane_of(mask)` (definition missing) picks the first
active lane of the mask as representative; there is none when the mask is empty. -/
def op_1st_active_lane_of (mask : Mask W) : Option (Fin W) := Fin.find (fun i => mask i = true)

/-- Modelled from the spec: `op_extract(wide, lane)` (definition missing) reads one lane. -/
def op_extract (wide : Wide W α) (lane : Fin W) : α := wide lane

/-- Modelled from the spec: `op_lanes_that_match_masked(scalar, wide, mask)` (definition
missing) is the subset of the lanes of `mask` whose value matches the scalar; `eq` is the
equality test of the value type. -/
def op_lanes_that_match_masked (eq : α → α → Bool) (scalar : α) (wide : Wide W α)
    (mask : Mask W) : Mask W :=
  fun i => eq scalar (wide i) && mask i

/-- One argument of the noise opcode in the optional part of the argument list: the symbol,
the string it holds when it is an option name (`*(ustring *)Name.data()`), and the per-lane
content that `llvm_load_value` yields for it when it is an option value (with the cast that
the option asks for). -/
structure NoiseArg (W : Nat) (α : Type) where
  sym : Symbol
  str : String
  wide : Wide W α

/-- The test `typespec().is_triple()`: three floats, neither array nor closure. -/
def TypeSpec.is_triple (t : TypeSpec) : Bool :=
  t.basetype = BaseType.FLOAT && t.aggregate = 3 && t.arraylen = 0 && !t.is_closure

/-- A call `osl_noiseparams_set_...(opt, scalar)` that writes a scalar into the option block. -/
structure NoiseSetCall (α : Type) where
  func : String
  value : α
  deriving DecidableEq

/-- What `llvm_batched_noise_varying_options` yields: the lanes that match the lead lane on
every varying option, the calls emitted to fill the option block, and the names reported as
unknown optional arguments. -/
structure VaryingOptions (W : Nat) (α : Type) where
  remainingMask : Mask W
  calls : List (NoiseSetCall α)
  unknown : List String

/-- The function `llvm_batched_noise_varying_options`, on the optional arguments from
`first_optional_arg` on.  The result is `none` when one of its `OSL_ASSERT`s fails (an option
name that is not a string, a name without value, a varying name, a varying constant). -/
def llvm_batched_noise_varying_options (eq : α → α → Bool) :
    List (NoiseArg W α) → Mask W → Fin W → Option (VaryingOptions W α)
  | [], remainingMask, _ => some { remainingMask := remainingMask, calls := [], unknown := [] }
  | [_], _, _ => none
  | Name :: Val :: rest, remainingMask, leadLane =>
    if !Name.sym.typespec.is_string then none
    else
      let name := Name.str
      if name = "" then llvm_batched_noise_varying_options eq rest remainingMask leadLane
      else
        let nameIsVarying := !Name.sym.is_uniform
        if nameIsVarying then none
        else if Val.sym.is_uniform then
          llvm_batched_noise_varying_options eq rest remainingMask leadLane
        else if Val.sym.is_constant then none
        else if name = "anisotropic" && Val.sym.typespec.is_int then
          let wide_anisotropic := Val.wide
          let scalar_anisotropic := op_extract wide_anisotropic leadLane
          let remainingMask :=
            op_lanes_that_match_masked eq scalar_anisotropic wide_anisotropic remainingMask
          (llvm_batched_noise_varying_options eq rest remainingMask leadLane).map fun r =>
            { r with calls :=
                { func := "osl_noiseparams_set_anisotropic", value := scalar_anisotropic }
                  :: r.calls }
        else if name = "do_filter" && Val.sym.typespec.is_int then
          let wide_do_filter := Val.wide
          let scalar_do_filter := op_extract wide_do_filter leadLane
          let remainingMask :=
            op_lanes_that_match_masked eq scalar_do_filter wide_do_filter remainingMask
          (llvm_batched_noise_varying_options eq rest remainingMask leadLane).map fun r =>
            { r with calls :=
                { func := "osl_noiseparams_set_do_filter", value := scalar_do_filter }
                  :: r.calls }
        else if name = "bandwidth"
            && (Val.sym.typespec.is_float || Val.sym.typespec.is_int) then
          let wide_bandwidth := Val.wide
          let scalar_bandwidth := op_extract wide_bandwidth leadLane
          let remainingMask :=
            op_lanes_that_match_masked eq scalar_bandwidth wide_bandwidth remainingMask
          (llvm_batched_noise_varying_options eq rest remainingMask leadLane).map fun r =>
            { r with calls :=
                { func := "osl_noiseparams_set_bandwidth", value := scalar_bandwidth }
                  :: r.calls }
        else if name = "impulses"
            && (Val.sym.typespec.is_float || Val.sym.typespec.is_int) then
          let wide_impulses := Val.wide
          let scalar_impulses := op_extract wide_impulses leadLane
          let remainingMask :=
            op_lanes_that_match_masked eq scalar_impulses wide_impulses remainingMask
          (llvm_batched_noise_varying_options eq rest remainingMask leadLane).map fun r =>
            { r with calls :=
                { func := "osl_noiseparams_set_impulses", value := scalar_impulses }
                  :: r.calls }
        else if name = "direction" && Val.sym.typespec.is_triple then
          llvm_batched_noise_varying_options eq rest remainingMask leadLane
        else
          (llvm_batched_noise_varying_options eq rest remainingMask leadLane).map fun r =>
            { r with unknown := name :: r.unknown }

/-- One run of the body of the binning loop: the remaining mask loaded at its start, the lead
lane, the scalar name passed to the kernel when the name is varying, the calls that fill the
option block, the mask passed to the kernel, and the remaining mask stored at its end. -/
structure BinIteration (W : Nat) (α : Type) where
  remaining_before : Mask W
  leadLane : Fin W
  scalar_name : Option α
  calls : List (NoiseSetCall α)
  kernel_mask : Mask W
  remaining_after : Mask W

/-- Outcome of running the binning loop. -/
inductive BinResult (W : Nat) (α : Type)
  | finished (iterations : List (BinIteration W α))
  | out_of_fuel
  | undefined_lead_lane
  | assertion_failed

/-- Put one more iteration in front of the iterations of a finished run. -/
def BinResult.cons (it : BinIteration W α) : BinResult W α → BinResult W α
  | BinResult.finished its => BinResult.finished (it :: its)
  | r => r

/-- The binning loop of `llvm_gen_noise` (`bin_block`), run from the remaining mask held in the
slot `loc_of_remainingMask`: pick the lead lane, restrict the remaining lanes to those that
match it on the name (when varying) and on every varying option, call the kernel with that
mask, remove those lanes (`op_xor`) and loop while a lane remains.  `fuel` bounds the number
of iterations. -/
def llvm_gen_noise_bin_block (eq : α → α → Bool) (name_is_uniform : Bool) (nameVal : Wide W α)
    (args : List (NoiseArg W α)) : Nat → Mask W → BinResult W α
  | 0, _ => BinResult.out_of_fuel
  | fuel + 1, remainingMask =>
    match op_1st_active_lane_of remainingMask with
    | none => BinResult.undefined_lead_lane
    | some leadLane =>
      let lanesMatchingName := remainingMask
      let scalar_name := op_extract nameVal leadLane
      let lanesMatchingName :=
        if name_is_uniform = false then
          op_lanes_that_match_masked eq scalar_name nameVal lanesMatchingName
        else lanesMatchingName
      match llvm_batched_noise_varying_options eq args lanesMatchingName leadLane with
      | none => BinResult.assertion_failed
      | some r =>
        let lanesMatchingOptions := r.remainingMask
        let remainingMask' := Mask.xor remainingMask lanesMatchingOptions
        let it : BinIteration W α :=
          { remaining_before := remainingMask, leadLane := leadLane,
            scalar_name := if name_is_uniform = false then some scalar_name else none,
            calls := r.calls, kernel_mask := lanesMatchingOptions,
            remaining_after := remainingMask' }
        if Mask.nonzero remainingMask' then
          (llvm_gen_noise_bin_block eq name_is_uniform nameVal args fuel remainingMask').cons it
        else BinResult.finished [it]

/-- The varying-options branch of `llvm_gen_noise`: the current mask is stored into the slot of
the remaining lanes and the binning loop is entered. -/
def llvm_gen_noise_binning (eq : α → α → Bool) (name_is_uniform : Bool) (nameVal : Wide W α)
    (args : List (NoiseArg W α)) (current_mask : Mask W) (fuel : Nat) : BinResult W α :=
  llvm_gen_noise_bin_block eq name_is_uniform nameVal args fuel current_mask

/-- The assertions of `llvm_batched_noise_varying_options` all hold for an argument list: each
name is a string and has a value, a non-empty name is uniform, and a varying value under a
non-empty name is not a constant. -/
def noise_options_asserted : List (NoiseArg W α) → Bool
  | [] => true
  | [_] => false
  | Name :: Val :: rest =>
    Name.sym.typespec.is_string
      && (Name.str = "" || (Name.sym.is_uniform && (Val.sym.is_uniform || !Val.sym.is_constant)))
      && noise_options_asserted rest

/-- The name of the setter that the binning loop calls for a (name, value) pair: defined when
the pair is a varying `anisotropic` or `do_filter` option of type int or a varying `bandwidth`
or `impulses` option of type float or int. -/
def binned_setter (Name Val : NoiseArg W α) : Option String :=
  if Val.sym.is_uniform then none
  else if Name.str = "anisotropic" && Val.sym.typespec.is_int then
    some "osl_noiseparams_set_anisotropic"
  else if Name.str = "do_filter" && Val.sym.typespec.is_int then
    some "osl_noiseparams_set_do_filter"
  else if Name.str = "bandwidth" && (Val.sym.typespec.is_float || Val.sym.typespec.is_int) then
    some "osl_noiseparams_set_bandwidth"
  else if Name.str = "impulses" && (Val.sym.typespec.is_float || Val.sym.typespec.is_int) then
    some "osl_noiseparams_set_impulses"
  else none

/-- The (name, value) pairs of an optional argument list. -/
def noise_option_pairs : List (NoiseArg W α) → List (NoiseArg W α × NoiseArg W α)
  | Name :: Val :: rest => (Name, Val) :: noise_option_pairs rest
  | _ => []

/-- The lanes of `mask` that agree with the lead lane on every binned option of a list of
(name, value) pairs. -/
def binned_mask (eq : α → α → Bool) (leadLane : Fin W) :
    List (NoiseArg W α × NoiseArg W α) → Mask W → Mask W
  | [], mask => mask
  | p :: ps, mask =>
    binned_mask eq leadLane ps
      (if (binned_setter p.1 p.2).isSome then
         op_lanes_that_match_masked eq (op_extract p.2.wide leadLane) p.2.wide mask
       else mask)

/-- The setter calls for the binned options of a list of (name, value) pairs, with the values
of the lead lane. -/
def binned_calls (leadLane : Fin W) :
    List (NoiseArg W α × NoiseArg W α) → List (NoiseSetCall α)
  | [] => []
  | p :: ps =>
    match binned_setter p.1 p.2 with
    | some f => { func := f, value := op_extract p.2.wide leadLane } :: binned_calls leadLane ps
    | none => binned_calls leadLane ps

/-- The lanes of the remaining mask that match the lead lane on the noise name, when the name
is varying (all of them when it is uniform). -/
def lanes_matching_name (eq : α → α → Bool) (name_is_uniform : Bool) (nameVal : Wide W α)
    (leadLane : Fin W) (remainingMask : Mask W) : Mask W :=
  if name_is_uniform = false then
    op_lanes_that_match_masked eq (op_extract nameVal leadLane) nameVal remainingMask
  else remainingMask

/-- An iteration record is what one run of the loop body computes from the remaining mask at
its start. -/
def BinIteration.computed (eq : α → α → Bool) (name_is_uniform : Bool) (nameVal : Wide W α)
    (args : List (NoiseArg W α)) (it : BinIteration W α) : Prop :=
  op_1st_active_lane_of it.remaining_before = some it.leadLane
  ∧ it.kernel_mask = binned_mask eq it.leadLane (noise_option_pairs args)
      (lanes_matching_name eq name_is_uniform nameVal it.leadLane it.remaining_before)
  ∧ it.calls = binned_calls it.leadLane (noise_option_pairs args)
  ∧ it.scalar_name = (if name_is_uniform = false then some (nameVal it.leadLane) else none)
  ∧ it.remaining_after = Mask.xor it.remaining_before it.kernel_mask

/-- The masks passed to the kernel by a finished run, lane 0 first. -/
def BinResult.kernel_masks : BinResult W α → Option (List (List Bool))
  | BinResult.finished its => some (its.map fun it => List.ofFn it.kernel_mask)
  | _ => none

/-- Equality test on integers. -/
def int_eq (x y : Int) : Bool := decide (x = y)

/-- Example of optional noise arguments on four lanes: a varying int `anisotropic` with lane
values 1, 0, 1, 0 and a varying `bandwidth` with lane values 5, 5, 5, 7. -/
def example_noise_args : List (NoiseArg 4 Int) :=
  [ { sym := Symbol.mk_simple "$const1" TypeSpec.string true true, str := "anisotropic",
      wide := fun _ => 0 },
    { sym := Symbol.mk_simple "aniso" TypeSpec.int false false, str := "",
      wide := fun i => if i.val % 2 = 0 then 1 else 0 },
    { sym := Symbol.mk_simple "$const2" TypeSpec.string true true, str := "bandwidth",
      wide := fun _ => 0 },
    { sym := Symbol.mk_simple "bw" TypeSpec.float false false, str := "",
      wide := fun i => if i.val = 3 then 7 else 5 } ]

/-- Example of a varying noise name on four lanes: lanes 0, 1, 2 ask for one kernel and lane 3
for another. -/
def example_noise_name : Wide 4 Int := fun i => if i.val = 3 then 11 else 10

/-- Four lanes, lanes 1 and 3 active. -/
def example_odd_lanes : Mask 4 := fun i => decide (i.val = 1 ∨ i.val = 3)

/-- The number of iterations of a finished run. -/
def BinResult.iterations : BinResult W α → Option Nat
  | BinResult.finished its => some its.length
  | _ => none

end Noise

end OSL

namespace OSL

/-! ## Noise: choice between a single kernel call and the binning loop, generation-time view -/

section NoiseGen

/-- What `llvm_batched_noise_options` has established while it walks the optional arguments:
the setter calls emitted for uniform options, the varying direction passed by pointer, the
four uniformity flags, and the names reported as unknown optional arguments. -/
structure NoiseOptions where
  calls : List (String × Symbol)
  loc_wide_direction : Option Symbol
  is_anisotropic_uniform : Bool
  is_bandwidth_uniform : Bool
  is_impulses_uniform : Bool
  is_do_filter_uniform : Bool
  unknown : List String
  deriving DecidableEq, Repr

/-- The state of `llvm_batched_noise_options` before its loop. -/
def NoiseOptions.start : NoiseOptions :=
  { calls := [], loc_wide_direction := none, is_anisotropic_uniform := true,
    is_bandwidth_uniform := true, is_impulses_uniform := true, is_do_filter_uniform := true,
    unknown := [] }

/-- The body of the loop of `llvm_batched_noise_options` for one (name, value) pair.  The
result is `none` when one of its `OSL_ASSERT`s fails (an option name that is not a string, a
varying name). -/
def llvm_batched_noise_options_pair (Name Val : Symbol) (o : NoiseOptions) :
    Option NoiseOptions :=
  if !Name.typespec.is_string then none
  else
    let name := Name.string_data
    if name = "" then some o
    else
      let nameIsVarying := !Name.is_uniform
      if nameIsVarying then none
      else if name = "anisotropic" && Val.typespec.is_int then
        if !Val.is_uniform then some { o with is_anisotropic_uniform := false }
        else some { o with calls := o.calls ++ [("osl_noiseparams_set_anisotropic", Val)] }
      else if name = "do_filter" && Val.typespec.is_int then
        if !Val.is_uniform then some { o with is_do_filter_uniform := false }
        else some { o with calls := o.calls ++ [("osl_noiseparams_set_do_filter", Val)] }
      else if name = "direction" && Val.typespec.is_triple then
        if !Val.is_uniform then some { o with loc_wide_direction := some Val }
        else some { o with calls := o.calls ++ [("osl_noiseparams_set_direction", Val)] }
      else if name = "bandwidth" && (Val.typespec.is_float || Val.typespec.is_int) then
        if !Val.is_uniform then some { o with is_bandwidth_uniform := false }
        else some { o with calls := o.calls ++ [("osl_noiseparams_set_bandwidth", Val)] }
      else if name = "impulses" && (Val.typespec.is_float || Val.typespec.is_int) then
        if !Val.is_uniform then some { o with is_impulses_uniform := false }
        else some { o with calls := o.calls ++ [("osl_noiseparams_set_impulses", Val)] }
      else some { o with unknown := o.unknown ++ [name] }

/-- The loop of `llvm_batched_noise_options` over the optional arguments (name, value, name,
value, ...).  The result is `none` when one of its `OSL_ASSERT`s fails (an option name that is
not a string, a name without value, a varying name). -/
def llvm_batched_noise_options_loop : List Symbol → NoiseOptions → Option NoiseOptions
  | [], o => some o
  | [_], _ => none
  | Name :: Val :: rest, o =>
    match llvm_batched_noise_options_pair Name Val o with
    | none => none
    | some o => llvm_batched_noise_options_loop rest o

/-- The function `llvm_batched_noise_options` on the optional arguments from
`first_optional_arg` on: what the loop established, and the new value of
`all_options_are_uniform`. -/
def llvm_batched_noise_options (args : List Symbol) (all_options_are_uniform : Bool) :
    Option (NoiseOptions × Bool) :=
  (llvm_batched_noise_options_loop args NoiseOptions.start).map fun o =>
    (o, all_options_are_uniform
          && (o.is_anisotropic_uniform && o.is_bandwidth_uniform && o.is_impulses_uniform
              && o.is_do_filter_uniform))

/-- An argument of the kernel call built by `llvm_gen_noise`. -/
inductive NoiseCallArg
  | name_value (sym : Symbol)
  | tmpresult
  | result_ptr
  | arg (sym : Symbol) (derivs : Bool)
  | sg_void_ptr
  | opt
  | wide_direction (sym : Option Symbol)
  | current_mask
  | lanes_matching_options
  deriving DecidableEq, Repr

/-- What `llvm_gen_noise` reports or emits: an error of the shading context, the call that
fetches the option block, a setter call for a uniform option, one kernel call, the binning
loop around the kernel call, the store of a returned float, the copy of the temporary
result, the zeroing of the derivatives of Result. -/
inductive NoiseEmit
  | error (message : String)
  | get_noise_options
  | set_option (func : String) (val : Symbol)
  | kernel_call (name : String) (masked unbatched : Bool) (args : List NoiseCallArg)
  | binning_loop (name : String) (name_is_uniform : Bool) (args : List NoiseCallArg)
  | store_result
  | copy_tmpresult
  | zero_derivs
  deriving DecidableEq, Repr

/-- The values that `llvm_gen_noise` has computed when it reaches the emission of the option
block and of the kernel call. -/
structure NoiseSetup where
  name : String
  Name : Option Symbol
  name_is_uniform : Bool
  periodic : Bool
  S : Symbol
  T : Option Symbol
  Sper : Option Symbol
  Tper : Option Symbol
  derivs : Bool
  pass_name : Bool
  pass_sg : Bool
  pass_options : Bool
  all_options_are_uniform : Bool
  arg : Nat
  deriving DecidableEq, Repr

/-- The first part of `llvm_gen_noise`: the arguments are read, the noise name is resolved
and the renderer option `no_noise` is applied.  The result is `none` when the noise type is
unknown (an error is reported and the generator returns `false`). -/
def llvm_gen_noise_setup (no_noise : Bool) (op : Opcode) : Option NoiseSetup :=
  let periodic := op.opname = "pnoise" || op.opname = "psnoise"
  let Result := op.opargsym 0
  let Name := op.opargsym 1
  let name_is_string := Name.typespec.is_string
  let name : String :=
    if name_is_string then (if Name.is_constant then Name.string_data else "") else op.opname
  let name_is_uniform := if name_is_string then Name.is_uniform else true
  let arg := if name_is_string then 2 else 1
  let S := op.opargsym arg
  let arg := arg + 1
  let derivs := S.has_derivs
  let has_T : Bool :=
    if periodic then
      decide (op.nargs > arg + 1)
        && ((op.opargsym (arg + 1)).typespec.is_float
            || (op.opargsym (arg + 1)).typespec.is_triple)
    else decide (op.nargs > arg) && (op.opargsym arg).typespec.is_float
  let T := if has_T then some (op.opargsym arg) else none
  let derivs := if has_T then derivs || (op.opargsym arg).has_derivs else derivs
  let arg := if has_T then arg + 1 else arg
  let Sper := if periodic then some (op.opargsym arg) else none
  let arg := if periodic then arg + 1 else arg
  let Tper := if periodic && has_T then some (op.opargsym arg) else none
  let arg := if periodic && has_T then arg + 1 else arg
  let derivs := derivs && Result.has_derivs
  let resolved : Option (String × Bool × Bool × Bool) :=
    if name = "" then
      some (if periodic then "genericpnoise" else "genericnoise", true, true, name_is_uniform)
    else if name = "perlin" || name = "snoise" || name = "psnoise" then
      some (if periodic then "psnoise" else "snoise", false, derivs, true)
    else if name = "uperlin" || name = "noise" || name = "pnoise" then
      some (if periodic then "pnoise" else "noise", false, derivs, true)
    else if name = "cell" || name = "cellnoise" then
      some (if periodic then "pcellnoise" else "cellnoise", false, false, true)
    else if name = "hash" || name = "hashnoise" then
      some (if periodic then "phashnoise" else "hashnoise", false, false, true)
    else if name = "simplex" && !periodic then some ("simplexnoise", false, derivs, true)
    else if name = "usimplex" && !periodic then some ("usimplexnoise", false, derivs, true)
    else if name = "gabor" then
      some (if periodic then "gaborpnoise" else "gabornoise", true, true, true)
    else none
  resolved.map fun r =>
    let name := r.1
    let pass := r.2.1
    let derivs := r.2.2.1
    let all_options_are_uniform := r.2.2.2
    if no_noise then
      { name :=
          if name = "uperlin" || name = "noise" || name = "usimplexnoise"
              || name = "usimplex" || name = "cell" || name = "cellnoise" || name = "hash"
              || name = "hashnoise" || name = "pcellnoise" || name = "pnoise" then
            "unullnoise"
          else "nullnoise",
        Name := if name_is_string then some Name else none,
        name_is_uniform := name_is_uniform, periodic := false, S := S, T := T,
        Sper := Sper, Tper := Tper, derivs := derivs, pass_name := false, pass_sg := false,
        pass_options := false, all_options_are_uniform := all_options_are_uniform,
        arg := arg }
    else
      { name := name, Name := if name_is_string then some Name else none,
        name_is_uniform := name_is_uniform, periodic := periodic, S := S, T := T,
        Sper := Sper, Tper := Tper, derivs := derivs, pass_name := pass, pass_sg := pass,
        pass_options := pass, all_options_are_uniform := all_options_are_uniform,
        arg := arg }

/-- The arguments of the kernel call that `llvm_gen_noise` builds before it chooses between
one call and the binning loop: the noise name when it is passed, the result pointer or the
temporary result, the coordinates and periods, the shader globals, the option block and the
pointer to a varying direction (null when there is none). -/
def llvm_gen_noise_args (op : Opcode) (su : NoiseSetup) (o : NoiseOptions) :
    List NoiseCallArg :=
  let Result := op.opargsym 0
  let op_is_uniform := Result.is_uniform
  let outdim := if Result.typespec.is_triple then 3 else 1
  let derivs := su.derivs
  let args : List NoiseCallArg :=
    if su.pass_name then [NoiseCallArg.name_value (su.Name.getD (op.opargsym 1))] else []
  let args :=
    if outdim = 3 || derivs || !op_is_uniform then
      args ++ [if derivs && !Result.has_derivs then NoiseCallArg.tmpresult
               else NoiseCallArg.result_ptr]
    else args
  let args := args ++ [NoiseCallArg.arg su.S derivs]
  let args :=
    match su.T with
    | some T => args ++ [NoiseCallArg.arg T derivs]
    | none => args
  let args :=
    if su.periodic then
      args ++ (su.Sper.toList.map fun p => NoiseCallArg.arg p false)
        ++ (su.Tper.toList.map fun p => NoiseCallArg.arg p false)
    else args
  let args := if su.pass_sg then args ++ [NoiseCallArg.sg_void_ptr] else args
  if su.pass_options then
    args ++ [NoiseCallArg.opt]
      ++ (if !op_is_uniform then [NoiseCallArg.wide_direction o.loc_wide_direction] else [])
  else args

/-- What `llvm_batched_noise_options` emits: the call that fetches the option block, the
errors for unknown optional arguments and the setter calls for the uniform options. -/
def llvm_gen_noise_options_emits (o : NoiseOptions) : List NoiseEmit :=
  NoiseEmit.get_noise_options
    :: (o.unknown.map fun n => NoiseEmit.error ("Unknown optional argument: " ++ n))
    ++ (o.calls.map fun c => NoiseEmit.set_option c.1 c.2)

/-- The kernel part of `llvm_gen_noise`: the binning loop when options are passed and not all
of them are uniform; else one kernel call (masked for a varying Result, the scalar routine
for a uniform one) and the store of a returned plain float. -/
def llvm_gen_noise_kernel (op : Opcode) (su : NoiseSetup) (args : List NoiseCallArg)
    (all_options_are_uniform : Bool) : List NoiseEmit :=
  let Result := op.opargsym 0
  let op_is_uniform := Result.is_uniform
  let outdim := if Result.typespec.is_triple then 3 else 1
  if su.pass_options && !all_options_are_uniform then
    [NoiseEmit.binning_loop su.name su.name_is_uniform
      (args ++ [NoiseCallArg.lanes_matching_options])]
  else
    NoiseEmit.kernel_call su.name (!op_is_uniform) op_is_uniform
        (if !op_is_uniform then args ++ [NoiseCallArg.current_mask] else args)
      :: (if op_is_uniform && outdim = 1 && !su.derivs then [NoiseEmit.store_result] else [])

/-- The end of `llvm_gen_noise`: the copy of the temporary result when derivatives were
computed for a Result without derivatives, and the zeroing of the derivatives of a Result
whose derivatives were not computed. -/
def llvm_gen_noise_epilogue (op : Opcode) (su : NoiseSetup) : List NoiseEmit :=
  let Result := op.opargsym 0
  (if su.derivs && !Result.has_derivs then [NoiseEmit.copy_tmpresult] else [])
    ++ (if Result.has_derivs && !su.derivs then [NoiseEmit.zero_derivs] else [])

/-- The generator `llvm_gen_noise`; `no_noise` is the renderer option that replaces noise by a
constant.  (The profiling call `count_noise` is left out.) -/
def llvm_gen_noise (no_noise : Bool) (op : Opcode) : GenResult (List NoiseEmit) :=
  match llvm_gen_noise_setup no_noise op with
  | none => GenResult.returned false [NoiseEmit.error "noise type is unknown"]
  | some su =>
    let options : Option (NoiseOptions × Bool) :=
      if su.pass_options then
        llvm_batched_noise_options (op.args.drop su.arg) su.all_options_are_uniform
      else some (NoiseOptions.start, su.all_options_are_uniform)
    match options with
    | none => GenResult.fatal [NoiseEmit.get_noise_options]
    | some (o, all_options_are_uniform) =>
      GenResult.returned true
        ((if su.pass_options then llvm_gen_noise_options_emits o else [])
          ++ llvm_gen_noise_kernel op su (llvm_gen_noise_args op su o) all_options_are_uniform
          ++ llvm_gen_noise_epilogue op su)

/-- Whether a (name, value) pair of optional arguments is an option that the binning loop
bins: a non-empty name, a varying value, and a name and type that
`llvm_batched_noise_options` accepts as `anisotropic`, `do_filter`, `bandwidth` or
`impulses`. -/
def is_binned_option (Name Val : Symbol) : Bool :=
  Name.string_data ≠ "" && !Val.is_uniform
    && ((Name.string_data = "anisotropic" && Val.typespec.is_int)
        || (Name.string_data = "do_filter" && Val.typespec.is_int)
        || (Name.string_data = "bandwidth" && (Val.typespec.is_float || Val.typespec.is_int))
        || (Name.string_data = "impulses" && (Val.typespec.is_float || Val.typespec.is_int)))

/-- The (name, value) pairs of a list of optional arguments. -/
def option_pairs : List Symbol → List (Symbol × Symbol)
  | Name :: Val :: rest => (Name, Val) :: option_pairs rest
  | _ => []

/-- The conjunction of the four uniformity flags. -/
def NoiseOptions.flags (o : NoiseOptions) : Bool :=
  o.is_anisotropic_uniform && o.is_bandwidth_uniform && o.is_impulses_uniform
    && o.is_do_filter_uniform

/-- Whether something emitted is a kernel call outside of a loop. -/
def NoiseEmit.is_kernel_call : NoiseEmit → Bool
  | NoiseEmit.kernel_call _ _ _ _ => true
  | _ => false

/-- Whether something emitted is the binning loop. -/
def NoiseEmit.is_binning_loop : NoiseEmit → Bool
  | NoiseEmit.binning_loop _ _ _ => true
  | _ => false

/-- A constant uniform string symbol holding `str`. -/
def Symbol.mk_string_constant (str : String) : Symbol :=
  { name := "$const", typespec := TypeSpec.string, is_uniform := true, is_constant := true,
    has_derivs := false, string_data := str }

/-- The type of a point, vector or color. -/
def TypeSpec.triple : TypeSpec :=
  { basetype := BaseType.FLOAT, aggregate := 3, arraylen := 0, is_closure := false,
    is_matrix := false }

/-- A gabor noise `Result = noise ("gabor", P, "direction", D)` with a varying float Result,
a varying point `P` and a varying vector `D` as the only option. -/
def example_gabor_varying_direction : Opcode :=
  { opname := "noise",
    args := [Symbol.mk_simple "Result" TypeSpec.float false false,
             Symbol.mk_string_constant "gabor",
             Symbol.mk_simple "P" TypeSpec.triple false false,
             Symbol.mk_string_constant "direction",
             Symbol.mk_simple "D" TypeSpec.triple false false],
    jump := fun _ => 0, analysis_flag := false }

/-- A gabor noise `Result = noise ("gabor", P, "bandwidth", b)` with a varying float Result,
a varying point `P` and a varying float `b` as the only option. -/
def example_gabor_varying_bandwidth : Opcode :=
  { opname := "noise",
    args := [Symbol.mk_simple "Result" TypeSpec.float false false,
             Symbol.mk_string_constant "gabor",
             Symbol.mk_simple "P" TypeSpec.triple false false,
             Symbol.mk_string_constant "bandwidth",
             Symbol.mk_simple "b" TypeSpec.float false false],
    jump := fun _ => 0, analysis_flag := false }

/-- What `llvm_gen_noise_setup` computes for the gabor noise with a varying bandwidth. -/
def example_gabor_setup : NoiseSetup :=
  { name := "gabornoise", Name := some (Symbol.mk_string_constant "gabor"),
    name_is_uniform := true, periodic := false,
    S := Symbol.mk_simple "P" TypeSpec.triple false false, T := none, Sper := none,
    Tper := none, derivs := true, pass_name := true, pass_sg := true, pass_options := true,
    all_options_are_uniform := true, arg := 3 }

end NoiseGen

end OSL

namespace OSL

/-! ## Noise: binning of a float option that is not a number -/

section NoiseNan

end NoiseNan

end OSL

namespace OSL

/-! ## Varying loops, run-time view

The code that `llvm_gen_loop_op` emits for a varying condition is run on concrete lanes.  The
nested ranges are arbitrary code; what they do to the loop is described by a `LoopBody`. -/

section LoopRun

variable {W : Nat}

/-- Modelled from the spec: `op_masked_break()` (definition missing), run for the lanes that
reach it: it clears their bits in the control-mask slot of the innermost loop. -/
def op_masked_break (lanes control : Mask W) : Mask W := Mask.and control (Mask.not lanes)

/-- Modelled from the spec: `apply_return_to(mask)` (definition missing) removes from a mask
the lanes that have returned; `not_returned` is the content of the return mask. -/
def apply_return_to (not_returned mask : Mask W) : Mask W := Mask.and mask not_returned

/-- What the nested ranges of a loop do at run time, per iteration (counted from 0):
the value that `llvm_load_mask(cond)` reads from the condition symbol at the test of that
iteration; the lanes that reach a `break` in the body, given the mask under which the body
runs; the lanes that have not returned after the body; and whether the body, finding no lane
active after a nested conditional, branches to the masked return block of the loop. -/
structure LoopBody (W : Nat) where
  cond_value : Nat → Mask W
  break_lanes : Nat → Mask W → Mask W
  not_returned : Nat → Mask W
  leaves_early : Nat → Mask W → Bool

/-- What is known at generation time about the nested ranges: the analysis flag of the loop
opcode (the loop contains a `continue`), and whether a masked continue, a masked break and a
masked return were generated inside the loop (`masked_continue_count() > 0`,
`masked_break_count() > 0`, `masked_return_count() > return_count_before_loop`). -/
structure LoopFlags where
  loopHasContinue : Bool
  masked_continue : Bool
  masked_break : Bool
  masked_return : Bool

/-- An event of a run of the loop: the condition block stores a mask into the control-mask
slot, or the body runs under a mask and some lanes execute a masked break. -/
inductive LoopEvent (W : Nat)
  | cond_store (stored : Mask W)
  | body (mask : Mask W) (broke : Mask W)

/-- The mask of an event: the mask stored, or the mask under which the body runs. -/
def LoopEvent.mask : LoopEvent W → Mask W
  | LoopEvent.cond_store m => m
  | LoopEvent.body m _ => m

/-- The lanes that execute a masked break in an event. -/
def LoopEvent.broke : LoopEvent W → Mask W
  | LoopEvent.cond_store _ => Mask.const W false
  | LoopEvent.body _ b => b

/-- The control-mask slot after the body of iteration `k` has run under `mask`: the lanes that
reach a masked break are cleared, if a masked break was generated in the loop. -/
def control_after_body (flags : LoopFlags) (body : LoopBody W) (k : Nat) (mask control : Mask W) :
    Mask W :=
  if flags.masked_break then op_masked_break (Mask.and mask (body.break_lanes k mask)) control
  else control

/-- The lanes that execute a masked break in the body of iteration `k` run under `mask`. -/
def broke_in_body (flags : LoopFlags) (body : LoopBody W) (k : Nat) (mask : Mask W) : Mask W :=
  if flags.masked_break then Mask.and mask (body.break_lanes k mask) else Mask.const W false

/-- The code emitted by `llvm_gen_loop_op` for a varying `for` / `while` loop, from the
condition block of iteration `k` on, with `control` the content of the control-mask slot.
The events are listed in the order in which they happen; the boolean tells whether the loop
was left (`false`: `fuel` iterations were not enough). -/
def llvm_gen_loop_op_while_run (flags : LoopFlags) (body : LoopBody W) :
    Nat → Nat → Mask W → List (LoopEvent W) × Bool
  | 0, _, _ => ([], false)
  | fuel + 1, k, control =>
    -- condition block
    let pre_condition_mask := control
    let post_condition_mask := Mask.and (body.cond_value k) pre_condition_mask
    let control := post_condition_mask
    if !Mask.nonzero post_condition_mask then
      ([LoopEvent.cond_store post_condition_mask], true)
    else
      -- body block, under `push_mask(post_condition_mask, false, true)`
      let broke := broke_in_body flags body k post_condition_mask
      let control := control_after_body flags body k post_condition_mask control
      if body.leaves_early k post_condition_mask && !flags.loopHasContinue then
        ([LoopEvent.cond_store post_condition_mask,
          LoopEvent.body post_condition_mask broke], true)
      else
        -- step block
        let control :=
          if flags.masked_return then
            let post_condition_mask :=
              if flags.masked_break then control else post_condition_mask
            apply_return_to (body.not_returned k) post_condition_mask
          else control
        let rest := llvm_gen_loop_op_while_run flags body fuel (k + 1) control
        (LoopEvent.cond_store post_condition_mask
          :: LoopEvent.body post_condition_mask broke :: rest.1, rest.2)

/-- The code emitted by `llvm_gen_loop_op` for a varying `dowhile` loop, from the body block of
iteration `k` on, with `control` the content of the control-mask slot. -/
def llvm_gen_loop_op_dowhile_run (flags : LoopFlags) (body : LoopBody W) :
    Nat → Nat → Mask W → List (LoopEvent W) × Bool
  | 0, _, _ => ([], false)
  | fuel + 1, k, control =>
    -- body block, under `push_mask(pre_condition_mask, false, true)`
    let pre_condition_mask := control
    let broke := broke_in_body flags body k pre_condition_mask
    let control := control_after_body flags body k pre_condition_mask control
    if body.leaves_early k pre_condition_mask && !flags.loopHasContinue then
      ([LoopEvent.body pre_condition_mask broke], true)
    else if flags.masked_continue && flags.masked_break && !Mask.nonzero control then
      -- step block: the reloaded control mask has no lane left
      ([LoopEvent.body pre_condition_mask broke], true)
    else
      -- condition block
      let post_condition_mask := body.cond_value k
      let post_condition_mask := Mask.and post_condition_mask pre_condition_mask
      let post_condition_mask :=
        if flags.masked_return then apply_return_to (body.not_returned k) post_condition_mask
        else post_condition_mask
      let control := post_condition_mask
      if Mask.nonzero post_condition_mask then
        let rest := llvm_gen_loop_op_dowhile_run flags body fuel (k + 1) control
        (LoopEvent.body pre_condition_mask broke
          :: LoopEvent.cond_store post_condition_mask :: rest.1, rest.2)
      else
        ([LoopEvent.body pre_condition_mask broke,
          LoopEvent.cond_store post_condition_mask], true)

/-- The code emitted by `llvm_gen_loop_op` for a varying condition: the current mask is stored
into the control-mask slot, then the loop of the form given by the opcode name runs. -/
def llvm_gen_loop_op_run (opname : String) (flags : LoopFlags) (body : LoopBody W)
    (current_mask : Mask W) (fuel : Nat) : List (LoopEvent W) × Bool :=
  let initial_mask := current_mask
  if opname = "dowhile" then llvm_gen_loop_op_dowhile_run flags body fuel 0 initial_mask
  else llvm_gen_loop_op_while_run flags body fuel 0 initial_mask

/-- A lane that executes a masked break in an event is clear in the mask of a later event. -/
def break_is_permanent (earlier later : LoopEvent W) : Prop :=
  ∀ l, earlier.broke l = true → later.mask l = false

instance break_is_permanent_decidable (a b : LoopEvent W) : Decidable (break_is_permanent a b) :=
  inferInstanceAs (Decidable (∀ l, a.broke l = true → b.mask l = false))

/-- The lanes of a mask, lane 0 first, as a string of `1` (set) and `0` (clear). -/
def Mask.bits (m : Mask W) : String :=
  String.mk ((List.ofFn m).map fun b => if b then '1' else '0')

/-- The events of a run in readable form: `C` and the mask stored by the condition block, or
`B`, the mask under which the body runs and the lanes that execute a masked break. -/
def LoopEvent.show : LoopEvent W → String × String × String
  | LoopEvent.cond_store m => ("C", Mask.bits m, "")
  | LoopEvent.body m b => ("B", Mask.bits m, Mask.bits b)

/-- The scenario of the specification on eight lanes: no `continue`, a masked break but no
masked return. -/
def scenario_flags : LoopFlags :=
  { loopHasContinue := false, masked_continue := false, masked_break := true,
    masked_return := false }

/-- The scenario of the specification for a `for` / `while` loop on eight lanes: the condition
symbol reads true at the first five tests and false at the sixth; lanes 0, 2 and 4 reach a
`break` in the second iteration; nothing returns. -/
def scenario_while : LoopBody 8 :=
  { cond_value := fun k => Mask.const 8 (decide (k < 5)),
    break_lanes := fun k _ => fun l => decide (k = 1 ∧ (l.val = 0 ∨ l.val = 2 ∨ l.val = 4)),
    not_returned := fun _ => Mask.const 8 true,
    leaves_early := fun _ _ => false }

/-- The scenario of the specification for a `dowhile` loop on eight lanes: the condition symbol
reads true at the first four tests (after iterations one to four) and false at the fifth;
lanes 0, 2 and 4 reach a `break` in the second iteration; nothing returns. -/
def scenario_dowhile : LoopBody 8 :=
  { cond_value := fun k => Mask.const 8 (decide (k < 4)),
    break_lanes := fun k _ => fun l => decide (k = 1 ∧ (l.val = 0 ∨ l.val = 2 ∨ l.val = 4)),
    not_returned := fun _ => Mask.const 8 true,
    leaves_early := fun _ _ => false }

end LoopRun

end OSL

namespace OSL

/-! ## Arithmetic and comparison generators

The generators load the operands as values, apply instructions to them and store the result.
A value is a scalar or a wide value; an instruction applied to wide values acts lane by
lane.  The scalar operations of the target are a parameter. -/

section Arith

variable {W : Nat} {α : Type}

/-- A value handled by the generated code: a scalar, or one value per lane. -/
inductive Value (W : Nat) (β : Type)
  | scalar (x : β)
  | wide (v : Wide W β)

namespace Value

variable {β γ δ : Type}

/-- The content of a value in one lane. -/
def lane : Value W β → Fin W → β
  | scalar x, _ => x
  | wide v, l => v l

/-- Modelled from the spec: `widen_value` (definition missing) broadcasts a scalar to all
lanes and leaves a wide value as it is. -/
def widen : Value W β → Value W β
  | scalar x => wide (fun _ => x)
  | wide v => wide v

/-- An instruction with one operand. -/
def map (f : β → γ) : Value W β → Value W γ
  | scalar x => scalar (f x)
  | wide v => wide (fun l => f (v l))

/-- An instruction with two operands: scalar on scalars, lane by lane otherwise. -/
def map2 (f : β → γ → δ) : Value W β → Value W γ → Value W δ
  | scalar x, scalar y => scalar (f x y)
  | a, b => wide (fun l => f (a.lane l) (b.lane l))

/-- The instruction `op_select(cond, x, y)`. -/
def select : Value W Bool → Value W β → Value W β → Value W β
  | scalar c, scalar x, scalar y => scalar (if c then x else y)
  | c, x, y => wide (fun l => if c.lane l then x.lane l else y.lane l)

end Value

/-- The scalar operations of the target on the element type: arithmetic, comparisons, the
constants 0 and 1, the test for a non-finite float and the conversion of a boolean. -/
structure ScalarOps (α : Type) where
  add : α → α → α
  sub : α → α → α
  mul : α → α → α
  div : α → α → α
  mod : α → α → α
  neg : α → α
  lt : α → α → Bool
  le : α → α → Bool
  eq : α → α → Bool
  ge : α → α → Bool
  gt : α → α → Bool
  ne : α → α → Bool
  zero : α
  one : α
  is_not_finite : α → Bool
  bool_to_int : Bool → α

/-- An operand of an opcode at run time: the symbol and its content per derivative channel
(0 value, 1 dx, 2 dy) and component; `scalar` is the content of a uniform symbol and `wide`
that of a varying one. -/
structure Operand (W : Nat) (α : Type) where
  sym : Symbol
  scalar : Nat → Nat → α
  wide : Nat → Nat → Wide W α

/-- Modelled from the spec: `llvm_load_value` / `loadLLVMValue` (definitions missing).  A
varying operand is loaded at full width; a uniform operand is loaded as a scalar when the
operation is uniform and widened otherwise; a scalar operand serves every component; a missing
derivative reads as zero.  A null result (`none`) stands for a failed load. -/
def llvm_load_value (ops : ScalarOps α) (o : Operand W α) (deriv component : Nat)
    (op_is_uniform : Bool) : Option (Value W α) :=
  let c := if o.sym.typespec.aggregate ≤ 1 then 0 else component
  if deriv ≠ 0 && !o.sym.has_derivs then
    some (if op_is_uniform then Value.scalar ops.zero else Value.wide (fun _ => ops.zero))
  else if o.sym.is_uniform then
    some (if op_is_uniform then Value.scalar (o.scalar deriv c)
          else Value.wide (fun _ => o.scalar deriv c))
  else some (Value.wide (o.wide deriv c))

/-- What a generator emits: a store of a value into a derivative channel and component of
Result, a store of a boolean result, a call of a library function (of its scalar or of its
batched variant, and with or without the mask), the zeroing of the derivatives of Result. -/
inductive Action (W : Nat) (α : Type)
  | store (deriv component : Nat) (v : Value W α)
  | store_bool (v : Value W Bool)
  | call (name : String) (unbatched : Bool) (masked : Bool)
  | zero_derivs

/-- How the body of a loop over components ends: the loop goes on, the generator returns
`false`, or an assertion fails. -/
inductive Step
  | next
  | return_false
  | fatal
  deriving DecidableEq

/-- Run a loop `for (i = 0; i < n; ++i)` whose body emits actions: the actions emitted, and how
the loop ended. -/
def loop_components : List Nat → (Nat → List (Action W α) × Step) → List (Action W α) × Step
  | [], _ => ([], Step.next)
  | i :: rest, body =>
    match body i with
    | (acts, Step.next) =>
      let r := loop_components rest body
      (acts ++ r.1, r.2)
    | (acts, stop) => (acts, stop)

/-- The widening step shared by the generators: `if (op_is_uniform && !result_is_uniform)
r = widen_value(r)`. -/
def widen_if (op_is_uniform result_is_uniform : Bool) (r : Value W α) : Value W α :=
  if op_is_uniform && !result_is_uniform then r.widen else r

/-- The result of a generator whose component loop ended with `step`, followed by the actions
`tail` when the loop ran to its end. -/
def finish_loop (loop : List (Action W α) × Step) (tail : List (Action W α)) :
    GenResult (List (Action W α)) :=
  match loop with
  | (acts, Step.next) => GenResult.returned true (acts ++ tail)
  | (acts, Step.return_false) => GenResult.returned false acts
  | (acts, Step.fatal) => GenResult.fatal acts

/-- The derivative part shared by `llvm_gen_add` and `llvm_gen_sub`: the operator applied to
the dx and dy channels if an operand has derivatives, else zeroed derivatives. -/
def add_sub_derivs (ops : ScalarOps α) (f : α → α → α) (Result A B : Operand W α)
    (op_is_uniform result_is_uniform : Bool) (num_components : Nat) : List (Action W α) :=
  if Result.sym.has_derivs then
    if A.sym.has_derivs || B.sym.has_derivs then
      ([1, 2].map fun d =>
        (List.range num_components).map fun i =>
          match llvm_load_value ops A d i op_is_uniform,
                llvm_load_value ops B d i op_is_uniform with
          | some a, some b =>
            [Action.store d i (widen_if op_is_uniform result_is_uniform (Value.map2 f a b))]
          | _, _ => []).flatten.flatten
    else [Action.zero_derivs]
  else []

/-- The component loop shared by `llvm_gen_add` and `llvm_gen_sub`. -/
def add_sub_components (ops : ScalarOps α) (f : α → α → α) (A B : Operand W α)
    (op_is_uniform result_is_uniform : Bool) (num_components : Nat) :
    List (Action W α) × Step :=
  loop_components (List.range num_components) fun i =>
    match llvm_load_value ops A 0 i op_is_uniform, llvm_load_value ops B 0 i op_is_uniform with
    | some a, some b =>
      let r := Value.map2 f a b
      let r := widen_if op_is_uniform result_is_uniform r
      ([Action.store 0 i r], Step.next)
    | _, _ => ([], Step.return_false)

/-- The generator `llvm_gen_add`. -/
def llvm_gen_add (ops : ScalarOps α) (Result A B : Operand W α) :
    GenResult (List (Action W α)) :=
  let op_is_uniform := A.sym.is_uniform && B.sym.is_uniform
  let result_is_uniform := Result.sym.is_uniform
  if !(op_is_uniform || !result_is_uniform) then GenResult.fatal []
  else if !(!A.sym.typespec.is_array && !B.sym.typespec.is_array) then GenResult.fatal []
  else if Result.sym.typespec.is_closure then GenResult.fatal []
  else
    let num_components := Result.sym.typespec.aggregate
    finish_loop
      (add_sub_components ops ops.add A B op_is_uniform result_is_uniform num_components)
      (add_sub_derivs ops ops.add Result A B op_is_uniform result_is_uniform num_components)

/-- The generator `llvm_gen_sub`. -/
def llvm_gen_sub (ops : ScalarOps α) (Result A B : Operand W α) :
    GenResult (List (Action W α)) :=
  let op_is_uniform := A.sym.is_uniform && B.sym.is_uniform
  let result_is_uniform := Result.sym.is_uniform
  if !(op_is_uniform || !result_is_uniform) then GenResult.fatal []
  else if !(!Result.sym.typespec.is_closure_based) then GenResult.fatal []
  else
    let num_components := Result.sym.typespec.aggregate
    finish_loop
      (add_sub_components ops ops.sub A B op_is_uniform result_is_uniform num_components)
      (add_sub_derivs ops ops.sub Result A B op_is_uniform result_is_uniform num_components)

/-- The body of the component loop of `llvm_gen_mul`: the product, and the product rule on the
dx and dy channels when Result and an operand have derivatives. -/
def mul_component (ops : ScalarOps α) (Result A B : Operand W α)
    (op_is_uniform resultIsUniform is_float : Bool) (i : Nat) : List (Action W α) × Step :=
  match llvm_load_value ops A 0 i op_is_uniform, llvm_load_value ops B 0 i op_is_uniform with
  | some a, some b =>
    let r := Value.map2 ops.mul a b
    let r := widen_if op_is_uniform resultIsUniform r
    if Result.sym.has_derivs && (A.sym.has_derivs || B.sym.has_derivs) then
      if !is_float then ([Action.store 0 i r], Step.fatal)
      else
        match llvm_load_value ops A 1 i op_is_uniform, llvm_load_value ops B 1 i op_is_uniform,
              llvm_load_value ops A 2 i op_is_uniform, llvm_load_value ops B 2 i op_is_uniform with
        | some ax, some bx, some ay, some by_ =>
          let abx := Value.map2 ops.mul a bx
          let axb := Value.map2 ops.mul ax b
          let rx := Value.map2 ops.add abx axb
          let aby := Value.map2 ops.mul a by_
          let ayb := Value.map2 ops.mul ay b
          let ry := Value.map2 ops.add aby ayb
          let rx := widen_if op_is_uniform resultIsUniform rx
          let ry := widen_if op_is_uniform resultIsUniform ry
          ([Action.store 0 i r, Action.store 1 i rx, Action.store 2 i ry], Step.next)
        | _, _, _, _ => ([Action.store 0 i r], Step.fatal)
    else ([Action.store 0 i r], Step.next)
  | _, _ => ([], Step.return_false)

/-- The generator `llvm_gen_mul`. -/
def llvm_gen_mul (ops : ScalarOps α) (Result A B : Operand W α) :
    GenResult (List (Action W α)) :=
  let op_is_uniform := A.sym.is_uniform && B.sym.is_uniform
  let is_float := !Result.sym.typespec.is_closure_based && Result.sym.typespec.is_float_based
  let num_components := Result.sym.typespec.aggregate
  let resultIsUniform := Result.sym.is_uniform
  if !(op_is_uniform || !resultIsUniform) then GenResult.fatal []
  else if Result.sym.typespec.is_closure then GenResult.fatal []
  else if Result.sym.typespec.is_matrix then
    GenResult.returned true
      (Action.call "mul" op_is_uniform false
        :: (if Result.sym.has_derivs then [Action.zero_derivs] else []))
  else
    finish_loop
      (loop_components (List.range num_components)
        (mul_component ops Result A B op_is_uniform resultIsUniform is_float))
      (if Result.sym.has_derivs && !(A.sym.has_derivs || B.sym.has_derivs) then
         [Action.zero_derivs]
       else [])

/-- The backend test `rop.is_zero(B)` (definition missing), taken to mean a constant all of
whose components are zero. -/
def is_zero (ops : ScalarOps α) (B : Operand W α) : Bool :=
  B.sym.is_constant
    && (List.range B.sym.typespec.aggregate).all fun c => ops.eq (B.scalar 0 c) ops.zero

/-- The constant `c` as a scalar (uniform operation) or as a wide constant. -/
def constant_for (op_is_uniform : Bool) (c : α) : Value W α :=
  if op_is_uniform then Value.scalar c else Value.wide (fun _ => c)

/-- Modelled from the spec: `op_zero_if(cond, v)` (definition missing) is zero where the
condition holds and `v` elsewhere. -/
def op_zero_if (ops : ScalarOps α) (cond : Value W Bool) (v : Value W α) : Value W α :=
  Value.select cond (Value.map (fun _ => ops.zero) v) v

/-- The quotient computed by `llvm_gen_div` for one component: a plain division by a constant
integer divisor that is not zero; for floats a division whose non-finite results are replaced
by zero; for other integers a division by the divisor where it is not zero and by one where
it is, with zero selected where the divisor is zero. -/
def div_quotient (ops : ScalarOps α) (B : Operand W α) (op_is_uniform is_float : Bool)
    (a b : Value W α) : Value W α :=
  let c_zero : Value W α := constant_for op_is_uniform ops.zero
  let c_one : Value W α := constant_for op_is_uniform ops.one
  if B.sym.is_constant && !is_zero ops B && !is_float then Value.map2 ops.div a b
  else if is_float then
    let a_div_b := Value.map2 ops.div a b
    let b_notFiniteResult := Value.map ops.is_not_finite a_div_b
    op_zero_if ops b_notFiniteResult a_div_b
  else
    let b_not_zero := Value.map2 ops.ne b c_zero
    let divisor := Value.select b_not_zero b c_one
    Value.select b_not_zero (Value.map2 ops.div a divisor) c_zero

/-- The component loop of `llvm_gen_div`, from component `i` on, for the components listed;
`b` is the divisor loaded last (it is not reloaded for components that the divisor does not
have). -/
def div_components (ops : ScalarOps α) (Result A B : Operand W α)
    (op_is_uniform resultIsUniform is_float deriv : Bool) (B_num_components : Nat) :
    List Nat → Option (Value W α) → List (Action W α) × Step
  | [], _ => ([], Step.next)
  | i :: rest, b =>
    let a := llvm_load_value ops A 0 i op_is_uniform
    let b := if i < B_num_components then llvm_load_value ops B 0 i op_is_uniform else b
    match a, b with
    | some a, some b =>
      let a_div_b := div_quotient ops B op_is_uniform is_float a b
      if deriv then
        if !is_float then ([], Step.fatal)
        else
          let c_one : Value W α := constant_for op_is_uniform ops.one
          let binv := Value.map2 ops.div c_one b
          let binv_notFiniteResult := Value.map ops.is_not_finite binv
          let binv := op_zero_if ops binv_notFiniteResult binv
          match llvm_load_value ops A 1 i op_is_uniform,
                llvm_load_value ops B 1 i op_is_uniform,
                llvm_load_value ops A 2 i op_is_uniform,
                llvm_load_value ops B 2 i op_is_uniform with
          | some ax, some bx, some ay, some by_ =>
            let a_div_b_mul_bx := Value.map2 ops.mul a_div_b bx
            let ax_minus_a_div_b_mul_bx := Value.map2 ops.sub ax a_div_b_mul_bx
            let rx := Value.map2 ops.mul binv ax_minus_a_div_b_mul_bx
            let a_div_b_mul_by := Value.map2 ops.mul a_div_b by_
            let ay_minus_a_div_b_mul_by := Value.map2 ops.sub ay a_div_b_mul_by
            let ry := Value.map2 ops.mul binv ay_minus_a_div_b_mul_by
            let a_div_b := widen_if op_is_uniform resultIsUniform a_div_b
            let rx := widen_if op_is_uniform resultIsUniform rx
            let ry := widen_if op_is_uniform resultIsUniform ry
            let r := div_components ops Result A B op_is_uniform resultIsUniform is_float deriv
                       B_num_components rest (some b)
            (Action.store 0 i a_div_b :: Action.store 1 i rx :: Action.store 2 i ry :: r.1, r.2)
          | _, _, _, _ => ([], Step.fatal)
      else
        let a_div_b := widen_if op_is_uniform resultIsUniform a_div_b
        let r := div_components ops Result A B op_is_uniform resultIsUniform is_float deriv
                   B_num_components rest (some b)
        (Action.store 0 i a_div_b :: r.1, r.2)
    | _, _ => ([], Step.return_false)

/-- The generator `llvm_gen_div`. -/
def llvm_gen_div (ops : ScalarOps α) (Result A B : Operand W α) :
    GenResult (List (Action W α)) :=
  let op_is_uniform := A.sym.is_uniform && B.sym.is_uniform
  let resultIsUniform := Result.sym.is_uniform
  if !(op_is_uniform || !resultIsUniform) then GenResult.fatal []
  else
    let is_float := Result.sym.typespec.is_float_based
    let num_components := Result.sym.typespec.aggregate
    let B_num_components := B.sym.typespec.aggregate
    if !(!Result.sym.typespec.is_closure_based) then GenResult.fatal []
    else if Result.sym.typespec.is_matrix then
      if !op_is_uniform && B.sym.typespec.is_matrix
          && !(A.sym.typespec.is_matrix || A.sym.typespec.is_float) then GenResult.fatal []
      else
        GenResult.returned true
          (Action.call "div" op_is_uniform (!op_is_uniform && B.sym.typespec.is_matrix)
            :: (if Result.sym.has_derivs then [Action.zero_derivs] else []))
    else
      let deriv := Result.sym.has_derivs && (A.sym.has_derivs || B.sym.has_derivs)
      finish_loop
        (div_components ops Result A B op_is_uniform resultIsUniform is_float deriv
          B_num_components (List.range num_components) none)
        (if Result.sym.has_derivs && !(A.sym.has_derivs || B.sym.has_derivs) then
           [Action.zero_derivs]
         else [])

/-- The remainder computed by `llvm_gen_modulus` for one component: zero where the divisor is
zero, the remainder elsewhere. -/
def mod_remainder (ops : ScalarOps α) (op_is_uniform : Bool) (a b : Value W α) : Value W α :=
  let zeroConstant : Value W α := constant_for op_is_uniform ops.zero
  let is_zero_mask := Value.map2 ops.eq b zeroConstant
  let mod_result := Value.map2 ops.mod a b
  Value.select is_zero_mask zeroConstant mod_result

/-- The body of the component loop of `llvm_gen_modulus`. -/
def mod_component (ops : ScalarOps α) (A B : Operand W α)
    (op_is_uniform result_is_uniform : Bool) (i : Nat) : List (Action W α) × Step :=
  match llvm_load_value ops A 0 i op_is_uniform, llvm_load_value ops B 0 i op_is_uniform with
  | some a, some b =>
    let r := mod_remainder ops op_is_uniform a b
    let r := widen_if op_is_uniform result_is_uniform r
    ([Action.store 0 i r], Step.next)
  | _, _ => ([], Step.return_false)

/-- The generator `llvm_gen_modulus`; `is_masking_required` is the state of the masking scope
of the builder. -/
def llvm_gen_modulus (ops : ScalarOps α) (is_masking_required : Bool)
    (Result A B : Operand W α) : GenResult (List (Action W α)) :=
  let is_float := Result.sym.typespec.is_float_based
  let op_is_uniform := A.sym.is_uniform && B.sym.is_uniform
  let result_is_uniform := Result.sym.is_uniform
  if !(op_is_uniform || !result_is_uniform) then GenResult.fatal []
  else
    let num_components := Result.sym.typespec.aggregate
    let loop : List (Action W α) × Step :=
      if is_float && !op_is_uniform then
        ([Action.call "fmod" false is_masking_required], Step.next)
      else
        loop_components (List.range num_components)
          (mod_component ops A B op_is_uniform result_is_uniform)
    match loop with
    | (acts, Step.next) =>
      if Result.sym.has_derivs then
        if !is_float then GenResult.fatal acts
        else if A.sym.has_derivs then
          GenResult.returned true
            (acts ++ ([1, 2].map fun d =>
              (List.range num_components).map fun i =>
                match llvm_load_value ops A d i result_is_uniform with
                | some deriv => [Action.store d i deriv]
                | none => []).flatten.flatten)
        else GenResult.returned true (acts ++ [Action.zero_derivs])
      else GenResult.returned true acts
    | (acts, Step.return_false) => GenResult.returned false acts
    | (acts, Step.fatal) => GenResult.fatal acts

/-- The generator `llvm_gen_neg`: the value channel, and the dx and dy channels too when
Result has derivatives. -/
def llvm_gen_neg (ops : ScalarOps α) (Result A : Operand W α) :
    GenResult (List (Action W α)) :=
  let op_is_uniform := A.sym.is_uniform
  let result_is_uniform := Result.sym.is_uniform
  if !(op_is_uniform || !result_is_uniform) then GenResult.fatal []
  else
    let num_components := Result.sym.typespec.aggregate
    let channels := if Result.sym.has_derivs then [0, 1, 2] else [0]
    GenResult.returned true
      (channels.map fun d =>
        (List.range num_components).map fun i =>
          match llvm_load_value ops A d i op_is_uniform with
          | some a =>
            let r := Value.map ops.neg a
            let r := widen_if op_is_uniform result_is_uniform r
            [Action.store d i r]
          | none => []).flatten.flatten

/-- The body of the component loop of `llvm_gen_minmax`: select between the operands by `<=`
(min) or `>` (max), for the value and, when Result has derivatives, for dx and dy. -/
def minmax_component (ops : ScalarOps α) (opname : String) (Result x y : Operand W α)
    (op_is_uniform result_is_uniform : Bool) (i : Nat) : List (Action W α) :=
  match llvm_load_value ops x 0 i op_is_uniform, llvm_load_value ops y 0 i op_is_uniform with
  | some x_val, some y_val =>
    let cond :=
      if opname = "min" then Value.map2 ops.le x_val y_val else Value.map2 ops.gt x_val y_val
    let res_val := Value.select cond x_val y_val
    let res_val := widen_if op_is_uniform result_is_uniform res_val
    if Result.sym.has_derivs then
      match llvm_load_value ops x 1 i op_is_uniform, llvm_load_value ops x 2 i op_is_uniform,
            llvm_load_value ops y 1 i op_is_uniform, llvm_load_value ops y 2 i op_is_uniform with
      | some x_dx, some x_dy, some y_dx, some y_dy =>
        let res_dx := Value.select cond x_dx y_dx
        let res_dy := Value.select cond x_dy y_dy
        let res_dx := widen_if op_is_uniform result_is_uniform res_dx
        let res_dy := widen_if op_is_uniform result_is_uniform res_dy
        [Action.store 0 i res_val, Action.store 1 i res_dx, Action.store 2 i res_dy]
      | _, _, _, _ => [Action.store 0 i res_val]
    else [Action.store 0 i res_val]
  | _, _ => []

/-- The generator `llvm_gen_minmax` (opcodes `min` and `max`).  It has no assertion on the
uniformity of Result. -/
def llvm_gen_minmax (ops : ScalarOps α) (opname : String) (Result x y : Operand W α) :
    GenResult (List (Action W α)) :=
  let op_is_uniform := x.sym.is_uniform && y.sym.is_uniform
  let result_is_uniform := Result.sym.is_uniform
  let num_components := Result.sym.typespec.aggregate
  GenResult.returned true
    ((List.range num_components).map
      (minmax_component ops opname Result x y op_is_uniform result_is_uniform)).flatten

/-- The comparison instruction selected by the name of the opcode, if there is one. -/
def compare_instruction (ops : ScalarOps α) (opname : String) : Option (α → α → Bool) :=
  if opname = "lt" then some ops.lt
  else if opname = "le" then some ops.le
  else if opname = "eq" then some ops.eq
  else if opname = "ge" then some ops.ge
  else if opname = "gt" then some ops.gt
  else if opname = "neq" then some ops.ne
  else none

/-- The component loop of `llvm_gen_compare_op`, for the components listed: compare component
by component (a scalar against the diagonal of a matrix, zero against the rest) and combine
with `or` for `neq` and with `and` otherwise.  The result is `none` when an assertion fails
(unknown opcode name, or a failed load). -/
def compare_components (ops : ScalarOps α) (opname : String) (A B : Operand W α)
    (op_is_uniform : Bool) :
    List Nat → Option (Value W Bool) → Option (Option (Value W Bool))
  | [], final_result => some final_result
  | i :: rest, final_result =>
    match llvm_load_value ops A 0 i op_is_uniform, llvm_load_value ops B 0 i op_is_uniform with
    | some a, some b =>
      let b := if A.sym.typespec.is_matrix && !B.sym.typespec.is_matrix && i / 4 ≠ i % 4 then
                 constant_for op_is_uniform ops.zero
               else b
      let a := if !A.sym.typespec.is_matrix && B.sym.typespec.is_matrix && i / 4 ≠ i % 4 then
                 constant_for op_is_uniform ops.zero
               else a
      match compare_instruction ops opname with
      | none => none
      | some cmp =>
        let result := Value.map2 cmp a b
        let final_result :=
          match final_result with
          | some final_result =>
            if opname ≠ "neq" then Value.map2 (fun p q => p && q) final_result result
            else Value.map2 (fun p q => p || q) final_result result
          | none => result
        compare_components ops opname A B op_is_uniform rest (some final_result)
    | _, _ => none

/-- The widening step on a boolean result. -/
def widen_bool_if (op_is_uniform result_is_uniform : Bool) (r : Value W Bool) : Value W Bool :=
  if op_is_uniform && !result_is_uniform then r.widen else r

/-- The generator `llvm_gen_compare_op` (opcodes `lt`, `le`, `eq`, `ge`, `gt`, `neq`);
`forced_llvm_bool` tells whether Result is kept as a boolean.  The assertion on the
uniformity of Result comes after the component loop and before the store. -/
def llvm_gen_compare_op (ops : ScalarOps α) (opname : String) (forced_llvm_bool : Bool)
    (Result A B : Operand W α) : GenResult (List (Action W α)) :=
  if !(Result.sym.typespec.is_int && !Result.sym.has_derivs) then GenResult.fatal []
  else
    let op_is_uniform := A.sym.is_uniform && B.sym.is_uniform
    let result_is_uniform := Result.sym.is_uniform
    if A.sym.typespec.is_closure then GenResult.fatal []
    else
      let num_components := max A.sym.typespec.aggregate B.sym.typespec.aggregate
      match compare_components ops opname A B op_is_uniform (List.range num_components) none with
      | none => GenResult.fatal []
      | some none => GenResult.fatal []
      | some (some final_result) =>
        if !(op_is_uniform || !result_is_uniform) then GenResult.fatal []
        else
          let final_result := widen_bool_if op_is_uniform result_is_uniform final_result
          if forced_llvm_bool then
            GenResult.returned true [Action.store_bool final_result]
          else
            GenResult.returned true [Action.store 0 0 (Value.map ops.bool_to_int final_result)]

/-- The component and value of an action that is a store into the value channel of Result. -/
def Action.value_store : Action W α → Option (Nat × Value W α)
  | Action.store 0 i v => some (i, v)
  | _ => none

/-- The stores into the value channel of Result among the actions emitted: component and
value, in the order of emission. -/
def value_stores (acts : List (Action W α)) : List (Nat × Value W α) :=
  acts.filterMap Action.value_store

/-- Whether an action is a store into Result. -/
def Action.is_store : Action W α → Bool
  | Action.store _ _ _ => true
  | Action.store_bool _ => true
  | _ => false

/-- The component of an operand that serves component `i` of the result: a scalar operand
serves every component. -/
def Operand.component (o : Operand W α) (i : Nat) : Nat :=
  if o.sym.typespec.aggregate ≤ 1 then 0 else i

/-- The stores of a broadcast result: component `i` receives the scalar `f i` in every lane. -/
def broadcast_stores (W : Nat) (n : Nat) (f : Nat → α) : List (Nat × Value W α) :=
  (List.range n).map fun i => (i, Value.wide (fun _ => f i))

/-- Integer division as `llvm_gen_div` computes it on scalars: a plain division when the
divisor is a constant that is not zero, else zero for a zero divisor and the quotient
otherwise. -/
def int_div_scalar (ops : ScalarOps α) (B_is_nonzero_constant : Bool) (a b : α) : α :=
  if B_is_nonzero_constant then ops.div a b
  else if ops.ne b ops.zero then ops.div a b else ops.zero

/-- Integer remainder as `llvm_gen_modulus` computes it on scalars: zero for a zero divisor. -/
def int_mod_scalar (ops : ScalarOps α) (a b : α) : α :=
  if ops.eq b ops.zero then ops.zero else ops.mod a b

/-- The minimum or maximum as `llvm_gen_minmax` computes it on scalars. -/
def minmax_scalar (ops : ScalarOps α) (opname : String) (x y : α) : α :=
  if opname = "min" then (if ops.le x y then x else y) else (if ops.gt x y then x else y)

/-- Wrap an integer to the range of a signed 32-bit integer. -/
def wrap32 (x : Int) : Int := Int.bmod x (2 ^ 32)

/-- The scalar operations on signed 32-bit integers. -/
def int32Ops : ScalarOps Int :=
  { add := fun a b => wrap32 (a + b),
    sub := fun a b => wrap32 (a - b),
    mul := fun a b => wrap32 (a * b),
    div := fun a b => wrap32 (Int.tdiv a b),
    mod := fun a b => Int.tmod a b,
    neg := fun a => wrap32 (-a),
    lt := fun a b => decide (a < b),
    le := fun a b => decide (a ≤ b),
    eq := fun a b => decide (a = b),
    ge := fun a b => decide (a ≥ b),
    gt := fun a b => decide (a > b),
    ne := fun a b => decide (a ≠ b),
    zero := 0,
    one := 1,
    is_not_finite := fun _ => false,
    bool_to_int := fun b => if b then 1 else 0 }

/-- A uniform operand of one component holding the scalar `x`. -/
def Operand.uniform_scalar (W : Nat) (name : String) (t : TypeSpec) (x : Int) : Operand W Int :=
  { sym := Symbol.mk_simple name t true false, scalar := fun _ _ => x,
    wide := fun _ _ _ => 0 }

/-- A varying operand of one component with the given lane values. -/
def Operand.varying_scalar (W : Nat) (name : String) (t : TypeSpec) (v : Wide W Int) :
    Operand W Int :=
  { sym := Symbol.mk_simple name t false false, scalar := fun _ _ => 0,
    wide := fun _ _ => v }

/-- The scenario of the specification, on eight lanes: a varying Result, uniform operands
`A = 2` and `B = 3`. -/
def scenario_Result : Operand 8 Int :=
  Operand.varying_scalar 8 "Result" TypeSpec.int (fun _ => 0)

/-- The uniform operand `A = 2` of the scenario. -/
def scenario_A : Operand 8 Int := Operand.uniform_scalar 8 "A" TypeSpec.int 2

/-- The uniform operand `B = 3` of the scenario. -/
def scenario_B : Operand 8 Int := Operand.uniform_scalar 8 "B" TypeSpec.int 3

/-- The lanes of the values stored into the value channel, lane 0 first. -/
def stored_lanes (acts : List (Action W α)) : List (Nat × List α) :=
  (value_stores acts).map fun p => (p.1, List.ofFn p.2.lane)

/-- A uniform Result of type int on eight lanes. -/
def uniform_Result : Operand 8 Int := Operand.uniform_scalar 8 "Result" TypeSpec.int 0

/-- A varying operand on eight lanes whose value in lane `l` is `l`. -/
def varying_x : Operand 8 Int :=
  Operand.varying_scalar 8 "x" TypeSpec.int (fun l => (l.val : Int))

end Arith

end OSL

namespace OSL

/-! ## Derivative channels of the arithmetic generators -/

section ArithDerivs

variable {W : Nat} {α : Type}

/-- Whether an action is a store into a derivative channel (dx or dy) of Result. -/
def Action.is_deriv_store : Action W α → Bool
  | Action.store d _ _ => d != 0
  | _ => false

/-- Whether an action is the zeroing of the derivatives of Result (`llvm_zero_derivs`). -/
def Action.is_zero_derivs : Action W α → Bool
  | Action.zero_derivs => true
  | _ => false

/-- The channel, the component and the lanes of an action that is a store into a derivative
channel of Result. -/
def Action.deriv_store : Action W α → Option (Nat × Nat × List α)
  | Action.store d i v => if d != 0 then some (d, i, List.ofFn v.lane) else none
  | _ => none

/-- The stores into the derivative channels of Result among the actions emitted: channel,
component and lanes (lane 0 first), in the order of emission. -/
def deriv_stored_lanes (acts : List (Action W α)) : List (Nat × Nat × List α) :=
  acts.filterMap Action.deriv_store

/-- A float symbol with or without derivatives. -/
def Symbol.mk_float (name : String) (is_uniform has_derivs : Bool) : Symbol :=
  { name := name, typespec := TypeSpec.float, is_uniform := is_uniform, is_constant := false,
    has_derivs := has_derivs }

/-- A varying float Result with derivatives, on four lanes. -/
def dual_Result : Operand 4 Int :=
  { sym := Symbol.mk_float "Result" false true, scalar := fun _ _ => 0,
    wide := fun _ _ _ => 0 }

/-- A varying operand `A` with derivatives, on four lanes: value 10, dx 2 and dy 3 in every
lane. -/
def dual_A : Operand 4 Int :=
  { sym := Symbol.mk_float "A" false true, scalar := fun _ _ => 0,
    wide := fun d _ _ => if d = 0 then 10 else if d = 1 then 2 else 3 }

/-- A varying operand `B` without derivatives, on four lanes: value 5 in every lane. -/
def plain_B : Operand 4 Int :=
  { sym := Symbol.mk_float "B" false false, scalar := fun _ _ => 0,
    wide := fun _ _ _ => 5 }

/-- A varying operand `A` without derivatives, on four lanes: value 10 in every lane. -/
def plain_A : Operand 4 Int :=
  { sym := Symbol.mk_float "A" false false, scalar := fun _ _ => 0,
    wide := fun _ _ _ => 10 }

end ArithDerivs

end OSL

namespace OSL

/-! ## Formatted output (`printf`, `error`, `warning`, `format`, `fprintf`)

Generation-time view of `llvm_gen_printf`: the diagnostics it reports and the calls it emits,
with the arguments of each call described symbolically. -/

section Printf

/-- An argument of the call emitted by `llvm_gen_printf`. -/
inductive CallArg
  | sg_void_ptr
  | current_mask
  | lane_mask
  | filename (sym : Symbol)
  | out_ptr (sym : Symbol)
  | format_string (s : String)
  | value (sym : Symbol) (array_index : Option Nat) (component : Nat) (to_double : Bool)
  | lane_value (sym : Symbol) (array_index : Option Nat) (component : Nat) (to_double : Bool)
  | closure_string (sym : Symbol) (array_index : Option Nat)
  | null
  deriving DecidableEq, Repr

/-- What `llvm_gen_printf` reports or emits: a warning or an error of the shading context, a
call made once for all lanes, a call made in the loop over the lanes for each active lane, a
store of the returned string into the result of `format`. -/
inductive PrintfEmit
  | warning (message : String)
  | error (message : String)
  | call (name : String) (unbatched : Bool) (args : List CallArg)
  | call_per_active_lane (name : String) (args : List CallArg)
  | store_result (sym : Symbol)
  deriving DecidableEq, Repr

/-- Whether something emitted is a function call. -/
def PrintfEmit.is_call : PrintfEmit → Bool
  | PrintfEmit.call _ _ _ => true
  | PrintfEmit.call_per_active_lane _ _ => true
  | _ => false

/-- Whether something emitted is a diagnostic. -/
def PrintfEmit.is_diagnostic : PrintfEmit → Bool
  | PrintfEmit.warning _ => true
  | PrintfEmit.error _ => true
  | _ => false

/-- The characters that end a `%` directive. -/
def is_conversion_char (c : Char) : Bool :=
  c = 'c' || c = 'd' || c = 'e' || c = 'f' || c = 'g' || c = 'i' || c = 'm' || c = 'n'
    || c = 'o' || c = 'p' || c = 's' || c = 'u' || c = 'v' || c = 'x' || c = 'X'

/-- The inner loop of the scan: skip the characters that are not conversion characters.  The
result is the characters skipped and what is left, which starts at a conversion character or
is empty. -/
def skip_to_conversion : List Char → List Char × List Char
  | [] => ([], [])
  | c :: rest =>
    if is_conversion_char c then ([], c :: rest)
    else
      let r := skip_to_conversion rest
      (c :: r.1, r.2)

/-- The number of elements `simpletype.numelements()`: the array length, or 1. -/
def TypeSpec.numelements (t : TypeSpec) : Nat := if t.arraylen ≤ 0 then 1 else t.arraylen.toNat

/-- The directive doctored to match the base type of the argument: `s` for strings and
closures, `d` for an int whose conversion character is not an integer one, `f` for a float
whose conversion character is not a float one. -/
def doctor_format (t : TypeSpec) (formatchar : Char) (ourformat : List Char) : List Char :=
  let ourformat :=
    if (t.is_closure_based || t.basetype = BaseType.STRING) && formatchar ≠ 's' then
      ourformat.dropLast ++ ['s']
    else ourformat
  let ourformat :=
    if t.basetype = BaseType.INT && formatchar ≠ 'd' && formatchar ≠ 'i' && formatchar ≠ 'o'
        && formatchar ≠ 'u' && formatchar ≠ 'x' && formatchar ≠ 'X' then
      ourformat.dropLast ++ ['d']
    else ourformat
  if t.basetype = BaseType.FLOAT && formatchar ≠ 'f' && formatchar ≠ 'g' && formatchar ≠ 'c'
      && formatchar ≠ 'e' && formatchar ≠ 'm' && formatchar ≠ 'n' && formatchar ≠ 'p'
      && formatchar ≠ 'v' then
    ourformat.dropLast ++ ['f']
  else ourformat

/-- The text and the call arguments that one directive contributes for its argument: one copy
of the directive per element and component, separated by single spaces; a closure contributes
one copy per element without separator. -/
def expand_argument (sym : Symbol) (ourformat : List Char) : List Char × List CallArg :=
  let t := sym.typespec
  let arg_is_uniform := sym.is_uniform
  let per_element : Nat → List Char × List CallArg := fun a =>
    let arrind : Option Nat := if t.arraylen ≠ 0 then some a else none
    if t.is_closure_based then (ourformat, [CallArg.closure_string sym arrind])
    else
      let per_component : Nat → List Char × List CallArg := fun c =>
        ((if c ≠ 0 || a ≠ 0 then [' '] else []) ++ ourformat,
         [if arg_is_uniform then
            CallArg.value sym arrind c (t.basetype = BaseType.FLOAT)
          else CallArg.lane_value sym arrind c (t.basetype = BaseType.FLOAT)])
      let parts := (List.range t.aggregate).map per_component
      ((parts.map Prod.fst).flatten, (parts.map Prod.snd).flatten)
  let parts := (List.range t.numelements).map per_element
  ((parts.map Prod.fst).flatten, (parts.map Prod.snd).flatten)

/-- How the scan of the format string ends: at the end of the string, at the mismatch error,
at the assertion on structures, at the assertion on closures, past the terminator of the
string (a directive without conversion character makes the source step over the terminator
and go on reading), or out of fuel. -/
inductive ScanEnd
  | done
  | mismatch
  | structure_assertion
  | closure_assertion
  | past_terminator
  | out_of_fuel
  deriving DecidableEq, Repr

/-- The result of the scan: the rewritten format, the value arguments appended to the call,
the index of the next argument, and how the scan ended. -/
structure Scan where
  s : List Char
  call_args : List CallArg
  arg : Nat
  ending : ScanEnd
  deriving DecidableEq, Repr

/-- The scan of the format string in `llvm_gen_printf` (`while (*format != 0)`), on the
characters left, with the rewritten format, the value arguments and the argument index so
far.  A `%%` is copied; a directive runs up to its conversion character, consumes one
argument, is doctored and expanded; any other character is copied.  For a directive that
reaches the end of the string the source takes the terminator as conversion character and
then reads on past it: the scan ends there with `past_terminator`.  `fuel` bounds the number
of iterations. -/
def scan_format (op : Opcode) : Nat → List Char → List Char → List CallArg → Nat → Scan
  | 0, _, s, call_args, arg =>
    { s := s, call_args := call_args, arg := arg, ending := ScanEnd.out_of_fuel }
  | _ + 1, [], s, call_args, arg =>
    { s := s, call_args := call_args, arg := arg, ending := ScanEnd.done }
  | fuel + 1, c :: format, s, call_args, arg =>
    if c = '%' then
      if format.head? = some '%' then
        scan_format op fuel format.tail (s ++ ['%', '%']) call_args arg
      else
        let skipped := skip_to_conversion format
        let formatchar : Char := skipped.2.headD (Char.ofNat 0)
        let ourformat := '%' :: skipped.1 ++ [formatchar]
        let format := skipped.2.tail
        if arg ≥ op.nargs then
          { s := s, call_args := call_args, arg := arg, ending := ScanEnd.mismatch }
        else
          let sym := op.opargsym arg
          if sym.typespec.is_structure then
            { s := s, call_args := call_args, arg := arg,
              ending := ScanEnd.structure_assertion }
          else
            let ourformat := doctor_format sym.typespec formatchar ourformat
            let e := expand_argument sym ourformat
            if sym.typespec.is_closure_based && 0 < sym.typespec.numelements then
              { s := s ++ ourformat, call_args := call_args, arg := arg,
                ending := ScanEnd.closure_assertion }
            else if skipped.2 = [] then
              { s := s ++ e.1, call_args := call_args ++ e.2, arg := arg + 1,
                ending := ScanEnd.past_terminator }
            else
              scan_format op fuel format (s ++ e.1) (call_args ++ e.2) (arg + 1)
    else scan_format op fuel format (s ++ [c]) call_args arg

/-- Which argument is the format string: argument 1 for `format` and `fprintf`, argument 0
otherwise. -/
def Opcode.format_arg (op : Opcode) : Nat :=
  if op.opname = "format" || op.opname = "fprintf" then 1 else 0

/-- The format-string symbol of a formatted-output opcode. -/
def Opcode.format_sym (op : Opcode) : Symbol := op.opargsym op.format_arg

/-- The characters of the format string of a formatted-output opcode. -/
def Opcode.format (op : Opcode) : List Char := op.format_sym.string_data.toList

/-- The scan-and-rewrite of `llvm_gen_printf` on the format string of the opcode, from the
argument that follows the format string. -/
def rewrite_format (op : Opcode) : Scan :=
  scan_format op (op.format.length + 1) op.format [] [] (op.format_arg + 1)

/-- Whether every argument after the format string is uniform (`op_is_uniform` in
`llvm_gen_printf`). -/
def Opcode.printf_is_uniform (op : Opcode) : Bool :=
  (op.args.drop (op.format_arg + 1)).all fun sym => sym.is_uniform

/-- The call arguments that `llvm_gen_printf` pushes before the format string: for `printf`,
`error`, `warning` and `fprintf` the shader globals and the mask (the current mask when the
operation is uniform, else a placeholder filled in the lane loop); for `fprintf` the file
name; for a varying `format` the pointer to the result and a mask placeholder. -/
def printf_leading_args (op : Opcode) : List CallArg :=
  let op_is_uniform := op.printf_is_uniform
  let call_args : List CallArg := []
  let call_args :=
    if op.opname = "printf" || op.opname = "error" || op.opname = "warning"
        || op.opname = "fprintf" then
      call_args ++ [CallArg.sg_void_ptr,
                    if op_is_uniform then CallArg.current_mask else CallArg.lane_mask]
    else call_args
  let call_args :=
    if op.opname = "fprintf" then call_args ++ [CallArg.filename (op.opargsym 0)]
    else call_args
  if op.opname = "format" && !op_is_uniform then
    call_args ++ [CallArg.out_ptr (op.opargsym 0), CallArg.lane_mask]
  else call_args

/-- The text that `error` and `warning` put in front of the rewritten format. -/
def printf_lead_text (shadername : String) (op : Opcode) : List Char :=
  if op.opname = "error" || op.opname = "warning" then
    ("Shader " ++ op.opname ++ " [" ++ shadername ++ "]: ").toList
  else []

/-- The call arguments of the formatting call: the leading arguments, the new format string
and the value arguments collected by the scan. -/
def printf_call_args (shadername : String) (op : Opcode) : List CallArg :=
  printf_leading_args op
    ++ [CallArg.format_string (String.mk (printf_lead_text shadername op ++ (rewrite_format op).s))]
    ++ (rewrite_format op).call_args

/-- The generator `llvm_gen_printf`, used for `printf`, `error`, `warning`, `format` and
`fprintf`; `shadername` is the name of the shader, used in the prefix of errors and
warnings.  A scan that leaves the string has no defined result; it is counted with the
failed assertions. -/
def llvm_gen_printf (shadername : String) (op : Opcode) : GenResult (List PrintfEmit) :=
  let format_sym := op.format_sym
  if !format_sym.is_uniform then GenResult.fatal []
  else if !format_sym.is_constant then
    GenResult.returned false
      [PrintfEmit.warning (op.opname ++ " must currently have constant format\n")]
  else
    let op_is_uniform := op.printf_is_uniform
    match (rewrite_format op).ending with
    | ScanEnd.done =>
      let call_args := printf_call_args shadername op
      if op_is_uniform then
        GenResult.returned true
          (PrintfEmit.call op.opname (op.opname = "format" && op_is_uniform) call_args
            :: (if op.opname = "format" then [PrintfEmit.store_result (op.opargsym 0)]
                else []))
      else
        GenResult.returned true [PrintfEmit.call_per_active_lane op.opname call_args]
    | ScanEnd.mismatch =>
      GenResult.returned false
        [PrintfEmit.error "Mismatch between format string and arguments"]
    | _ => GenResult.fatal []

/-- A `printf` whose format string is a varying string variable, with one float argument. -/
def example_printf_varying_format : Opcode :=
  { opname := "printf",
    args := [Symbol.mk_simple "fmt" TypeSpec.string false false,
             Symbol.mk_simple "x" TypeSpec.float false false],
    jump := fun _ => 0, analysis_flag := false }

/-- A `printf` whose format string is a uniform string variable that is not a constant, with
one float argument. -/
def example_printf_uniform_format : Opcode :=
  { opname := "printf",
    args := [Symbol.mk_simple "fmt" TypeSpec.string true false,
             Symbol.mk_simple "x" TypeSpec.float false false],
    jump := fun _ => 0, analysis_flag := false }

end Printf

end OSL

namespace OSL

/-! ## Formatted output: directives of a format string -/

section PrintfSpec

/-- Whether a conversion character is legal for an argument of the given base type: one of
`d i o u x X` for an int, one of `f g c e m n p v` for a float, `s` for a string. -/
def legal_conversion (b : BaseType) (c : Char) : Bool :=
  match b with
  | BaseType.INT => c = 'd' || c = 'i' || c = 'o' || c = 'u' || c = 'x' || c = 'X'
  | BaseType.FLOAT =>
    c = 'f' || c = 'g' || c = 'c' || c = 'e' || c = 'm' || c = 'n' || c = 'p' || c = 'v'
  | BaseType.STRING => c = 's'
  | BaseType.UNKNOWN => true

/-- Where a reader of a format string stands: in plain text, just after a `%` met in plain
text, or inside a directive. -/
inductive ReadState
  | text
  | percent
  | directive
  deriving DecidableEq, Repr

/-- The number of `%` directives met when reading a format string from a given state: a `%`
followed by `%` is a literal and is not counted; any other `%` met in plain text starts a
directive, which runs up to the next conversion character. -/
def directive_count_from : ReadState → List Char → Nat
  | ReadState.text, [] => 0
  | ReadState.percent, [] => 1
  | ReadState.directive, [] => 0
  | ReadState.text, c :: rest =>
    if c = '%' then directive_count_from ReadState.percent rest
    else directive_count_from ReadState.text rest
  | ReadState.percent, c :: rest =>
    if c = '%' then directive_count_from ReadState.text rest
    else if is_conversion_char c then 1 + directive_count_from ReadState.text rest
    else 1 + directive_count_from ReadState.directive rest
  | ReadState.directive, c :: rest =>
    if is_conversion_char c then directive_count_from ReadState.text rest
    else directive_count_from ReadState.directive rest

/-- The number of `%` directives of a format string (`%%` is a literal, not a directive). -/
def directive_count (format : List Char) : Nat := directive_count_from ReadState.text format

/-- The number of arguments that follow the format-string argument. -/
def Opcode.trailing_args (op : Opcode) : Nat := op.nargs - (op.format_arg + 1)

/-- The text made of `n` copies of a directive separated by single spaces. -/
def spaced_copies (n : Nat) (d : List Char) : List Char :=
  match n with
  | 0 => []
  | n + 1 => d ++ (List.replicate n (' ' :: d)).flatten

/-- A piece of a format string: literal text (one character other than `%`, or `%%`), or a
directive `%`, body, conversion character, together with the argument it consumes and the
conversion character it has after rewriting. -/
inductive FormatPiece
  | literal (text : List Char)
  | directive (body : List Char) (conversion : Char) (sym : Symbol) (rewritten : Char)

/-- The text of a piece in the original format string. -/
def FormatPiece.original : FormatPiece → List Char
  | FormatPiece.literal text => text
  | FormatPiece.directive body conversion _ _ => '%' :: body ++ [conversion]

/-- The text of a piece in the rewritten format string: a literal is copied; a directive is
repeated once per element and component of its argument, the copies separated by single
spaces, with its rewritten conversion character. -/
def FormatPiece.rewritten_text : FormatPiece → List Char
  | FormatPiece.literal text => text
  | FormatPiece.directive body _ sym rewritten =>
    spaced_copies (sym.typespec.numelements * sym.typespec.aggregate)
      ('%' :: body ++ [rewritten])

/-- The argument consumed by a piece, if it is a directive. -/
def FormatPiece.argument : FormatPiece → Option Symbol
  | FormatPiece.literal _ => none
  | FormatPiece.directive _ _ sym _ => some sym

/-- A well-formed piece.  A literal is `%%` or one character other than `%`.  A directive has
a body without conversion character that does not start with `%`, and ends in a conversion
character; its argument is neither a closure nor a structure; its rewritten conversion
character is a conversion character that is legal for the base type of the argument, and it
is the original one when that one is legal. -/
def FormatPiece.wellformed : FormatPiece → Prop
  | FormatPiece.literal text => text = ['%', '%'] ∨ ∃ c, text = [c] ∧ c ≠ '%'
  | FormatPiece.directive body conversion sym rewritten =>
    (∀ x ∈ body, is_conversion_char x = false) ∧ is_conversion_char conversion = true
      ∧ body.head? ≠ some '%'
      ∧ sym.typespec.is_closure_based = false ∧ sym.typespec.is_structure = false
      ∧ is_conversion_char rewritten = true
      ∧ legal_conversion sym.typespec.basetype rewritten = true
      ∧ (legal_conversion sym.typespec.basetype conversion = true → rewritten = conversion)

/-- The conversion character that `doctor_format` leaves at the end of a directive for an
argument that is not a closure. -/
def doctored_conversion (t : TypeSpec) (formatchar : Char) : Char :=
  if legal_conversion t.basetype formatchar then formatchar
  else
    match t.basetype with
    | BaseType.INT => 'd'
    | BaseType.FLOAT => 'f'
    | BaseType.STRING => 's'
    | BaseType.UNKNOWN => formatchar

/-- One scalar component of an argument: the same symbol with a scalar type of the same base
type. -/
def Symbol.scalar_component (sym : Symbol) : Symbol :=
  { sym with typespec := { sym.typespec with aggregate := 1, arraylen := 0 } }

/-- The scalar components that replace an aggregate or array argument: one per element and
component. -/
def Symbol.scalar_components (sym : Symbol) : List Symbol :=
  List.replicate (sym.typespec.numelements * sym.typespec.aggregate) sym.scalar_component

/-- The opcode on which the rewritten format is scanned again: the format symbol holds the
rewritten format `s`, and every argument after it is replaced by its scalar components. -/
def rescan_op (op : Opcode) (s : List Char) : Opcode :=
  { op with
    args := op.args.take op.format_arg
      ++ [{ op.format_sym with string_data := String.mk s }]
      ++ (op.args.drop (op.format_arg + 1)).flatMap Symbol.scalar_components }

/-- The number of scalar components of the first `n` arguments after the format string. -/
def Opcode.components_consumed (op : Opcode) (n : Nat) : Nat :=
  (((op.args.drop (op.format_arg + 1)).take n).map fun sym =>
    sym.typespec.numelements * sym.typespec.aggregate).sum

/-- A constant uniform format string. -/
def Symbol.mk_format (str : String) : Symbol :=
  { name := "$fmt", typespec := TypeSpec.string, is_uniform := true, is_constant := true,
    has_derivs := false, string_data := str }

/-- The value arguments that a directive appends to the call for its argument. -/
def argument_values (sym : Symbol) : List CallArg := (expand_argument sym []).2

/-- The arguments of an emitted call. -/
def PrintfEmit.args : PrintfEmit → List CallArg
  | PrintfEmit.call _ _ args => args
  | PrintfEmit.call_per_active_lane _ args => args
  | _ => []

/-- A color. -/
def TypeSpec.color : TypeSpec :=
  { basetype := BaseType.FLOAT, aggregate := 3, arraylen := 0, is_closure := false,
    is_matrix := false }

/-- The opcode `printf ("a %5.2d b %s%% c %i", C, n, s)` with a color `C`, an int `n` and a
string `s`. -/
def example_printf_rewrite : Opcode :=
  { opname := "printf",
    args := [Symbol.mk_format "a %5.2d b %s%% c %i",
             Symbol.mk_simple "C" TypeSpec.color false false,
             Symbol.mk_simple "n" TypeSpec.int true false,
             Symbol.mk_simple "s" TypeSpec.string true false],
    jump := fun _ => 0, analysis_flag := false }

/-- The opcode `printf ("%d %d", n)`: two directives and one argument. -/
def example_printf_missing_argument : Opcode :=
  { opname := "printf",
    args := [Symbol.mk_format "%d %d", Symbol.mk_simple "n" TypeSpec.int true false],
    jump := fun _ => 0, analysis_flag := false }

/-- The opcode `printf ("hello", x)`: no directive and one argument. -/
def example_printf_extra_argument : Opcode :=
  { opname := "printf",
    args := [Symbol.mk_format "hello", Symbol.mk_simple "x" TypeSpec.float true false],
    jump := fun _ => 0, analysis_flag := false }

end PrintfSpec

end OSL

namespace OSL

/-! ## Formatted output, run-time view

The code that `llvm_gen_printf` emits is run on concrete lanes: a call made once, or the loop
over the lanes that calls the formatting routine for each active lane. -/

section PrintfRun

variable {W : Nat} {β : Type}

/-- An argument of a call of the formatting routine at run time. -/
inductive RuntimeArg (β : Type)
  | sg_void_ptr
  | mask_int (m : Nat)
  | filename (sym : Symbol)
  | out_ptr (sym : Symbol)
  | format_string (s : String)
  | scalar (x : β) (to_double : Bool)
  | closure_string (sym : Symbol)
  | null
  deriving DecidableEq, Repr

/-- A call of the formatting routine at run time. -/
structure FormatCall (β : Type) where
  name : String
  unbatched : Bool
  args : List (RuntimeArg β)
  deriving DecidableEq, Repr

/-- The content of the symbols at run time: the scalar held by an array element and component
of a uniform symbol, and the lanes held by those of a varying symbol. -/
structure PrintfEnv (W : Nat) (β : Type) where
  uniform : Symbol → Option Nat → Nat → β
  wide : Symbol → Option Nat → Nat → Wide W β

/-- Modelled from the spec: `mask_as_int(mask)` (definition missing) is the integer whose bit
`i` is the bit of lane `i`. -/
def mask_as_int (mask : Mask W) : Nat :=
  ((List.finRange W).map fun i => if mask i then 2 ^ i.val else 0).sum

/-- The run-time value of a call argument in the iteration of lane `lane`: the mask slot of
the loop holds `op_shl(1, lane_index)`, a delayed argument holds the value extracted from the
lane, a uniform argument its scalar. -/
def CallArg.eval (env : PrintfEnv W β) (mask : Mask W) (lane : Fin W) :
    CallArg → RuntimeArg β
  | CallArg.sg_void_ptr => RuntimeArg.sg_void_ptr
  | CallArg.current_mask => RuntimeArg.mask_int (mask_as_int mask)
  | CallArg.lane_mask => RuntimeArg.mask_int (1 <<< lane.val)
  | CallArg.filename sym => RuntimeArg.filename sym
  | CallArg.out_ptr sym => RuntimeArg.out_ptr sym
  | CallArg.format_string s => RuntimeArg.format_string s
  | CallArg.value sym array_index component to_double =>
    RuntimeArg.scalar (env.uniform sym array_index component) to_double
  | CallArg.lane_value sym array_index component to_double =>
    RuntimeArg.scalar (op_extract (env.wide sym array_index component) lane) to_double
  | CallArg.closure_string sym _ => RuntimeArg.closure_string sym
  | CallArg.null => RuntimeArg.null

/-- The run-time value of a call argument outside of the lane loop; a mask placeholder or a
delayed argument is never filled there. -/
def CallArg.eval_uniform (env : PrintfEnv W β) (mask : Mask W) : CallArg → RuntimeArg β
  | CallArg.sg_void_ptr => RuntimeArg.sg_void_ptr
  | CallArg.current_mask => RuntimeArg.mask_int (mask_as_int mask)
  | CallArg.lane_mask => RuntimeArg.null
  | CallArg.filename sym => RuntimeArg.filename sym
  | CallArg.out_ptr sym => RuntimeArg.out_ptr sym
  | CallArg.format_string s => RuntimeArg.format_string s
  | CallArg.value sym array_index component to_double =>
    RuntimeArg.scalar (env.uniform sym array_index component) to_double
  | CallArg.lane_value _ _ _ _ => RuntimeArg.null
  | CallArg.closure_string sym _ => RuntimeArg.closure_string sym
  | CallArg.null => RuntimeArg.null

/-- The lane loop that `llvm_gen_printf` emits (`printf_cond`, `printf_body`,
`printf_nested_body`, `printf_step`), run from a value of the lane index: the condition block
leaves the loop when the index has reached the width; the body tests the bit of the lane in
the mask and calls the routine when it is set; the step block adds one to the index.  The
result is the calls made, and whether the loop reached its after block within `fuel`
evaluations of the condition. -/
def printf_lane_loop {γ : Type} (call : Fin W → γ) (mask : Mask W) : Nat → Nat → List γ × Bool
  | 0, _ => ([], false)
  | fuel + 1, lane_index =>
    if more_lanes_to_process : lane_index < W then
      let lane_active := mask ⟨lane_index, more_lanes_to_process⟩
      let rest := printf_lane_loop call mask fuel (lane_index + 1)
      if lane_active then (call ⟨lane_index, more_lanes_to_process⟩ :: rest.1, rest.2)
      else rest
    else ([], true)

/-- Run something that `llvm_gen_printf` emitted, under the current mask `mask`: the calls of
the formatting routine made, and whether the code ran to its end within `fuel` evaluations of
the loop condition. -/
def PrintfEmit.run (env : PrintfEnv W β) (mask : Mask W) (fuel : Nat) :
    PrintfEmit → List (FormatCall β) × Bool
  | PrintfEmit.call name unbatched args =>
    ([{ name := name, unbatched := unbatched, args := args.map (CallArg.eval_uniform env mask) }],
     true)
  | PrintfEmit.call_per_active_lane name args =>
    printf_lane_loop
      (fun lane => { name := name, unbatched := false, args := args.map (CallArg.eval env mask lane) })
      mask fuel 0
  | _ => ([], true)

/-- The five opcodes that `llvm_gen_printf` serves. -/
def is_printf_opname (opname : String) : Bool :=
  opname = "printf" || opname = "error" || opname = "warning" || opname = "format"
    || opname = "fprintf"

/-- Whether some argument after the format string is varying. -/
def Opcode.has_varying_argument (op : Opcode) : Bool :=
  (op.args.drop (op.format_arg + 1)).any fun sym => !sym.is_uniform

/-- The opcode `printf ("x=%d y=%f", i, y)` with a uniform int `i` and a varying float `y`. -/
def example_printf_varying : Opcode :=
  { opname := "printf",
    args := [Symbol.mk_format "x=%d y=%f",
             Symbol.mk_simple "i" TypeSpec.int true false,
             Symbol.mk_simple "y" TypeSpec.float false false],
    jump := fun _ => 0, analysis_flag := false }

/-- The opcode `format (Result, "x=%d", i)` with a uniform Result and a uniform int `i`. -/
def example_format_uniform : Opcode :=
  { opname := "format",
    args := [Symbol.mk_simple "Result" TypeSpec.string true false,
             Symbol.mk_format "x=%d",
             Symbol.mk_simple "i" TypeSpec.int true false],
    jump := fun _ => 0, analysis_flag := false }

/-- The content of the symbols in the examples: the uniform int holds 7, and the lanes of a
varying symbol hold 10, 11, 12, 13. -/
def example_env : PrintfEnv 4 Int :=
  { uniform := fun _ _ _ => 7, wide := fun _ _ _ l => 10 + (l.val : Int) }

/-- Four lanes, lanes 0 and 2 active. -/
def example_even_lanes : Mask 4 := fun i => decide (i.val = 0 ∨ i.val = 2)

end PrintfRun

end OSL

namespace OSL

/-! ## Array reference and array assignment with range checking -/

section ArrayAccess

/-- The value held by the variable `index` of `llvm_gen_aref` and `llvm_gen_aassign`: the
value loaded from the Index symbol, the return value of the call of the scalar `range_check`
routine, or the vector loaded back from the scratch slot `loc_clamped_wide_index`. -/
inductive IndexValue
  | loaded
  | range_checked
  | reloaded
  deriving DecidableEq, Repr

/-- What `llvm_gen_aref` and `llvm_gen_aassign` emit: the call of the scalar `range_check`
routine (index, array length, array name, ...), the store of the index into the scratch slot,
the call of the masked `range_check` routine (scratch slot, current mask, array length, array
name, ...), the load of the scratch slot, a load of an array element, a store into Result, a
load of Src and a store of an array element. -/
inductive ArrayEmit
  | call_range_check (index : IndexValue) (arraylength : Int) (name : String)
  | op_unmasked_store (index : IndexValue)
  | call_range_check_masked (arraylength : Int) (name : String)
  | op_load
  | load_array (sym : Symbol) (deriv : Nat) (index : IndexValue) (component : Nat)
  | store_result (component deriv : Nat)
  | load_src (component deriv : Nat)
  | store_array (sym : Symbol) (deriv : Nat) (index : IndexValue) (component : Nat)
  deriving DecidableEq, Repr

/-- The range-checking block of `llvm_gen_aref` and `llvm_gen_aassign` (the same text in both,
on the array `Src`, respectively `Result`): the index to use for the access, and what is
emitted. -/
def llvm_range_check_index (range_checking : Bool) (Index Array : Symbol) :
    IndexValue × List ArrayEmit :=
  let index := IndexValue.loaded
  let index_is_uniform := Index.is_uniform
  if range_checking then
    if index_is_uniform then
      if !(Index.is_constant && decide (Index.int_data ≥ 0)
            && decide (Index.int_data < Array.typespec.arraylen)) then
        (IndexValue.range_checked,
          [ArrayEmit.call_range_check index Array.typespec.arraylen Array.name])
      else (index, [])
    else
      (IndexValue.reloaded,
        [ArrayEmit.op_unmasked_store index,
         ArrayEmit.call_range_check_masked Array.typespec.arraylen Array.name,
         ArrayEmit.op_load])
  else (index, [])

/-- The derivative channels visited by `for (d = 0; d <= 2; ++d) { ...; if (!
Result.has_derivs()) break; }`. -/
def deriv_channels (has_derivs : Bool) : List Nat := if has_derivs then [0, 1, 2] else [0]

/-- The generator `llvm_gen_aref`; `range_checking` is the option of the shader master and
`index_loaded` tells whether the load of the index yields a value. -/
def llvm_gen_aref (range_checking index_loaded : Bool) (op : Opcode) :
    GenResult (List ArrayEmit) :=
  let Result := op.opargsym 0
  let Src := op.opargsym 1
  let Index := op.opargsym 2
  if !index_loaded then GenResult.returned false []
  else
    let (index, emits) := llvm_range_check_index range_checking Index Src
    let num_components := Src.typespec.aggregate
    GenResult.returned true
      (emits ++
        ((deriv_channels Result.has_derivs).map fun d =>
          ((List.range num_components).map fun c =>
            [ArrayEmit.load_array Src d index c, ArrayEmit.store_result c d]).flatten).flatten)

/-- The generator `llvm_gen_aassign`. -/
def llvm_gen_aassign (range_checking index_loaded : Bool) (op : Opcode) :
    GenResult (List ArrayEmit) :=
  let Result := op.opargsym 0
  let Index := op.opargsym 1
  let Src := op.opargsym 2
  let resultIsUniform := Result.is_uniform
  let index_is_uniform := Index.is_uniform
  if !(index_is_uniform || !resultIsUniform) then GenResult.fatal []
  else if !index_loaded then GenResult.returned false []
  else
    let (index, emits) := llvm_range_check_index range_checking Index Result
    let num_components := Result.typespec.aggregate
    let can_cast :=
      decide (num_components = 1) && !Result.typespec.is_closure && !Src.typespec.is_closure
        && (decide (Result.typespec.basetype = BaseType.INT)
            || Result.typespec.is_float_based)
        && (decide (Src.typespec.basetype = BaseType.INT) || Src.typespec.is_float_based)
    if !can_cast && !decide (Result.typespec.basetype = Src.typespec.basetype) then
      GenResult.fatal emits
    else
      GenResult.returned true
        (emits ++
          ((deriv_channels Result.has_derivs).map fun d =>
            ((List.range num_components).map fun c =>
              [ArrayEmit.load_src c d, ArrayEmit.store_array Result d index c]).flatten).flatten)

/-- The index used by a load or a store of an array element. -/
def ArrayEmit.array_index : ArrayEmit → Option IndexValue
  | ArrayEmit.load_array _ _ index _ => some index
  | ArrayEmit.store_array _ _ index _ => some index
  | _ => none

/-- Whether something emitted is the call of the scalar `range_check` routine. -/
def ArrayEmit.is_range_check : ArrayEmit → Bool
  | ArrayEmit.call_range_check _ _ _ => true
  | _ => false

/-- Whether something emitted is the call of the masked `range_check` routine. -/
def ArrayEmit.is_range_check_masked : ArrayEmit → Bool
  | ArrayEmit.call_range_check_masked _ _ => true
  | _ => false

/-- Whether something emitted belongs to the element loop: a load of an array element, a store
into Result, a load of Src or a store of an array element. -/
def ArrayEmit.is_access : ArrayEmit → Bool
  | ArrayEmit.load_array _ _ _ _ => true
  | ArrayEmit.store_result _ _ => true
  | ArrayEmit.load_src _ _ => true
  | ArrayEmit.store_array _ _ _ _ => true
  | _ => false

/-- The index is a constant `c` with `0 <= c < arraylength`. -/
def constant_in_range (Index Array : Symbol) : Prop :=
  Index.is_constant = true ∧ 0 ≤ Index.int_data ∧ Index.int_data < Array.typespec.arraylen

/-- Run-time state of the index computation: the content of the scratch slot
`loc_clamped_wide_index`, the value returned by the scalar `range_check` routine, the vector
loaded back from the scratch slot, and the index vectors used by the array accesses so far. -/
structure IndexMachine (W : Nat) where
  slot : Wide W Int
  checked : Wide W Int
  reloaded : Wide W Int
  accessed : List (Wide W Int)

variable {W : Nat}

/-- The run-time content of an index value; `idx` is the content of the Index symbol. -/
def IndexValue.eval (idx : Wide W Int) (m : IndexMachine W) : IndexValue → Wide W Int
  | IndexValue.loaded => idx
  | IndexValue.range_checked => m.checked
  | IndexValue.reloaded => m.reloaded

/-- Run one emitted item: `routine` is the scalar `range_check` routine (it returns the index to
use), `masked_routine` the masked one (it rewrites the scratch slot in place), `mask` the
current mask and `idx` the content of the Index symbol. -/
def ArrayEmit.run (routine : Int → Int → Int)
    (masked_routine : Wide W Int → Mask W → Int → Wide W Int) (mask : Mask W)
    (idx : Wide W Int) (m : IndexMachine W) : ArrayEmit → IndexMachine W
  | ArrayEmit.call_range_check index arraylength _ =>
    { m with checked := fun l => routine (index.eval idx m l) arraylength }
  | ArrayEmit.op_unmasked_store index => { m with slot := index.eval idx m }
  | ArrayEmit.call_range_check_masked arraylength _ =>
    { m with slot := masked_routine m.slot mask arraylength }
  | ArrayEmit.op_load => { m with reloaded := m.slot }
  | ArrayEmit.load_array _ _ index _ => { m with accessed := m.accessed ++ [index.eval idx m] }
  | ArrayEmit.store_array _ _ index _ =>
    { m with accessed := m.accessed ++ [index.eval idx m] }
  | _ => m

/-- Modelled from the spec: the masked `range_check` routine (definition missing) clamps the
index of every active lane into `[0, length - 1]` and leaves the inactive lanes as they are. -/
def range_check_masked (v : Wide W Int) (mask : Mask W) (length : Int) : Wide W Int :=
  fun l => if mask l then (if v l < 0 then 0 else if v l ≥ length then length - 1 else v l)
           else v l

/-- Modelled from the spec: the scalar `range_check` routine (definition missing) returns the
index clamped into `[0, length - 1]`. -/
def range_check (index length : Int) : Int :=
  if index < 0 then 0 else if index ≥ length then length - 1 else index

/-- A float array of the given length. -/
def TypeSpec.float_array (len : Int) : TypeSpec :=
  { basetype := BaseType.FLOAT, aggregate := 1, arraylen := len, is_closure := false,
    is_matrix := false }

/-- The opcode `aassign Result Index Src` on a float array of length 4 with a varying
index. -/
def example_aassign : Opcode :=
  { opname := "aassign",
    args := [Symbol.mk_simple "Result" (TypeSpec.float_array 4) false false,
             Symbol.mk_simple "Index" TypeSpec.int false false,
             Symbol.mk_simple "Src" TypeSpec.float false false],
    jump := fun _ => 0, analysis_flag := false }

/-- The opcode `aref Result Src Index` on a float array of length 4 with a uniform index that
is not a constant. -/
def example_aref_uniform : Opcode :=
  { opname := "aref",
    args := [Symbol.mk_simple "Result" TypeSpec.float false false,
             Symbol.mk_simple "Src" (TypeSpec.float_array 4) false false,
             Symbol.mk_simple "Index" TypeSpec.int true false],
    jump := fun _ => 0, analysis_flag := false }

end ArrayAccess

end OSL

namespace OSL

/-! ## Vector component reference -/

section CompRef

variable {W : Nat} {α : Type}

/-- Modelled from the spec: `llvm_load_component_value(Val, deriv, component, op_is_uniform)`
(definition missing) loads the component selected by a run-time index. -/
def llvm_load_component_value (ops : ScalarOps α) (Val : Operand W α) (deriv : Nat)
    (c : Value W Int) (op_is_uniform : Bool) : Option (Value W α) :=
  match c with
  | Value.scalar i => llvm_load_value ops Val deriv i.toNat op_is_uniform
  | Value.wide v =>
    some (Value.wide fun l =>
      match llvm_load_value ops Val deriv (v l).toNat op_is_uniform with
      | some x => x.lane l
      | none => ops.zero)

/-- The store of a loaded value into component 0 of a derivative channel of Result; nothing
when the load failed. -/
def store_loaded (d : Nat) : Option (Value W α) → List (Action W α)
  | some v => [Action.store d 0 v]
  | none => []

/-- The generator `llvm_gen_compref`.  `range_checking` is the option of the shader master,
`routine` and `masked_routine` are the scalar and the masked `range_check` routines, `mask` is
the current mask, and `index_scalar` / `index_wide` is the content of the Index symbol when it
is uniform / varying. -/
def llvm_gen_compref (ops : ScalarOps α) (range_checking : Bool) (routine : Int → Int → Int)
    (masked_routine : Wide W Int → Mask W → Int → Wide W Int) (mask : Mask W)
    (Result Val : Operand W α) (Index : Symbol) (index_scalar : Int)
    (index_wide : Wide W Int) : GenResult (List (Action W α)) :=
  let op_is_uniform := Result.sym.is_uniform
  if Index.is_uniform then
    let c : Value W Int := Value.scalar index_scalar
    let checked :=
      range_checking
        && !(Index.is_constant && decide (Index.int_data ≥ 0) && decide (Index.int_data < 3))
    let c := if checked then Value.scalar (routine index_scalar 3) else c
    let checks : List (Action W α) :=
      if checked then [Action.call "range_check" false false] else []
    GenResult.returned true
      (checks ++
        ((deriv_channels Result.sym.has_derivs).map fun d =>
          if Index.is_constant then
            let i := Index.int_data
            let i := if i < 0 then 0 else if i > 2 then 2 else i
            store_loaded d (llvm_load_value ops Val d i.toNat op_is_uniform)
          else store_loaded d (llvm_load_component_value ops Val d c op_is_uniform)).flatten)
  else
    if !(Index.is_constant == false) then GenResult.fatal []
    else if !(op_is_uniform == false) then GenResult.fatal []
    else
      let c : Wide W Int := index_wide
      let c := if range_checking then masked_routine c mask 3 else c
      let checks : List (Action W α) :=
        if range_checking then [Action.call "range_check" false true] else []
      let comp0Mask : Value W Bool := Value.wide fun l => decide (c l = 0)
      let comp1Mask : Value W Bool := Value.wide fun l => decide (c l = 1)
      GenResult.returned true
        (checks ++
          ((deriv_channels Result.sym.has_derivs).map fun d =>
            match llvm_load_value ops Val d 0 op_is_uniform,
                  llvm_load_value ops Val d 1 op_is_uniform,
                  llvm_load_value ops Val d 2 op_is_uniform with
            | some valc0, some valc1, some valc2 =>
              let valc0_c2 := Value.select comp0Mask valc0 valc2
              let valc0_c1_c2 := Value.select comp1Mask valc1 valc0_c2
              [Action.store d 0 valc0_c1_c2]
            | _, _, _ => []).flatten)

/-- The content of component `k` of an operand in derivative channel `d` and lane `l`, as a
wide load yields it. -/
def component_lane (ops : ScalarOps α) (Val : Operand W α) (d k : Nat) (l : Fin W) : α :=
  match llvm_load_value ops Val d k false with
  | some v => v.lane l
  | none => ops.zero

/-- The index vector that the select cascade of `llvm_gen_compref` tests: the content of the
Index symbol, or with range checking the vector that the masked routine leaves in the scratch
slot. -/
def cascade_index (range_checking : Bool)
    (masked_routine : Wide W Int → Mask W → Int → Wide W Int) (mask : Mask W)
    (index_wide : Wide W Int) : Wide W Int :=
  if range_checking then masked_routine index_wide mask 3 else index_wide

/-- A varying float Result without derivatives, on four lanes. -/
def compref_Result : Operand 4 Int :=
  { sym := Symbol.mk_float "Result" false false, scalar := fun _ _ => 0,
    wide := fun _ _ _ => 0 }

/-- A varying vector `Val` on four lanes whose components 0, 1, 2 hold 10, 20, 30 in every
lane. -/
def compref_Val : Operand 4 Int :=
  { sym := Symbol.mk_simple "Val" TypeSpec.triple false false, scalar := fun _ _ => 0,
    wide := fun _ c _ => if c = 0 then 10 else if c = 1 then 20 else 30 }

/-- A varying index that is not a constant. -/
def compref_Index : Symbol := Symbol.mk_simple "Index" TypeSpec.int false false

/-- The index vector -1, 0, 1, 5 on four lanes. -/
def compref_index_lanes : Wide 4 Int :=
  fun l => if l.val = 0 then -1 else if l.val = 1 then 0 else if l.val = 2 then 1 else 5

end CompRef

end OSL

namespace OSL

/-! ## Library calls: `FuncSpec` and `llvm_gen_generic` -/

section Generic

/-- One argument registered in a `FuncSpec`: a symbol with its derivative and uniformity
flags, or a bare type with its uniformity flag. -/
inductive FuncArg
  | sym (s : Symbol) (derivs : Bool) (is_uniform : Bool)
  | type (name : String) (is_uniform : Bool)
  deriving DecidableEq, Repr

/-- Whether an argument is registered with derivatives. -/
def FuncArg.derivs : FuncArg → Bool
  | FuncArg.sym _ d _ => d
  | FuncArg.type _ _ => false

/-- Modelled from the spec: `FuncSpec` (declaration missing), the build-time descriptor of
the library function to call: the base name, the arguments registered, and whether the
batched and the masked variant is asked for. -/
structure FuncSpec where
  name : String
  args : List FuncArg := []
  is_batched : Bool := true
  is_masked : Bool := false
  deriving DecidableEq, Repr

namespace FuncSpec

/-- Modelled from the spec: `func_spec.arg(sym, derivs, is_uniform)`. -/
def arg (f : FuncSpec) (s : Symbol) (derivs is_uniform : Bool) : FuncSpec :=
  { f with args := f.args ++ [FuncArg.sym s derivs is_uniform] }

/-- Modelled from the spec: `func_spec.arg(type, is_uniform)`, `arg_uniform(type)` and
`arg_varying(type)`. -/
def arg_type (f : FuncSpec) (name : String) (is_uniform : Bool) : FuncSpec :=
  { f with args := f.args ++ [FuncArg.type name is_uniform] }

/-- Modelled from the spec: `func_spec.unbatch()` asks for the scalar variant. -/
def unbatch (f : FuncSpec) : FuncSpec := { f with is_batched := false }

/-- Modelled from the spec: `func_spec.mask()` asks for the masked variant. -/
def mask (f : FuncSpec) : FuncSpec := { f with is_masked := true }

end FuncSpec

/-- What `llvm_gen_generic` emits: a call through `rop.llvm_call_function` with the symbols
passed and its four flags, the store of the returned value, the zeroing of derivatives. -/
inductive GenericEmit
  | call_function (func_spec : FuncSpec) (args : List Symbol)
      (deriv_ptrs function_is_uniform functionIsLlvmInlined ptrToReturnStructIs1stArg : Bool)
  | store_value (sym : Symbol)
  | zero_derivs (sym : Symbol)
  deriving DecidableEq, Repr

/-- The opcodes whose derivatives `llvm_gen_generic` suppresses. -/
def has_no_derivs (opname : String) : Bool :=
  opname = "logb" || opname = "floor" || opname = "ceil" || opname = "round"
    || opname = "step" || opname = "trunc" || opname = "sign"

/-- Register every argument of the opcode in the `FuncSpec` (the third loop of
`llvm_gen_generic`). -/
def generic_func_spec_args (Result : Symbol) (any_deriv_args uniformFormOfFunction : Bool) :
    List Symbol → FuncSpec → FuncSpec
  | [], func_spec => func_spec
  | s :: rest, func_spec =>
    let has_derivs :=
      any_deriv_args && Result.has_derivs && s.has_derivs && !s.typespec.is_matrix
    generic_func_spec_args Result any_deriv_args uniformFormOfFunction rest
      (func_spec.arg s has_derivs uniformFormOfFunction)

/-- The generator `llvm_gen_generic`. -/
def llvm_gen_generic (op : Opcode) : GenResult (List GenericEmit) :=
  let uniformFormOfFunction := op.args.all fun s => s.is_uniform
  let Result := op.opargsym 0
  let args := op.args
  let any_deriv_args :=
    (op.args.drop 1).any fun s => s.has_derivs && !s.typespec.is_matrix
  let any_deriv_args := if any_deriv_args && has_no_derivs op.opname then false else any_deriv_args
  let func_spec : FuncSpec := { name := op.opname }
  let func_spec := if uniformFormOfFunction then func_spec.unbatch else func_spec
  let func_spec :=
    generic_func_spec_args Result any_deriv_args uniformFormOfFunction op.args func_spec
  if !Result.has_derivs || !any_deriv_args then
    let functionIsLlvmInlined := false
    GenResult.returned true
      ((if Result.typespec.aggregate = 1 && (uniformFormOfFunction || functionIsLlvmInlined) then
          [GenericEmit.call_function func_spec (args.drop 1) false uniformFormOfFunction
             functionIsLlvmInlined false,
           GenericEmit.store_value Result]
        else
          [GenericEmit.call_function func_spec args false uniformFormOfFunction
             functionIsLlvmInlined true])
        ++ [GenericEmit.zero_derivs Result])
  else
    GenResult.returned true
      [GenericEmit.call_function func_spec args true uniformFormOfFunction false true]

/-- Whether something emitted is a call. -/
def GenericEmit.is_call : GenericEmit → Bool
  | GenericEmit.call_function _ _ _ _ _ _ => true
  | _ => false

/-- A float with derivatives, varying. -/
def dual_float (name : String) : Symbol :=
  { name := name, typespec := TypeSpec.float, is_uniform := false, is_constant := false,
    has_derivs := true }

/-- The opcode `floor (Result, x)` where Result and `x` are varying floats with
derivatives. -/
def example_floor : Opcode :=
  { opname := "floor", args := [dual_float "Result", dual_float "x"],
    jump := fun _ => 0, analysis_flag := false }

end Generic

end OSL

namespace OSL

/-! ## Geometric transforms: `llvm_gen_construct_triple`, `llvm_gen_matrix`,
`llvm_gen_getmatrix`, `llvm_gen_transform` -/

section Transform

/-- The matrix that a transform call receives: the temporary wide matrix of the backend
(`rop.temp_wide_matrix_ptr()`), or the matrix symbol passed to `transform`. -/
inductive TransformPtr
  | temp_wide_matrix_ptr
  | llvm_void_ptr (sym : Symbol)
  deriving DecidableEq, Repr

/-- A value passed to a call emitted by the transform generators. -/
inductive MatrixCallArg
  | sg_void_ptr
  | llvm_void_ptr (sym : Symbol)
  | llvm_load_value (sym : Symbol)
  | void_ptr (transform : TransformPtr)
  | constant (s : String)
  | returned_by_previous_call
  | mask_as_int_current_mask
  deriving DecidableEq, Repr

/-- What the transform generators emit: a call of a library function by the name built from
a `FuncSpec`, a store into a derivative channel and component of a symbol (of the loaded
value of a symbol, or of the constant zero; plain or as a broadcast of a uniform value), a
symbol assignment, the zeroing of derivatives, the masked store of a status. -/
inductive MatrixEmit
  | call_function (func_spec : FuncSpec) (args : List MatrixCallArg)
  | store_value (src : Option Symbol) (dst : Symbol) (deriv component : Nat) (broadcast : Bool)
  | assign_impl (Result P : Symbol)
  | zero_derivs (sym : Symbol)
  | conversion_store_masked_status (Result : Symbol)
  deriving DecidableEq, Repr

/-- The name `Strings::common`. -/
def Strings.common : String := "common"

/-- The generator `llvm_gen_construct_triple`; `commonspace_synonym` is the synonym of the
common space in the shading system and `rend_transform_points` the answer of the renderer
to the query `transform_points` for non-linear transformations. -/
def llvm_gen_construct_triple (commonspace_synonym : String) (rend_transform_points : Bool)
    (op : Opcode) : GenResult (List MatrixEmit) :=
  let Result := op.opargsym 0
  let using_space : Bool := op.nargs = 5
  let Space := op.opargsym 1
  let off : Nat := if using_space then 1 else 0
  let X := op.opargsym (1 + off)
  let Y := op.opargsym (2 + off)
  let Z := op.opargsym (3 + off)
  if !(Result.typespec.is_triple && X.typespec.is_float && Y.typespec.is_float
        && Z.typespec.is_float && (using_space = false || Space.typespec.is_string)) then
    GenResult.fatal []
  else
    let space_is_uniform := Space.is_uniform
    let op_is_uniform := X.is_uniform && Y.is_uniform && Z.is_uniform && space_is_uniform
    let resultIsUniform := Result.is_uniform
    if !(op_is_uniform || !resultIsUniform) then GenResult.fatal []
    else
      let dmax := if Result.has_derivs then 3 else 1
      let stores : List MatrixEmit :=
        ((List.range dmax).map fun d =>
          (List.range 3).map fun c =>
            MatrixEmit.store_value (some (op.opargsym (c + 1 + off))) Result d c
              (op_is_uniform && !resultIsUniform)).flatten
      if using_space then
        if Space.is_constant
            && (Space.string_data = Strings.common
                || Space.string_data = commonspace_synonym) then
          GenResult.returned true stores
        else
          let triple_type :=
            if op.opname = "vector" then "vector"
            else if op.opname = "normal" then "normal" else "point"
          if !(false = rend_transform_points) then GenResult.fatal stores
          else
            let transform := TransformPtr.temp_wide_matrix_ptr
            let build :=
              MatrixEmit.call_function
                ((((({ name := "build_transform_matrix" } : FuncSpec).arg_type "matrix" false).arg
                    Space false space_is_uniform).arg_type "string" true).mask)
                [MatrixCallArg.sg_void_ptr, MatrixCallArg.void_ptr transform,
                 if space_is_uniform then MatrixCallArg.llvm_load_value Space
                 else MatrixCallArg.llvm_void_ptr Space,
                 MatrixCallArg.constant Strings.common,
                 MatrixCallArg.mask_as_int_current_mask]
            if !(Result.is_uniform = false) then GenResult.fatal (stores ++ [build])
            else
              GenResult.returned true
                (stores ++ [build,
                  MatrixEmit.call_function
                    ((((({ name := "transform_" ++ triple_type } : FuncSpec).arg
                        Result Result.has_derivs resultIsUniform).arg
                        Result Result.has_derivs resultIsUniform).arg_type "matrix44" false).mask)
                    [MatrixCallArg.llvm_void_ptr Result, MatrixCallArg.llvm_void_ptr Result,
                     MatrixCallArg.void_ptr transform, MatrixCallArg.returned_by_previous_call,
                     MatrixCallArg.mask_as_int_current_mask]])
      else GenResult.returned true stores

/-- The generator `llvm_gen_matrix`.  The two-argument form `func_spec.arg(sym, is_uniform)`
registers a symbol without derivatives. -/
def llvm_gen_matrix (commonspace_synonym : String) (op : Opcode) :
    GenResult (List MatrixEmit) :=
  let Result := op.opargsym 0
  let nargs := op.nargs
  let using_space : Bool := nargs = 3 || nargs = 18
  let using_two_spaces : Bool := nargs = 3 && (op.opargsym 2).typespec.is_string
  let nfloats : Int := (nargs : Int) - 1 - (if using_space then 1 else 0)
  if !(nargs = 2 || nargs = 3 || nargs = 17 || nargs = 18) then GenResult.fatal []
  else
    let result_is_uniform := Result.is_uniform
    let tail : List MatrixEmit :=
      if Result.has_derivs then [MatrixEmit.zero_derivs Result] else []
    if using_two_spaces then
      let From := op.opargsym 1
      let To := op.opargsym 2
      let from_is_uniform := From.is_uniform
      let to_is_uniform := To.is_uniform
      GenResult.returned true
        (MatrixEmit.call_function
            ((((({ name := "get_from_to_matrix" } : FuncSpec).arg Result false
                result_is_uniform).arg From false from_is_uniform).arg To false
                to_is_uniform).mask)
            [MatrixCallArg.sg_void_ptr, MatrixCallArg.llvm_void_ptr Result,
             if from_is_uniform then MatrixCallArg.llvm_load_value From
             else MatrixCallArg.llvm_void_ptr From,
             if to_is_uniform then MatrixCallArg.llvm_load_value To
             else MatrixCallArg.llvm_void_ptr To,
             MatrixCallArg.mask_as_int_current_mask]
          :: tail)
    else
      let off : Nat := if using_space then 1 else 0
      let stores : Option (List MatrixEmit) :=
        if nfloats = 1 then
          some ((List.range 16).map fun i =>
            MatrixEmit.store_value (if i % 4 = i / 4 then some (op.opargsym (1 + off)) else none)
              Result 0 i false)
        else if nfloats = 16 then
          some ((List.range 16).map fun i =>
            MatrixEmit.store_value (some (op.opargsym (i + 1 + off))) Result 0 i false)
        else none
      match stores with
      | none => GenResult.fatal []
      | some stores =>
        let From := op.opargsym 1
        let prepend : List MatrixEmit :=
          if using_space
              && (!From.is_constant
                  || (From.string_data ≠ Strings.common
                      && From.string_data ≠ commonspace_synonym)) then
            let from_is_uniform := From.is_uniform
            [MatrixEmit.call_function
              (((({ name := "prepend_matrix_from" } : FuncSpec).arg Result false
                  result_is_uniform).arg From false from_is_uniform).mask)
              [MatrixCallArg.sg_void_ptr, MatrixCallArg.llvm_void_ptr Result,
               if from_is_uniform then MatrixCallArg.llvm_load_value From
               else MatrixCallArg.llvm_void_ptr From,
               MatrixCallArg.mask_as_int_current_mask]]
          else []
        GenResult.returned true (stores ++ prepend ++ tail)

/-- The generator `llvm_gen_getmatrix`. -/
def llvm_gen_getmatrix (op : Opcode) : GenResult (List MatrixEmit) :=
  let nargs := op.nargs
  if !(nargs = 4) then GenResult.fatal []
  else
    let Result := op.opargsym 0
    let From := op.opargsym 1
    let To := op.opargsym 2
    let M := op.opargsym 3
    let result_is_uniform := Result.is_uniform
    if !(M.is_uniform = result_is_uniform) then GenResult.fatal []
    else
      let from_is_uniform := From.is_uniform
      let to_is_uniform := To.is_uniform
      GenResult.returned true
        [MatrixEmit.call_function
           ((((({ name := "get_from_to_matrix" } : FuncSpec).arg M false
               result_is_uniform).arg From false from_is_uniform).arg To false
               to_is_uniform).mask)
           [MatrixCallArg.sg_void_ptr, MatrixCallArg.llvm_void_ptr M,
            if from_is_uniform then MatrixCallArg.llvm_load_value From
            else MatrixCallArg.llvm_void_ptr From,
            if to_is_uniform then MatrixCallArg.llvm_load_value To
            else MatrixCallArg.llvm_void_ptr To,
            MatrixCallArg.mask_as_int_current_mask],
         MatrixEmit.conversion_store_masked_status Result,
         MatrixEmit.zero_derivs M]

/-- The last part of `llvm_gen_transform`: the call of the transform routine, the unbatched
one for a uniform Result and the masked one otherwise, and the zeroing of the derivatives.
`succeeded` is the value passed as success status. -/
def llvm_gen_transform_call (op : Opcode) (Result To P : Symbol) (transform : TransformPtr)
    (succeeded : MatrixCallArg) (before : List MatrixEmit) : GenResult (List MatrixEmit) :=
  let result_is_uniform := Result.is_uniform
  let to_is_uniform := To.is_uniform
  let P_is_uniform := P.is_uniform
  let triple_type :=
    if op.opname = "transformv" then "vector"
    else if op.opname = "transformn" then "normal" else "point"
  let tail : List MatrixEmit :=
    if Result.has_derivs && (!P.has_derivs || P_is_uniform) then [MatrixEmit.zero_derivs Result]
    else []
  if result_is_uniform then
    if !to_is_uniform then GenResult.fatal before
    else if !P_is_uniform then GenResult.fatal before
    else
      let has_derivs := Result.has_derivs && P.has_derivs
      GenResult.returned true
        (before ++
          [MatrixEmit.call_function
            (((({ name := op.opname } : FuncSpec).unbatch.arg P has_derivs P_is_uniform).arg_type
                "matrix44" (if To.typespec.is_matrix then to_is_uniform else false)).arg
                Result has_derivs result_is_uniform)
            [MatrixCallArg.llvm_void_ptr Result, MatrixCallArg.void_ptr transform,
             MatrixCallArg.llvm_void_ptr P]] ++ tail)
  else
    let has_derivs := Result.has_derivs && (P.has_derivs && !P_is_uniform)
    GenResult.returned true
      (before ++
        [MatrixEmit.call_function
          ((((({ name := "transform_" ++ triple_type } : FuncSpec).arg P has_derivs
              P_is_uniform).arg Result has_derivs result_is_uniform).arg_type "matrix44"
              (if To.typespec.is_matrix then to_is_uniform else false)).mask)
          [MatrixCallArg.llvm_void_ptr P, MatrixCallArg.llvm_void_ptr Result,
           MatrixCallArg.void_ptr transform, succeeded,
           MatrixCallArg.mask_as_int_current_mask]] ++ tail)

/-- The named-space part of `llvm_gen_transform` ("Named space versions from here on
out"): the identity shortcut for constant space names, the query of the renderer, and the
masked call that builds the transform matrix, followed by the call of the transform
routine. -/
def llvm_gen_transform_named (commonspace_synonym : String) (rend_transform_points : Bool)
    (op : Opcode) (Result : Symbol) (From : Option Symbol) (To P : Symbol) :
    GenResult (List MatrixEmit) :=
  let to_is_uniform := To.is_uniform
  let from_is_constant := match From with
    | none => true
    | some From => From.is_constant
  let from_space := match From with
    | none => Strings.common
    | some From => From.string_data
  let to_space := To.string_data
  let syn := commonspace_synonym
  let from_space := if from_space = syn then Strings.common else from_space
  let to_space := if to_space = syn then Strings.common else to_space
  if from_is_constant && To.is_constant && from_space = to_space then
    GenResult.returned true (if Result ≠ P then [MatrixEmit.assign_impl Result P] else [])
  else if !(false = rend_transform_points) then GenResult.fatal []
  else
    match From with
    | none => GenResult.fatal []
    | some From =>
      let from_is_uniform := From.is_uniform
      let build :=
        MatrixEmit.call_function
          ((((({ name := "build_transform_matrix" } : FuncSpec).arg_type "matrix44" false).arg
              From false from_is_uniform).arg To false to_is_uniform).mask)
          [MatrixCallArg.sg_void_ptr,
           MatrixCallArg.void_ptr TransformPtr.temp_wide_matrix_ptr,
           if from_is_uniform then MatrixCallArg.llvm_load_value From
           else MatrixCallArg.llvm_void_ptr From,
           if to_is_uniform then MatrixCallArg.llvm_load_value To
           else MatrixCallArg.llvm_void_ptr To,
           MatrixCallArg.mask_as_int_current_mask]
      llvm_gen_transform_call op Result To P TransformPtr.temp_wide_matrix_ptr
        MatrixCallArg.returned_by_previous_call [build]

/-- The generator `llvm_gen_transform`; `From` is absent in the three-argument form.  The
test `Result != P` compares the two symbols. -/
def llvm_gen_transform (commonspace_synonym : String) (rend_transform_points : Bool)
    (op : Opcode) : GenResult (List MatrixEmit) :=
  let nargs := op.nargs
  let Result := op.opargsym 0
  let From : Option Symbol := if nargs = 3 then none else some (op.opargsym 1)
  let To := op.opargsym (if nargs = 3 then 1 else 2)
  let P := op.opargsym (if nargs = 3 then 2 else 3)
  if To.typespec.is_matrix then
    if !(From = none) then GenResult.fatal []
    else
      llvm_gen_transform_call op Result To P (TransformPtr.llvm_void_ptr To)
        MatrixCallArg.mask_as_int_current_mask []
  else
    llvm_gen_transform_named commonspace_synonym rend_transform_points op Result From To P

/-- A call in the masked form: the `FuncSpec` has `mask()` applied and the current mask is
the last argument. -/
def MatrixEmit.is_masked_call_or_no_call : MatrixEmit → Bool
  | MatrixEmit.call_function func_spec args =>
    func_spec.is_masked && args.getLast? = some MatrixCallArg.mask_as_int_current_mask
  | _ => true

/-- Whether the current mask is among the arguments of a call. -/
def MatrixEmit.passes_mask : MatrixEmit → Bool
  | MatrixEmit.call_function _ args => args.contains MatrixCallArg.mask_as_int_current_mask
  | _ => false

/-- Whether something emitted is a call. -/
def MatrixEmit.is_call : MatrixEmit → Bool
  | MatrixEmit.call_function _ _ => true
  | _ => false

/-- A `matrix` type. -/
def TypeSpec.matrix : TypeSpec :=
  { basetype := BaseType.FLOAT, aggregate := 16, arraylen := 0, is_closure := false,
    is_matrix := true }

/-- The opcode `transform (Result, M, P)` with a uniform matrix `M` and uniform points
`Result` and `P`. -/
def example_transform_uniform : Opcode :=
  { opname := "transform",
    args := [Symbol.mk_simple "Result" TypeSpec.triple true false,
             Symbol.mk_simple "M" TypeSpec.matrix true false,
             Symbol.mk_simple "P" TypeSpec.triple true false],
    jump := fun _ => 0, analysis_flag := false }

/-- The opcode `transform (Result, "object", "world", P)` with constant space names and
varying points. -/
def example_transform_varying : Opcode :=
  { opname := "transform",
    args := [Symbol.mk_simple "Result" TypeSpec.triple false false,
             Symbol.mk_string_constant "object",
             Symbol.mk_string_constant "world",
             Symbol.mk_simple "P" TypeSpec.triple false false],
    jump := fun _ => 0, analysis_flag := false }

end Transform

end OSL

namespace OSL

/-! ## Closure operands of the arithmetic and comparison generators -/

section Closure

/-- A closure type. -/
def TypeSpec.closure : TypeSpec :=
  { basetype := BaseType.UNKNOWN, aggregate := 1, arraylen := 0, is_closure := true,
    is_matrix := false }

/-- A varying closure operand on four lanes. -/
def closure_operand (name : String) : Operand 4 Int :=
  { sym := Symbol.mk_simple name TypeSpec.closure false false, scalar := fun _ _ => 0,
    wide := fun _ _ _ => 0 }

/-- A varying int operand on four lanes holding zero. -/
def int_operand (name : String) : Operand 4 Int :=
  Operand.varying_scalar 4 name TypeSpec.int (fun _ => 0)

end Closure

end OSL

namespace OSL

/-! ## Comparisons and integer division, lane by lane -/

section CompareSpec

variable {W : Nat} {α : Type}

/-- The content of component `i` of the value channel of an operand in lane `l`, as the
generators load it: the scalar of a uniform operand in every lane, the lane of a varying
one; a scalar operand serves every component. -/
def Operand.lane_value (o : Operand W α) (i : Nat) (l : Fin W) : α :=
  if o.sym.is_uniform then o.scalar 0 (o.component i) else o.wide 0 (o.component i) l

/-- The pair of values that a comparison compares for component `i` in lane `l`: the
components of the two operands, except that a scalar compared with a matrix is replaced by
zero off the diagonal (`i / 4 != i % 4`). -/
def compared_pair (ops : ScalarOps α) (A B : Operand W α) (i : Nat) (l : Fin W) : α × α :=
  (if !A.sym.typespec.is_matrix && B.sym.typespec.is_matrix && i / 4 ≠ i % 4 then ops.zero
   else A.lane_value i l,
   if A.sym.typespec.is_matrix && !B.sym.typespec.is_matrix && i / 4 ≠ i % 4 then ops.zero
   else B.lane_value i l)

/-- The store that ends `llvm_gen_compare_op`: the boolean result itself when Result is kept
as a boolean, else its conversion to an int. -/
def compare_store (ops : ScalarOps α) (forced_llvm_bool : Bool) (final_result : Value W Bool) :
    Action W α :=
  if forced_llvm_bool then Action.store_bool final_result
  else Action.store 0 0 (Value.map ops.bool_to_int final_result)

/-- The second operand of the division instruction that `llvm_gen_div` emits for integers:
the divisor itself when `B` is a constant that is not zero, else `op_select(b_not_zero, b,
c_one)`. -/
def div_divisor (ops : ScalarOps α) (B : Operand W α) (op_is_uniform : Bool) (b : Value W α) :
    Value W α :=
  if B.sym.is_constant && !is_zero ops B then b
  else
    Value.select (Value.map2 ops.ne b (constant_for op_is_uniform ops.zero)) b
      (constant_for op_is_uniform ops.one)

/-- A varying int operand on four lanes holding 7, -8, 9 and 10. -/
def example_dividend : Operand 4 Int :=
  Operand.varying_scalar 4 "a" TypeSpec.int
    (fun l => if l.val = 0 then 7 else if l.val = 1 then -8 else if l.val = 2 then 9 else 10)

/-- A varying int operand on four lanes holding 2, 0, -3 and 0. -/
def example_divisor : Operand 4 Int :=
  Operand.varying_scalar 4 "b" TypeSpec.int
    (fun l => if l.val = 0 then 2 else if l.val = 2 then -3 else 0)

/-- A varying int Result on four lanes. -/
def example_quotient : Operand 4 Int :=
  Operand.varying_scalar 4 "Result" TypeSpec.int (fun _ => 0)

/-- A varying 4x4 matrix operand on two lanes: twice the identity in lane 0, and the same
with a 1 in row 0, column 1 in lane 1. -/
def example_matrix : Operand 2 Int :=
  { sym := Symbol.mk_simple "M" TypeSpec.matrix false false,
    scalar := fun _ _ => 0,
    wide := fun _ i l =>
      if i / 4 = i % 4 then 2 else if i = 1 ∧ l.val = 1 then 1 else 0 }

/-- A uniform scalar operand holding 2, on two lanes. -/
def example_two : Operand 2 Int := Operand.uniform_scalar 2 "f" TypeSpec.float 2

/-- A varying int Result on two lanes. -/
def example_bool_Result : Operand 2 Int :=
  Operand.varying_scalar 2 "Result" TypeSpec.int (fun _ => 0)

/-- The lanes of the boolean stored by a comparison, lane 0 first. -/
def stored_bool_lanes (acts : List (Action W α)) : List (List Bool) :=
  acts.filterMap fun a =>
    match a with
    | Action.store_bool v => some (List.ofFn v.lane)
    | _ => none

end CompareSpec

end OSL

namespace OSL

/-! ## Vector component assignment -/

section CompAssign

variable {W : Nat} {α : Type}

/-- Modelled from the spec: `llvm_store_component_value(val, Result, deriv, component)`
(definition missing) stores into the component selected by a run-time index. -/
def llvm_store_component_value (val : Value W α) (d : Nat) (c : Int) : Action W α :=
  Action.store d c.toNat val

/-- The generator `llvm_gen_compassign`.  `range_checking` is the option of the shader
master, `routine` and `masked_routine` are the scalar and the masked `range_check` routines,
`mask` is the current mask, and `index_scalar` / `index_wide` is the content of the Index
symbol when it is uniform / varying.  The components of Result loaded in the varying branch
are its content before the assignment. -/
def llvm_gen_compassign (ops : ScalarOps α) (range_checking : Bool) (routine : Int → Int → Int)
    (masked_routine : Wide W Int → Mask W → Int → Wide W Int) (mask : Mask W)
    (Result Val : Operand W α) (Index : Symbol) (index_scalar : Int)
    (index_wide : Wide W Int) : GenResult (List (Action W α)) :=
  let op_is_uniform := Result.sym.is_uniform
  if Index.is_uniform then
    let c : Int := index_scalar
    let checked :=
      range_checking
        && !(Index.is_constant && decide (Index.int_data ≥ 0) && decide (Index.int_data < 3))
    let c := if checked then routine index_scalar 3 else c
    let checks : List (Action W α) :=
      if checked then [Action.call "range_check" false false] else []
    GenResult.returned true
      (checks ++
        ((deriv_channels Result.sym.has_derivs).map fun d =>
          match llvm_load_value ops Val d 0 op_is_uniform with
          | some val =>
            if Index.is_constant then
              let i := Index.int_data
              let i := if i < 0 then 0 else if i > 2 then 2 else i
              [Action.store d i.toNat val]
            else [llvm_store_component_value val d c]
          | none => []).flatten)
  else
    if !(Index.is_constant == false) then GenResult.fatal []
    else if !(op_is_uniform == false) then GenResult.fatal []
    else
      let c : Wide W Int := index_wide
      let c := if range_checking then masked_routine c mask 3 else c
      let checks : List (Action W α) :=
        if range_checking then [Action.call "range_check" false true] else []
      let comp0Mask : Value W Bool := Value.wide fun l => decide (c l = 0)
      let comp1Mask : Value W Bool := Value.wide fun l => decide (c l = 1)
      let comp2Mask : Value W Bool := Value.wide fun l => decide (c l = 2)
      GenResult.returned true
        (checks ++
          ((deriv_channels Result.sym.has_derivs).map fun d =>
            match llvm_load_value ops Val d 0 op_is_uniform,
                  llvm_load_value ops Result d 0 op_is_uniform,
                  llvm_load_value ops Result d 1 op_is_uniform,
                  llvm_load_value ops Result d 2 op_is_uniform with
            | some val, some valc0, some valc1, some valc2 =>
              let resultc0 := Value.select comp0Mask val valc0
              let resultc1 := Value.select comp1Mask val valc1
              let resultc2 := Value.select comp2Mask val valc2
              [Action.store d 0 resultc0, Action.store d 1 resultc1, Action.store d 2 resultc2]
            | _, _, _, _ => []).flatten)

/-- A varying vector Result on four lanes whose components 0, 1, 2 hold 1, 2, 3 in every
lane before the assignment. -/
def compassign_Result : Operand 4 Int :=
  { sym := Symbol.mk_simple "Result" TypeSpec.triple false false, scalar := fun _ _ => 0,
    wide := fun _ c _ => if c = 0 then 1 else if c = 1 then 2 else 3 }

/-- A varying float `Val` on four lanes holding 9 in every lane. -/
def compassign_Val : Operand 4 Int :=
  { sym := Symbol.mk_simple "Val" TypeSpec.float false false, scalar := fun _ _ => 0,
    wide := fun _ _ _ => 9 }

/-- The index vector 0, 1, 2, 5 on four lanes. -/
def compassign_index_lanes : Wide 4 Int :=
  fun l => if l.val = 0 then 0 else if l.val = 1 then 1 else if l.val = 2 then 2 else 5

end CompAssign

end OSL

namespace OSL

/-! ## Calls of upstream layers: `llvm_call_layer`, `llvm_run_connected_layers`,
`llvm_gen_useparam` -/

section CallLayer

variable {W : Nat}

/-- A mask value built by `llvm_call_layer`: the run field of a layer read as a mask
(`int_as_mask(op_load(layerfield))`), a constant, the current mask, the shader mask, a
select. -/
inductive LayerMask
  | int_as_mask_op_load (layerfield : Nat)
  | wide_constant_bool (b : Bool)
  | current_mask
  | shader_mask
  | op_select (cond x y : LayerMask)
  deriving DecidableEq, Repr

/-- An integer value built by `llvm_call_layer`. -/
inductive LayerInt
  | mask_as_int (m : LayerMask)
  | constant (n : Nat)
  deriving DecidableEq, Repr

/-- An instruction emitted by `llvm_call_layer`: a branch on `op_ne(a, b)`, a branch, the
move of the insert point to a block (the instructions that follow are those of the block),
the call of a layer function with the arguments `sg_ptr()`, `groupdata_ptr()` and a mask as
integer, marked as fast call or not. -/
inductive LayerInstr
  | op_branch_if_ne (a b : LayerInt) (true_block false_block : BasicBlock)
  | op_branch (block : BasicBlock)
  | insert_point (block : BasicBlock)
  | call_function (name : String) (lanes : LayerInt) (fast_func_call : Bool)
  deriving DecidableEq, Repr

/-- The part of the builder that `llvm_call_layer` uses: the number of blocks created and the
instructions emitted. -/
structure LayerBuilder where
  block_count : Nat
  code : List LayerInstr
  deriving DecidableEq, Repr

/-- What `llvm_call_layer` reads of the backend and of the shader group: the selector of the
library, the index of the run field of a layer (`layer_remap`), the name of the function of a
layer, and whether a layer is an entry layer. -/
structure LayerGroup where
  m_library_selector : String
  layer_remap : Nat → Nat
  layer_function_name : Nat → String
  entry_layer : Nat → Bool

/-- The function `BatchedBackendLLVM::llvm_call_layer`.  The branch on a condition moves the
insert point to its true block, and the branch to a block moves it to that block. -/
def llvm_call_layer (g : LayerGroup) (layer : Nat) (unconditional : Bool) (s : LayerBuilder) :
    LayerBuilder :=
  let layerfield := g.layer_remap layer
  let name := g.m_library_selector ++ "_" ++ g.layer_function_name layer
  let fast := !g.entry_layer layer
  if !unconditional then
    let previously_executed := LayerMask.int_as_mask_op_load layerfield
    let lanes_requiring_execution :=
      LayerMask.op_select previously_executed (LayerMask.wide_constant_bool false)
        LayerMask.current_mask
    let lanes_requiring_execution_value := LayerInt.mask_as_int lanes_requiring_execution
    let then_block := s.block_count
    let after_block := s.block_count + 1
    { block_count := s.block_count + 2,
      code := s.code ++
        [LayerInstr.op_branch_if_ne lanes_requiring_execution_value (LayerInt.constant 0)
           then_block after_block,
         LayerInstr.insert_point then_block,
         LayerInstr.call_function name lanes_requiring_execution_value fast,
         LayerInstr.op_branch after_block,
         LayerInstr.insert_point after_block] }
  else
    { s with
      code := s.code ++
        [LayerInstr.call_function name (LayerInt.mask_as_int LayerMask.shader_mask) fast] }

/-- The masks at run time: the run field of each layer read as a mask, the current mask and
the shader mask. -/
structure LayerEnv (W : Nat) where
  layer_run : Nat → Mask W
  current_mask : Mask W
  shader_mask : Mask W

/-- The run-time value of a mask. -/
def LayerMask.eval (env : LayerEnv W) : LayerMask → Mask W
  | LayerMask.int_as_mask_op_load layerfield => env.layer_run layerfield
  | LayerMask.wide_constant_bool b => Mask.const W b
  | LayerMask.current_mask => env.current_mask
  | LayerMask.shader_mask => env.shader_mask
  | LayerMask.op_select cond x y => Mask.select (cond.eval env) (x.eval env) (y.eval env)

/-- The run-time value of an integer. -/
def LayerInt.eval (env : LayerEnv W) : LayerInt → Nat
  | LayerInt.mask_as_int m => OSL.mask_as_int (m.eval env)
  | LayerInt.constant n => n

/-- A call of a layer function made at run time, with the mask it receives. -/
structure LayerCall where
  name : String
  lanes : Nat
  fast_func_call : Bool
  deriving DecidableEq, Repr

/-- The instructions of a block: those that follow the move of the insert point to it. -/
def find_block (block : BasicBlock) : List LayerInstr → Option (List LayerInstr)
  | [] => none
  | i :: rest => if i = LayerInstr.insert_point block then some rest else find_block block rest

/-- Run instructions of the code `code` from a position, for at most `fuel` instructions: the
layer calls made, and whether the run reached the end of the code. -/
def run_layer_code (env : LayerEnv W) (code : List LayerInstr) :
    Nat → List LayerInstr → List LayerCall × Bool
  | 0, _ => ([], false)
  | _ + 1, [] => ([], true)
  | fuel + 1, LayerInstr.op_branch_if_ne a b t f :: _ =>
    match find_block (if a.eval env ≠ b.eval env then t else f) code with
    | some block => run_layer_code env code fuel block
    | none => ([], false)
  | fuel + 1, LayerInstr.op_branch block :: _ =>
    match find_block block code with
    | some block => run_layer_code env code fuel block
    | none => ([], false)
  | fuel + 1, LayerInstr.insert_point _ :: rest => run_layer_code env code fuel rest
  | fuel + 1, LayerInstr.call_function name lanes fast :: rest =>
    let r := run_layer_code env code fuel rest
    ({ name := name, lanes := lanes.eval env, fast_func_call := fast } :: r.1, r.2)

/-- Run what `llvm_call_layer` emitted on top of the builder `s`. -/
def run_call_layer (env : LayerEnv W) (g : LayerGroup) (layer : Nat) (unconditional : Bool)
    (s : LayerBuilder) (fuel : Nat) : List LayerCall × Bool :=
  let s2 := llvm_call_layer g layer unconditional s
  run_layer_code env s2.code fuel (s2.code.drop s.code.length)

/-- The blocks whose instructions the builder holds were all created by it. -/
def LayerBuilder.blocks_created (s : LayerBuilder) : Prop :=
  ∀ b, LayerInstr.insert_point b ∈ s.code → b < s.block_count

/-- The lanes that require the execution of a layer: active in the current mask and not set
in the run field of the layer. -/
def lanes_requiring_execution (env : LayerEnv W) (layerfield : Nat) : Mask W :=
  fun l => env.current_mask l && !env.layer_run layerfield l

/-- A group of two layers. -/
def example_group : LayerGroup :=
  { m_library_selector := "b8_AVX2", layer_remap := fun layer => layer,
    layer_function_name := fun layer => if layer = 0 then "layer_0" else "layer_1",
    entry_layer := fun _ => false }

/-- Four lanes: lanes 0, 1, 2 active, and layer 0 has run for lanes 0 and 3. -/
def example_layer_env : LayerEnv 4 :=
  { layer_run := fun _ l => decide (l.val = 0 ∨ l.val = 3),
    current_mask := fun l => decide (l.val < 3),
    shader_mask := fun _ => true }

/-- Four lanes: lanes 0 and 3 active, and layer 0 has run for lanes 0 and 3. -/
def example_layer_env_done : LayerEnv 4 :=
  { layer_run := fun _ l => decide (l.val = 0 ∨ l.val = 3),
    current_mask := fun l => decide (l.val = 0 ∨ l.val = 3),
    shader_mask := fun _ => true }

end CallLayer

end OSL

namespace OSL

/-! ## Running the connected upstream layers -/

section ConnectedLayers

/-- The source of the value of a symbol (`Symbol::ValueSource`). -/
inductive ValueSource
  | DefaultVal
  | InstanceVal
  | GeomVal
  | ConnectedVal
  deriving DecidableEq, Repr

/-- A connection of the instance: the upstream layer it comes from and the parameter it
gives a value to (`con.srclayer`, `con.dst.param`). -/
structure Connection where
  srclayer : Nat
  dst_param : Nat
  deriving DecidableEq, Repr

/-- The part of `ShaderInstance` that the two functions read. -/
structure ShaderInstance where
  maincodebegin : Nat
  maincodeend : Nat
  connections : List Connection
  unused : Bool

/-- The state of the backend that the two functions change: the instance-wide set
`m_layers_already_run`, the layers for which `llvm_call_layer` was called, in order, and the
parameters for which `llvm_assign_initial_value` was called. -/
structure LayerRunState where
  m_layers_already_run : Finset Nat
  layer_calls : List Nat
  initial_values : List Symbol

/-- The loop of `llvm_run_connected_layers` over the connections of the instance. -/
def run_connections (m_in_conditional : Nat → Bool) (inmain : Bool) (symindex opnum : Nat) :
    List Connection → Option (Finset Nat) → LayerRunState → Option (Finset Nat) × LayerRunState
  | [], already_run, st => (already_run, st)
  | con :: rest, already_run, st =>
    if con.dst_param = symindex then
      let seen : Bool := match already_run with
        | some ar => decide (con.srclayer ∈ ar)
        | none => false
      if seen then run_connections m_in_conditional inmain symindex opnum rest already_run st
      else
        let already_run := already_run.map fun ar => insert con.srclayer ar
        if inmain && decide (con.srclayer ∈ st.m_layers_already_run) then
          run_connections m_in_conditional inmain symindex opnum rest already_run st
        else
          let st :=
            if inmain && !m_in_conditional opnum then
              { st with m_layers_already_run := insert con.srclayer st.m_layers_already_run }
            else st
          let st := { st with layer_calls := st.layer_calls ++ [con.srclayer] }
          run_connections m_in_conditional inmain symindex opnum rest already_run st
    else run_connections m_in_conditional inmain symindex opnum rest already_run st

/-- Whether an op is in the main code section of the instance. -/
def ShaderInstance.inmain (inst : ShaderInstance) (opnum : Nat) : Bool :=
  decide (opnum ≥ inst.maincodebegin) && decide (opnum < inst.maincodeend)

/-- The function `BatchedBackendLLVM::llvm_run_connected_layers`; `valuesource` is
`sym.valuesource()` and `already_run` the set of the caller, if it passes one. -/
def llvm_run_connected_layers (inst : ShaderInstance) (m_in_conditional : Nat → Bool)
    (valuesource : ValueSource) (symindex opnum : Nat) (already_run : Option (Finset Nat))
    (st : LayerRunState) : Option (Finset Nat) × LayerRunState :=
  if valuesource ≠ ValueSource.ConnectedVal then (already_run, st)
  else
    let inmain := inst.inmain opnum
    run_connections m_in_conditional inmain symindex opnum inst.connections already_run st

/-- An argument of a `useparam` op: the symbol, its index in the instance
(`rop.inst()->arg(op.firstarg() + i)`), its value source, and whether it is a parameter to
initialize lazily (`symtype() == SymTypeParam`, no `lockgeom()`, not a closure, neither
`connected()` nor `connected_down()`). -/
structure UseparamArg where
  sym : Symbol
  symindex : Nat
  valuesource : ValueSource
  is_param : Bool
  lockgeom : Bool
  connected : Bool
  connected_down : Bool

/-- The loop of `llvm_gen_useparam` over the arguments of the op. -/
def useparam_args (inst : ShaderInstance) (m_in_conditional : Nat → Bool)
    (lazy_userdata : Bool) (opnum : Nat) :
    List UseparamArg → Finset Nat → LayerRunState → Finset Nat × LayerRunState
  | [], already_run, st => (already_run, st)
  | a :: rest, already_run, st =>
    let r := llvm_run_connected_layers inst m_in_conditional a.valuesource a.symindex opnum
      (some already_run) st
    let st := r.2
    let st :=
      if a.is_param && !a.lockgeom && !a.sym.typespec.is_closure && !a.connected
          && !a.connected_down && lazy_userdata then
        { st with initial_values := st.initial_values ++ [a.sym] }
      else st
    useparam_args inst m_in_conditional lazy_userdata opnum rest (r.1.getD already_run) st

/-- The generator `llvm_gen_useparam`. -/
def llvm_gen_useparam (inst : ShaderInstance) (m_in_conditional : Nat → Bool)
    (lazy_userdata : Bool) (opnum : Nat) (args : List UseparamArg) (st : LayerRunState) :
    GenResult LayerRunState :=
  if !(!inst.unused) then GenResult.fatal st
  else
    GenResult.returned true
      (useparam_args inst m_in_conditional lazy_userdata opnum args ∅ st).2

/-- One call of `llvm_run_connected_layers`. -/
structure RunCall where
  valuesource : ValueSource
  symindex : Nat
  opnum : Nat
  already_run : Option (Finset Nat)

/-- The state after one call of `llvm_run_connected_layers`. -/
def RunCall.run (inst : ShaderInstance) (m_in_conditional : Nat → Bool) (c : RunCall)
    (st : LayerRunState) : LayerRunState :=
  (llvm_run_connected_layers inst m_in_conditional c.valuesource c.symindex c.opnum
    c.already_run st).2

/-- The state after a sequence of calls of `llvm_run_connected_layers`. -/
def run_calls (inst : ShaderInstance) (m_in_conditional : Nat → Bool) :
    List RunCall → LayerRunState → LayerRunState
  | [], st => st
  | c :: rest, st => run_calls inst m_in_conditional rest (c.run inst m_in_conditional st)

/-- The layer calls emitted between two states. -/
def emitted_calls (before after : LayerRunState) : List Nat :=
  after.layer_calls.drop before.layer_calls.length

/-- An instance whose main code is the ops 2 to 9, with parameter 0 connected to the layers
5 and 6 and parameter 1 connected to layer 5. -/
def example_instance : ShaderInstance :=
  { maincodebegin := 2, maincodeend := 10,
    connections := [{ srclayer := 5, dst_param := 0 }, { srclayer := 6, dst_param := 0 },
                    { srclayer := 5, dst_param := 1 }],
    unused := false }

/-- Op 4 is inside a conditional, the other ops are not. -/
def example_in_conditional : Nat → Bool := fun opnum => decide (opnum = 4)

/-- The state before any layer call. -/
def LayerRunState.start : LayerRunState :=
  { m_layers_already_run := ∅, layer_calls := [], initial_values := [] }

/-- The connected parameter with index `symindex`. -/
def connected_param (symindex : Nat) : UseparamArg :=
  { sym := Symbol.mk_simple "param" TypeSpec.float false false, symindex := symindex,
    valuesource := ValueSource.ConnectedVal, is_param := true, lockgeom := true,
    connected := true, connected_down := false }

/-- A call of `llvm_run_connected_layers` for a connected parameter, without a set of the
caller. -/
def connected_call (symindex opnum : Nat) : RunCall :=
  { valuesource := ValueSource.ConnectedVal, symindex := symindex, opnum := opnum,
    already_run := none }

end ConnectedLayers

end OSL

namespace OSL

/-! ## Formatted output: value arguments and directives -/

section PrintfCount

/-- The opcode `printf ("%g", C)` with a varying color `C`. -/
def example_printf_triple : Opcode :=
  { opname := "printf",
    args := [Symbol.mk_format "%g", Symbol.mk_simple "C" TypeSpec.color false false],
    jump := fun _ => 0, analysis_flag := false }

end PrintfCount

end OSL

namespace OSL

/-! ## `shade_image`: saving the outputs of a pixel

A verification development for the loop of `src/liboslexec/shadeimage.cpp` that copies the
designated outputs of the shader into the channels of a pixel.  The `int` of the source is
a signed 32-bit integer. -/

section ShadeImage

variable {β : Type}

/-- An output of the shader at one pixel: its type (`output_type[i]`) and what
`shadingsys.symbol_address` returns for it, a null pointer (`none`) or the address of its
values. -/
structure ShaderOutput (β : Type) where
  t : TypeSpec
  data : Option (Nat → β)

/-- The number of channels of an output, `output_type[i].numelements() *
output_type[i].aggregate` converted to `int`. -/
def output_nchans (t : TypeSpec) : Int := wrap32 ((t.numelements * t.aggregate : Nat) : Int)

/-- The state of the loop over the outputs: the running channel index `chan`, the channels
of the pixel written so far with the values written (`p[chan++] = ...`), in order, and
whether the loop was left by `break`. -/
structure CopyState (β : Type) where
  chan : Int
  writes : List (Int × β)
  stopped : Bool

/-- The inner loop `for (int c = 0; c < count; ++c) p[chan++] = data[c]`. -/
def write_channels (data : Nat → β) (count : Int) (st : CopyState β) : CopyState β :=
  { st with
    chan := wrap32 (st.chan + (count.toNat : Int)),
    writes := st.writes ++ (List.range count.toNat).map fun c => (wrap32 (st.chan + Int.ofNat c), data c) }

/-- One iteration of the loop over the outputs in `shade_image`, for a buffer of `nchannels`
channels: a null address skips the output; an output that does not fit leaves the loop;
a float output and an int output are copied; any other output is dropped. -/
def save_output (nchannels : Int) (st : CopyState β) (o : ShaderOutput β) : CopyState β :=
  if st.stopped then st
  else
    match o.data with
    | none => st
    | some data =>
      let t := o.t
      let tvals := output_nchans o.t
      if wrap32 (st.chan + tvals) > nchannels then { st with stopped := true }
      else if t.basetype = BaseType.FLOAT then write_channels data tvals st
      else if t.basetype = BaseType.INT then
        write_channels data (wrap32 (wrap32 (t.numelements : Int) * (t.aggregate : Int))) st
      else st

/-- The loop over the outputs in `shade_image` for one pixel (`int chan = 0; for (int i = 0;
i < int(outputs.size()); ++i) ...`). -/
def save_outputs (nchannels : Int) (outputs : List (ShaderOutput β)) : CopyState β :=
  outputs.foldl (save_output nchannels) { chan := 0, writes := [], stopped := false }

/-- The values that an output that is copied writes, starting at channel `chan`. -/
def output_writes (chan : Int) (o : ShaderOutput β) (data : Nat → β) : List (Int × β) :=
  (List.range (o.t.numelements * o.t.aggregate)).map fun c => (chan + Int.ofNat c, data c)

/-- The sizes of the outputs leave room in an `int`: the number of values of each output,
added to the number of channels of the buffer, is below `2 ^ 31`. -/
def sizes_fit_int (nchannels : Int) (outputs : List (ShaderOutput β)) : Prop :=
  ∀ o ∈ outputs, nchannels + ((o.t.numelements * o.t.aggregate : Nat) : Int) < 2 ^ 31

/-- One iteration of the loop in exact arithmetic: after a `break` nothing changes; an
output with a null address is skipped; an output whose values do not all fit below
`nchannels` stops the copy; a float or int output that fits is written to the next channels
and advances the channel index by its number of values; any other output that fits changes
nothing. -/
def save_output_spec (nchannels : Int) (st : CopyState β) (o : ShaderOutput β) : CopyState β :=
  if st.stopped then st
  else
    match o.data with
    | none => st
    | some data =>
      if st.chan + ((o.t.numelements * o.t.aggregate : Nat) : Int) > nchannels then
        { st with stopped := true }
      else if o.t.basetype = BaseType.FLOAT ∨ o.t.basetype = BaseType.INT then
        { chan := st.chan + ((o.t.numelements * o.t.aggregate : Nat) : Int),
          writes := st.writes ++ output_writes st.chan o data,
          stopped := st.stopped }
      else st

/-- The invariant of the loop: the channel index is between 0 and the number of channels,
and the channels written so far are 0, 1, ... up to the channel index. -/
def CopyState.inv (n : Int) (st : CopyState β) : Prop :=
  0 ≤ st.chan ∧ st.chan ≤ n ∧ st.chan = (st.writes.length : Int)
    ∧ st.writes.map Prod.fst = (List.range st.writes.length).map Int.ofNat

/-- A color output holding 1, 2, 3. -/
def example_color_output : ShaderOutput Int :=
  { t := TypeSpec.color, data := some fun c => Int.ofNat c + 1 }

/-- A float output holding 7. -/
def example_float_output : ShaderOutput Int :=
  { t := TypeSpec.float, data := some fun _ => 7 }

/-- An output whose symbol is not found. -/
def example_missing_output : ShaderOutput Int :=
  { t := TypeSpec.float, data := none }

/-- A string output. -/
def example_string_output : ShaderOutput Int :=
  { t := TypeSpec.string, data := some fun _ => 0 }

/-- The channel indices and values written by a run of the loop. -/
def CopyState.summary (st : CopyState Int) : Int × List (Int × Int) × Bool :=
  (st.chan, st.writes, st.stopped)

end ShadeImage

end OSL

namespace OSL

/-! ## Effect of the builder operations on the mask stack -/

section

variable {V : Type}

namespace LLVM_Util

@[simp] theorem mask_stack_op_branch (s : LLVM_Util V) (b : BasicBlock) :
    (s.op_branch b).mask_stack = s.mask_stack := rfl

@[simp] theorem net_pushes_op_branch (s : LLVM_Util V) (b : BasicBlock) :
    (s.op_branch b).net_pushes = s.net_pushes := rfl

@[simp] theorem mask_stack_op_cond_branch (s : LLVM_Util V) (c : V) (t f : BasicBlock) :
    (s.op_cond_branch c t f).mask_stack = s.mask_stack := rfl

@[simp] theorem net_pushes_op_cond_branch (s : LLVM_Util V) (c : V) (t f : BasicBlock) :
    (s.op_cond_branch c t f).net_pushes = s.net_pushes := rfl

@[simp] theorem mask_stack_set_insert_point (s : LLVM_Util V) (b : BasicBlock) :
    (s.set_insert_point b).mask_stack = s.mask_stack := rfl

@[simp] theorem net_pushes_set_insert_point (s : LLVM_Util V) (b : BasicBlock) :
    (s.set_insert_point b).net_pushes = s.net_pushes := rfl

@[simp] theorem mask_stack_op_store_mask (s : LLVM_Util V) (v : V) (loc : Slot) :
    (s.op_store_mask v loc).mask_stack = s.mask_stack := rfl

@[simp] theorem net_pushes_op_store_mask (s : LLVM_Util V) (v : V) (loc : Slot) :
    (s.op_store_mask v loc).net_pushes = s.net_pushes := rfl

@[simp] theorem mask_stack_emit (s : LLVM_Util V) (i : Instr V) :
    (s.emit i).mask_stack = s.mask_stack := rfl

@[simp] theorem net_pushes_emit (s : LLVM_Util V) (i : Instr V) :
    (s.emit i).net_pushes = s.net_pushes := rfl

@[simp] theorem mask_stack_new_basic_block (s : LLVM_Util V)  :
    (s.new_basic_block.2).mask_stack = s.mask_stack := rfl

@[simp] theorem net_pushes_new_basic_block (s : LLVM_Util V)  :
    (s.new_basic_block.2).net_pushes = s.net_pushes := rfl

@[simp] theorem mask_stack_getTempMask (s : LLVM_Util V)  :
    (s.getTempMask.2).mask_stack = s.mask_stack := rfl

@[simp] theorem net_pushes_getTempMask (s : LLVM_Util V)  :
    (s.getTempMask.2).net_pushes = s.net_pushes := rfl

@[simp] theorem mask_stack_push_masked_return_block (s : LLVM_Util V) (b : BasicBlock) :
    (s.push_masked_return_block b).mask_stack = s.mask_stack := rfl

@[simp] theorem net_pushes_push_masked_return_block (s : LLVM_Util V) (b : BasicBlock) :
    (s.push_masked_return_block b).net_pushes = s.net_pushes := rfl

@[simp] theorem mask_stack_pop_masked_return_block (s : LLVM_Util V)  :
    (s.pop_masked_return_block).mask_stack = s.mask_stack := rfl

@[simp] theorem net_pushes_pop_masked_return_block (s : LLVM_Util V)  :
    (s.pop_masked_return_block).net_pushes = s.net_pushes := rfl

@[simp] theorem mask_stack_push_loop (s : LLVM_Util V) (a b : BasicBlock) :
    (s.push_loop a b).mask_stack = s.mask_stack := rfl

@[simp] theorem net_pushes_push_loop (s : LLVM_Util V) (a b : BasicBlock) :
    (s.push_loop a b).net_pushes = s.net_pushes := rfl

@[simp] theorem mask_stack_pop_loop (s : LLVM_Util V)  :
    (s.pop_loop).mask_stack = s.mask_stack := rfl

@[simp] theorem net_pushes_pop_loop (s : LLVM_Util V)  :
    (s.pop_loop).net_pushes = s.net_pushes := rfl

@[simp] theorem mask_stack_push_masked_loop (s : LLVM_Util V) (a b : Option Slot) :
    (s.push_masked_loop a b).mask_stack = s.mask_stack := rfl

@[simp] theorem net_pushes_push_masked_loop (s : LLVM_Util V) (a b : Option Slot) :
    (s.push_masked_loop a b).net_pushes = s.net_pushes := rfl

@[simp] theorem mask_stack_pop_masked_loop (s : LLVM_Util V)  :
    (s.pop_masked_loop).mask_stack = s.mask_stack := rfl

@[simp] theorem net_pushes_pop_masked_loop (s : LLVM_Util V)  :
    (s.pop_masked_loop).net_pushes = s.net_pushes := rfl

@[simp] theorem mask_stack_push_function (s : LLVM_Util V)  :
    (s.push_function.2).mask_stack = s.mask_stack := rfl

@[simp] theorem net_pushes_push_function (s : LLVM_Util V)  :
    (s.push_function.2).net_pushes = s.net_pushes := rfl

@[simp] theorem mask_stack_pop_function (s : LLVM_Util V)  :
    (s.pop_function).mask_stack = s.mask_stack := rfl

@[simp] theorem net_pushes_pop_function (s : LLVM_Util V)  :
    (s.pop_function).net_pushes = s.net_pushes := rfl

@[simp] theorem mask_stack_push_mask (s : LLVM_Util V) (m : V) (n a : Bool) :
    (s.push_mask m n a).mask_stack = { mask := m, negate := n, absolute := a } :: s.mask_stack :=
  rfl

@[simp] theorem net_pushes_push_mask (s : LLVM_Util V) (m : V) (n a : Bool) :
    (s.push_mask m n a).net_pushes = s.net_pushes + 1 := by
  simp only [net_pushes, push_mask]; push_cast; ring

@[simp] theorem mask_stack_pop_mask (s : LLVM_Util V) :
    s.pop_mask.mask_stack = s.mask_stack.tail := rfl

@[simp] theorem net_pushes_pop_mask (s : LLVM_Util V) :
    s.pop_mask.net_pushes = s.net_pushes - 1 := by
  simp only [net_pushes, pop_mask]; push_cast; ring

@[simp] theorem length_mask_stack_map_top (s : LLVM_Util V) (f : V → V) :
    (s.map_top f).mask_stack.length = s.mask_stack.length := by
  unfold map_top
  cases h : s.mask_stack <;> simp

@[simp] theorem tail_mask_stack_map_top (s : LLVM_Util V) (f : V → V) :
    (s.map_top f).mask_stack.tail = s.mask_stack.tail := by
  unfold map_top
  cases h : s.mask_stack <;> simp

@[simp] theorem net_pushes_map_top (s : LLVM_Util V) (f : V → V) :
    (s.map_top f).net_pushes = s.net_pushes := rfl

@[simp] theorem mask_stack_push_function_mask (s : LLVM_Util V) (m : V) :
    (s.push_function_mask m).mask_stack
      = { mask := m, negate := false, absolute := true } :: s.mask_stack := rfl

@[simp] theorem net_pushes_push_function_mask (s : LLVM_Util V) (m : V) :
    (s.push_function_mask m).net_pushes = s.net_pushes + 1 := by
  simp only [net_pushes, push_function_mask, push_mask]; push_cast; ring

@[simp] theorem mask_stack_pop_function_mask (s : LLVM_Util V) :
    s.pop_function_mask.mask_stack = s.mask_stack.tail := rfl

@[simp] theorem net_pushes_pop_function_mask (s : LLVM_Util V) :
    s.pop_function_mask.net_pushes = s.net_pushes - 1 := by
  simp only [net_pushes, pop_function_mask, pop_mask]; push_cast; ring

end LLVM_Util

end

end OSL

namespace OSL

/-! ## Mask-stack balance of the control-flow generators -/

section

variable {V : Type}

theorem MaskBalanced.refl (s : LLVM_Util V) : MaskBalanced s s := ⟨rfl, rfl⟩

theorem mask_stack_if_then_entry (P : Prims V) (op : Opcode) (s : LLVM_Util V) :
    (llvm_gen_if_then_entry P op s).2.mask_stack
      = { mask := P.llvm_load_mask (op.opargsym 0), negate := false, absolute := false }
          :: s.mask_stack := by
  unfold llvm_gen_if_then_entry
  by_cases h : op.jump 0 = op.jump 1 <;> simp [h]

theorem net_pushes_if_then_entry (P : Prims V) (op : Opcode) (s : LLVM_Util V) :
    (llvm_gen_if_then_entry P op s).2.net_pushes = s.net_pushes + 1 := by
  unfold llvm_gen_if_then_entry
  by_cases h : op.jump 0 = op.jump 1 <;> simp [h]

theorem mask_stack_if_then_exit (op : Opcode) (b : IfBlocks) (s : LLVM_Util V) :
    (llvm_gen_if_then_exit op b s).mask_stack = s.mask_stack.tail := by
  simp [llvm_gen_if_then_exit]

theorem net_pushes_if_then_exit (op : Opcode) (b : IfBlocks) (s : LLVM_Util V) :
    (llvm_gen_if_then_exit op b s).net_pushes = s.net_pushes - 1 := by
  simp [llvm_gen_if_then_exit]

theorem mask_stack_if_else_entry (P : Prims V) (op : Opcode) (b : IfBlocks) (s : LLVM_Util V) :
    (llvm_gen_if_else_entry P op b s).mask_stack
      = { mask := P.llvm_load_mask (op.opargsym 0), negate := true, absolute := false }
          :: s.mask_stack := by
  simp [llvm_gen_if_else_entry]

theorem net_pushes_if_else_entry (P : Prims V) (op : Opcode) (b : IfBlocks) (s : LLVM_Util V) :
    (llvm_gen_if_else_entry P op b s).net_pushes = s.net_pushes + 1 := by
  simp [llvm_gen_if_else_entry]

theorem mask_stack_if_else_exit (b : IfBlocks) (s : LLVM_Util V) :
    (llvm_gen_if_else_exit b s).mask_stack = s.mask_stack.tail := by
  simp [llvm_gen_if_else_exit]

theorem net_pushes_if_else_exit (b : IfBlocks) (s : LLVM_Util V) :
    (llvm_gen_if_else_exit b s).net_pushes = s.net_pushes - 1 := by
  simp [llvm_gen_if_else_exit]

theorem balanced_if_after (P : Prims V) (a b c : Nat) (s : LLVM_Util V) :
    MaskBalanced s (llvm_gen_if_after P a b c s) := by
  unfold llvm_gen_if_after MaskBalanced
  simp only [LLVM_Util.apply_continue_to_mask_stack, LLVM_Util.apply_break_to_mask_stack,
    LLVM_Util.apply_return_to_mask_stack]
  split_ifs <;> simp

theorem MaskBalanced.trans {s₁ s₂ s₃ : LLVM_Util V} (h₁ : MaskBalanced s₁ s₂)
    (h₂ : MaskBalanced s₂ s₃) : MaskBalanced s₁ s₃ :=
  ⟨h₂.1.trans h₁.1, h₂.2.trans h₁.2⟩

theorem balanced_llvm_gen_if (P : Prims V) (build : BuildCode V)
    (hb : ∀ b e bb s, MaskBalanced s (build b e bb s).2) (opnum : Nat) (op : Opcode)
    (s : LLVM_Util V) : MaskBalanced s (llvm_gen_if P build opnum op s).state := by
  have h1 : ∀ b e bb s, (build b e bb s).2.mask_stack.length = s.mask_stack.length :=
    fun b e bb s => (hb b e bb s).1
  have h2 : ∀ b e bb s, (build b e bb s).2.net_pushes = s.net_pushes :=
    fun b e bb s => (hb b e bb s).2
  unfold llvm_gen_if
  simp only [GenResult.state]
  refine MaskBalanced.trans ?_ (balanced_if_after P _ _ _ _)
  unfold MaskBalanced
  split_ifs <;>
    simp [h1, h2, mask_stack_if_then_entry, net_pushes_if_then_entry, mask_stack_if_then_exit,
      net_pushes_if_then_exit, mask_stack_if_else_entry, net_pushes_if_else_entry,
      mask_stack_if_else_exit, net_pushes_if_else_exit]

theorem balanced_loop_op_uniform (P : Prims V) (build : BuildCode V)
    (hb : ∀ b e bb s, MaskBalanced s (build b e bb s).2) (opnum : Nat) (op : Opcode)
    (s : LLVM_Util V) : MaskBalanced s (llvm_gen_loop_op_uniform P build opnum op s) := by
  have h1 : ∀ b e bb s, (build b e bb s).2.mask_stack.length = s.mask_stack.length :=
    fun b e bb s => (hb b e bb s).1
  have h2 : ∀ b e bb s, (build b e bb s).2.net_pushes = s.net_pushes :=
    fun b e bb s => (hb b e bb s).2
  unfold llvm_gen_loop_op_uniform MaskBalanced
  simp [h1, h2]

theorem balanced_loop_op_dowhile (P : Prims V) (build : BuildCode V)
    (hb : ∀ b e bb s, MaskBalanced s (build b e bb s).2) (op : Opcode)
    (b : LoopBlocks) (s : LLVM_Util V)
    (h : (llvm_gen_loop_op_dowhile P build op b s).1 = true) :
    MaskBalanced s (llvm_gen_loop_op_dowhile P build op b s).2 := by
  have h1 : ∀ b e bb s, (build b e bb s).2.mask_stack.length = s.mask_stack.length :=
    fun b e bb s => (hb b e bb s).1
  have h2 : ∀ b e bb s, (build b e bb s).2.net_pushes = s.net_pushes :=
    fun b e bb s => (hb b e bb s).2
  simp only [llvm_gen_loop_op_dowhile, MaskBalanced] at h ⊢
  split_ifs at h ⊢ <;> simp [h1, h2]

theorem balanced_loop_op_while (P : Prims V) (build : BuildCode V)
    (hb : ∀ b e bb s, MaskBalanced s (build b e bb s).2) (op : Opcode)
    (b : LoopBlocks) (s : LLVM_Util V) :
    MaskBalanced s (llvm_gen_loop_op_while P build op b s) := by
  have h1 : ∀ b e bb s, (build b e bb s).2.mask_stack.length = s.mask_stack.length :=
    fun b e bb s => (hb b e bb s).1
  have h2 : ∀ b e bb s, (build b e bb s).2.net_pushes = s.net_pushes :=
    fun b e bb s => (hb b e bb s).2
  simp only [llvm_gen_loop_op_while, MaskBalanced]
  split_ifs <;> simp [h1, h2]

theorem balanced_loop_op_after (P : Prims V) (ab : BasicBlock) (n : Nat) (s : LLVM_Util V) :
    MaskBalanced s (llvm_gen_loop_op_after P ab n s) := by
  unfold llvm_gen_loop_op_after MaskBalanced
  simp only [LLVM_Util.apply_return_to_mask_stack]
  split_ifs <;> simp

theorem balanced_loop_op_entry (P : Prims V) (build : BuildCode V)
    (hb : ∀ b e bb s, MaskBalanced s (build b e bb s).2) (opnum : Nat) (op : Opcode)
    (s : LLVM_Util V) : MaskBalanced s (llvm_gen_loop_op_entry P build opnum op s).2 := by
  have h1 : ∀ b e bb s, (build b e bb s).2.mask_stack.length = s.mask_stack.length :=
    fun b e bb s => (hb b e bb s).1
  have h2 : ∀ b e bb s, (build b e bb s).2.net_pushes = s.net_pushes :=
    fun b e bb s => (hb b e bb s).2
  simp only [llvm_gen_loop_op_entry, MaskBalanced]
  split_ifs <;> simp [h1, h2]

theorem balanced_llvm_gen_loop_op (P : Prims V) (build : BuildCode V)
    (hb : ∀ b e bb s, MaskBalanced s (build b e bb s).2) (opnum : Nat) (op : Opcode)
    (s : LLVM_Util V) (h : (llvm_gen_loop_op P build opnum op s).is_fatal = false) :
    MaskBalanced s (llvm_gen_loop_op P build opnum op s).state := by
  simp only [llvm_gen_loop_op] at h ⊢
  split_ifs at h ⊢ with hu hd hr
  · exact balanced_loop_op_uniform P build hb opnum op s
  · exact ((balanced_loop_op_entry P build hb opnum op s).trans
      (balanced_loop_op_dowhile P build hb op _ _ hr)).trans (balanced_loop_op_after P _ _ _)
  · simp [GenResult.is_fatal] at h
  · exact ((balanced_loop_op_entry P build hb opnum op s).trans
      (balanced_loop_op_while P build hb op _ _)).trans (balanced_loop_op_after P _ _ _)

theorem balanced_functioncall_body (P : Prims V) (build : BuildCode V)
    (hb : ∀ b e bb s, MaskBalanced s (build b e bb s).2) (opnum : Nat) (op : Opcode)
    (s : LLVM_Util V) : MaskBalanced s (llvm_gen_functioncall_body P build opnum op s) := by
  have h1 : ∀ b e bb s, (build b e bb s).2.mask_stack.length = s.mask_stack.length :=
    fun b e bb s => (hb b e bb s).1
  have h2 : ∀ b e bb s, (build b e bb s).2.net_pushes = s.net_pushes :=
    fun b e bb s => (hb b e bb s).2
  simp only [llvm_gen_functioncall_body, MaskBalanced, LLVM_Util.apply_exit_to_mask_stack]
  split_ifs <;> simp [h1, h2]

theorem balanced_llvm_gen_functioncall (P : Prims V) (build : BuildCode V)
    (hb : ∀ b e bb s, MaskBalanced s (build b e bb s).2) (opnum : Nat) (op : Opcode)
    (s : LLVM_Util V) (h : (llvm_gen_functioncall P build opnum op s).is_fatal = false) :
    MaskBalanced s (llvm_gen_functioncall P build opnum op s).state := by
  simp only [llvm_gen_functioncall] at h ⊢
  split_ifs at h ⊢
  · simp [GenResult.is_fatal] at h
  · simp [GenResult.is_fatal] at h
  · simp [GenResult.is_fatal] at h
  · exact balanced_functioncall_body P build hb opnum op s

theorem not_fatal_llvm_gen_loop_op (P : Prims V) (build : BuildCode V) (opnum : Nat)
    (op : Opcode) (s : LLVM_Util V)
    (h : (op.opargsym 0).is_uniform = true ∨ op.opname ≠ "dowhile" ∨ op.jump 2 = op.jump 3) :
    (llvm_gen_loop_op P build opnum op s).is_fatal = false := by
  simp only [llvm_gen_loop_op]
  split_ifs with hu hd hr
  · rfl
  · rfl
  · exfalso
    rcases h with h | h | h
    · exact hu h
    · exact h hd
    · apply hr
      simp only [llvm_gen_loop_op_dowhile]
      rw [if_pos h]
  · rfl

theorem not_fatal_llvm_gen_functioncall (P : Prims V) (build : BuildCode V) (opnum : Nat)
    (op : Opcode) (s : LLVM_Util V)
    (h : op.nargs = 1 ∧ (op.opargsym 0).is_constant = true
          ∧ (op.opargsym 0).typespec.is_string = true) :
    (llvm_gen_functioncall P build opnum op s).is_fatal = false := by
  simp [llvm_gen_functioncall, h.1, h.2.1, h.2.2, GenResult.is_fatal]

/-- C1: for every opcode and every state of the mask stack, `llvm_gen_if` (uniform or varying,
with or without else arm), `llvm_gen_loop_op` (uniform or varying, `for` / `while` or `dowhile`,
whatever the masked continue and break counts) and `llvm_gen_functioncall` make as many
mask-stack pushes as pops and leave the depth of the mask stack as they found it, provided
that generation of each nested opcode range does.  `llvm_gen_if` always returns; the other two
return unless one of their assertions on the opcode fails. -/
theorem mask_stack_balance (P : Prims V) (build : BuildCode V)
    (hb : ∀ b e bb s, MaskBalanced s (build b e bb s).2) (opnum : Nat) (op : Opcode)
    (s : LLVM_Util V) :
    ((llvm_gen_if P build opnum op s).is_fatal = false
      ∧ MaskBalanced s (llvm_gen_if P build opnum op s).state)
    ∧ (((op.opargsym 0).is_uniform = true ∨ op.opname ≠ "dowhile" ∨ op.jump 2 = op.jump 3) →
        (llvm_gen_loop_op P build opnum op s).is_fatal = false)
    ∧ ((llvm_gen_loop_op P build opnum op s).is_fatal = false →
        MaskBalanced s (llvm_gen_loop_op P build opnum op s).state)
    ∧ ((op.nargs = 1 ∧ (op.opargsym 0).is_constant = true
          ∧ (op.opargsym 0).typespec.is_string = true) →
        (llvm_gen_functioncall P build opnum op s).is_fatal = false)
    ∧ ((llvm_gen_functioncall P build opnum op s).is_fatal = false →
        MaskBalanced s (llvm_gen_functioncall P build opnum op s).state) :=
  ⟨⟨rfl, balanced_llvm_gen_if P build hb opnum op s⟩,
   not_fatal_llvm_gen_loop_op P build opnum op s,
   balanced_llvm_gen_loop_op P build hb opnum op s,
   not_fatal_llvm_gen_functioncall P build opnum op s,
   balanced_llvm_gen_functioncall P build hb opnum op s⟩

theorem balanced_build_nested_if (P : Prims V) (m : V) (b e : Nat) (bb : Option BasicBlock)
    (s : LLVM_Util V) : MaskBalanced s (build_nested_if P m b e bb s).2 := by
  simp [build_nested_if, MaskBalanced, LLVM_Util.apply_return_to_mask_stack]

/-- Witness of C1: a `dowhile` loop with a varying condition whose nested ranges contain a
varying `if`, generated from the empty state: the nested ranges are balanced, the generator
returns, and the mask stack is balanced. -/
theorem mask_stack_balance_witness :
    (∀ b e bb s, MaskBalanced (V := Nat) s
        (build_nested_if (handlePrims) 7 b e bb s).2)
    ∧ (llvm_gen_loop_op handlePrims (build_nested_if handlePrims 7) 0
          example_dowhile_varying (LLVM_Util.initial Nat)).is_fatal = false
    ∧ MaskBalanced (LLVM_Util.initial Nat)
        (llvm_gen_loop_op handlePrims (build_nested_if handlePrims 7) 0
          example_dowhile_varying (LLVM_Util.initial Nat)).state :=
  have h := mask_stack_balance handlePrims (build_nested_if handlePrims 7)
    (balanced_build_nested_if handlePrims 7) 0 example_dowhile_varying (LLVM_Util.initial Nat)
  ⟨balanced_build_nested_if handlePrims 7,
   h.2.1 (Or.inr (Or.inr (by decide))),
   h.2.2.1 (h.2.1 (Or.inr (Or.inr (by decide))))⟩

end

end OSL

namespace OSL

/-! ## Masks of the two arms of a varying `if` -/

section

variable {W : Nat}

theorem llvm_gen_if_varying_else {V : Type} (P : Prims V) (build : BuildCode V) (opnum : Nat)
    (op : Opcode) (s : LLVM_Util V) (hvar : (op.opargsym 0).is_uniform = false)
    (helse : op.jump 0 ≠ op.jump 1) :
    (llvm_gen_if P build opnum op s).state
      = llvm_gen_if_after P s.masked_return_count s.masked_break_count s.masked_continue_count
          (llvm_gen_if_else_exit (llvm_gen_if_then_entry P op s).1
            (build (op.jump 0) (op.jump 1) (llvm_gen_if_then_entry P op s).1.else_block
              (llvm_gen_if_else_entry P op (llvm_gen_if_then_entry P op s).1
                (llvm_gen_if_then_exit op (llvm_gen_if_then_entry P op s).1
                  (build (opnum + 1) (op.jump 0)
                    (some (llvm_gen_if_then_entry P op s).1.then_block)
                    (llvm_gen_if_then_entry P op s).2).2))).2) := by
  simp [llvm_gen_if, hvar, helse, GenResult.state]

/-- C2: in the varying branch of `llvm_gen_if` with an else arm, the then-range is generated
with effective mask `E AND cond` and the else-range with effective mask `E AND NOT cond`,
where `E` is the effective mask on entry, both for the effective mask that stops at an
absolute entry and for the conjunction of all entries; in every lane the two arm masks are
disjoint and their union is `E`.  The then-range is assumed to leave the entries below its own
scope entry in place. -/
theorem if_arm_masks (P : Prims (Mask W)) (hand : P.op_and = Mask.and)
    (hnot : P.op_not = Mask.not) (build : BuildCode (Mask W)) (opnum : Nat) (op : Opcode)
    (s : LLVM_Util (Mask W))
    (hvar : (op.opargsym 0).is_uniform = false) (helse : op.jump 0 ≠ op.jump 1)
    (hthen : (build (opnum + 1) (op.jump 0) (some (llvm_gen_if_then_entry P op s).1.then_block)
                (llvm_gen_if_then_entry P op s).2).2.mask_stack.tail
              = (llvm_gen_if_then_entry P op s).2.mask_stack.tail) :
    let cond := P.llvm_load_mask (op.opargsym 0)
    let b := (llvm_gen_if_then_entry P op s).1
    let s_then := (llvm_gen_if_then_entry P op s).2
    let s_else := llvm_gen_if_else_entry P op b
      (llvm_gen_if_then_exit op b (build (opnum + 1) (op.jump 0) (some b.then_block) s_then).2)
    (llvm_gen_if P build opnum op s).state
      = llvm_gen_if_after P s.masked_return_count s.masked_break_count s.masked_continue_count
          (llvm_gen_if_else_exit b (build (op.jump 0) (op.jump 1) b.else_block s_else).2)
    ∧ s_then.current_mask P = Mask.and cond (s.current_mask P)
    ∧ s_else.current_mask P = Mask.and (Mask.not cond) (s.current_mask P)
    ∧ LLVM_Util.conjunction_of_entries P s_then.mask_stack
        = Mask.and cond (LLVM_Util.conjunction_of_entries P s.mask_stack)
    ∧ LLVM_Util.conjunction_of_entries P s_else.mask_stack
        = Mask.and (Mask.not cond) (LLVM_Util.conjunction_of_entries P s.mask_stack)
    ∧ (∀ i, (s_then.current_mask P i && s_else.current_mask P i) = false
          ∧ (s_then.current_mask P i || s_else.current_mask P i) = s.current_mask P i) := by
  intro cond b s_then s_else
  have h_then : s_then.mask_stack
      = { mask := cond, negate := false, absolute := false } :: s.mask_stack :=
    mask_stack_if_then_entry P op s
  have h_else : s_else.mask_stack
      = { mask := cond, negate := true, absolute := false } :: s.mask_stack := by
    simp only [s_else, mask_stack_if_else_entry, mask_stack_if_then_exit]
    rw [hthen, mask_stack_if_then_entry]
    rfl
  have e1 : s_then.current_mask P = Mask.and cond (s.current_mask P) := by
    show LLVM_Util.effective_mask P s_then.mask_stack = _
    rw [h_then]
    simp [LLVM_Util.current_mask, LLVM_Util.effective_mask, LLVM_Util.entry_value, hand]
  have e2 : s_else.current_mask P = Mask.and (Mask.not cond) (s.current_mask P) := by
    show LLVM_Util.effective_mask P s_else.mask_stack = _
    rw [h_else]
    simp [LLVM_Util.current_mask, LLVM_Util.effective_mask, LLVM_Util.entry_value, hand, hnot]
  refine ⟨llvm_gen_if_varying_else P build opnum op s hvar helse, e1, e2, ?_, ?_, ?_⟩
  · rw [h_then]
    simp [LLVM_Util.conjunction_of_entries, LLVM_Util.entry_value, hand]
  · rw [h_else]
    simp [LLVM_Util.conjunction_of_entries, LLVM_Util.entry_value, hand, hnot]
  · intro i
    rw [e1, e2]
    simp only [Mask.and, Mask.not]
    cases cond i <;> cases s.current_mask P i <;> simp

/-- Witness of C2: four lanes, enclosing mask {0, 1, 2}, condition {0, 2, 3}, a then-range that
contains a nested `if` with a masked return: the then-range is generated under {0, 2} and the
else-range under {1}. -/
theorem if_arm_masks_witness :
    (example_prims.op_and = Mask.and ∧ example_prims.op_not = Mask.not
      ∧ (example_if_varying.opargsym 0).is_uniform = false
      ∧ example_if_varying.jump 0 ≠ example_if_varying.jump 1)
    ∧ (llvm_gen_if_then_entry example_prims example_if_varying example_state).2.current_mask
          example_prims = (fun i => decide (i.val = 0 ∨ i.val = 2))
    ∧ (llvm_gen_if_else_entry example_prims example_if_varying
          (llvm_gen_if_then_entry example_prims example_if_varying example_state).1
          (llvm_gen_if_then_exit example_if_varying
            (llvm_gen_if_then_entry example_prims example_if_varying example_state).1
            (build_nested_if example_prims example_cond_mask 1 3
              (some (llvm_gen_if_then_entry example_prims example_if_varying
                example_state).1.then_block)
              (llvm_gen_if_then_entry example_prims example_if_varying
                example_state).2).2)).current_mask example_prims
        = (fun i => decide (i.val = 1)) :=
  have h := if_arm_masks example_prims rfl rfl (build_nested_if example_prims example_cond_mask)
    0 example_if_varying example_state (by decide) (by decide) rfl
  ⟨⟨rfl, rfl, by decide, by decide⟩,
   h.2.1.trans (by decide),
   h.2.2.1.trans (by decide)⟩

end

end OSL

namespace OSL

/-! ## Failure of a nested range -/

section

variable {V : Type}

/-- Counterexample to C10: the nested ranges fail to generate (`build_llvm_code` gives `false`),
yet `llvm_gen_if`, `llvm_gen_loop_op` and `llvm_gen_functioncall` return `true`. -/
theorem nested_failure_returns_true :
    (build_failing (Mask 4) 1 3 none example_state).1 = false
    ∧ (llvm_gen_if example_prims (build_failing (Mask 4)) 0 example_if_varying
          example_state).value = some true
    ∧ (llvm_gen_loop_op example_prims (build_failing (Mask 4)) 0 example_for_varying
          example_state).value = some true
    ∧ (llvm_gen_loop_op example_prims (build_failing (Mask 4)) 0 example_dowhile_varying
          example_state).value = some true
    ∧ (llvm_gen_functioncall example_prims (build_failing (Mask 4)) 0 example_functioncall
          example_state).value = some true := by
  refine ⟨rfl, rfl, ?_, ?_, ?_⟩
  · simp [llvm_gen_loop_op, example_for_varying, Opcode.opargsym, Symbol.mk_simple,
      GenResult.value]
  · simp [llvm_gen_loop_op, llvm_gen_loop_op_dowhile, example_dowhile_varying, Opcode.opargsym,
      Symbol.mk_simple, GenResult.value]
  · simp [llvm_gen_functioncall, example_functioncall, Opcode.opargsym, Opcode.nargs,
      Symbol.mk_simple, TypeSpec.is_string, TypeSpec.string, GenResult.value]

/-- C10, amended: `llvm_gen_if`, `llvm_gen_loop_op` and `llvm_gen_functioncall` discard the
result of `build_llvm_code`: the outcome is the same as if every nested range had succeeded,
`llvm_gen_if` returns `true`, and the other two never return `false` (they return `true` or
stop at one of their own assertions). -/
theorem nested_failure_discarded (P : Prims V) (build : BuildCode V) (opnum : Nat) (op : Opcode)
    (s : LLVM_Util V) :
    (llvm_gen_if P build opnum op s
        = llvm_gen_if P (fun b e bb s => (true, (build b e bb s).2)) opnum op s
      ∧ llvm_gen_loop_op P build opnum op s
        = llvm_gen_loop_op P (fun b e bb s => (true, (build b e bb s).2)) opnum op s
      ∧ llvm_gen_functioncall P build opnum op s
        = llvm_gen_functioncall P (fun b e bb s => (true, (build b e bb s).2)) opnum op s)
    ∧ (llvm_gen_if P build opnum op s).value = some true
    ∧ (llvm_gen_loop_op P build opnum op s).value ≠ some false
    ∧ (llvm_gen_functioncall P build opnum op s).value ≠ some false := by
  refine ⟨⟨rfl, rfl, rfl⟩, rfl, ?_, ?_⟩
  · simp only [llvm_gen_loop_op]
    split_ifs <;> simp [GenResult.value]
  · simp only [llvm_gen_functioncall]
    split_ifs <;> simp [GenResult.value]

end

end OSL

namespace OSL

/-! ## Lowering of `break` and `continue` -/

section

variable {V : Type}

/-- C18: `llvm_gen_loopmod_op` on a `break` or `continue` opcode returns `true`.  When the
innermost loop is not masked, the code it appends is one unconditional branch, to the after
block of the innermost loop for `break` and to its step block for `continue`, followed by the
move of the insertion point to a fresh block; the mask stack and the loop contexts are left
as they were.  When the innermost loop is masked, the state reached is that of
`op_masked_break` for `break` and of `op_masked_continue` for `continue`, and the code
appended is the one masked instruction on the control-mask slot, respectively on the
continue-mask slot, of the innermost loop: no branch. -/
theorem loopmod_lowering (op : Opcode) (s : LLVM_Util V)
    (hop : op.opname = "break" ∨ op.opname = "continue") :
    (s.is_innermost_loop_masked = false →
      ∃ s', llvm_gen_loopmod_op op s = GenResult.returned true s'
        ∧ s'.code = s.code ++
            [Instr.branch (if op.opname = "break" then s.loop_after_block
                           else s.loop_step_block),
             Instr.set_insert_point s.block_count]
        ∧ s'.mask_stack = s.mask_stack ∧ s'.masked_loop_stack = s.masked_loop_stack)
    ∧ (s.is_innermost_loop_masked = true →
      ∃ c rest s', s.masked_loop_stack = c :: rest
        ∧ llvm_gen_loopmod_op op s = GenResult.returned true s'
        ∧ s' = (if op.opname = "break" then s.op_masked_break else s.op_masked_continue)
        ∧ s'.code = s.code ++
            [if op.opname = "break" then Instr.masked_break c.location_of_control_mask
             else Instr.masked_continue c.location_of_continue_mask]
        ∧ (∀ i ∈ s'.code.drop s.code.length, i.is_branch = false)
        ∧ s'.mask_stack = s.mask_stack) := by
  refine ⟨fun hm => ?_, fun hm => ?_⟩
  · by_cases hb : op.opname = "break"
    · refine ⟨(s.op_branch s.loop_after_block).new_basic_block.2.set_insert_point
          (s.op_branch s.loop_after_block).new_basic_block.1,
        by simp only [llvm_gen_loopmod_op, hm, hb, if_true], ?_, rfl, rfl⟩
      simp [hb, LLVM_Util.set_insert_point, LLVM_Util.new_basic_block, LLVM_Util.op_branch,
        LLVM_Util.emit]
    · refine ⟨(s.op_branch s.loop_step_block).new_basic_block.2.set_insert_point
          (s.op_branch s.loop_step_block).new_basic_block.1,
        by simp only [llvm_gen_loopmod_op, hm, hb, if_true, if_false], ?_, rfl, rfl⟩
      simp [hb, LLVM_Util.set_insert_point, LLVM_Util.new_basic_block, LLVM_Util.op_branch,
        LLVM_Util.emit]
  · rcases hs : s.masked_loop_stack with _ | ⟨c, rest⟩
    · simp [LLVM_Util.is_innermost_loop_masked, hs] at hm
    · refine ⟨c, rest, (if op.opname = "break" then s.op_masked_break
        else s.op_masked_continue), rfl, ?_, rfl, ?_, ?_, ?_⟩
      · by_cases hb : op.opname = "break"
        · simp only [llvm_gen_loopmod_op, hm, hb, if_true, Bool.true_eq_false, if_false]
        · have hc : op.opname = "continue" := hop.resolve_left hb
          simp [llvm_gen_loopmod_op, hm, hc]
      · by_cases hb : op.opname = "break"
        · simp [hb, LLVM_Util.op_masked_break, hs, LLVM_Util.emit]
        · simp [hb, LLVM_Util.op_masked_continue, hs, LLVM_Util.emit]
      · by_cases hb : op.opname = "break"
        · simp [hb, LLVM_Util.op_masked_break, hs, LLVM_Util.emit, Instr.is_branch]
        · simp [hb, LLVM_Util.op_masked_continue, hs, LLVM_Util.emit, Instr.is_branch]
      · by_cases hb : op.opname = "break"
        · simp [hb, LLVM_Util.op_masked_break, hs, LLVM_Util.emit]
        · simp [hb, LLVM_Util.op_masked_continue, hs, LLVM_Util.emit]

/-- Witness of C18: a `break` inside a uniform loop with after block 9 appends a branch to
block 9; a `break` inside a varying loop with control-mask slot 3 appends the masked break on
slot 3. -/
theorem loopmod_lowering_witness :
    ((example_loopmod "break").opname = "break" ∨ (example_loopmod "break").opname = "continue")
    ∧ (∃ s', llvm_gen_loopmod_op (example_loopmod "break") example_inside_uniform_loop
          = GenResult.returned true s'
        ∧ s'.code = [Instr.branch 9, Instr.set_insert_point 1])
    ∧ (∃ s', llvm_gen_loopmod_op (example_loopmod "break") example_inside_varying_loop
          = GenResult.returned true s'
        ∧ s'.code = [Instr.masked_break (some 3)]) := by
  refine ⟨Or.inl rfl, ?_, ?_⟩
  · obtain ⟨s', h1, h2, _⟩ :=
      (loopmod_lowering (example_loopmod "break") example_inside_uniform_loop
        (Or.inl rfl)).1 rfl
    exact ⟨s', h1, h2.trans rfl⟩
  · obtain ⟨c, rest, s', hs, h1, _, h2, _⟩ :=
      (loopmod_lowering (example_loopmod "break") example_inside_varying_loop
        (Or.inl rfl)).2 rfl
    refine ⟨s', h1, h2.trans ?_⟩
    have hc : c = { location_of_control_mask := some 3, location_of_continue_mask := some 4,
                    break_count := 0, continue_count := 0 } :=
      (List.cons.inj (hs.symm.trans rfl)).1
    rw [hc]
    rfl

end

end OSL

namespace OSL

/-! ## Noise binning: partition, termination, agreement with the lead lane -/

section

variable {W : Nat} {α : Type}

theorem varying_options_eq_binned (eq : α → α → Bool) :
    ∀ (args : List (NoiseArg W α)) (m : Mask W) (l : Fin W) (r : VaryingOptions W α),
      llvm_batched_noise_varying_options eq args m l = some r →
      r.remainingMask = binned_mask eq l (noise_option_pairs args) m
        ∧ r.calls = binned_calls l (noise_option_pairs args)
  | [], m, l, r, h => by
    simp only [llvm_batched_noise_varying_options, Option.some.injEq] at h
    subst h
    simp [noise_option_pairs, binned_mask, binned_calls]
  | [_], m, l, r, h => by
    simp [llvm_batched_noise_varying_options] at h
  | Name :: Val :: rest, m, l, r, h => by
    have ih := varying_options_eq_binned eq rest
    simp only [llvm_batched_noise_varying_options] at h
    simp only [noise_option_pairs, binned_mask, binned_calls, binned_setter]
    by_cases c1 : Name.sym.typespec.is_string = true
    swap
    · simp [c1] at h
    by_cases c2 : Name.str = ""
    · simp only [c1, c2, Bool.not_true, Bool.false_eq_true, if_false, if_true] at h
      simpa [c2] using ih _ _ _ h
    by_cases c3 : Name.sym.is_uniform = true
    swap
    · simp [c1, c2, c3] at h
    by_cases c4 : Val.sym.is_uniform = true
    · simp only [c1, c2, c3, c4, Bool.not_true, Bool.false_eq_true, if_false, if_true] at h
      simpa [c4] using ih _ _ _ h
    by_cases c5 : Val.sym.is_constant = true
    · simp [c1, c2, c3, c4, c5] at h
    simp only [c1, c2, c3, c4, c5, Bool.not_true, Bool.false_eq_true, if_false] at h
    simp only [c4, Bool.false_eq_true, if_false]
    split_ifs at h with d1 d2 d3 d4 d5
    · obtain ⟨r', hr', rfl⟩ := Option.map_eq_some'.mp h
      simpa [d1] using ih _ _ _ hr'
    · obtain ⟨r', hr', rfl⟩ := Option.map_eq_some'.mp h
      simp only [d1, d2, if_false, if_true, Bool.false_eq_true]
      simpa using ih _ _ _ hr'
    · obtain ⟨r', hr', rfl⟩ := Option.map_eq_some'.mp h
      simp only [d1, d2, d3, if_false, if_true, Bool.false_eq_true]
      simpa using ih _ _ _ hr'
    · obtain ⟨r', hr', rfl⟩ := Option.map_eq_some'.mp h
      simp only [d1, d2, d3, d4, if_false, if_true, Bool.false_eq_true]
      simpa using ih _ _ _ hr'
    · simp only [d1, d2, d3, d4, if_false, if_true, Bool.false_eq_true]
      simpa using ih _ _ _ h
    · obtain ⟨r', hr', rfl⟩ := Option.map_eq_some'.mp h
      simp only [d1, d2, d3, d4, if_false, if_true, Bool.false_eq_true]
      simpa using ih _ _ _ hr'

theorem varying_options_isSome (eq : α → α → Bool) :
    ∀ (args : List (NoiseArg W α)) (m : Mask W) (l : Fin W),
      noise_options_asserted args = true →
      ∃ r, llvm_batched_noise_varying_options eq args m l = some r
  | [], m, l, _ => ⟨_, rfl⟩
  | [_], m, l, h => by simp [noise_options_asserted] at h
  | Name :: Val :: rest, m, l, h => by
    have ih := varying_options_isSome eq rest
    simp only [noise_options_asserted, Bool.and_eq_true, Bool.or_eq_true, decide_eq_true_eq,
      Bool.not_eq_true'] at h
    obtain ⟨⟨c1, c2⟩, c3⟩ := h
    simp only [llvm_batched_noise_varying_options, c1, Bool.not_true, Bool.false_eq_true,
      if_false]
    by_cases e : Name.str = ""
    · simpa [e] using ih _ _ c3
    · rcases c2 with c2 | ⟨c2, c4⟩
      · exact absurd c2 e
      · simp only [e, c2, if_false, Bool.not_true, Bool.false_eq_true]
        rcases c4 with c4 | c4
        · simpa [c4] using ih _ _ c3
        · by_cases u : Val.sym.is_uniform = true
          · simpa [u] using ih _ _ c3
          · simp only [u, c4, if_false, Bool.false_eq_true]
            split_ifs
            all_goals first
              | exact ih _ _ c3
              | (obtain ⟨r, hr⟩ := ih (op_lanes_that_match_masked eq (op_extract Val.wide l)
                    Val.wide m) l c3
                 rw [hr]; exact ⟨_, rfl⟩)
              | (obtain ⟨r, hr⟩ := ih m l c3
                 rw [hr]; exact ⟨_, rfl⟩)

theorem binned_mask_subset (eq : α → α → Bool) (l : Fin W) :
    ∀ (ps : List (NoiseArg W α × NoiseArg W α)) (m : Mask W) (i : Fin W),
      binned_mask eq l ps m i = true → m i = true
  | [], _, _, h => h
  | p :: ps, m, i, h => by
    have h' := binned_mask_subset eq l ps _ i h
    split_ifs at h'
    · simp only [op_lanes_that_match_masked, Bool.and_eq_true] at h'
      exact h'.2
    · exact h'

theorem binned_mask_lead (eq : α → α → Bool) (hrefl : ∀ x, eq x x = true) (l : Fin W) :
    ∀ (ps : List (NoiseArg W α × NoiseArg W α)) (m : Mask W),
      m l = true → binned_mask eq l ps m l = true
  | [], _, h => h
  | p :: ps, m, h => by
    apply binned_mask_lead eq hrefl l ps
    split_ifs
    · simp [op_lanes_that_match_masked, op_extract, hrefl, h]
    · exact h

theorem binned_mask_agree (eq : α → α → Bool) (l : Fin W) :
    ∀ (ps : List (NoiseArg W α × NoiseArg W α)) (m : Mask W) (p : NoiseArg W α × NoiseArg W α),
      p ∈ ps → (binned_setter p.1 p.2).isSome = true →
      ∀ i, binned_mask eq l ps m i = true → eq (p.2.wide l) (p.2.wide i) = true
  | [], _, _, hp, _, _, _ => by simp at hp
  | q :: ps, m, p, hp, hs, i, h => by
    rcases List.mem_cons.mp hp with rfl | hp'
    · have h' := binned_mask_subset eq l ps _ i h
      rw [if_pos hs] at h'
      simp only [op_lanes_that_match_masked, op_extract, Bool.and_eq_true] at h'
      exact h'.1
    · exact binned_mask_agree eq l ps _ p hp' hs i h

theorem binned_calls_mem (l : Fin W) :
    ∀ (ps : List (NoiseArg W α × NoiseArg W α)) (p : NoiseArg W α × NoiseArg W α) (f : String),
      p ∈ ps → binned_setter p.1 p.2 = some f →
      ({ func := f, value := p.2.wide l } : NoiseSetCall α) ∈ binned_calls l ps
  | [], _, _, hp, _ => by simp at hp
  | q :: ps, p, f, hp, hs => by
    rcases List.mem_cons.mp hp with rfl | hp'
    · simp [binned_calls, hs, op_extract]
    · have := binned_calls_mem l ps p f hp' hs
      simp only [binned_calls]
      split
      · exact List.mem_cons_of_mem _ this
      · exact this

theorem Mask.count_pos {m : Mask W} (h : ∃ i, m i = true) : 0 < Mask.count m := by
  obtain ⟨i, hi⟩ := h
  exact Finset.card_pos.mpr ⟨i, by simp [hi]⟩

theorem Mask.count_lt {m m' : Mask W} (hsub : ∀ i, m' i = true → m i = true) (l : Fin W)
    (hl : m l = true) (hl' : m' l = false) : Mask.count m' < Mask.count m := by
  apply Finset.card_lt_card
  rw [Finset.ssubset_iff_of_subset]
  · exact ⟨l, by simp [hl], by simp [hl']⟩
  · intro i hi
    simp only [Finset.mem_filter, Finset.mem_univ, true_and] at hi ⊢
    exact hsub i hi

theorem op_1st_active_lane_of_spec {m : Mask W} {l : Fin W}
    (h : op_1st_active_lane_of m = some l) : m l = true :=
  Fin.find_spec (fun i => m i = true) h

theorem op_1st_active_lane_of_isSome {m : Mask W} (h : ∃ i, m i = true) :
    ∃ l, op_1st_active_lane_of m = some l := by
  have : (op_1st_active_lane_of m).isSome = true := Fin.isSome_find_iff.mpr h
  exact Option.isSome_iff_exists.mp this

theorem Mask.nonzero_iff {m : Mask W} : Mask.nonzero m = true ↔ ∃ i, m i = true := by
  simp [Mask.nonzero]

theorem lanes_matching_name_subset (eq : α → α → Bool) (u : Bool) (nameVal : Wide W α)
    (l : Fin W) (m : Mask W) (i : Fin W)
    (h : lanes_matching_name eq u nameVal l m i = true) : m i = true := by
  unfold lanes_matching_name at h
  split_ifs at h
  · simp only [op_lanes_that_match_masked, Bool.and_eq_true] at h
    exact h.2
  · exact h

theorem lanes_matching_name_lead (eq : α → α → Bool) (hrefl : ∀ x, eq x x = true) (u : Bool)
    (nameVal : Wide W α) (l : Fin W) (m : Mask W) (h : m l = true) :
    lanes_matching_name eq u nameVal l m l = true := by
  unfold lanes_matching_name
  split_ifs
  · simp [op_lanes_that_match_masked, op_extract, hrefl, h]
  · exact h

theorem BinIteration.computed_kernel_subset {eq : α → α → Bool} {u : Bool}
    {nameVal : Wide W α} {args : List (NoiseArg W α)} {it : BinIteration W α}
    (h : it.computed eq u nameVal args) (i : Fin W) (hi : it.kernel_mask i = true) :
    it.remaining_before i = true := by
  rw [h.2.1] at hi
  exact lanes_matching_name_subset eq u nameVal _ _ i (binned_mask_subset eq _ _ _ i hi)

theorem BinIteration.computed_kernel_lead {eq : α → α → Bool} (hrefl : ∀ x, eq x x = true)
    {u : Bool} {nameVal : Wide W α} {args : List (NoiseArg W α)} {it : BinIteration W α}
    (h : it.computed eq u nameVal args) : it.kernel_mask it.leadLane = true := by
  rw [h.2.1]
  exact binned_mask_lead eq hrefl _ _ _
    (lanes_matching_name_lead eq hrefl u nameVal _ _ (op_1st_active_lane_of_spec h.1))

theorem BinIteration.computed_after {eq : α → α → Bool} {u : Bool}
    {nameVal : Wide W α} {args : List (NoiseArg W α)} {it : BinIteration W α}
    (h : it.computed eq u nameVal args) (i : Fin W) :
    it.remaining_after i = (it.remaining_before i && !it.kernel_mask i) := by
  rw [h.2.2.2.2]
  have := BinIteration.computed_kernel_subset h i
  simp only [Mask.xor]
  cases hb : it.remaining_before i <;> cases hk : it.kernel_mask i <;> simp_all

theorem bin_block_spec (eq : α → α → Bool) (hrefl : ∀ x, eq x x = true) (u : Bool)
    (nameVal : Wide W α) (args : List (NoiseArg W α))
    (hargs : noise_options_asserted args = true) :
    ∀ (fuel : Nat) (m : Mask W), (∃ i, m i = true) → Mask.count m ≤ fuel →
      ∃ its, llvm_gen_noise_bin_block eq u nameVal args fuel m = BinResult.finished its
        ∧ its.length ≤ Mask.count m
        ∧ (∀ it ∈ its, it.computed eq u nameVal args)
        ∧ (∀ it ∈ its, ∀ i, it.kernel_mask i = true → m i = true)
        ∧ its.Pairwise (fun a b => ∀ i, ¬(a.kernel_mask i = true ∧ b.kernel_mask i = true))
        ∧ (∀ i, m i = true → ∃ it ∈ its, it.kernel_mask i = true)
        ∧ (∀ it ∈ its.head?, it.remaining_before = m)
        ∧ its.Chain' (fun a b => b.remaining_before = a.remaining_after) := by
  intro fuel
  induction fuel with
  | zero =>
    intro m hm hc
    have := Mask.count_pos hm
    omega
  | succ fuel ih =>
    intro m hm hc
    obtain ⟨l, hl⟩ := op_1st_active_lane_of_isSome hm
    obtain ⟨r, hr⟩ := varying_options_isSome eq args
      (lanes_matching_name eq u nameVal l m) l hargs
    have hr' : llvm_batched_noise_varying_options eq args
        (if u = false then op_lanes_that_match_masked eq (op_extract nameVal l) nameVal m
         else m) l = some r := hr
    obtain ⟨hmask, hcalls⟩ := varying_options_eq_binned eq args _ l r hr
    -- the record of this iteration
    have hit : (BinIteration.computed eq u nameVal args
        { remaining_before := m, leadLane := l,
          scalar_name := if u = false then some (op_extract nameVal l) else none,
          calls := r.calls, kernel_mask := r.remainingMask,
          remaining_after := Mask.xor m r.remainingMask }) :=
      ⟨hl, hmask, hcalls, rfl, rfl⟩
    have hsub : ∀ i, r.remainingMask i = true → m i = true :=
      fun i hi => BinIteration.computed_kernel_subset hit i hi
    have hlead : r.remainingMask l = true := BinIteration.computed_kernel_lead hrefl hit
    have hafter : ∀ i, Mask.xor m r.remainingMask i = (m i && !r.remainingMask i) :=
      fun i => BinIteration.computed_after hit i
    have hlt : Mask.count (Mask.xor m r.remainingMask) < Mask.count m := by
      apply Mask.count_lt _ l (op_1st_active_lane_of_spec hl)
      · rw [hafter]; simp [hlead]
      · intro i hi
        rw [hafter] at hi
        simp only [Bool.and_eq_true] at hi
        exact hi.1
    simp only [llvm_gen_noise_bin_block, hl, hr']
    by_cases hnz : Mask.nonzero (Mask.xor m r.remainingMask) = true
    · obtain ⟨its, h1, h2, h3, h4, h5, h6, h7, h8⟩ :=
        ih (Mask.xor m r.remainingMask) (Mask.nonzero_iff.mp hnz) (by omega)
      rw [if_pos hnz, h1]
      refine ⟨_, rfl, ?_, ?_, ?_, ?_, ?_, ?_, ?_⟩
      · simp only [List.length_cons]; omega
      · intro it hit'
        rcases List.mem_cons.mp hit' with rfl | hit'
        · exact hit
        · exact h3 it hit'
      · intro it hit' i hi
        rcases List.mem_cons.mp hit' with rfl | hit'
        · exact hsub i hi
        · have := h4 it hit' i hi
          rw [hafter] at this
          simp only [Bool.and_eq_true] at this
          exact this.1
      · refine List.pairwise_cons.mpr ⟨?_, h5⟩
        intro it hit' i hi
        have := h4 it hit' i hi.2
        rw [hafter] at this
        simp only [Bool.and_eq_true, Bool.not_eq_true'] at this
        have hk : r.remainingMask i = true := hi.1
        rw [this.2] at hk
        exact absurd hk (by simp)
      · intro i hi
        by_cases hk : r.remainingMask i = true
        · exact ⟨_, List.mem_cons_self _ _, hk⟩
        · have : Mask.xor m r.remainingMask i = true := by
            rw [hafter]; simp [hi, hk]
          obtain ⟨it, hit', hki⟩ := h6 i this
          exact ⟨it, List.mem_cons_of_mem _ hit', hki⟩
      · intro it hit'
        simp only [List.head?_cons, Option.mem_def, Option.some.injEq] at hit'
        subst hit'
        rfl
      · rw [List.chain'_cons']
        exact ⟨fun y hy => h7 y hy, h8⟩
    · rw [if_neg hnz]
      refine ⟨_, rfl, ?_, ?_, ?_, ?_, ?_, ?_, ?_⟩
      · have := Mask.count_pos hm
        simp only [List.length_singleton]; omega
      · intro it hit'
        rw [List.mem_singleton] at hit'
        subst hit'
        exact hit
      · intro it hit' i hi
        rw [List.mem_singleton] at hit'
        subst hit'
        exact hsub i hi
      · exact List.pairwise_singleton _ _
      · intro i hi
        refine ⟨_, List.mem_singleton_self _, ?_⟩
        by_contra hk
        apply hnz
        rw [Mask.nonzero_iff]
        have hk' : r.remainingMask i = false := by simpa using hk
        exact ⟨i, by rw [hafter]; simp [hi, hk']⟩
      · intro it hit'
        simp only [List.head?_cons, Option.mem_def, Option.some.injEq] at hit'
        subst hit'
        rfl
      · exact List.chain'_singleton _

theorem countP_kernel_le_one (i : Fin W) :
    ∀ (its : List (BinIteration W α)),
      its.Pairwise (fun a b => ∀ i, ¬(a.kernel_mask i = true ∧ b.kernel_mask i = true)) →
      its.countP (fun it => it.kernel_mask i) ≤ 1
  | [], _ => by simp
  | it :: its, h => by
    obtain ⟨h1, h2⟩ := List.pairwise_cons.mp h
    have ih := countP_kernel_le_one i its h2
    by_cases hk : it.kernel_mask i = true
    · have : its.countP (fun it => it.kernel_mask i) = 0 := by
        rw [List.countP_eq_zero]
        intro b hb hbi
        exact h1 b hb i ⟨hk, hbi⟩
      rw [List.countP_cons, this]
      simp [hk]
    · rw [List.countP_cons]
      simp only [hk, Bool.false_eq_true, if_false, add_zero]
      exact ih

/-- C3: the binning loop emitted by `llvm_gen_noise`, started on any active mask with at least
one lane, for any per-lane values of the noise name and of the options, compared with a
reflexive equality test: the loop finishes, the masks passed to the kernel are pairwise
disjoint, their union is the initial mask, and every lane is processed exactly once if it was
active and never if it was not. -/
theorem noise_binning_partition (eq : α → α → Bool) (hrefl : ∀ x, eq x x = true)
    (name_is_uniform : Bool) (nameVal : Wide W α) (args : List (NoiseArg W α))
    (hargs : noise_options_asserted args = true) (current_mask : Mask W)
    (hactive : ∃ i, current_mask i = true) (fuel : Nat)
    (hfuel : Mask.count current_mask ≤ fuel) :
    ∃ its, llvm_gen_noise_binning eq name_is_uniform nameVal args current_mask fuel
        = BinResult.finished its
      ∧ its.Pairwise (fun a b => ∀ i, ¬(a.kernel_mask i = true ∧ b.kernel_mask i = true))
      ∧ (∀ i, current_mask i = true ↔ ∃ it ∈ its, it.kernel_mask i = true)
      ∧ (∀ i, its.countP (fun it => it.kernel_mask i)
              = if current_mask i = true then 1 else 0) := by
  obtain ⟨its, h1, _, _, h4, h5, h6, _, _⟩ :=
    bin_block_spec eq hrefl name_is_uniform nameVal args hargs fuel current_mask hactive hfuel
  refine ⟨its, h1, h5, fun i => ⟨h6 i, fun ⟨it, hit, hi⟩ => h4 it hit i hi⟩, fun i => ?_⟩
  by_cases hi : current_mask i = true
  · rw [if_pos hi]
    have hle := countP_kernel_le_one i its h5
    have hpos : 0 < its.countP (fun it => it.kernel_mask i) := by
      rw [List.countP_pos_iff]
      obtain ⟨it, hit, hk⟩ := h6 i hi
      exact ⟨it, hit, hk⟩
    omega
  · rw [if_neg hi, List.countP_eq_zero]
    intro it hit hk
    exact hi (h4 it hit i hk)

/-- With a reflexive equality test, the binning loop emitted by `llvm_gen_noise` terminates:
started on an active mask with at least one lane it finishes within as many iterations as there are active lanes; the first
iteration loads the initial mask and each later one the mask stored by its predecessor; in
each iteration the lead lane is the first active lane of the remaining mask and belongs to
the mask passed to the kernel, and the remaining mask stored at the end is a strict subset of
the one loaded at the start. -/
theorem noise_binning_terminates (eq : α → α → Bool) (hrefl : ∀ x, eq x x = true)
    (name_is_uniform : Bool) (nameVal : Wide W α) (args : List (NoiseArg W α))
    (hargs : noise_options_asserted args = true) (current_mask : Mask W)
    (hactive : ∃ i, current_mask i = true) :
    ∃ its, llvm_gen_noise_binning eq name_is_uniform nameVal args current_mask
          (Mask.count current_mask) = BinResult.finished its
      ∧ its.length ≤ Mask.count current_mask
      ∧ (∀ it ∈ its.head?, it.remaining_before = current_mask)
      ∧ its.Chain' (fun a b => b.remaining_before = a.remaining_after)
      ∧ (∀ it ∈ its,
          op_1st_active_lane_of it.remaining_before = some it.leadLane
          ∧ it.kernel_mask it.leadLane = true
          ∧ it.remaining_after = Mask.xor it.remaining_before it.kernel_mask
          ∧ (∀ i, it.remaining_after i = true → it.remaining_before i = true)
          ∧ it.remaining_before it.leadLane = true
          ∧ it.remaining_after it.leadLane = false
          ∧ Mask.count it.remaining_after < Mask.count it.remaining_before) := by
  obtain ⟨its, h1, h2, h3, _, _, _, h7, h8⟩ :=
    bin_block_spec eq hrefl name_is_uniform nameVal args hargs (Mask.count current_mask)
      current_mask hactive le_rfl
  refine ⟨its, h1, h2, h7, h8, fun it hit => ?_⟩
  have hc := h3 it hit
  have hlead := BinIteration.computed_kernel_lead hrefl hc
  have hb := op_1st_active_lane_of_spec hc.1
  have hsub : ∀ i, it.remaining_after i = true → it.remaining_before i = true := by
    intro i hi
    rw [BinIteration.computed_after hc] at hi
    simp only [Bool.and_eq_true] at hi
    exact hi.1
  have ha : it.remaining_after it.leadLane = false := by
    rw [BinIteration.computed_after hc]; simp [hlead]
  exact ⟨hc.1, hlead, hc.2.2.2.2, hsub, hb, ha, Mask.count_lt hsub it.leadLane hb ha⟩

/-- C5: in every iteration of the noise binning loop, each lane of the mask passed to the
kernel has the value of the lead lane for the noise name (when the name is varying) and for
every varying `anisotropic`, `do_filter`, `bandwidth` and `impulses` option, and the value of
the lead lane is the scalar passed as name and written into the option block by the setter
call of the option.  The equality test decides equality of values. -/
theorem noise_binning_lead_values (eq : α → α → Bool) (heq : ∀ x y, eq x y = true ↔ x = y)
    (name_is_uniform : Bool) (nameVal : Wide W α) (args : List (NoiseArg W α))
    (hargs : noise_options_asserted args = true) (current_mask : Mask W)
    (hactive : ∃ i, current_mask i = true) :
    ∃ its, llvm_gen_noise_binning eq name_is_uniform nameVal args current_mask
          (Mask.count current_mask) = BinResult.finished its
      ∧ (∀ it ∈ its,
          (name_is_uniform = false →
            it.scalar_name = some (nameVal it.leadLane)
            ∧ ∀ i, it.kernel_mask i = true → nameVal i = nameVal it.leadLane)
          ∧ (∀ p ∈ noise_option_pairs args, ∀ f, binned_setter p.1 p.2 = some f →
              (∀ i, it.kernel_mask i = true → p.2.wide i = p.2.wide it.leadLane)
              ∧ ({ func := f, value := p.2.wide it.leadLane } : NoiseSetCall α) ∈ it.calls)) := by
  have hrefl : ∀ x, eq x x = true := fun x => (heq x x).mpr rfl
  obtain ⟨its, h1, _, h3, _, _, _, _, _⟩ :=
    bin_block_spec eq hrefl name_is_uniform nameVal args hargs (Mask.count current_mask)
      current_mask hactive le_rfl
  refine ⟨its, h1, fun it hit => ?_⟩
  obtain ⟨_, hk, hcalls, hname, _⟩ := h3 it hit
  refine ⟨fun hu => ⟨by rw [hname, if_pos hu], fun i hi => ?_⟩, fun p hp f hf => ⟨fun i hi => ?_, ?_⟩⟩
  · rw [hk] at hi
    have := binned_mask_subset eq _ _ _ i hi
    simp only [lanes_matching_name, hu, if_true, op_lanes_that_match_masked, op_extract,
      Bool.and_eq_true] at this
    exact ((heq _ _).mp this.1).symm
  · rw [hk] at hi
    have := binned_mask_agree eq it.leadLane _ _ p hp (by rw [hf]; rfl) i hi
    exact ((heq _ _).mp this).symm
  · rw [hcalls]
    exact binned_calls_mem it.leadLane _ p f hp hf

theorem int_eq_iff (x y : Int) : int_eq x y = true ↔ x = y := by
  simp [int_eq]

/-- Witness of C3: four active lanes, `anisotropic` 1, 0, 1, 0 and `bandwidth` 5, 5, 5, 7: the
kernel is called with lanes {0, 2}, then {1}, then {3}. -/
theorem noise_binning_partition_witness :
    ((∀ x, int_eq x x = true) ∧ noise_options_asserted example_noise_args = true
      ∧ (∃ i, Mask.const 4 true i = true) ∧ Mask.count (Mask.const 4 true) ≤ 4)
    ∧ (llvm_gen_noise_binning int_eq true example_noise_name example_noise_args
          (Mask.const 4 true) 4).kernel_masks
        = some [[true, false, true, false], [false, true, false, false],
                [false, false, false, true]]
    ∧ ∃ its, llvm_gen_noise_binning int_eq true example_noise_name example_noise_args
          (Mask.const 4 true) 4 = BinResult.finished its
      ∧ its.Pairwise (fun a b => ∀ i, ¬(a.kernel_mask i = true ∧ b.kernel_mask i = true))
      ∧ (∀ i, Mask.const 4 true i = true ↔ ∃ it ∈ its, it.kernel_mask i = true)
      ∧ (∀ i, its.countP (fun it => it.kernel_mask i)
              = if Mask.const 4 true i = true then 1 else 0) :=
  ⟨⟨fun x => (int_eq_iff x x).mpr rfl, by decide, ⟨0, rfl⟩, by decide⟩,
   by decide,
   noise_binning_partition int_eq (fun x => (int_eq_iff x x).mpr rfl) true example_noise_name
     example_noise_args (by decide) (Mask.const 4 true) ⟨0, rfl⟩ 4 (by decide)⟩

/-- Example of a run that terminates: lanes 1 and 3 active with different `bandwidth`, compared
as integers: the loop takes two iterations, as many as there are active lanes. -/
theorem noise_binning_terminates_witness :
    ((∀ x, int_eq x x = true) ∧ noise_options_asserted example_noise_args = true
      ∧ (∃ i, example_odd_lanes i = true))
    ∧ Mask.count example_odd_lanes = 2
    ∧ (llvm_gen_noise_binning int_eq true example_noise_name example_noise_args
          example_odd_lanes (Mask.count example_odd_lanes)).iterations = some 2
    ∧ ∃ its, llvm_gen_noise_binning int_eq true example_noise_name example_noise_args
          example_odd_lanes (Mask.count example_odd_lanes) = BinResult.finished its
      ∧ its.length ≤ Mask.count example_odd_lanes
      ∧ (∀ it ∈ its.head?, it.remaining_before = example_odd_lanes)
      ∧ its.Chain' (fun a b => b.remaining_before = a.remaining_after)
      ∧ (∀ it ∈ its,
          op_1st_active_lane_of it.remaining_before = some it.leadLane
          ∧ it.kernel_mask it.leadLane = true
          ∧ it.remaining_after = Mask.xor it.remaining_before it.kernel_mask
          ∧ (∀ i, it.remaining_after i = true → it.remaining_before i = true)
          ∧ it.remaining_before it.leadLane = true
          ∧ it.remaining_after it.leadLane = false
          ∧ Mask.count it.remaining_after < Mask.count it.remaining_before) :=
  ⟨⟨fun x => (int_eq_iff x x).mpr rfl, by decide, ⟨1, rfl⟩⟩,
   by decide,
   by decide,
   noise_binning_terminates int_eq (fun x => (int_eq_iff x x).mpr rfl) true example_noise_name
     example_noise_args (by decide) example_odd_lanes ⟨1, rfl⟩⟩

/-- Witness of C5: four active lanes and a varying name (lane 3 differs): every lane of a
kernel mask agrees with the lead lane on the name, on `anisotropic` and on `bandwidth`. -/
theorem noise_binning_lead_values_witness :
    ((∀ x y, int_eq x y = true ↔ x = y) ∧ noise_options_asserted example_noise_args = true
      ∧ (∃ i, Mask.const 4 true i = true))
    ∧ (llvm_gen_noise_binning int_eq false example_noise_name example_noise_args
          (Mask.const 4 true) (Mask.count (Mask.const 4 true))).kernel_masks
        = some [[true, false, true, false], [false, true, false, false],
                [false, false, false, true]]
    ∧ ∃ its, llvm_gen_noise_binning int_eq false example_noise_name example_noise_args
          (Mask.const 4 true) (Mask.count (Mask.const 4 true)) = BinResult.finished its
      ∧ (∀ it ∈ its,
          (false = false →
            it.scalar_name = some (example_noise_name it.leadLane)
            ∧ ∀ i, it.kernel_mask i = true
                → example_noise_name i = example_noise_name it.leadLane)
          ∧ (∀ p ∈ noise_option_pairs example_noise_args, ∀ f,
              binned_setter p.1 p.2 = some f →
              (∀ i, it.kernel_mask i = true → p.2.wide i = p.2.wide it.leadLane)
              ∧ ({ func := f, value := p.2.wide it.leadLane } : NoiseSetCall Int)
                  ∈ it.calls)) :=
  ⟨⟨int_eq_iff, by decide, ⟨0, rfl⟩⟩,
   by decide,
   noise_binning_lead_values int_eq int_eq_iff false example_noise_name example_noise_args
     (by decide) (Mask.const 4 true) ⟨0, rfl⟩⟩

end

end OSL

namespace OSL

/-! ## Noise: when the binning loop is emitted -/

section

theorem options_pair_flags (Name Val : Symbol) (o o' : NoiseOptions)
    (h : llvm_batched_noise_options_pair Name Val o = some o') :
    o'.flags = (o.flags && !is_binned_option Name Val) := by
  unfold llvm_batched_noise_options_pair at h
  by_cases c1 : (!Name.typespec.is_string) = true
  · rw [if_pos c1] at h; exact absurd h (by simp)
  rw [if_neg c1] at h
  by_cases c2 : Name.string_data = ""
  · simp only [c2, if_true, Option.some.injEq] at h
    subst h
    simp [is_binned_option, c2]
  simp only [c2, if_false] at h
  by_cases c3 : (!Name.is_uniform) = true
  · rw [if_pos c3] at h; exact absurd h (by simp)
  rw [if_neg c3] at h
  by_cases hu : (!Val.is_uniform) = true
  · simp only [hu, if_true] at h
    by_cases a1 : (decide (Name.string_data = "anisotropic") && Val.typespec.is_int) = true
    · rw [if_pos a1] at h
      simp only [Option.some.injEq] at h
      subst h
      simp only [is_binned_option, NoiseOptions.flags, a1, hu]
      simp [c2]
    rw [if_neg a1] at h
    by_cases a2 : (decide (Name.string_data = "do_filter") && Val.typespec.is_int) = true
    · rw [if_pos a2] at h
      simp only [Option.some.injEq] at h
      subst h
      simp only [is_binned_option, NoiseOptions.flags, a2, hu]
      simp [c2]
    rw [if_neg a2] at h
    by_cases a3 : (decide (Name.string_data = "direction") && Val.typespec.is_triple) = true
    · rw [if_pos a3] at h
      simp only [Option.some.injEq] at h
      subst h
      have hn : Name.string_data = "direction" :=
        of_decide_eq_true (Bool.and_eq_true_iff.1 a3).1
      simp [is_binned_option, NoiseOptions.flags, hn]
    rw [if_neg a3] at h
    by_cases a4 : (decide (Name.string_data = "bandwidth")
        && (Val.typespec.is_float || Val.typespec.is_int)) = true
    · rw [if_pos a4] at h
      simp only [Option.some.injEq] at h
      subst h
      simp only [is_binned_option, NoiseOptions.flags, a4, hu]
      simp [c2]
    rw [if_neg a4] at h
    by_cases a5 : (decide (Name.string_data = "impulses")
        && (Val.typespec.is_float || Val.typespec.is_int)) = true
    · rw [if_pos a5] at h
      simp only [Option.some.injEq] at h
      subst h
      simp only [is_binned_option, NoiseOptions.flags, a5, hu]
      simp [c2]
    rw [if_neg a5] at h
    simp only [Option.some.injEq] at h
    subst h
    simp only [is_binned_option, NoiseOptions.flags, a1, a2, a4, a5]
    simp
  · have hu2 : (!Val.is_uniform) = false := by simpa using hu
    simp only [hu2, Bool.false_eq_true, if_false] at h
    have hb : is_binned_option Name Val = false := by
      simp only [is_binned_option, hu]
      simp
    rw [hb]
    split_ifs at h <;>
    · simp only [Option.some.injEq] at h
      subst h
      simp [NoiseOptions.flags]

theorem options_loop_flags :
    ∀ (args : List Symbol) (o o' : NoiseOptions),
      llvm_batched_noise_options_loop args o = some o' →
        o'.flags = (o.flags && !((option_pairs args).any fun p => is_binned_option p.1 p.2))
  | [], o, o', h => by
    simp only [llvm_batched_noise_options_loop, Option.some.injEq] at h
    subst h
    simp [option_pairs]
  | [_], o, o', h => by simp [llvm_batched_noise_options_loop] at h
  | Name :: Val :: rest, o, o', h => by
    simp only [llvm_batched_noise_options_loop] at h
    split at h
    · simp at h
    · rename_i o1 h1
      rw [options_loop_flags rest o1 o' h, options_pair_flags Name Val o o1 h1]
      simp [option_pairs, Bool.and_assoc]

theorem llvm_batched_noise_options_uniform (args : List Symbol) (all : Bool)
    (o : NoiseOptions) (all' : Bool)
    (h : llvm_batched_noise_options args all = some (o, all')) :
    all' = (all && !((option_pairs args).any fun p => is_binned_option p.1 p.2)) := by
  simp only [llvm_batched_noise_options, Option.map_eq_some'] at h
  obtain ⟨o1, h1, h2⟩ := h
  have hf := options_loop_flags args NoiseOptions.start o1 h1
  simp only [Prod.mk.injEq] at h2
  rw [← h2.2]
  have : o1.flags = (o1.is_anisotropic_uniform && o1.is_bandwidth_uniform
      && o1.is_impulses_uniform && o1.is_do_filter_uniform) := rfl
  rw [this] at hf
  simp only [Bool.and_assoc] at hf ⊢
  rw [hf]
  simp [NoiseOptions.flags, NoiseOptions.start]

theorem countP_map_eq_zero {β : Type} (p : NoiseEmit → Bool) (f : β → NoiseEmit)
    (l : List β) (h : ∀ x, p (f x) = false) : (l.map f).countP p = 0 := by
  rw [List.countP_eq_zero]
  intro a ha
  obtain ⟨x, _, rfl⟩ := List.mem_map.1 ha
  simp [h x]

/-- C19 fails for a varying `direction`: gabor noise whose only option is a varying
`direction` is generated as one masked kernel call that receives the wide direction by
pointer; no binning loop is emitted. -/
theorem varying_direction_is_not_binned :
    (option_pairs (example_gabor_varying_direction.args.drop 3)).map
        (fun p => (p.1.string_data, p.2.is_uniform)) = [("direction", false)]
    ∧ (llvm_gen_noise false example_gabor_varying_direction).value = some true
    ∧ (llvm_gen_noise false example_gabor_varying_direction).state
        = [NoiseEmit.get_noise_options,
             NoiseEmit.kernel_call "gabornoise" true false
               [NoiseCallArg.name_value (Symbol.mk_string_constant "gabor"),
                NoiseCallArg.tmpresult,
                NoiseCallArg.arg (Symbol.mk_simple "P" TypeSpec.triple false false) true,
                NoiseCallArg.sg_void_ptr,
                NoiseCallArg.opt,
                NoiseCallArg.wide_direction
                  (some (Symbol.mk_simple "D" TypeSpec.triple false false)),
                NoiseCallArg.current_mask],
           NoiseEmit.copy_tmpresult]
    ∧ (llvm_gen_noise false example_gabor_varying_direction).state.any
        NoiseEmit.is_binning_loop = false := by
  refine ⟨by decide, by decide, by decide, by decide⟩

/-- C19, amended: when `llvm_gen_noise` passes noise options (generic or gabor noise, the
renderer option `no_noise` being off) and returns `true`, it emits either the binning loop or
one kernel call, never both: the binning loop when the noise name is varying (generic noise,
`all_options_are_uniform` already false before the options are read) or when some option
pair is a varying `anisotropic`, `do_filter`, `bandwidth` or `impulses` of the type that the
code accepts for it; one kernel call otherwise, a varying `direction` included. -/
theorem noise_binning_loop_iff (no_noise : Bool) (op : Opcode) (su : NoiseSetup)
    (emits : List NoiseEmit)
    (hsu : llvm_gen_noise_setup no_noise op = some su) (hpass : su.pass_options = true)
    (h : llvm_gen_noise no_noise op = GenResult.returned true emits) :
    ((!su.all_options_are_uniform
        || (option_pairs (op.args.drop su.arg)).any fun p => is_binned_option p.1 p.2) = true →
      emits.countP NoiseEmit.is_binning_loop = 1 ∧ emits.countP NoiseEmit.is_kernel_call = 0)
    ∧ ((!su.all_options_are_uniform
        || (option_pairs (op.args.drop su.arg)).any fun p => is_binned_option p.1 p.2) = false →
      emits.countP NoiseEmit.is_binning_loop = 0 ∧ emits.countP NoiseEmit.is_kernel_call = 1) := by
  simp only [llvm_gen_noise, hsu, hpass, if_true] at h
  split at h
  · exact absurd h (by simp)
  · rename_i o all hopt
    have hall := llvm_batched_noise_options_uniform _ _ _ _ hopt
    simp only [GenResult.returned.injEq, true_and] at h
    subst h
    have h1 : (llvm_gen_noise_options_emits o).countP NoiseEmit.is_binning_loop = 0 := by
      simp [llvm_gen_noise_options_emits, List.countP_append, List.countP_cons,
        NoiseEmit.is_binning_loop, countP_map_eq_zero]
    have h2 : (llvm_gen_noise_options_emits o).countP NoiseEmit.is_kernel_call = 0 := by
      simp [llvm_gen_noise_options_emits, List.countP_append, List.countP_cons,
        NoiseEmit.is_kernel_call, countP_map_eq_zero]
    have h3 : (llvm_gen_noise_epilogue op su).countP NoiseEmit.is_binning_loop = 0 := by
      simp only [llvm_gen_noise_epilogue]
      split_ifs <;> rfl
    have h4 : (llvm_gen_noise_epilogue op su).countP NoiseEmit.is_kernel_call = 0 := by
      simp only [llvm_gen_noise_epilogue]
      split_ifs <;> rfl
    simp only [List.countP_append, h1, h2, h3, h4, Nat.zero_add, Nat.add_zero]
    constructor
    · intro hv
      have hall2 : all = false := by
        rw [hall]
        revert hv
        cases su.all_options_are_uniform <;> simp
      simp only [llvm_gen_noise_kernel, hpass, hall2, Bool.not_false, Bool.and_self, if_true]
      exact ⟨rfl, rfl⟩
    · intro hv
      have hall2 : all = true := by
        rw [hall]
        revert hv
        cases su.all_options_are_uniform <;> simp
      simp only [llvm_gen_noise_kernel, hpass, hall2, Bool.not_true, Bool.and_false,
        Bool.false_eq_true, if_false]
      split_ifs <;> exact ⟨rfl, rfl⟩

/-- Witness of C19, amended: gabor noise whose only option is a varying `bandwidth` is
generated as the binning loop, without a kernel call outside of it. -/
theorem noise_binning_loop_iff_witness :
    llvm_gen_noise_setup false example_gabor_varying_bandwidth = some example_gabor_setup
    ∧ example_gabor_setup.pass_options = true
    ∧ (llvm_gen_noise false example_gabor_varying_bandwidth).value = some true
    ∧ (llvm_gen_noise false example_gabor_varying_bandwidth).state.countP
        NoiseEmit.is_binning_loop = 1
    ∧ (llvm_gen_noise false example_gabor_varying_bandwidth).state.countP
        NoiseEmit.is_kernel_call = 0 :=
  have hsu : llvm_gen_noise_setup false example_gabor_varying_bandwidth
      = some example_gabor_setup := by decide
  ⟨hsu, rfl, rfl,
    (noise_binning_loop_iff false example_gabor_varying_bandwidth example_gabor_setup
      (llvm_gen_noise false example_gabor_varying_bandwidth).state hsu rfl rfl).1
      (by decide)⟩

end

end OSL

namespace OSL

section NoiseNanProofs

end NoiseNanProofs

end OSL

namespace OSL

/-! ## Masked break in a varying loop -/

section

variable {W : Nat}

theorem control_after_body_clear (flags : LoopFlags) (body : LoopBody W) (k : Nat)
    (mask control : Mask W) (l : Fin W) (h : control l = false) :
    control_after_body flags body k mask control l = false := by
  unfold control_after_body
  split_ifs
  · simp [op_masked_break, Mask.and, h]
  · exact h

theorem control_after_body_broke (flags : LoopFlags) (body : LoopBody W) (k : Nat)
    (mask control : Mask W) (l : Fin W) (h : broke_in_body flags body k mask l = true) :
    flags.masked_break = true ∧ control_after_body flags body k mask control l = false := by
  unfold broke_in_body at h
  unfold control_after_body
  split_ifs at h ⊢ with hb
  · refine ⟨hb, ?_⟩
    simp only [Mask.and] at h
    simp [op_masked_break, Mask.and, Mask.not, h]
  · simp [Mask.const] at h

theorem apply_return_to_clear (nr m : Mask W) (l : Fin W) (h : m l = false) :
    apply_return_to nr m l = false := by
  simp [apply_return_to, Mask.and, h]

theorem while_run_clear (flags : LoopFlags) (body : LoopBody W) (l : Fin W) :
    ∀ (fuel k : Nat) (control : Mask W), control l = false →
      ∀ e ∈ (llvm_gen_loop_op_while_run flags body fuel k control).1, e.mask l = false := by
  intro fuel
  induction fuel with
  | zero => intro k control _ e he; simp [llvm_gen_loop_op_while_run] at he
  | succ fuel ih =>
    intro k control hc e he
    have hpost : Mask.and (body.cond_value k) control l = false := by simp [Mask.and, hc]
    have hbody := control_after_body_clear flags body k (Mask.and (body.cond_value k) control)
      (Mask.and (body.cond_value k) control) l hpost
    simp only [llvm_gen_loop_op_while_run] at he
    split_ifs at he
    all_goals simp only [List.mem_cons, List.mem_singleton, List.not_mem_nil, or_false] at he
    all_goals first
      | (subst he; exact hpost)
      | (rcases he with rfl | rfl
         · exact hpost
         · exact hpost)
      | (rcases he with rfl | rfl | he
         · exact hpost
         · exact hpost
         · refine ih _ _ ?_ e he
           first
             | exact hbody
             | exact apply_return_to_clear _ _ l hbody
             | exact apply_return_to_clear _ _ l hpost)

/-- In a varying `for` / `while` loop a masked break is permanent: a lane that executes a
masked break in the body of some iteration is clear in every mask that the condition block
stores afterwards and in the mask of every later run of the body.  This holds for every
prefix of the run (every `fuel`). -/
theorem while_break_is_permanent (flags : LoopFlags) (body : LoopBody W) :
    ∀ (fuel k : Nat) (control : Mask W),
      (llvm_gen_loop_op_while_run flags body fuel k control).1.Pairwise break_is_permanent := by
  intro fuel
  induction fuel with
  | zero => intro k control; simp [llvm_gen_loop_op_while_run]
  | succ fuel ih =>
    intro k control
    have hstore : ∀ (m : Mask W) (e : LoopEvent W),
        break_is_permanent (LoopEvent.cond_store m) e := by
      intro m e l hl
      simp [LoopEvent.broke, Mask.const] at hl
    have hbody : ∀ (e : LoopEvent W) (c : Mask W),
        (c = control_after_body flags body k (Mask.and (body.cond_value k) control)
              (Mask.and (body.cond_value k) control)
          ∨ c = apply_return_to (body.not_returned k)
              (control_after_body flags body k (Mask.and (body.cond_value k) control)
                (Mask.and (body.cond_value k) control))) →
        e ∈ (llvm_gen_loop_op_while_run flags body fuel (k + 1) c).1 →
        break_is_permanent (LoopEvent.body (Mask.and (body.cond_value k) control)
          (broke_in_body flags body k (Mask.and (body.cond_value k) control))) e := by
      intro e c hc he l hl
      obtain ⟨_, hcl⟩ := control_after_body_broke flags body k _
        (Mask.and (body.cond_value k) control) l hl
      refine while_run_clear flags body l fuel (k + 1) c ?_ e he
      rcases hc with rfl | rfl
      · exact hcl
      · exact apply_return_to_clear _ _ l hcl
    simp only [llvm_gen_loop_op_while_run]
    by_cases h1 : (!Mask.nonzero (Mask.and (body.cond_value k) control)) = true
    · simp [h1]
    rw [if_neg h1]
    by_cases h2 : (body.leaves_early k (Mask.and (body.cond_value k) control)
        && !flags.loopHasContinue) = true
    · rw [if_pos h2]
      simp only [List.pairwise_cons, List.mem_singleton, List.not_mem_nil, List.Pairwise.nil,
        and_true]
      exact ⟨fun e _ => hstore _ e, fun e he => absurd he (by simp)⟩
    rw [if_neg h2]
    refine List.pairwise_cons.mpr ⟨fun e _ => hstore _ e, List.pairwise_cons.mpr ⟨?_, ih _ _⟩⟩
    intro e he
    by_cases h3 : flags.masked_return = true
    · by_cases h4 : flags.masked_break = true
      · simp only [h3, h4, if_true] at he
        exact hbody e _ (Or.inr rfl) he
      · intro l hl
        exact absurd (control_after_body_broke flags body k _
          (Mask.and (body.cond_value k) control) l hl).1 h4
    · simp only [h3, Bool.false_eq_true, if_false] at he
      exact hbody e _ (Or.inl rfl) he

/-- The scenario of the specification in a `for` / `while` loop: eight lanes, lanes 0, 2 and 4
break in the second iteration; from the third condition test on the stored control mask has
bits 0, 2 and 4 clear, and the other five lanes run five iterations. -/
theorem while_break_scenario :
    (llvm_gen_loop_op_run "for" scenario_flags scenario_while (Mask.const 8 true) 10).1.map
        LoopEvent.show
      = [("C", "11111111", ""), ("B", "11111111", "00000000"),
         ("C", "11111111", ""), ("B", "11111111", "10101000"),
         ("C", "01010111", ""), ("B", "01010111", "00000000"),
         ("C", "01010111", ""), ("B", "01010111", "00000000"),
         ("C", "01010111", ""), ("B", "01010111", "00000000"),
         ("C", "00000000", "")]
    ∧ (llvm_gen_loop_op_run "for" scenario_flags scenario_while (Mask.const 8 true) 10).2
      = true := by
  decide

/-- C6 fails for the `dowhile` form: eight lanes, lanes 0, 2 and 4 execute a masked break in
the second iteration, and the condition symbol reads true in all lanes at the test that
follows.  The condition block stores `cond AND pre_condition_mask`, where the pre-condition
mask was loaded before the body ran, so bits 0, 2 and 4 are set again in the stored control
mask and lanes 0, 2 and 4 take part in the third, fourth and fifth iteration. -/
theorem dowhile_break_not_permanent :
    (llvm_gen_loop_op_run "dowhile" scenario_flags scenario_dowhile (Mask.const 8 true)
        10).1.map LoopEvent.show
      = [("B", "11111111", "00000000"), ("C", "11111111", ""),
         ("B", "11111111", "10101000"), ("C", "11111111", ""),
         ("B", "11111111", "00000000"), ("C", "11111111", ""),
         ("B", "11111111", "00000000"), ("C", "11111111", ""),
         ("B", "11111111", "00000000"), ("C", "00000000", "")]
    ∧ ¬ (llvm_gen_loop_op_run "dowhile" scenario_flags scenario_dowhile (Mask.const 8 true)
          10).1.Pairwise break_is_permanent := by
  decide

end

end OSL

namespace OSL

/-! ## Broadcast of uniform operations and the uniformity assertion -/

section

variable {W : Nat} {α : Type}

theorem loop_components_next (body : Nat → List (Action W α) × Step) :
    ∀ (l : List Nat), (∀ i ∈ l, (body i).2 = Step.next) →
      loop_components l body = ((l.map fun i => (body i).1).flatten, Step.next)
  | [], _ => rfl
  | i :: rest, h => by
    have hi := h i (List.mem_cons_self _ _)
    have ih := loop_components_next body rest (fun j hj => h j (List.mem_cons_of_mem _ hj))
    rcases hb : body i with ⟨acts, st⟩
    rw [hb] at hi
    simp only at hi
    subst hi
    simp only [loop_components, hb, ih, List.map_cons, List.flatten_cons]

theorem value_stores_append (a b : List (Action W α)) :
    value_stores (a ++ b) = value_stores a ++ value_stores b := by
  simp [value_stores, List.filterMap_append]

theorem value_stores_flatten_map (g : Nat → List (Action W α)) (h : Nat → Nat × Value W α) :
    ∀ (l : List Nat), (∀ i ∈ l, value_stores (g i) = [h i]) →
      value_stores (l.map g).flatten = l.map h
  | [], _ => rfl
  | i :: rest, hyp => by
    have ih := value_stores_flatten_map g h rest
      (fun j hj => hyp j (List.mem_cons_of_mem _ hj))
    simp only [List.map_cons, List.flatten_cons, value_stores_append, ih,
      hyp i (List.mem_cons_self _ _), List.singleton_append]

theorem value_stores_flatten_map_nil (g : Nat → List (Action W α)) :
    ∀ (l : List Nat), (∀ i ∈ l, value_stores (g i) = []) →
      value_stores (l.map g).flatten = []
  | [], _ => rfl
  | i :: rest, hyp => by
    have ih := value_stores_flatten_map_nil g rest
      (fun j hj => hyp j (List.mem_cons_of_mem _ hj))
    simp only [List.map_cons, List.flatten_cons, value_stores_append, ih,
      hyp i (List.mem_cons_self _ _), List.append_nil]

theorem llvm_load_value_uniform (ops : ScalarOps α) (o : Operand W α) (i : Nat)
    (h : o.sym.is_uniform = true) :
    llvm_load_value ops o 0 i true = some (Value.scalar (o.scalar 0 (o.component i))) := by
  simp [llvm_load_value, h, Operand.component]

theorem value_stores_add_sub_derivs (ops : ScalarOps α) (f : α → α → α)
    (Result A B : Operand W α) (u r : Bool) (n : Nat) :
    value_stores (add_sub_derivs ops f Result A B u r n) = [] := by
  unfold add_sub_derivs
  split_ifs
  · simp only [List.map_cons, List.map_nil, List.flatten_cons, List.flatten_nil,
      List.append_nil, List.flatten_append, value_stores_append]
    rw [value_stores_flatten_map_nil, value_stores_flatten_map_nil]
    · rfl
    · intro i _
      split <;> rfl
    · intro i _
      split <;> rfl
  · rfl
  · rfl

theorem add_sub_components_uniform (ops : ScalarOps α) (f : α → α → α) (A B : Operand W α)
    (hA : A.sym.is_uniform = true) (hB : B.sym.is_uniform = true) (n : Nat) :
    add_sub_components ops f A B true false n
      = ((List.range n).map fun i =>
          Action.store 0 i
            (Value.wide (fun _ => f (A.scalar 0 (A.component i)) (B.scalar 0 (B.component i)))),
         Step.next) := by
  unfold add_sub_components
  rw [loop_components_next]
  · congr 1
    induction List.range n with
    | nil => rfl
    | cons i rest ih =>
      simp only [List.map_cons, List.flatten_cons, ih, llvm_load_value_uniform ops A i hA,
        llvm_load_value_uniform ops B i hB]
      rfl
  · intro i _
    simp only [llvm_load_value_uniform ops A i hA, llvm_load_value_uniform ops B i hB]

theorem value_stores_map_store (n : Nat) (v : Nat → Value W α) :
    value_stores ((List.range n).map fun i => Action.store 0 i (v i))
      = (List.range n).map fun i => (i, v i) := by
  unfold value_stores
  induction List.range n with
  | nil => rfl
  | cons i rest ih => simp [List.filterMap_cons, Action.value_store, ih]

theorem llvm_gen_add_broadcast (ops : ScalarOps α) (Result A B : Operand W α)
    (hA : A.sym.is_uniform = true) (hB : B.sym.is_uniform = true)
    (hR : Result.sym.is_uniform = false)
    (harrA : A.sym.typespec.is_array = false) (harrB : B.sym.typespec.is_array = false)
    (hcl : Result.sym.typespec.is_closure = false) :
    (llvm_gen_add ops Result A B).value = some true
    ∧ value_stores (llvm_gen_add ops Result A B).state
        = broadcast_stores W Result.sym.typespec.aggregate
            (fun i => ops.add (A.scalar 0 (A.component i)) (B.scalar 0 (B.component i))) := by
  simp only [llvm_gen_add, hA, hB, hR, harrA, harrB, hcl, Bool.and_self, Bool.not_false,
    Bool.or_true, Bool.not_true, Bool.false_eq_true, if_false,
    add_sub_components_uniform ops ops.add A B hA hB, finish_loop, GenResult.value,
    GenResult.state, value_stores_append, value_stores_add_sub_derivs, List.append_nil,
    value_stores_map_store, broadcast_stores, true_and]

theorem llvm_gen_sub_broadcast (ops : ScalarOps α) (Result A B : Operand W α)
    (hA : A.sym.is_uniform = true) (hB : B.sym.is_uniform = true)
    (hR : Result.sym.is_uniform = false)
    (hcl : Result.sym.typespec.is_closure = false) :
    (llvm_gen_sub ops Result A B).value = some true
    ∧ value_stores (llvm_gen_sub ops Result A B).state
        = broadcast_stores W Result.sym.typespec.aggregate
            (fun i => ops.sub (A.scalar 0 (A.component i)) (B.scalar 0 (B.component i))) := by
  simp only [llvm_gen_sub, hA, hB, hR, hcl, TypeSpec.is_closure_based, Bool.and_self,
    Bool.not_false, Bool.or_true, Bool.not_true, Bool.false_eq_true, if_false,
    add_sub_components_uniform ops ops.sub A B hA hB, finish_loop, GenResult.value,
    GenResult.state, value_stores_append, value_stores_add_sub_derivs, List.append_nil,
    value_stores_map_store, broadcast_stores, true_and]

theorem llvm_load_value_isSome (ops : ScalarOps α) (o : Operand W α) (d i : Nat) (u : Bool) :
    ∃ v, llvm_load_value ops o d i u = some v := by
  unfold llvm_load_value
  split_ifs <;> exact ⟨_, rfl⟩

theorem loop_value_stores (body : Nat → List (Action W α) × Step)
    (h : Nat → Nat × Value W α) (l : List Nat)
    (hyp : ∀ i ∈ l, (body i).2 = Step.next ∧ value_stores (body i).1 = [h i]) :
    (loop_components l body).2 = Step.next
    ∧ value_stores (loop_components l body).1 = l.map h := by
  rw [loop_components_next body l (fun i hi => (hyp i hi).1)]
  exact ⟨rfl, value_stores_flatten_map _ h l (fun i hi => (hyp i hi).2)⟩

theorem mul_component_uniform (ops : ScalarOps α) (Result A B : Operand W α)
    (hA : A.sym.is_uniform = true) (hB : B.sym.is_uniform = true) (is_float : Bool)
    (hfloat : Result.sym.has_derivs = true → (A.sym.has_derivs || B.sym.has_derivs) = true →
      is_float = true) (i : Nat) :
    (mul_component ops Result A B true false is_float i).2 = Step.next
    ∧ value_stores (mul_component ops Result A B true false is_float i).1
        = [(i, Value.wide
            (fun _ => ops.mul (A.scalar 0 (A.component i)) (B.scalar 0 (B.component i))))] := by
  unfold mul_component
  rw [llvm_load_value_uniform ops A i hA, llvm_load_value_uniform ops B i hB]
  simp only
  by_cases hd : (Result.sym.has_derivs && (A.sym.has_derivs || B.sym.has_derivs)) = true
  · rw [if_pos hd]
    simp only [Bool.and_eq_true] at hd
    have hf := hfloat hd.1 hd.2
    subst hf
    obtain ⟨ax, hax⟩ := llvm_load_value_isSome ops A 1 i true
    obtain ⟨bx, hbx⟩ := llvm_load_value_isSome ops B 1 i true
    obtain ⟨ay, hay⟩ := llvm_load_value_isSome ops A 2 i true
    obtain ⟨by_, hby⟩ := llvm_load_value_isSome ops B 2 i true
    rw [hax, hbx, hay, hby]
    exact ⟨rfl, rfl⟩
  · rw [if_neg hd]
    exact ⟨rfl, rfl⟩

theorem llvm_gen_mul_broadcast (ops : ScalarOps α) (Result A B : Operand W α)
    (hA : A.sym.is_uniform = true) (hB : B.sym.is_uniform = true)
    (hR : Result.sym.is_uniform = false)
    (hcl : Result.sym.typespec.is_closure = false)
    (hmat : Result.sym.typespec.is_matrix = false)
    (hfloat : Result.sym.has_derivs = true → (A.sym.has_derivs || B.sym.has_derivs) = true →
      Result.sym.typespec.is_float_based = true) :
    (llvm_gen_mul ops Result A B).value = some true
    ∧ value_stores (llvm_gen_mul ops Result A B).state
        = broadcast_stores W Result.sym.typespec.aggregate
            (fun i => ops.mul (A.scalar 0 (A.component i)) (B.scalar 0 (B.component i))) := by
  have hloop := loop_value_stores
    (mul_component ops Result A B true false
      (!Result.sym.typespec.is_closure_based && Result.sym.typespec.is_float_based))
    (fun i => (i, Value.wide
      (fun _ => ops.mul (A.scalar 0 (A.component i)) (B.scalar 0 (B.component i)))))
    (List.range Result.sym.typespec.aggregate)
    (fun i _ => mul_component_uniform ops Result A B hA hB _
      (fun h1 h2 => by simp [TypeSpec.is_closure_based, hcl, hfloat h1 h2]) i)
  simp only [llvm_gen_mul, hA, hB, hR, hcl, hmat, Bool.and_self, Bool.not_false, Bool.or_true,
    Bool.not_true, Bool.false_eq_true, if_false]
  rcases hl : loop_components (List.range Result.sym.typespec.aggregate)
      (mul_component ops Result A B true false
        (!Result.sym.typespec.is_closure_based && Result.sym.typespec.is_float_based))
    with ⟨acts, st⟩
  rw [hl] at hloop
  obtain ⟨h1, h2⟩ := hloop
  simp only at h1 h2
  subst h1
  simp only [finish_loop, GenResult.value, GenResult.state, value_stores_append, h2,
    broadcast_stores, true_and]
  split_ifs <;> simp [value_stores, Action.value_store]

theorem div_quotient_scalar_int (ops : ScalarOps α) (B : Operand W α) (a b : α) :
    div_quotient ops B true false (Value.scalar a) (Value.scalar b)
      = Value.scalar (int_div_scalar ops (B.sym.is_constant && !is_zero ops B) a b) := by
  unfold div_quotient int_div_scalar
  by_cases hc : (B.sym.is_constant && !is_zero ops B) = true
  · simp [hc, Value.map2]
  · simp only [hc, Bool.not_false, Bool.and_true, Bool.false_eq_true, if_false, constant_for,
      if_true, Value.map2, Value.select]
    by_cases hn : ops.ne b ops.zero = true
    · simp [hn]
    · simp [hn]

theorem div_components_uniform_int (ops : ScalarOps α) (Result A B : Operand W α)
    (hA : A.sym.is_uniform = true) (hB : B.sym.is_uniform = true)
    (hBn : 1 ≤ B.sym.typespec.aggregate) :
    ∀ (k s : Nat) (acc : Option (Value W α)),
      (s = 0 ∨ acc = some (Value.scalar
        (B.scalar 0 (B.component (min (s - 1) (B.sym.typespec.aggregate - 1)))))) →
      div_components ops Result A B true false false false B.sym.typespec.aggregate
          (List.range' s k) acc
        = ((List.range' s k).map fun i =>
            Action.store 0 i (Value.wide (fun _ =>
              int_div_scalar ops (B.sym.is_constant && !is_zero ops B)
                (A.scalar 0 (A.component i))
                (B.scalar 0 (B.component (min i (B.sym.typespec.aggregate - 1)))))),
           Step.next) := by
  intro k
  induction k with
  | zero => intro s acc _; rfl
  | succ k ih =>
    intro s acc hacc
    have hb : (if s < B.sym.typespec.aggregate then llvm_load_value ops B 0 s true else acc)
        = some (Value.scalar
            (B.scalar 0 (B.component (min s (B.sym.typespec.aggregate - 1))))) := by
      by_cases hs : s < B.sym.typespec.aggregate
      · rw [if_pos hs, llvm_load_value_uniform ops B s hB]
        have : min s (B.sym.typespec.aggregate - 1) = s := by omega
        rw [this]
      · rw [if_neg hs]
        rcases hacc with h0 | hacc
        · omega
        · rw [hacc]
          have : min (s - 1) (B.sym.typespec.aggregate - 1)
              = min s (B.sym.typespec.aggregate - 1) := by omega
          rw [this]
    have ih' := ih (s + 1) (some (Value.scalar
      (B.scalar 0 (B.component (min s (B.sym.typespec.aggregate - 1))))))
      (Or.inr (by simp))
    simp only [List.range', div_components, hb, llvm_load_value_uniform ops A s hA,
      Bool.false_eq_true, if_false, ih', List.map_cons, div_quotient_scalar_int]
    rfl

theorem llvm_gen_div_broadcast_int (ops : ScalarOps α) (Result A B : Operand W α)
    (hA : A.sym.is_uniform = true) (hB : B.sym.is_uniform = true)
    (hR : Result.sym.is_uniform = false)
    (hcl : Result.sym.typespec.is_closure = false)
    (hmat : Result.sym.typespec.is_matrix = false)
    (hint : Result.sym.typespec.is_float_based = false)
    (hnd : Result.sym.has_derivs = false)
    (hBn : 1 ≤ B.sym.typespec.aggregate) :
    (llvm_gen_div ops Result A B).value = some true
    ∧ value_stores (llvm_gen_div ops Result A B).state
        = broadcast_stores W Result.sym.typespec.aggregate
            (fun i => int_div_scalar ops (B.sym.is_constant && !is_zero ops B)
              (A.scalar 0 (A.component i))
              (B.scalar 0 (B.component (min i (B.sym.typespec.aggregate - 1))))) := by
  have h := div_components_uniform_int ops Result A B hA hB hBn
    Result.sym.typespec.aggregate 0 none (Or.inl rfl)
  rw [← List.range_eq_range'] at h
  simp only [llvm_gen_div, hA, hB, hR, hcl, hmat, hint, hnd, TypeSpec.is_closure_based,
    Bool.and_self, Bool.not_false, Bool.or_true, Bool.not_true, Bool.false_eq_true, if_false,
    Bool.false_and, h, finish_loop, GenResult.value, GenResult.state, List.append_nil,
    value_stores_map_store, broadcast_stores, true_and]

theorem mod_remainder_scalar (ops : ScalarOps α) (a b : α) :
    mod_remainder (W := W) ops true (Value.scalar a) (Value.scalar b)
      = Value.scalar (int_mod_scalar ops a b) := by
  simp [mod_remainder, int_mod_scalar, constant_for, Value.map2, Value.select]

theorem mod_component_uniform (ops : ScalarOps α) (A B : Operand W α)
    (hA : A.sym.is_uniform = true) (hB : B.sym.is_uniform = true) (i : Nat) :
    (mod_component ops A B true false i).2 = Step.next
    ∧ value_stores (mod_component ops A B true false i).1
        = [(i, Value.wide (fun _ =>
            int_mod_scalar ops (A.scalar 0 (A.component i)) (B.scalar 0 (B.component i))))] := by
  unfold mod_component
  rw [llvm_load_value_uniform ops A i hA, llvm_load_value_uniform ops B i hB]
  refine ⟨rfl, ?_⟩
  show value_stores [Action.store 0 i (widen_if true false (mod_remainder ops true _ _))] = _
  rw [mod_remainder_scalar]
  rfl

theorem llvm_gen_modulus_broadcast_int (ops : ScalarOps α) (m : Bool)
    (Result A B : Operand W α)
    (hA : A.sym.is_uniform = true) (hB : B.sym.is_uniform = true)
    (hR : Result.sym.is_uniform = false)
    (hnd : Result.sym.has_derivs = false) :
    (llvm_gen_modulus ops m Result A B).value = some true
    ∧ value_stores (llvm_gen_modulus ops m Result A B).state
        = broadcast_stores W Result.sym.typespec.aggregate
            (fun i => int_mod_scalar ops (A.scalar 0 (A.component i))
              (B.scalar 0 (B.component i))) := by
  have hloop := loop_value_stores (mod_component ops A B true false)
    (fun i => (i, Value.wide
      (fun _ => int_mod_scalar ops (A.scalar 0 (A.component i)) (B.scalar 0 (B.component i)))))
    (List.range Result.sym.typespec.aggregate)
    (fun i _ => mod_component_uniform ops A B hA hB i)
  simp only [llvm_gen_modulus, hA, hB, hR, hnd, Bool.and_self, Bool.not_false, Bool.or_true,
    Bool.not_true, Bool.false_eq_true, if_false, Bool.and_false]
  rcases hl : loop_components (List.range Result.sym.typespec.aggregate)
      (mod_component ops A B true false) with ⟨acts, st⟩
  rw [hl] at hloop
  obtain ⟨h1, h2⟩ := hloop
  simp only at h1 h2
  subst h1
  simp only [GenResult.value, GenResult.state, h2, broadcast_stores, true_and]

theorem value_stores_neg_channel (ops : ScalarOps α) (A : Operand W α) (d : Nat)
    (hd : d ≠ 0) (n : Nat) :
    value_stores ((List.range n).map fun i =>
        match llvm_load_value ops A d i true with
        | some a => [Action.store d i (widen_if true false (Value.map ops.neg a))]
        | none => ([] : List (Action W α))).flatten = [] := by
  apply value_stores_flatten_map_nil
  intro i _
  split
  · cases d with
    | zero => exact absurd rfl hd
    | succ d => rfl
  · rfl

theorem llvm_gen_neg_broadcast (ops : ScalarOps α) (Result A : Operand W α)
    (hA : A.sym.is_uniform = true) (hR : Result.sym.is_uniform = false) :
    (llvm_gen_neg ops Result A).value = some true
    ∧ value_stores (llvm_gen_neg ops Result A).state
        = broadcast_stores W Result.sym.typespec.aggregate
            (fun i => ops.neg (A.scalar 0 (A.component i))) := by
  have h0 : value_stores ((List.range Result.sym.typespec.aggregate).map fun i =>
        match llvm_load_value ops A 0 i true with
        | some a => [Action.store 0 i (widen_if true false (Value.map ops.neg a))]
        | none => ([] : List (Action W α))).flatten
      = broadcast_stores W Result.sym.typespec.aggregate
          (fun i => ops.neg (A.scalar 0 (A.component i))) := by
    apply value_stores_flatten_map
    intro i _
    rw [llvm_load_value_uniform ops A i hA]
    rfl
  simp only [llvm_gen_neg, hA, hR, Bool.not_false, Bool.or_true, Bool.not_true,
    Bool.false_eq_true, if_false, GenResult.value, GenResult.state, true_and]
  split_ifs
  · simp only [List.map_cons, List.map_nil, List.flatten_cons, List.flatten_nil,
      List.append_nil, List.flatten_append, value_stores_append, h0,
      value_stores_neg_channel ops A 1 (by decide), value_stores_neg_channel ops A 2 (by decide)]
  · simp only [List.map_cons, List.map_nil, List.flatten_cons, List.flatten_nil,
      List.append_nil, h0]

theorem minmax_component_uniform (ops : ScalarOps α) (opname : String)
    (Result x y : Operand W α)
    (hx : x.sym.is_uniform = true) (hy : y.sym.is_uniform = true) (i : Nat) :
    value_stores (minmax_component ops opname Result x y true false i)
      = [(i, Value.wide (fun _ =>
          minmax_scalar ops opname (x.scalar 0 (x.component i)) (y.scalar 0 (y.component i))))] := by
  unfold minmax_component
  rw [llvm_load_value_uniform ops x i hx, llvm_load_value_uniform ops y i hy]
  have hv : widen_if true false
      (Value.select
        (if opname = "min" then
          Value.map2 ops.le (Value.scalar (x.scalar 0 (x.component i)))
            (Value.scalar (y.scalar 0 (y.component i)))
         else Value.map2 ops.gt (Value.scalar (x.scalar 0 (x.component i)))
            (Value.scalar (y.scalar 0 (y.component i))))
        (Value.scalar (x.scalar 0 (x.component i))) (Value.scalar (y.scalar 0 (y.component i))))
      = (Value.wide (fun _ => minmax_scalar ops opname (x.scalar 0 (x.component i))
          (y.scalar 0 (y.component i))) : Value W α) := by
    unfold minmax_scalar
    split_ifs <;> simp_all [widen_if, Value.map2, Value.select, Value.widen]
  obtain ⟨a, ha⟩ := llvm_load_value_isSome ops x 1 i true
  obtain ⟨b, hb⟩ := llvm_load_value_isSome ops x 2 i true
  obtain ⟨c, hc⟩ := llvm_load_value_isSome ops y 1 i true
  obtain ⟨d, hd⟩ := llvm_load_value_isSome ops y 2 i true
  simp only [hv, ha, hb, hc, hd]
  split_ifs <;> rfl

theorem llvm_gen_minmax_broadcast (ops : ScalarOps α) (opname : String)
    (Result x y : Operand W α)
    (hx : x.sym.is_uniform = true) (hy : y.sym.is_uniform = true)
    (hR : Result.sym.is_uniform = false) :
    (llvm_gen_minmax ops opname Result x y).value = some true
    ∧ value_stores (llvm_gen_minmax ops opname Result x y).state
        = broadcast_stores W Result.sym.typespec.aggregate
            (fun i => minmax_scalar ops opname (x.scalar 0 (x.component i))
              (y.scalar 0 (y.component i))) := by
  simp only [llvm_gen_minmax, hx, hy, hR, Bool.and_self, GenResult.value, GenResult.state,
    true_and]
  exact value_stores_flatten_map _ _ _
    (fun i _ => minmax_component_uniform ops opname Result x y hx hy i)

theorem Value.widen_map2 {β γ δ : Type} (f : β → γ → δ) (a : β) (b : γ) :
    (Value.map2 f (Value.scalar a) (Value.scalar b) : Value W δ).widen
      = Value.map2 f (Value.scalar a : Value W β).widen (Value.scalar b : Value W γ).widen :=
  rfl

theorem div_quotient_widen_int (ops : ScalarOps α) (B : Operand W α) (a b : α) :
    (div_quotient ops B true false (Value.scalar a) (Value.scalar b)).widen
      = div_quotient ops B false false (Value.scalar a : Value W α).widen
          (Value.scalar b : Value W α).widen := by
  unfold div_quotient
  by_cases hc : (B.sym.is_constant && !is_zero ops B) = true
  · simp [hc, Value.map2, Value.widen, Value.lane]
  · simp only [hc, Bool.not_false, Bool.and_true, Bool.false_eq_true, if_false, constant_for,
      if_true, Value.map2, Value.select, Value.widen, Value.lane]

theorem mod_remainder_widen (ops : ScalarOps α) (a b : α) :
    (mod_remainder ops true (Value.scalar a) (Value.scalar b)).widen
      = mod_remainder ops false (Value.scalar a : Value W α).widen
          (Value.scalar b : Value W α).widen := by
  simp only [mod_remainder, constant_for, if_true, Value.map2, Value.select, Value.widen,
    Value.lane, Bool.false_eq_true, if_false]

/-- C7: for `llvm_gen_add`, `llvm_gen_sub`, `llvm_gen_mul`, integer `llvm_gen_div`, integer
`llvm_gen_modulus`, `llvm_gen_neg` and `llvm_gen_minmax` with uniform operands and a varying
Result, the generator returns `true` and stores into each component of the value channel of
Result a wide value every lane of which is the operator applied to the scalar operand
values; the instructions used commute with widening (same lanes when applied to the widened
operands). -/
theorem uniform_operation_broadcast (ops : ScalarOps α) (opname : String) (m : Bool)
    (Result A B : Operand W α)
    (hA : A.sym.is_uniform = true) (hB : B.sym.is_uniform = true)
    (hR : Result.sym.is_uniform = false) :
    (A.sym.typespec.is_array = false → B.sym.typespec.is_array = false →
      Result.sym.typespec.is_closure = false →
        (llvm_gen_add ops Result A B).value = some true
        ∧ value_stores (llvm_gen_add ops Result A B).state
            = broadcast_stores W Result.sym.typespec.aggregate
                (fun i => ops.add (A.scalar 0 (A.component i)) (B.scalar 0 (B.component i))))
    ∧ (Result.sym.typespec.is_closure = false →
        (llvm_gen_sub ops Result A B).value = some true
        ∧ value_stores (llvm_gen_sub ops Result A B).state
            = broadcast_stores W Result.sym.typespec.aggregate
                (fun i => ops.sub (A.scalar 0 (A.component i)) (B.scalar 0 (B.component i))))
    ∧ (Result.sym.typespec.is_closure = false → Result.sym.typespec.is_matrix = false →
        (Result.sym.has_derivs = true → (A.sym.has_derivs || B.sym.has_derivs) = true →
          Result.sym.typespec.is_float_based = true) →
        (llvm_gen_mul ops Result A B).value = some true
        ∧ value_stores (llvm_gen_mul ops Result A B).state
            = broadcast_stores W Result.sym.typespec.aggregate
                (fun i => ops.mul (A.scalar 0 (A.component i)) (B.scalar 0 (B.component i))))
    ∧ (Result.sym.typespec.is_closure = false → Result.sym.typespec.is_matrix = false →
        Result.sym.typespec.is_float_based = false → Result.sym.has_derivs = false →
        1 ≤ B.sym.typespec.aggregate →
        (llvm_gen_div ops Result A B).value = some true
        ∧ value_stores (llvm_gen_div ops Result A B).state
            = broadcast_stores W Result.sym.typespec.aggregate
                (fun i => int_div_scalar ops (B.sym.is_constant && !is_zero ops B)
                  (A.scalar 0 (A.component i))
                  (B.scalar 0 (B.component (min i (B.sym.typespec.aggregate - 1))))))
    ∧ (Result.sym.typespec.is_float_based = false → Result.sym.has_derivs = false →
        (llvm_gen_modulus ops m Result A B).value = some true
        ∧ value_stores (llvm_gen_modulus ops m Result A B).state
            = broadcast_stores W Result.sym.typespec.aggregate
                (fun i => int_mod_scalar ops (A.scalar 0 (A.component i))
                  (B.scalar 0 (B.component i))))
    ∧ ((llvm_gen_neg ops Result A).value = some true
        ∧ value_stores (llvm_gen_neg ops Result A).state
            = broadcast_stores W Result.sym.typespec.aggregate
                (fun i => ops.neg (A.scalar 0 (A.component i))))
    ∧ ((llvm_gen_minmax ops opname Result A B).value = some true
        ∧ value_stores (llvm_gen_minmax ops opname Result A B).state
            = broadcast_stores W Result.sym.typespec.aggregate
                (fun i => minmax_scalar ops opname (A.scalar 0 (A.component i))
                  (B.scalar 0 (B.component i))))
    ∧ (∀ (f : α → α → α) (a b : α),
        (Value.map2 f (Value.scalar a) (Value.scalar b) : Value W α).widen
          = Value.map2 f (Value.scalar a : Value W α).widen (Value.scalar b : Value W α).widen)
    ∧ (∀ a b : α,
        (div_quotient ops B true false (Value.scalar a) (Value.scalar b)).widen
          = div_quotient ops B false false (Value.scalar a : Value W α).widen
              (Value.scalar b : Value W α).widen)
    ∧ (∀ a b : α,
        (mod_remainder ops true (Value.scalar a) (Value.scalar b)).widen
          = mod_remainder ops false (Value.scalar a : Value W α).widen
              (Value.scalar b : Value W α).widen) :=
  ⟨fun h1 h2 h3 => llvm_gen_add_broadcast ops Result A B hA hB hR h1 h2 h3,
   fun h1 => llvm_gen_sub_broadcast ops Result A B hA hB hR h1,
   fun h1 h2 h3 => llvm_gen_mul_broadcast ops Result A B hA hB hR h1 h2 h3,
   fun h1 h2 h3 h4 h5 => llvm_gen_div_broadcast_int ops Result A B hA hB hR h1 h2 h3 h4 h5,
   fun _ h2 => llvm_gen_modulus_broadcast_int ops m Result A B hA hB hR h2,
   llvm_gen_neg_broadcast ops Result A hA hR,
   llvm_gen_minmax_broadcast ops opname Result A B hA hB hR,
   fun f a b => Value.widen_map2 f a b,
   fun a b => div_quotient_widen_int ops B a b,
   fun a b => mod_remainder_widen ops a b⟩

/-- Witness of C7, the scenario of the specification on eight lanes: `add` with uniform
`A = 2` and `B = 3` and a varying Result stores 5 in every lane. -/
theorem uniform_operation_broadcast_witness :
    (scenario_A.sym.is_uniform = true ∧ scenario_B.sym.is_uniform = true
      ∧ scenario_Result.sym.is_uniform = false)
    ∧ (llvm_gen_add int32Ops scenario_Result scenario_A scenario_B).value = some true
    ∧ value_stores (llvm_gen_add int32Ops scenario_Result scenario_A scenario_B).state
        = [(0, Value.wide (fun _ => 5))]
    ∧ stored_lanes (llvm_gen_add int32Ops scenario_Result scenario_A scenario_B).state
        = [(0, [5, 5, 5, 5, 5, 5, 5, 5])] :=
  have h := (uniform_operation_broadcast int32Ops "add" false scenario_Result scenario_A
    scenario_B rfl rfl rfl).1 rfl rfl rfl
  ⟨⟨rfl, rfl, rfl⟩, h.1, h.2.trans rfl, by rw [stored_lanes, h.2]; rfl⟩

/-- The uniformity assertion of seven generators: `llvm_gen_add`, `llvm_gen_sub`,
`llvm_gen_mul`, `llvm_gen_div`, `llvm_gen_modulus`, `llvm_gen_neg` and `llvm_gen_compare_op`
called with a uniform Result and a varying operand stop at a failed assertion, and no store
into Result is emitted. -/
theorem uniformity_assertion (ops : ScalarOps α) (opname : String) (m forced : Bool)
    (Result A B : Operand W α) (hR : Result.sym.is_uniform = true)
    (hop : (A.sym.is_uniform && B.sym.is_uniform) = false) :
    ((llvm_gen_add ops Result A B).is_fatal = true
      ∧ (llvm_gen_add ops Result A B).state = [])
    ∧ ((llvm_gen_sub ops Result A B).is_fatal = true
      ∧ (llvm_gen_sub ops Result A B).state = [])
    ∧ ((llvm_gen_mul ops Result A B).is_fatal = true
      ∧ (llvm_gen_mul ops Result A B).state = [])
    ∧ ((llvm_gen_div ops Result A B).is_fatal = true
      ∧ (llvm_gen_div ops Result A B).state = [])
    ∧ ((llvm_gen_modulus ops m Result A B).is_fatal = true
      ∧ (llvm_gen_modulus ops m Result A B).state = [])
    ∧ (A.sym.is_uniform = false →
        (llvm_gen_neg ops Result A).is_fatal = true
        ∧ (llvm_gen_neg ops Result A).state = [])
    ∧ ((llvm_gen_compare_op ops opname forced Result A B).is_fatal = true
      ∧ (llvm_gen_compare_op ops opname forced Result A B).state = []) := by
  refine ⟨?_, ?_, ?_, ?_, ?_, ?_, ?_⟩
  · simp [llvm_gen_add, hR, hop, GenResult.is_fatal, GenResult.state]
  · simp [llvm_gen_sub, hR, hop, GenResult.is_fatal, GenResult.state]
  · simp [llvm_gen_mul, hR, hop, GenResult.is_fatal, GenResult.state]
  · simp [llvm_gen_div, hR, hop, GenResult.is_fatal, GenResult.state]
  · simp [llvm_gen_modulus, hR, hop, GenResult.is_fatal, GenResult.state]
  · intro hA
    simp [llvm_gen_neg, hR, hA, GenResult.is_fatal, GenResult.state]
  · simp only [llvm_gen_compare_op, hR, hop, Bool.not_true, Bool.or_false, Bool.not_false,
      if_true]
    split_ifs
    · exact ⟨rfl, rfl⟩
    · exact ⟨rfl, rfl⟩
    · split <;> exact ⟨rfl, rfl⟩

/-- C8 fails for `llvm_gen_minmax`: it has no assertion on the uniformity of Result.  For
`min` with a uniform Result, a varying `x` (lane `l` holds `l`) and a uniform `y = 3`, the
generator returns `true` and emits a store of a wide value into the uniform Result. -/
theorem minmax_uniform_result_not_asserted :
    (uniform_Result.sym.is_uniform = true
      ∧ (varying_x.sym.is_uniform && scenario_B.sym.is_uniform) = false)
    ∧ (llvm_gen_minmax int32Ops "min" uniform_Result varying_x scenario_B).is_fatal = false
    ∧ (llvm_gen_minmax int32Ops "min" uniform_Result varying_x scenario_B).value = some true
    ∧ ((llvm_gen_minmax int32Ops "min" uniform_Result varying_x scenario_B).state.map
        Action.is_store) = [true]
    ∧ stored_lanes (llvm_gen_minmax int32Ops "min" uniform_Result varying_x scenario_B).state
        = [(0, [0, 1, 2, 3, 3, 3, 3, 3])] := by
  refine ⟨⟨rfl, rfl⟩, rfl, rfl, ?_, ?_⟩
  · decide
  · decide

/-- The generator `llvm_gen_minmax` never stops at an assertion and always returns `true`,
whatever the uniformity of Result and of the operands. -/
theorem llvm_gen_minmax_returns_true (ops : ScalarOps α) (opname : String)
    (Result x y : Operand W α) :
    (llvm_gen_minmax ops opname Result x y).is_fatal = false
    ∧ (llvm_gen_minmax ops opname Result x y).value = some true :=
  ⟨rfl, rfl⟩

end

end OSL

namespace OSL

/-! ## Zeroing of the derivatives of Result -/

section

variable {W : Nat} {α : Type}

theorem loop_components_forall (P : Action W α → Prop)
    (body : Nat → List (Action W α) × Step) (hbody : ∀ i, ∀ a ∈ (body i).1, P a) :
    ∀ (l : List Nat), ∀ a ∈ (loop_components l body).1, P a
  | [], a, ha => by simp [loop_components] at ha
  | i :: rest, a, ha => by
    have ih := loop_components_forall P body hbody rest
    rcases hb : body i with ⟨acts, st⟩
    have hi := hbody i
    rw [hb] at hi
    cases st <;> simp only [loop_components, hb, List.mem_append] at ha
    · rcases ha with ha | ha
      · exact hi a ha
      · exact ih a ha
    · exact hi a ha
    · exact hi a ha

theorem finish_loop_returned (loop : List (Action W α) × Step) (tail acts : List (Action W α))
    (ok : Bool) (h : finish_loop loop tail = GenResult.returned ok acts) :
    (ok = true ∧ acts = loop.1 ++ tail) ∨ (ok = false ∧ acts = loop.1) := by
  rcases loop with ⟨l, st⟩
  cases st <;> simp only [finish_loop, GenResult.returned.injEq] at h
  · exact Or.inl ⟨h.1.symm, h.2.symm⟩
  · exact Or.inr ⟨h.1.symm, h.2.symm⟩
  · exact absurd h (by simp)

theorem add_sub_components_forall (ops : ScalarOps α) (f : α → α → α) (A B : Operand W α)
    (u r : Bool) (n : Nat) :
    ∀ a ∈ (add_sub_components ops f A B u r n).1,
      a.is_deriv_store = false ∧ a.is_zero_derivs = false := by
  unfold add_sub_components
  apply loop_components_forall
  intro i a ha
  obtain ⟨va, hva⟩ := llvm_load_value_isSome ops A 0 i u
  obtain ⟨vb, hvb⟩ := llvm_load_value_isSome ops B 0 i u
  simp only [hva, hvb, List.mem_singleton] at ha
  subst ha
  exact ⟨rfl, rfl⟩

theorem add_sub_derivs_none (ops : ScalarOps α) (f : α → α → α) (Result A B : Operand W α)
    (u r : Bool) (n : Nat) (hR : Result.sym.has_derivs = true)
    (h : (A.sym.has_derivs || B.sym.has_derivs) = false) :
    add_sub_derivs ops f Result A B u r n = [Action.zero_derivs] := by
  simp only [add_sub_derivs, hR, h, if_true, Bool.false_eq_true, if_false]

theorem mem_flatten_map {β γ : Type} (g : β → List γ) (l : List β) (a : γ)
    (h : a ∈ (l.map g).flatten) : ∃ i, a ∈ g i := by
  simp only [List.mem_flatten, List.mem_map] at h
  obtain ⟨_, ⟨i, _, rfl⟩, ha⟩ := h
  exact ⟨i, ha⟩

theorem add_sub_derivs_some (ops : ScalarOps α) (f : α → α → α) (Result A B : Operand W α)
    (u r : Bool) (n : Nat) (h : (A.sym.has_derivs || B.sym.has_derivs) = true) :
    ∀ a ∈ add_sub_derivs ops f Result A B u r n, a.is_zero_derivs = false := by
  intro a ha
  simp only [add_sub_derivs, h, if_true] at ha
  split_ifs at ha
  · simp only [List.map_cons, List.map_nil, List.flatten_cons, List.flatten_nil,
      List.append_nil, List.flatten_append, List.mem_append] at ha
    rcases ha with ha | ha
    · obtain ⟨i, ha⟩ := mem_flatten_map _ _ _ ha
      obtain ⟨va, hva⟩ := llvm_load_value_isSome ops A 1 i u
      obtain ⟨vb, hvb⟩ := llvm_load_value_isSome ops B 1 i u
      simp only [hva, hvb, List.mem_singleton] at ha
      subst ha
      rfl
    · obtain ⟨i, ha⟩ := mem_flatten_map _ _ _ ha
      obtain ⟨va, hva⟩ := llvm_load_value_isSome ops A 2 i u
      obtain ⟨vb, hvb⟩ := llvm_load_value_isSome ops B 2 i u
      simp only [hva, hvb, List.mem_singleton] at ha
      subst ha
      rfl
  · simp at ha

theorem add_sub_zeroing (ops : ScalarOps α) (f : α → α → α) (Result A B : Operand W α)
    (u r : Bool) (n : Nat) (hR : Result.sym.has_derivs = true) (acts : List (Action W α))
    (h : finish_loop (add_sub_components ops f A B u r n)
          (add_sub_derivs ops f Result A B u r n) = GenResult.returned true acts) :
    ((A.sym.has_derivs || B.sym.has_derivs) = false →
      (∃ a ∈ acts, a.is_zero_derivs = true) ∧ ∀ a ∈ acts, a.is_deriv_store = false)
    ∧ ((A.sym.has_derivs || B.sym.has_derivs) = true →
      ∀ a ∈ acts, a.is_zero_derivs = false) := by
  rcases finish_loop_returned _ _ _ _ h with ⟨_, rfl⟩ | ⟨h0, _⟩
  · refine ⟨fun hAB => ?_, fun hAB a ha => ?_⟩
    · rw [add_sub_derivs_none ops f Result A B u r n hR hAB]
      refine ⟨⟨Action.zero_derivs, by simp, rfl⟩, fun a ha => ?_⟩
      rcases List.mem_append.1 ha with ha | ha
      · exact (add_sub_components_forall ops f A B u r n a ha).1
      · rw [List.mem_singleton.1 ha]; rfl
    · rcases List.mem_append.1 ha with ha | ha
      · exact (add_sub_components_forall ops f A B u r n a ha).2
      · exact add_sub_derivs_some ops f Result A B u r n hAB a ha
  · exact absurd h0 (by simp)

theorem llvm_gen_add_zeroing (ops : ScalarOps α) (Result A B : Operand W α)
    (hR : Result.sym.has_derivs = true) (acts : List (Action W α))
    (h : llvm_gen_add ops Result A B = GenResult.returned true acts) :
    ((A.sym.has_derivs || B.sym.has_derivs) = false →
      (∃ a ∈ acts, a.is_zero_derivs = true) ∧ ∀ a ∈ acts, a.is_deriv_store = false)
    ∧ ((A.sym.has_derivs || B.sym.has_derivs) = true →
      ∀ a ∈ acts, a.is_zero_derivs = false) := by
  simp only [llvm_gen_add] at h
  split_ifs at h
  exact add_sub_zeroing ops ops.add Result A B _ _ _ hR acts h

theorem llvm_gen_sub_zeroing (ops : ScalarOps α) (Result A B : Operand W α)
    (hR : Result.sym.has_derivs = true) (acts : List (Action W α))
    (h : llvm_gen_sub ops Result A B = GenResult.returned true acts) :
    ((A.sym.has_derivs || B.sym.has_derivs) = false →
      (∃ a ∈ acts, a.is_zero_derivs = true) ∧ ∀ a ∈ acts, a.is_deriv_store = false)
    ∧ ((A.sym.has_derivs || B.sym.has_derivs) = true →
      ∀ a ∈ acts, a.is_zero_derivs = false) := by
  simp only [llvm_gen_sub] at h
  split_ifs at h
  exact add_sub_zeroing ops ops.sub Result A B _ _ _ hR acts h

theorem mul_component_no_zeroing (ops : ScalarOps α) (Result A B : Operand W α)
    (u r fl : Bool) (i : Nat) :
    ∀ a ∈ (mul_component ops Result A B u r fl i).1, a.is_zero_derivs = false := by
  intro a ha
  obtain ⟨va, hva⟩ := llvm_load_value_isSome ops A 0 i u
  obtain ⟨vb, hvb⟩ := llvm_load_value_isSome ops B 0 i u
  obtain ⟨vax, hvax⟩ := llvm_load_value_isSome ops A 1 i u
  obtain ⟨vbx, hvbx⟩ := llvm_load_value_isSome ops B 1 i u
  obtain ⟨vay, hvay⟩ := llvm_load_value_isSome ops A 2 i u
  obtain ⟨vby, hvby⟩ := llvm_load_value_isSome ops B 2 i u
  simp only [mul_component, hva, hvb, hvax, hvbx, hvay, hvby] at ha
  split_ifs at ha <;>
    simp only [List.mem_cons, List.mem_singleton, List.not_mem_nil, or_false] at ha <;>
    rcases ha with rfl | rfl | rfl <;> rfl

theorem mul_component_no_deriv_store (ops : ScalarOps α) (Result A B : Operand W α)
    (u r fl : Bool) (i : Nat)
    (h : (Result.sym.has_derivs && (A.sym.has_derivs || B.sym.has_derivs)) = false) :
    ∀ a ∈ (mul_component ops Result A B u r fl i).1, a.is_deriv_store = false := by
  intro a ha
  obtain ⟨va, hva⟩ := llvm_load_value_isSome ops A 0 i u
  obtain ⟨vb, hvb⟩ := llvm_load_value_isSome ops B 0 i u
  simp only [mul_component, hva, hvb, h, Bool.false_eq_true, if_false,
    List.mem_singleton] at ha
  subst ha
  rfl

theorem llvm_gen_mul_zeroing (ops : ScalarOps α) (Result A B : Operand W α)
    (hR : Result.sym.has_derivs = true) (acts : List (Action W α))
    (h : llvm_gen_mul ops Result A B = GenResult.returned true acts) :
    ((A.sym.has_derivs || B.sym.has_derivs) = false →
      (∃ a ∈ acts, a.is_zero_derivs = true) ∧ ∀ a ∈ acts, a.is_deriv_store = false)
    ∧ ((A.sym.has_derivs || B.sym.has_derivs) = true →
      Result.sym.typespec.is_matrix = false → ∀ a ∈ acts, a.is_zero_derivs = false) := by
  simp only [llvm_gen_mul] at h
  split_ifs at h with c1 c2 c3 c4
  · simp only [GenResult.returned.injEq, true_and, hR, if_true] at h
    subst h
    refine ⟨fun _ => ⟨⟨Action.zero_derivs, by simp, rfl⟩, fun a ha => ?_⟩,
      fun _ hm => absurd c3 (by simp [hm])⟩
    simp only [List.mem_cons, List.mem_singleton, List.not_mem_nil, or_false] at ha
    rcases ha with rfl | rfl <;> rfl
  · have hAB : (A.sym.has_derivs || B.sym.has_derivs) = false := by simpa [hR] using c4
    rcases finish_loop_returned _ _ _ _ h with ⟨_, rfl⟩ | ⟨h0, _⟩
    · refine ⟨fun _ => ⟨⟨Action.zero_derivs, by simp, rfl⟩, fun a ha => ?_⟩,
        fun hAB2 => absurd (hAB.symm.trans hAB2) (by simp)⟩
      rcases List.mem_append.1 ha with ha | ha
      · exact loop_components_forall _ _
          (fun i => mul_component_no_deriv_store ops Result A B _ _ _ i (by simp [hAB]))
          _ a ha
      · rw [List.mem_singleton.1 ha]; rfl
    · exact absurd h0 (by simp)
  · have hAB : (A.sym.has_derivs || B.sym.has_derivs) = true := by
      revert c4; rw [hR]
      cases A.sym.has_derivs <;> cases B.sym.has_derivs <;> simp
    rcases finish_loop_returned _ _ _ _ h with ⟨_, rfl⟩ | ⟨h0, _⟩
    · refine ⟨fun hAB2 => absurd (hAB2.symm.trans hAB) (by simp), fun _ _ a ha => ?_⟩
      rw [List.append_nil] at ha
      exact loop_components_forall _ _
        (fun i => mul_component_no_zeroing ops Result A B _ _ _ i) _ a ha
    · exact absurd h0 (by simp)

theorem div_components_no_zeroing (ops : ScalarOps α) (Result A B : Operand W α)
    (u r fl dv : Bool) (n : Nat) :
    ∀ (l : List Nat) (b : Option (Value W α)),
      ∀ a ∈ (div_components ops Result A B u r fl dv n l b).1, a.is_zero_derivs = false
  | [], _, a, ha => by simp [div_components] at ha
  | i :: rest, b, a, ha => by
    obtain ⟨va, hva⟩ := llvm_load_value_isSome ops A 0 i u
    obtain ⟨vax, hvax⟩ := llvm_load_value_isSome ops A 1 i u
    obtain ⟨vbx, hvbx⟩ := llvm_load_value_isSome ops B 1 i u
    obtain ⟨vay, hvay⟩ := llvm_load_value_isSome ops A 2 i u
    obtain ⟨vby, hvby⟩ := llvm_load_value_isSome ops B 2 i u
    simp only [div_components, hva, hvax, hvbx, hvay, hvby] at ha
    split at ha
    · split_ifs at ha
      · simp at ha
      · simp only [List.mem_cons] at ha
        rcases ha with rfl | rfl | rfl | ha
        · rfl
        · rfl
        · rfl
        · exact div_components_no_zeroing ops Result A B u r fl dv n rest _ a ha
      · simp only [List.mem_cons] at ha
        rcases ha with rfl | ha
        · rfl
        · exact div_components_no_zeroing ops Result A B u r fl dv n rest _ a ha
    · simp at ha

theorem div_components_no_deriv_store (ops : ScalarOps α) (Result A B : Operand W α)
    (u r fl : Bool) (n : Nat) :
    ∀ (l : List Nat) (b : Option (Value W α)),
      ∀ a ∈ (div_components ops Result A B u r fl false n l b).1, a.is_deriv_store = false
  | [], _, a, ha => by simp [div_components] at ha
  | i :: rest, b, a, ha => by
    obtain ⟨va, hva⟩ := llvm_load_value_isSome ops A 0 i u
    simp only [div_components, hva, Bool.false_eq_true, if_false] at ha
    split at ha
    · simp only [List.mem_cons] at ha
      rcases ha with rfl | ha
      · rfl
      · exact div_components_no_deriv_store ops Result A B u r fl n rest _ a ha
    · simp at ha

theorem llvm_gen_div_zeroing (ops : ScalarOps α) (Result A B : Operand W α)
    (hR : Result.sym.has_derivs = true) (acts : List (Action W α))
    (h : llvm_gen_div ops Result A B = GenResult.returned true acts) :
    ((A.sym.has_derivs || B.sym.has_derivs) = false →
      (∃ a ∈ acts, a.is_zero_derivs = true) ∧ ∀ a ∈ acts, a.is_deriv_store = false)
    ∧ ((A.sym.has_derivs || B.sym.has_derivs) = true →
      Result.sym.typespec.is_matrix = false → ∀ a ∈ acts, a.is_zero_derivs = false) := by
  simp only [llvm_gen_div] at h
  split_ifs at h with c1 c2 c3 c4 c5
  · simp only [GenResult.returned.injEq, true_and, hR, if_true] at h
    subst h
    refine ⟨fun _ => ⟨⟨Action.zero_derivs, by simp, rfl⟩, fun a ha => ?_⟩,
      fun _ hm => absurd c3 (by simp [hm])⟩
    simp only [List.mem_cons, List.mem_singleton, List.not_mem_nil, or_false] at ha
    rcases ha with rfl | rfl <;> rfl
  · have hAB : (A.sym.has_derivs || B.sym.has_derivs) = false := by simpa [hR] using c5
    rw [hAB, Bool.and_false] at h
    rcases finish_loop_returned _ _ _ _ h with ⟨_, rfl⟩ | ⟨h0, _⟩
    · refine ⟨fun _ => ⟨⟨Action.zero_derivs, by simp, rfl⟩, fun a ha => ?_⟩,
        fun hAB2 => absurd (hAB.symm.trans hAB2) (by simp)⟩
      rcases List.mem_append.1 ha with ha | ha
      · exact div_components_no_deriv_store ops Result A B _ _ _ _ _ _ a ha
      · rw [List.mem_singleton.1 ha]; rfl
    · exact absurd h0 (by simp)
  · have hAB : (A.sym.has_derivs || B.sym.has_derivs) = true := by
      revert c5; rw [hR]
      cases A.sym.has_derivs <;> cases B.sym.has_derivs <;> simp
    rcases finish_loop_returned _ _ _ _ h with ⟨_, rfl⟩ | ⟨h0, _⟩
    · refine ⟨fun hAB2 => absurd (hAB2.symm.trans hAB) (by simp), fun _ _ a ha => ?_⟩
      rw [List.append_nil] at ha
      exact div_components_no_zeroing ops Result A B _ _ _ _ _ _ _ a ha
    · exact absurd h0 (by simp)

/-- C20 fails when exactly one operand carries derivatives: `llvm_gen_add` with a Result that
has derivatives, an operand `A` with derivatives (dx 2, dy 3) and an operand `B` without
returns `true`, emits no zeroing of the derivatives and stores the derivatives of `A` into
the dx and dy channels of Result. -/
theorem add_keeps_derivs_of_one_operand :
    dual_Result.sym.has_derivs = true
    ∧ dual_A.sym.has_derivs = true ∧ plain_B.sym.has_derivs = false
    ∧ (llvm_gen_add int32Ops dual_Result dual_A plain_B).value = some true
    ∧ (llvm_gen_add int32Ops dual_Result dual_A plain_B).state.any Action.is_zero_derivs = false
    ∧ deriv_stored_lanes (llvm_gen_add int32Ops dual_Result dual_A plain_B).state
        = [(1, 0, [2, 2, 2, 2]), (2, 0, [3, 3, 3, 3])] := by
  refine ⟨rfl, rfl, rfl, rfl, ?_, ?_⟩
  · decide
  · decide

/-- C20, amended: for `llvm_gen_add`, `llvm_gen_sub`, `llvm_gen_mul` and `llvm_gen_div` that
return `true` on a Result with derivatives: if neither `A` nor `B` carries derivatives, the
zeroing of the derivatives of Result is emitted and nothing is stored into a derivative
channel; if at least one of them carries derivatives (and Result is not a matrix), no zeroing
is emitted. -/
theorem derivs_zeroed_iff_no_operand_has_derivs (ops : ScalarOps α)
    (Result A B : Operand W α) (hR : Result.sym.has_derivs = true) :
    ∀ gen ∈ [llvm_gen_add ops Result A B, llvm_gen_sub ops Result A B,
             llvm_gen_mul ops Result A B, llvm_gen_div ops Result A B],
      ∀ acts, gen = GenResult.returned true acts →
        ((A.sym.has_derivs || B.sym.has_derivs) = false →
          (∃ a ∈ acts, a.is_zero_derivs = true) ∧ ∀ a ∈ acts, a.is_deriv_store = false)
        ∧ ((A.sym.has_derivs || B.sym.has_derivs) = true →
          Result.sym.typespec.is_matrix = false → ∀ a ∈ acts, a.is_zero_derivs = false) := by
  intro gen hgen acts h
  simp only [List.mem_cons, List.mem_singleton, List.not_mem_nil, or_false] at hgen
  rcases hgen with rfl | rfl | rfl | rfl
  · exact ⟨(llvm_gen_add_zeroing ops Result A B hR acts h).1,
      fun hAB _ => (llvm_gen_add_zeroing ops Result A B hR acts h).2 hAB⟩
  · exact ⟨(llvm_gen_sub_zeroing ops Result A B hR acts h).1,
      fun hAB _ => (llvm_gen_sub_zeroing ops Result A B hR acts h).2 hAB⟩
  · exact llvm_gen_mul_zeroing ops Result A B hR acts h
  · exact llvm_gen_div_zeroing ops Result A B hR acts h

/-- Witness of C20, amended: `llvm_gen_add` with a Result that has derivatives and operands
`A` and `B` without derivatives returns `true`, emits the zeroing of the derivatives and no
store into a derivative channel. -/
theorem derivs_zeroed_iff_no_operand_has_derivs_witness :
    dual_Result.sym.has_derivs = true
    ∧ (plain_A.sym.has_derivs || plain_B.sym.has_derivs) = false
    ∧ (llvm_gen_add int32Ops dual_Result plain_A plain_B).value = some true
    ∧ (∃ a ∈ (llvm_gen_add int32Ops dual_Result plain_A plain_B).state,
        a.is_zero_derivs = true)
    ∧ ∀ a ∈ (llvm_gen_add int32Ops dual_Result plain_A plain_B).state,
        a.is_deriv_store = false :=
  ⟨rfl, rfl, rfl,
    ((derivs_zeroed_iff_no_operand_has_derivs int32Ops dual_Result plain_A plain_B rfl
      (llvm_gen_add int32Ops dual_Result plain_A plain_B) (List.mem_cons_self _ _)
      (llvm_gen_add int32Ops dual_Result plain_A plain_B).state rfl).1 rfl)⟩

end

end OSL

namespace OSL

/-! ## Formatted output with a format string that is not constant -/

section

/-- Counterexample to C9: a `printf` whose format-string symbol is varying (hence not a
constant) does not return `false` and reports no diagnostic: `llvm_gen_printf` stops at the
assertion `OSL_ASSERT(format_sym.is_uniform())`. -/
theorem printf_varying_format_is_fatal :
    example_printf_varying_format.format_sym.is_constant = false
    ∧ example_printf_varying_format.format_sym.is_uniform = false
    ∧ (llvm_gen_printf "shader" example_printf_varying_format).is_fatal = true
    ∧ (llvm_gen_printf "shader" example_printf_varying_format).value ≠ some false
    ∧ ((llvm_gen_printf "shader" example_printf_varying_format).state.filter
        PrintfEmit.is_diagnostic) = [] := by
  decide

/-- C9, amended: `llvm_gen_printf` called with a format-string symbol that is not a
compile-time constant emits no function call; when the symbol is uniform it reports one
diagnostic (a warning that the opcode must have a constant format) and returns `false`; when
the symbol is varying it stops at a fatal assertion instead, before any diagnostic. -/
theorem printf_nonconstant_format (shadername : String) (op : Opcode)
    (hconst : op.format_sym.is_constant = false) :
    ((llvm_gen_printf shadername op).state.filter PrintfEmit.is_call) = []
    ∧ (op.format_sym.is_uniform = true →
        (llvm_gen_printf shadername op).value = some false
        ∧ (llvm_gen_printf shadername op).state
            = [PrintfEmit.warning (op.opname ++ " must currently have constant format\n")])
    ∧ (op.format_sym.is_uniform = false →
        (llvm_gen_printf shadername op).is_fatal = true
        ∧ (llvm_gen_printf shadername op).state = []) := by
  unfold llvm_gen_printf
  by_cases hu : op.format_sym.is_uniform = true
  · simp only [hu, hconst, Bool.not_true, Bool.not_false, Bool.false_eq_true, if_false,
      if_true, GenResult.state, GenResult.value, List.filter_cons, PrintfEmit.is_call,
      List.filter_nil, true_and, imp_self, and_self, and_true]
    intro h
    exact absurd h (by simp)
  · have hu' : op.format_sym.is_uniform = false := by simpa using hu
    simp only [hu', Bool.not_false, if_true, GenResult.state, GenResult.is_fatal,
      List.filter_nil, true_and, and_self, imp_self, and_true]
    intro h
    exact absurd h (by simp)

/-- Witness of C9 as amended: a `printf` whose format string is a uniform variable returns
`false` with the warning and without a call. -/
theorem printf_nonconstant_format_witness :
    example_printf_uniform_format.format_sym.is_constant = false
    ∧ example_printf_uniform_format.format_sym.is_uniform = true
    ∧ (llvm_gen_printf "shader" example_printf_uniform_format).value = some false
    ∧ (llvm_gen_printf "shader" example_printf_uniform_format).state
        = [PrintfEmit.warning "printf must currently have constant format\n"]
    ∧ ((llvm_gen_printf "shader" example_printf_uniform_format).state.filter
        PrintfEmit.is_call) = [] :=
  have h := printf_nonconstant_format "shader" example_printf_uniform_format (by decide)
  ⟨by decide, by decide, (h.2.1 (by decide)).1, (h.2.1 (by decide)).2.trans (by decide), h.1⟩

end

end OSL

namespace OSL

/-! ## The scan of the format string -/

section

theorem skip_to_conversion_spec :
    ∀ (l : List Char),
      l = (skip_to_conversion l).1 ++ (skip_to_conversion l).2
      ∧ (∀ x ∈ (skip_to_conversion l).1, is_conversion_char x = false)
      ∧ (∀ c rest, (skip_to_conversion l).2 = c :: rest → is_conversion_char c = true)
      ∧ (skip_to_conversion l).2.length ≤ l.length
  | [] => by simp [skip_to_conversion]
  | c :: rest => by
    have ih := skip_to_conversion_spec rest
    by_cases hc : is_conversion_char c = true
    · simp only [skip_to_conversion, hc, if_true, List.nil_append, List.not_mem_nil,
        false_imp_iff, implies_true, true_and, le_refl, and_true]
      intro c' rest' h
      rw [(List.cons.inj h).1] at hc
      exact hc
    · have hc2 : is_conversion_char c = false := by simpa using hc
      simp only [skip_to_conversion, hc2, Bool.false_eq_true, if_false, List.cons_append,
        List.mem_cons, List.length_cons]
      refine ⟨by rw [← ih.1], ?_, ih.2.2.1, by have := ih.2.2.2; omega⟩
      intro x hx
      rcases hx with rfl | hx
      · exact hc2
      · exact ih.2.1 x hx

theorem skip_to_conversion_append (ch : Char) (rest : List Char)
    (hch : is_conversion_char ch = true) :
    ∀ (body : List Char), (∀ x ∈ body, is_conversion_char x = false) →
      skip_to_conversion (body ++ ch :: rest) = (body, ch :: rest)
  | [], _ => by simp [skip_to_conversion, hch]
  | c :: body, h => by
    have hc : is_conversion_char c = false := h c (List.mem_cons_self _ _)
    have ih := skip_to_conversion_append ch rest hch body
      (fun x hx => h x (List.mem_cons_of_mem _ hx))
    simp [skip_to_conversion, hc, ih]

theorem doctored_conversion_legal (t : TypeSpec) (ch : Char) :
    legal_conversion t.basetype (doctored_conversion t ch) = true := by
  unfold doctored_conversion
  split_ifs with h
  · exact h
  · cases hb : t.basetype <;> simp [legal_conversion, hb] at h ⊢

theorem doctored_conversion_of_legal (t : TypeSpec) (ch : Char)
    (h : legal_conversion t.basetype ch = true) : doctored_conversion t ch = ch := by
  simp [doctored_conversion, h]

theorem doctored_conversion_is_conversion (t : TypeSpec) (ch : Char)
    (h : is_conversion_char ch = true) :
    is_conversion_char (doctored_conversion t ch) = true := by
  unfold doctored_conversion
  split_ifs
  · exact h
  · cases t.basetype <;> first | rfl | exact h

theorem doctor_format_concat (t : TypeSpec) (ch : Char) (pre : List Char)
    (hcl : t.is_closure_based = false) :
    doctor_format t ch (pre ++ [ch]) = pre ++ [doctored_conversion t ch] := by
  cases hb : t.basetype <;>
    simp only [doctor_format, doctored_conversion, legal_conversion, hb, hcl,
      List.dropLast_concat, Bool.false_or, decide_True, decide_False, Bool.true_and,
      Bool.false_and, Bool.false_eq_true, if_false, reduceCtorEq]
  all_goals (split_ifs <;> first | rfl | (exfalso; simp_all))

theorem flatten_map_spaced (d : List Char) :
    ∀ (n : Nat),
      ((List.range n).map fun k => (if k ≠ 0 then [' '] else []) ++ d).flatten
        = spaced_copies n d
  | 0 => rfl
  | n + 1 => by
    rw [List.range_succ_eq_map]
    simp only [List.map_cons, List.map_map, List.flatten_cons, ne_eq, not_true_eq_false,
      if_false, List.nil_append, spaced_copies]
    congr 2
    have : ((fun k => (if k ≠ 0 then [' '] else []) ++ d) ∘ Nat.succ)
        = fun _ => ' ' :: d := by
      funext k
      simp
    rw [this, List.map_const', List.length_range]

theorem expand_argument_text (sym : Symbol) (ourformat : List Char)
    (hcl : sym.typespec.is_closure_based = false) :
    (expand_argument sym ourformat).1
      = spaced_copies (sym.typespec.numelements * sym.typespec.aggregate) ourformat := by
  rw [← flatten_map_spaced]
  simp only [expand_argument, hcl, Bool.false_eq_true, if_false, List.map_map]
  generalize sym.typespec.numelements = n
  generalize sym.typespec.aggregate = m
  induction n with
  | zero => simp
  | succ n ih =>
    rw [List.range_succ, List.map_append, List.flatten_append, ih, Nat.succ_mul,
      List.range_add, List.map_append, List.flatten_append]
    congr 1
    simp only [List.map_cons, List.map_nil, List.flatten_cons, List.flatten_nil,
      List.append_nil, Function.comp, List.map_map]
    congr 1
    apply List.map_congr_left
    intro c hc
    have hc2 : c < m := List.mem_range.1 hc
    by_cases h0 : n * m + c = 0
    · have h1 : c = 0 := by omega
      have h2 : n = 0 := by
        rcases Nat.eq_zero_or_pos n with h | h
        · exact h
        · have : 0 < n * m := Nat.mul_pos h (by omega)
          omega
      simp [h1, h2]
    · have h3 : (c ≠ 0 ∨ n ≠ 0) := by
        by_contra hcon
        push_neg at hcon
        apply h0
        simp [hcon.1, hcon.2]
      rcases h3 with h | h <;> simp [h, h0]

theorem expand_argument_values (sym : Symbol) (ourformat : List Char) :
    (expand_argument sym ourformat).2 = argument_values sym := by
  simp only [argument_values, expand_argument, List.map_map]
  congr 1
  apply List.map_congr_left
  intro a _
  simp only [Function.comp_apply]
  split_ifs <;> rfl

theorem opargsym_of_drop (op : Opcode) (arg : Nat) (h : arg < op.nargs) :
    op.args.drop arg = op.opargsym arg :: op.args.drop (arg + 1) := by
  have h2 : arg < op.args.length := h
  rw [List.drop_eq_getElem_cons h2]
  simp [Opcode.opargsym, List.getD_eq_getElem?_getD, List.getElem?_eq_getElem h2]

theorem scan_pieces (op : Opcode) :
    ∀ (fuel : Nat) (format s : List Char) (ca : List CallArg) (arg : Nat),
      (scan_format op fuel format s ca arg).ending = ScanEnd.done →
      ∃ pieces : List FormatPiece,
        format = (pieces.map FormatPiece.original).flatten
        ∧ (scan_format op fuel format s ca arg).s
            = s ++ (pieces.map FormatPiece.rewritten_text).flatten
        ∧ op.args.drop arg
            = pieces.filterMap FormatPiece.argument
                ++ op.args.drop (scan_format op fuel format s ca arg).arg
        ∧ (scan_format op fuel format s ca arg).arg
            = arg + (pieces.filterMap FormatPiece.argument).length
        ∧ (scan_format op fuel format s ca arg).call_args
            = ca ++ (pieces.filterMap FormatPiece.argument).flatMap argument_values
        ∧ ∀ p ∈ pieces, p.wellformed := by
  intro fuel
  induction fuel with
  | zero =>
    intro format s ca arg h
    simp [scan_format] at h
  | succ fuel ih =>
    intro format s ca arg h
    cases format with
    | nil =>
      exact ⟨[], by simp [scan_format]⟩
    | cons c format =>
      by_cases hc : c = '%'
      · by_cases hh : format.head? = some '%'
        · simp only [scan_format, hc, hh, if_true] at h ⊢
          obtain ⟨pieces, h1, h2, h3, h4, h5, h6⟩ := ih _ _ _ _ h
          refine ⟨FormatPiece.literal ['%', '%'] :: pieces, ?_, ?_, ?_, ?_, ?_, ?_⟩
          · cases format with
            | nil => simp at hh
            | cons c2 t =>
              simp only [List.head?_cons, Option.some.injEq] at hh
              subst hh
              simp only [List.tail_cons] at h1
              simp [FormatPiece.original, ← h1]
          · rw [h2]
            simp [FormatPiece.rewritten_text]
          · simpa [FormatPiece.argument] using h3
          · simpa [FormatPiece.argument] using h4
          · simpa [FormatPiece.argument] using h5
          · intro p hp
            rcases List.mem_cons.1 hp with rfl | hp
            · exact Or.inl rfl
            · exact h6 p hp
        · simp only [scan_format, hc, hh, if_true, if_false] at h ⊢
          by_cases c1 : arg ≥ op.nargs
          · simp only [c1, if_true] at h
            exact absurd h (by simp)
          simp only [c1, if_false] at h ⊢
          by_cases c2 : (op.opargsym arg).typespec.is_structure = true
          · simp only [c2, if_true] at h
            exact absurd h (by simp)
          simp only [c2, if_false, Bool.false_eq_true] at h ⊢
          by_cases c3 : ((op.opargsym arg).typespec.is_closure_based
              && decide (0 < (op.opargsym arg).typespec.numelements)) = true
          · simp only [c3, if_true] at h
            exact absurd h (by simp)
          simp only [c3, if_false, Bool.false_eq_true] at h ⊢
          have hcl : (op.opargsym arg).typespec.is_closure_based = false := by
            have hn : 0 < (op.opargsym arg).typespec.numelements := by
              unfold TypeSpec.numelements
              split_ifs <;> omega
            simpa [hn] using c3
          obtain ⟨hsk1, hsk2, hsk3, _⟩ := skip_to_conversion_spec format
          rcases hsk : (skip_to_conversion format).2 with _ | ⟨ch, rest⟩
          · simp only [hsk, if_true] at h
            exact absurd h (by simp)
          have hch := hsk3 ch rest hsk
          simp only [hsk, List.headD_cons, List.tail_cons, doctor_format_concat _ _ _ hcl,
            expand_argument_text _ _ hcl, expand_argument_values, reduceCtorEq, if_false]
            at h ⊢
          obtain ⟨pieces, h1, h2, h3, h4, h5, h6⟩ := ih _ _ _ _ h
          refine ⟨FormatPiece.directive (skip_to_conversion format).1 ch (op.opargsym arg)
            (doctored_conversion (op.opargsym arg).typespec ch) :: pieces, ?_, ?_, ?_, ?_, ?_, ?_⟩
          · simp only [List.map_cons, List.flatten_cons, FormatPiece.original, ← h1, hc,
              List.cons_append, List.append_assoc, List.singleton_append, List.nil_append]
            rw [← hsk, ← hsk1]
          · rw [h2]
            simp [FormatPiece.rewritten_text]
          · have c1' : arg < op.nargs := by omega
            rw [opargsym_of_drop op arg c1', h3]
            simp [FormatPiece.argument]
          · rw [h4]
            simp [FormatPiece.argument]
            omega
          · rw [h5]
            simp [FormatPiece.argument]
          · intro p hp
            rcases List.mem_cons.1 hp with rfl | hp
            · refine ⟨hsk2, hch, ?_, hcl, by simpa using c2, ?_, ?_, ?_⟩
              · intro hb
                apply hh
                rw [hsk1]
                cases hsk' : (skip_to_conversion format).1 with
                | nil => rw [hsk'] at hb; simp at hb
                | cons x t =>
                  rw [hsk'] at hb
                  simpa using hb
              · exact doctored_conversion_is_conversion _ _ hch
              · exact doctored_conversion_legal _ _
              · exact doctored_conversion_of_legal _ _
            · exact h6 p hp
      · simp only [scan_format, hc, if_false] at h ⊢
        obtain ⟨pieces, h1, h2, h3, h4, h5, h6⟩ := ih _ _ _ _ h
        refine ⟨FormatPiece.literal [c] :: pieces, ?_, ?_, ?_, ?_, ?_, ?_⟩
        · simp [FormatPiece.original, ← h1]
        · rw [h2]
          simp [FormatPiece.rewritten_text]
        · simpa [FormatPiece.argument] using h3
        · simpa [FormatPiece.argument] using h4
        · simpa [FormatPiece.argument] using h5
        · intro p hp
          rcases List.mem_cons.1 hp with rfl | hp
          · exact Or.inr ⟨c, rfl, hc⟩
          · exact h6 p hp

end

end OSL

namespace OSL

/-! ## Formatted output: number of directives, legal conversions, idempotence -/

section

theorem llvm_gen_printf_returned_true (shadername : String) (op : Opcode)
    (emits : List PrintfEmit)
    (h : llvm_gen_printf shadername op = GenResult.returned true emits) :
    op.format_sym.is_uniform = true ∧ op.format_sym.is_constant = true
    ∧ (rewrite_format op).ending = ScanEnd.done
    ∧ emits =
        (if op.printf_is_uniform then
          PrintfEmit.call op.opname (op.opname = "format" && op.printf_is_uniform)
              (printf_call_args shadername op)
            :: (if op.opname = "format" then [PrintfEmit.store_result (op.opargsym 0)]
                else [])
        else [PrintfEmit.call_per_active_lane op.opname (printf_call_args shadername op)]) := by
  simp only [llvm_gen_printf] at h
  by_cases hu : op.format_sym.is_uniform = true
  · by_cases hc : op.format_sym.is_constant = true
    · simp only [hu, hc, Bool.not_true, Bool.false_eq_true, if_false] at h
      cases he : (rewrite_format op).ending <;> simp only [he] at h
      · refine ⟨hu, hc, rfl, ?_⟩
        split_ifs at h ⊢ with h1 <;>
          simp only [GenResult.returned.injEq, true_and] at h <;> exact h.symm
      all_goals exact absurd h (by simp)
    · simp [hu, hc] at h
  · simp [hu] at h

theorem directive_count_directive (ch : Char) (rest : List Char)
    (hch : is_conversion_char ch = true) :
    ∀ (body : List Char), (∀ x ∈ body, is_conversion_char x = false) →
      directive_count_from ReadState.directive (body ++ ch :: rest)
        = directive_count_from ReadState.text rest
  | [], _ => by simp [directive_count_from, hch]
  | x :: body, h => by
    have hx : is_conversion_char x = false := h x (List.mem_cons_self _ _)
    have ih := directive_count_directive ch rest hch body
      (fun y hy => h y (List.mem_cons_of_mem _ hy))
    simp [directive_count_from, hx, ih]

theorem directive_count_percent (c : Char) (l : List Char) (hc : c ≠ '%') :
    directive_count_from ReadState.percent (c :: l)
      = 1 + directive_count_from ReadState.directive (c :: l) := by
  simp only [directive_count_from, hc, if_false]
  split_ifs <;> rfl

theorem directive_count_pieces :
    ∀ (pieces : List FormatPiece), (∀ p ∈ pieces, p.wellformed) →
      directive_count_from ReadState.text (pieces.map FormatPiece.original).flatten
        = (pieces.filterMap FormatPiece.argument).length
  | [], _ => rfl
  | p :: pieces, h => by
    have ih := directive_count_pieces pieces (fun q hq => h q (List.mem_cons_of_mem _ hq))
    have hp := h p (List.mem_cons_self _ _)
    cases p with
    | literal text =>
      rcases hp with rfl | ⟨c, rfl, hc⟩
      · simp [FormatPiece.original, FormatPiece.argument, directive_count_from, ih]
      · simp [FormatPiece.original, FormatPiece.argument, directive_count_from, hc, ih]
    | directive body ch sym ch' =>
      obtain ⟨hbody, hch, hhead, _⟩ := hp
      have hpc : ch ≠ '%' := by
        intro hc
        rw [hc] at hch
        exact absurd hch (by decide)
      have e : ((FormatPiece.directive body ch sym ch' :: pieces).map
          FormatPiece.original).flatten
          = '%' :: (body ++ ch :: (pieces.map FormatPiece.original).flatten) := by
        simp [FormatPiece.original]
      have e2 : ((FormatPiece.directive body ch sym ch' :: pieces).filterMap
          FormatPiece.argument).length
          = 1 + (pieces.filterMap FormatPiece.argument).length := by
        simp [FormatPiece.argument]
        omega
      rw [e, e2, ← ih]
      have e3 : directive_count_from ReadState.text
          ('%' :: (body ++ ch :: (pieces.map FormatPiece.original).flatten))
          = directive_count_from ReadState.percent
              (body ++ ch :: (pieces.map FormatPiece.original).flatten) := by
        simp [directive_count_from]
      rw [e3, ← directive_count_directive ch _ hch body hbody]
      cases body with
      | nil => exact directive_count_percent ch _ hpc
      | cons x t =>
        have hx : x ≠ '%' := by
          intro hx
          apply hhead
          simp [hx]
        exact directive_count_percent x _ hx

theorem directive_count_skip :
    ∀ (l : List Char),
      directive_count_from ReadState.directive l
        = directive_count_from ReadState.text (skip_to_conversion l).2.tail
  | [] => rfl
  | c :: rest => by
    by_cases hc : is_conversion_char c = true
    · simp [directive_count_from, skip_to_conversion, hc]
    · have hc2 : is_conversion_char c = false := by simpa using hc
      simp only [directive_count_from, skip_to_conversion, hc2, Bool.false_eq_true, if_false]
      exact directive_count_skip rest

theorem directive_count_at_directive (format : List Char) (hh : format.head? ≠ some '%') :
    directive_count_from ReadState.text ('%' :: format)
      = 1 + directive_count_from ReadState.text (skip_to_conversion format).2.tail := by
  have e : directive_count_from ReadState.text ('%' :: format)
      = directive_count_from ReadState.percent format := by
    simp [directive_count_from]
  rw [e, ← directive_count_skip]
  cases format with
  | nil => rfl
  | cons x t =>
    have hx : x ≠ '%' := by
      intro hx
      apply hh
      simp [hx]
    exact directive_count_percent x t hx

theorem scan_mismatch (op : Opcode) :
    ∀ (fuel : Nat) (format s : List Char) (ca : List CallArg) (arg : Nat),
      format.length < fuel →
      (∀ sym ∈ op.args.drop arg,
        sym.typespec.is_structure = false ∧ sym.typespec.is_closure_based = false) →
      op.nargs - arg < directive_count_from ReadState.text format →
      (scan_format op fuel format s ca arg).ending = ScanEnd.mismatch := by
  intro fuel
  induction fuel with
  | zero => intro format s ca arg hlen; exact absurd hlen (by omega)
  | succ fuel ih =>
    intro format s ca arg hlen hargs hcount
    cases format with
    | nil => simp [directive_count_from] at hcount
    | cons c format =>
      simp only [List.length_cons] at hlen
      by_cases hc : c = '%'
      · by_cases hh : format.head? = some '%'
        · simp only [scan_format, hc, hh, if_true]
          cases format with
          | nil => simp at hh
          | cons c2 t =>
            simp only [List.head?_cons, Option.some.injEq] at hh
            subst hh
            subst hc
            simp only [List.length_cons] at hlen
            refine ih _ _ _ _ (by simp; omega) hargs ?_
            simpa [directive_count_from] using hcount
        · subst hc
          rw [directive_count_at_directive format hh] at hcount
          simp only [scan_format, hh, if_true, if_false]
          by_cases c1 : arg ≥ op.nargs
          · simp only [c1, if_true]
          have c1' : arg < op.nargs := by omega
          have hsym := hargs (op.opargsym arg) (by
            rw [opargsym_of_drop op arg c1']
            exact List.mem_cons_self _ _)
          simp only [c1, if_false, hsym.1, hsym.2, Bool.false_and, Bool.false_eq_true]
          obtain ⟨_, _, _, hsklen⟩ := skip_to_conversion_spec format
          rcases hsk : (skip_to_conversion format).2 with _ | ⟨ch, rest⟩
          · rw [hsk] at hcount
            simp [directive_count_from] at hcount
            omega
          · rw [hsk] at hcount hsklen
            simp only [List.tail_cons, List.length_cons] at hcount hsklen
            simp only [reduceCtorEq, if_false, List.tail_cons]
            refine ih _ _ _ _ (by omega) ?_ (by omega)
            intro sym hsym2
            apply hargs
            rw [opargsym_of_drop op arg c1']
            exact List.mem_cons_of_mem _ hsym2
      · simp only [scan_format, hc, if_false]
        refine ih _ _ _ _ (by omega) hargs ?_
        simpa [directive_count_from, hc] using hcount

/-- C11 fails when there are fewer directives than arguments: `printf ("hello", x)` has no
directive and one argument after the format string, and `llvm_gen_printf` returns `true`
and emits the call; the surplus argument is not reported. -/
theorem printf_surplus_argument_accepted :
    directive_count example_printf_extra_argument.format = 0
    ∧ example_printf_extra_argument.trailing_args = 1
    ∧ (llvm_gen_printf "shader" example_printf_extra_argument).value = some true
    ∧ (llvm_gen_printf "shader" example_printf_extra_argument).state
        = [PrintfEmit.call "printf" false
            [CallArg.sg_void_ptr, CallArg.current_mask, CallArg.format_string "hello"]] := by
  refine ⟨by decide, by decide, by decide, by decide⟩

/-- C11, amended: whenever `llvm_gen_printf` returns `true`, the number of `%` directives of
the constant format string (`%%` not counted) is at most the number of arguments that follow
the format-string argument; when the format symbol is a uniform constant, no argument after
it is a structure or a closure, and there are more directives than arguments, it reports
the mismatch error and returns `false`. -/
theorem printf_directives_and_arguments (shadername : String) (op : Opcode) :
    (∀ emits, llvm_gen_printf shadername op = GenResult.returned true emits →
      directive_count op.format ≤ op.trailing_args)
    ∧ (op.format_sym.is_uniform = true → op.format_sym.is_constant = true →
        (∀ sym ∈ op.args.drop (op.format_arg + 1),
          sym.typespec.is_structure = false ∧ sym.typespec.is_closure_based = false) →
        op.trailing_args < directive_count op.format →
          llvm_gen_printf shadername op
            = GenResult.returned false
                [PrintfEmit.error "Mismatch between format string and arguments"]) := by
  constructor
  · intro emits h
    obtain ⟨_, _, hdone, _⟩ := llvm_gen_printf_returned_true shadername op emits h
    obtain ⟨pieces, h1, _, h3, _, _, h6⟩ := scan_pieces op _ _ _ _ _ hdone
    have hl := congrArg List.length h3
    simp only [List.length_drop, List.length_append] at hl
    unfold directive_count Opcode.trailing_args Opcode.nargs
    rw [h1, directive_count_pieces pieces h6]
    omega
  · intro hu hc hargs hcount
    have hm := scan_mismatch op (op.format.length + 1) op.format [] [] (op.format_arg + 1)
      (by omega) hargs hcount
    have hm2 : (rewrite_format op).ending = ScanEnd.mismatch := hm
    simp only [llvm_gen_printf, hu, hc, hm2, Bool.not_true, Bool.false_eq_true, if_false]

/-- Witness of C11, amended: `printf ("%d %d", n)` has two directives and one argument;
`llvm_gen_printf` reports the mismatch error and returns `false`. -/
theorem printf_directives_and_arguments_witness :
    example_printf_missing_argument.trailing_args
        < directive_count example_printf_missing_argument.format
    ∧ llvm_gen_printf "shader" example_printf_missing_argument
        = GenResult.returned false
            [PrintfEmit.error "Mismatch between format string and arguments"] :=
  ⟨by decide,
    (printf_directives_and_arguments "shader" example_printf_missing_argument).2 rfl rfl
      (by decide) (by decide)⟩

theorem llvm_gen_printf_emits_call (shadername : String) (op : Opcode)
    (emits : List PrintfEmit)
    (h : llvm_gen_printf shadername op = GenResult.returned true emits) :
    ∃ e, emits.filter PrintfEmit.is_call = [e] ∧ e ∈ emits ∧ e.is_call = true
      ∧ e.args = printf_leading_args op
          ++ [CallArg.format_string
                (String.mk (printf_lead_text shadername op ++ (rewrite_format op).s))]
          ++ (rewrite_format op).call_args := by
  obtain ⟨_, _, _, hemits⟩ := llvm_gen_printf_returned_true shadername op emits h
  rw [hemits]
  by_cases hu : op.printf_is_uniform = true
  · rw [if_pos hu]
    refine ⟨_, ?_, List.mem_cons_self _ _, rfl, rfl⟩
    split_ifs <;> simp [PrintfEmit.is_call]
  · rw [if_neg hu]
    refine ⟨_, ?_, List.mem_cons_self _ _, rfl, rfl⟩
    simp [PrintfEmit.is_call]

/-- C12: whenever `llvm_gen_printf` returns `true`, the constant format string splits into
well-formed pieces, literal text and directives, the directives consuming the arguments after
the format string in order, such that the rewritten format is the concatenation of the
rewritten pieces: a literal (one character other than `%`, or `%%`) is copied; a directive
`%`, body, conversion character is copied once per element and component of its argument,
the copies separated by single spaces, with the same body (flags, width, precision) and a
conversion character that is legal for the base type of the argument (one of `d i o u x X`
for int, one of `f g c e m n p v` for float, `s` for string) and is the original one when
that one is legal.  Exactly one call is emitted, and its format string is the concatenation
of the rewritten pieces, after the prefix of `error` and `warning`. -/
theorem printf_rewrite_legal (shadername : String) (op : Opcode) (emits : List PrintfEmit)
    (h : llvm_gen_printf shadername op = GenResult.returned true emits) :
    ∃ pieces : List FormatPiece,
      op.format = (pieces.map FormatPiece.original).flatten
      ∧ (rewrite_format op).s = (pieces.map FormatPiece.rewritten_text).flatten
      ∧ pieces.filterMap FormatPiece.argument
          = (op.args.drop (op.format_arg + 1)).take
              (pieces.filterMap FormatPiece.argument).length
      ∧ (∀ p ∈ pieces, p.wellformed)
      ∧ (∃ e, emits.filter PrintfEmit.is_call = [e] ∧ e ∈ emits
          ∧ CallArg.format_string
              (String.mk (printf_lead_text shadername op
                ++ (pieces.map FormatPiece.rewritten_text).flatten)) ∈ e.args)
      ∧ ∀ e ∈ emits, e.is_call = true →
          CallArg.format_string
              (String.mk (printf_lead_text shadername op ++ (rewrite_format op).s)) ∈ e.args := by
  obtain ⟨_, _, hdone, hemits⟩ := llvm_gen_printf_returned_true shadername op emits h
  obtain ⟨pieces, h1, h2, h3, _, _, h6⟩ := scan_pieces op _ _ _ _ _ hdone
  have h2b : (rewrite_format op).s = (pieces.map FormatPiece.rewritten_text).flatten := by
    simpa using h2
  refine ⟨pieces, h1, h2b, ?_, h6, ?_, ?_⟩
  · rw [h3, List.take_left']
    rfl
  · obtain ⟨e, he1, he2, _, he4⟩ := llvm_gen_printf_emits_call shadername op emits h
    refine ⟨e, he1, he2, ?_⟩
    rw [he4, ← h2b]
    simp
  · intro e he hcall
    rw [hemits] at he
    have hself : ∀ (b : Bool) (name : String),
        CallArg.format_string
            (String.mk (printf_lead_text shadername op ++ (rewrite_format op).s))
          ∈ (PrintfEmit.call name b (printf_call_args shadername op)).args := by
      intro b name
      simp [PrintfEmit.args, printf_call_args]
    split_ifs at he with hu hf
    · simp only [List.mem_cons, List.mem_singleton, List.not_mem_nil, or_false] at he
      rcases he with rfl | rfl
      · exact hself _ _
      · exact absurd hcall (by simp [PrintfEmit.is_call])
    · simp only [List.mem_cons, List.mem_singleton, List.not_mem_nil, or_false] at he
      subst he
      exact hself _ _
    · simp only [List.mem_cons, List.mem_singleton, List.not_mem_nil, or_false] at he
      subst he
      simp [PrintfEmit.args, printf_call_args]

/-- Witness of C12: `printf ("a %5.2d b %s%% c %i", C, n, s)` with a varying color, an int
and a string emits one call, in the lane loop, whose format string is
`"a %5.2f %5.2f %5.2f b %d%% c %s"`. -/
theorem printf_rewrite_legal_witness :
    (llvm_gen_printf "shader" example_printf_rewrite).state
      = [PrintfEmit.call_per_active_lane "printf"
          [CallArg.sg_void_ptr, CallArg.lane_mask,
           CallArg.format_string "a %5.2f %5.2f %5.2f b %d%% c %s",
           CallArg.lane_value (Symbol.mk_simple "C" TypeSpec.color false false) none 0 true,
           CallArg.lane_value (Symbol.mk_simple "C" TypeSpec.color false false) none 1 true,
           CallArg.lane_value (Symbol.mk_simple "C" TypeSpec.color false false) none 2 true,
           CallArg.value (Symbol.mk_simple "n" TypeSpec.int true false) none 0 false,
           CallArg.value (Symbol.mk_simple "s" TypeSpec.string true false) none 0 false]]
    ∧ (rewrite_format example_printf_rewrite).s = "a %5.2f %5.2f %5.2f b %d%% c %s".toList
    ∧ ∃ pieces : List FormatPiece,
        example_printf_rewrite.format = (pieces.map FormatPiece.original).flatten
        ∧ (rewrite_format example_printf_rewrite).s
            = (pieces.map FormatPiece.rewritten_text).flatten
        ∧ (∀ p ∈ pieces, p.wellformed)
        ∧ ∃ e, (llvm_gen_printf "shader" example_printf_rewrite).state.filter
              PrintfEmit.is_call = [e]
            ∧ CallArg.format_string
                (String.mk (printf_lead_text "shader" example_printf_rewrite
                  ++ (pieces.map FormatPiece.rewritten_text).flatten)) ∈ e.args :=
  ⟨by decide, by decide,
    let ⟨pieces, h1, h2, _, h4, ⟨e, he1, _, he3⟩, _⟩ :=
      printf_rewrite_legal "shader" example_printf_rewrite
        (llvm_gen_printf "shader" example_printf_rewrite).state rfl
    ⟨pieces, h1, h2, h4, e, he1, he3⟩⟩

end

end OSL

namespace OSL

/-! ## Formatted output: scanning the rewritten format again -/

section

theorem rescan_args_drop (op : Opcode) (s : List Char) (hfa : op.format_arg < op.nargs) :
    (rescan_op op s).args.drop (op.format_arg + 1)
      = (op.args.drop (op.format_arg + 1)).flatMap Symbol.scalar_components := by
  have hl : (op.args.take op.format_arg
      ++ [{ op.format_sym with string_data := String.mk s }]).length = op.format_arg + 1 := by
    have : op.format_arg ≤ op.args.length := Nat.le_of_lt hfa
    simp [List.length_take, Nat.min_eq_left this]
  simp only [rescan_op]
  rw [List.drop_left' hl]

theorem rescan_format (op : Opcode) (s : List Char) (hfa : op.format_arg < op.nargs) :
    (rescan_op op s).format = s := by
  have hl : (op.args.take op.format_arg).length = op.format_arg := by
    have : op.format_arg ≤ op.args.length := Nat.le_of_lt hfa
    simp [List.length_take, Nat.min_eq_left this]
  have hfa2 : (rescan_op op s).format_arg = op.format_arg := rfl
  simp only [Opcode.format, Opcode.format_sym, Opcode.opargsym, hfa2]
  simp only [rescan_op, List.append_assoc, List.getD_eq_getElem?_getD]
  rw [List.getElem?_append_right (by omega)]
  simp [hl]

theorem scan_literal_char (op : Opcode) (c : Char) (hc : c ≠ '%') (fuel : Nat)
    (R s : List Char) (ca : List CallArg) (arg : Nat) :
    scan_format op (fuel + 1) (c :: R) s ca arg = scan_format op fuel R (s ++ [c]) ca arg := by
  simp only [scan_format, hc, if_false]

theorem scan_literal_percent (op : Opcode) (fuel : Nat) (R s : List Char)
    (ca : List CallArg) (arg : Nat) :
    scan_format op (fuel + 1) ('%' :: '%' :: R) s ca arg
      = scan_format op fuel R (s ++ ['%', '%']) ca arg := by
  simp only [scan_format, List.head?_cons, if_true, List.tail_cons]

theorem scalar_component_numelements (sym : Symbol) :
    sym.scalar_component.typespec.numelements = 1 := by
  simp [Symbol.scalar_component, TypeSpec.numelements]

theorem scan_scalar_directive (op : Opcode) (body : List Char) (ch : Char) (sym : Symbol)
    (hbody : ∀ x ∈ body, is_conversion_char x = false) (hch : is_conversion_char ch = true)
    (hhead : body.head? ≠ some '%')
    (hcl : sym.typespec.is_closure_based = false) (hst : sym.typespec.is_structure = false)
    (hlegal : legal_conversion sym.typespec.basetype ch = true)
    (fuel : Nat) (R s : List Char) (ca : List CallArg) (arg : Nat) (tail : List Symbol)
    (hargs : op.args.drop arg = sym.scalar_component :: tail) :
    scan_format op (fuel + 1) (('%' :: body ++ [ch]) ++ R) s ca arg
      = scan_format op fuel R (s ++ ('%' :: body ++ [ch]))
          (ca ++ argument_values sym.scalar_component) (arg + 1) := by
  have hlt : arg < op.nargs := by
    by_contra hge
    have : op.args.drop arg = [] := List.drop_eq_nil_of_le (by
      have : op.args.length ≤ arg := by
        unfold Opcode.nargs at hge
        omega
      exact this)
    rw [this] at hargs
    exact absurd hargs (by simp)
  have hsym : op.opargsym arg = sym.scalar_component := by
    have := opargsym_of_drop op arg hlt
    rw [hargs] at this
    exact ((List.cons.inj this).1).symm
  have hfmt : ('%' :: body ++ [ch]) ++ R = '%' :: (body ++ ch :: R) := by simp
  have hh : (body ++ ch :: R).head? ≠ some '%' := by
    cases body with
    | nil =>
      simp only [List.nil_append, List.head?_cons, ne_eq, Option.some.injEq]
      intro h
      rw [h] at hch
      exact absurd hch (by decide)
    | cons x t => simpa using hhead
  have hcl2 : sym.scalar_component.typespec.is_closure_based = false := hcl
  have hst2 : sym.scalar_component.typespec.is_structure = false := hst
  have hlegal2 : legal_conversion sym.scalar_component.typespec.basetype ch = true := hlegal
  have hn : ¬ arg ≥ op.nargs := by omega
  rw [hfmt]
  simp only [scan_format, if_true, hh, if_false, skip_to_conversion_append ch R hch body hbody,
    hn, hsym, hst2, hcl2, Bool.false_and, Bool.false_eq_true, List.headD_cons,
    List.tail_cons, reduceCtorEq, doctor_format_concat _ _ _ hcl2,
    doctored_conversion_of_legal _ _ hlegal2, expand_argument_text _ _ hcl2,
    expand_argument_values, scalar_component_numelements]
  have hagg : sym.scalar_component.typespec.aggregate = 1 := rfl
  simp [hagg, spaced_copies]

theorem drop_succ_of_drop_cons {β : Type} (l : List β) (i : Nat) (x : β) (t : List β)
    (h : l.drop i = x :: t) : l.drop (i + 1) = t := by
  have : l.drop (i + 1) = (l.drop i).drop 1 := by
    rw [List.drop_drop]
  rw [this, h]
  rfl

theorem copies_length (d : List Char) (hd : 1 ≤ d.length) :
    ∀ (k : Nat), 2 * k ≤ (List.replicate k (' ' :: d)).flatten.length
  | 0 => by simp
  | k + 1 => by
    have ih := copies_length d hd k
    simp only [List.replicate_succ, List.flatten_cons, List.length_append, List.length_cons]
    omega

theorem scan_copies (op : Opcode) (body : List Char) (ch : Char) (sym : Symbol)
    (hbody : ∀ x ∈ body, is_conversion_char x = false) (hch : is_conversion_char ch = true)
    (hhead : body.head? ≠ some '%')
    (hcl : sym.typespec.is_closure_based = false) (hst : sym.typespec.is_structure = false)
    (hlegal : legal_conversion sym.typespec.basetype ch = true) (R : List Char) :
    ∀ (k : Nat) (s : List Char) (ca : List CallArg) (arg : Nat) (tail : List Symbol),
      op.args.drop arg = List.replicate k sym.scalar_component ++ tail →
      ∃ ca', ∀ fuel,
        scan_format op (fuel + 2 * k)
            ((List.replicate k (' ' :: ('%' :: body ++ [ch]))).flatten ++ R) s ca arg
          = scan_format op fuel R
              (s ++ (List.replicate k (' ' :: ('%' :: body ++ [ch]))).flatten) ca' (arg + k) := by
  intro k
  induction k with
  | zero =>
    intro s ca arg tail _
    exact ⟨ca, fun fuel => by simp⟩
  | succ k ih =>
    intro s ca arg tail hargs
    have hargs1 : op.args.drop arg
        = sym.scalar_component :: (List.replicate k sym.scalar_component ++ tail) := by
      rw [hargs, List.replicate_succ, List.cons_append]
    have hargs2 := drop_succ_of_drop_cons _ _ _ _ hargs1
    obtain ⟨ca', hca⟩ := ih (s ++ [' '] ++ ('%' :: body ++ [ch]))
      (ca ++ argument_values sym.scalar_component) (arg + 1) tail hargs2
    refine ⟨ca', fun fuel => ?_⟩
    have hf : fuel + 2 * (k + 1) = (fuel + 2 * k + 1) + 1 := by omega
    have hfl : (List.replicate (k + 1) (' ' :: ('%' :: body ++ [ch]))).flatten ++ R
        = ' ' :: (('%' :: body ++ [ch])
            ++ ((List.replicate k (' ' :: ('%' :: body ++ [ch]))).flatten ++ R)) := by
      simp [List.replicate_succ]
    rw [hf, hfl, scan_literal_char op ' ' (by decide),
      scan_scalar_directive op body ch sym hbody hch hhead hcl hst hlegal _ _ _ _ _ _ hargs1,
      hca fuel]
    congr 1
    · simp [List.replicate_succ]
    · omega

theorem scan_rewritten_pieces (op : Opcode) (R : List Char) :
    ∀ (pieces : List FormatPiece), (∀ p ∈ pieces, p.wellformed) →
      ∀ (s : List Char) (ca : List CallArg) (arg : Nat) (tail : List Symbol),
        op.args.drop arg
          = (pieces.filterMap FormatPiece.argument).flatMap Symbol.scalar_components ++ tail →
        ∃ n ca', n ≤ (pieces.map FormatPiece.rewritten_text).flatten.length
          ∧ ∀ fuel,
            scan_format op (fuel + n)
                ((pieces.map FormatPiece.rewritten_text).flatten ++ R) s ca arg
              = scan_format op fuel R
                  (s ++ (pieces.map FormatPiece.rewritten_text).flatten) ca'
                  (arg + ((pieces.filterMap FormatPiece.argument).flatMap
                            Symbol.scalar_components).length)
  | [], _, s, ca, arg, tail, _ => ⟨0, ca, by simp, fun fuel => by simp⟩
  | p :: pieces, h, s, ca, arg, tail, hargs => by
    have hp := h p (List.mem_cons_self _ _)
    have hrest : ∀ q ∈ pieces, q.wellformed := fun q hq => h q (List.mem_cons_of_mem _ hq)
    cases p with
    | literal text =>
      have hargs2 : op.args.drop arg
          = (pieces.filterMap FormatPiece.argument).flatMap Symbol.scalar_components
              ++ tail := by
        simpa [FormatPiece.argument] using hargs
      rcases hp with rfl | ⟨c, rfl, hc⟩
      · obtain ⟨n, ca', hn, hscan⟩ :=
          scan_rewritten_pieces op R pieces hrest (s ++ ['%', '%']) ca arg tail hargs2
        refine ⟨n + 1, ca', by
          simp only [List.map_cons, List.flatten_cons, List.length_append,
            FormatPiece.rewritten_text, List.length_cons, List.length_nil]
          omega, fun fuel => ?_⟩
        have hf : fuel + (n + 1) = (fuel + n) + 1 := by omega
        simp only [List.map_cons, List.flatten_cons, FormatPiece.rewritten_text,
          List.filterMap_cons, FormatPiece.argument, List.cons_append, List.nil_append]
        rw [hf, scan_literal_percent, hscan fuel]
        simp
      · obtain ⟨n, ca', hn, hscan⟩ :=
          scan_rewritten_pieces op R pieces hrest (s ++ [c]) ca arg tail hargs2
        refine ⟨n + 1, ca', by
          simp only [List.map_cons, List.flatten_cons, List.length_append,
            FormatPiece.rewritten_text, List.length_cons, List.length_nil]
          omega, fun fuel => ?_⟩
        have hf : fuel + (n + 1) = (fuel + n) + 1 := by omega
        simp only [List.map_cons, List.flatten_cons, FormatPiece.rewritten_text,
          List.filterMap_cons, FormatPiece.argument, List.cons_append, List.nil_append]
        rw [hf, scan_literal_char op c hc, hscan fuel]
        simp
    | directive body ch sym ch' =>
      obtain ⟨hbody, _, hhead, hcl, hst, hch', hlegal, _⟩ := hp
      have hfm : (FormatPiece.directive body ch sym ch' :: pieces).filterMap
          FormatPiece.argument = sym :: pieces.filterMap FormatPiece.argument := by
        simp [FormatPiece.argument]
      rw [hfm, List.flatMap_cons] at hargs ⊢
      simp only [List.map_cons, List.flatten_cons, FormatPiece.rewritten_text,
        List.length_append, Symbol.scalar_components, List.length_replicate] at hargs ⊢
      generalize hk : sym.typespec.numelements * sym.typespec.aggregate = k at hargs ⊢
      cases k with
      | zero =>
        simp only [List.replicate_zero, List.nil_append] at hargs
        obtain ⟨n, ca', hn, hscan⟩ :=
          scan_rewritten_pieces op R pieces hrest s ca arg tail hargs
        refine ⟨n, ca', by
          simp only [spaced_copies, List.length_nil, Nat.zero_add]
          exact hn, fun fuel => ?_⟩
        simp only [spaced_copies, List.nil_append, Nat.zero_add]
        exact hscan fuel
      | succ k =>
        have hargs1 : op.args.drop arg
            = sym.scalar_component :: (List.replicate k sym.scalar_component
                ++ ((pieces.filterMap FormatPiece.argument).flatMap Symbol.scalar_components
                    ++ tail)) := by
          rw [hargs]
          simp [List.replicate_succ]
        have hargs2 := drop_succ_of_drop_cons _ _ _ _ hargs1
        obtain ⟨ca1, hcopies⟩ := scan_copies op body ch' sym hbody hch' hhead hcl hst hlegal
          ((pieces.map FormatPiece.rewritten_text).flatten ++ R) k
          (s ++ ('%' :: body ++ [ch']))
          (ca ++ argument_values sym.scalar_component) (arg + 1) _ hargs2
        have hargs3 : op.args.drop (arg + 1 + k)
            = (pieces.filterMap FormatPiece.argument).flatMap Symbol.scalar_components
                ++ tail := by
          have : op.args.drop (arg + 1 + k) = (op.args.drop (arg + 1)).drop k := by
            rw [List.drop_drop]
          rw [this, hargs2, List.drop_left' (List.length_replicate _ _)]
        obtain ⟨n, ca', hn, hscan⟩ :=
          scan_rewritten_pieces op R pieces hrest
            (s ++ ('%' :: body ++ [ch'])
              ++ (List.replicate k (' ' :: ('%' :: body ++ [ch']))).flatten)
            ca1 (arg + 1 + k) tail hargs3
        refine ⟨n + 2 * k + 1, ca', ?_, fun fuel => ?_⟩
        · have hc := copies_length ('%' :: body ++ [ch']) (by simp) k
          simp only [spaced_copies, List.length_append, List.length_cons, List.length_nil]
          omega
        · have hf : fuel + (n + 2 * k + 1) = (fuel + n + 2 * k) + 1 := by omega
          have hfl : spaced_copies (k + 1) ('%' :: body ++ [ch'])
                ++ (pieces.map FormatPiece.rewritten_text).flatten ++ R
              = ('%' :: body ++ [ch'])
                  ++ ((List.replicate k (' ' :: ('%' :: body ++ [ch']))).flatten
                      ++ ((pieces.map FormatPiece.rewritten_text).flatten ++ R)) := by
            simp [spaced_copies]
          rw [hf, hfl,
            scan_scalar_directive op body ch' sym hbody hch' hhead hcl hst hlegal _ _ _ _ _
              _ hargs1,
            hcopies (fuel + n), hscan fuel]
          congr 1
          · simp [spaced_copies]
          · omega

theorem format_arg_lt_of_constant (op : Opcode) (hc : op.format_sym.is_constant = true) :
    op.format_arg < op.nargs := by
  by_contra hge
  have hlen : op.args.length ≤ op.format_arg := by
    unfold Opcode.nargs at hge
    omega
  have : op.format_sym.is_constant = false := by
    simp [Opcode.format_sym, Opcode.opargsym, List.getD_eq_getElem?_getD,
      List.getElem?_eq_none hlen]
  rw [this] at hc
  exact absurd hc (by simp)

theorem length_flatMap_scalar_components (syms : List Symbol) :
    (syms.flatMap Symbol.scalar_components).length
      = (syms.map fun sym => sym.typespec.numelements * sym.typespec.aggregate).sum := by
  induction syms with
  | nil => rfl
  | cons x t ih =>
    simp only [List.flatMap_cons, List.length_append, ih, List.map_cons, List.sum_cons,
      Symbol.scalar_components, List.length_replicate]

/-- C13 fails when the first scan left arguments unconsumed: for `printf ("hello", x)` the
scan succeeds and returns `"hello"`; scanning `"hello"` again with the scalar components of
the argument list succeeds and returns `"hello"`, but it consumes no argument, while the
argument list has one argument after the format string. -/
theorem rescan_leaves_surplus_argument :
    (llvm_gen_printf "shader" example_printf_extra_argument).value = some true
    ∧ (rewrite_format example_printf_extra_argument).s = "hello".toList
    ∧ (rewrite_format (rescan_op example_printf_extra_argument
        (rewrite_format example_printf_extra_argument).s)).ending = ScanEnd.done
    ∧ (rewrite_format (rescan_op example_printf_extra_argument
        (rewrite_format example_printf_extra_argument).s)).arg = 1
    ∧ (rescan_op example_printf_extra_argument
        (rewrite_format example_printf_extra_argument).s).nargs = 2 := by
  refine ⟨by decide, by decide, by decide, by decide, by decide⟩

/-- C13, amended: if `llvm_gen_printf` returns `true`, its scan-and-rewrite having mapped the
format `F` to `F'` (before the prefix of `error` and `warning`), then the same
scan-and-rewrite run on `F'` with every argument after the format string replaced by its
`numelements * aggregate` scalar components ends at the end of the string and returns `F'`
itself (so no conversion character changes); it consumes exactly the scalar components of
the arguments that the first scan consumed, which is every argument when the first scan
consumed every argument. -/
theorem format_rewriting_idempotent (shadername : String) (op : Opcode)
    (emits : List PrintfEmit)
    (h : llvm_gen_printf shadername op = GenResult.returned true emits) :
    (rewrite_format (rescan_op op (rewrite_format op).s)).ending = ScanEnd.done
    ∧ (rewrite_format (rescan_op op (rewrite_format op).s)).s = (rewrite_format op).s
    ∧ (rewrite_format (rescan_op op (rewrite_format op).s)).arg
        = op.format_arg + 1
            + op.components_consumed ((rewrite_format op).arg - (op.format_arg + 1))
    ∧ ((rewrite_format op).arg = op.nargs →
        (rewrite_format (rescan_op op (rewrite_format op).s)).arg
          = (rescan_op op (rewrite_format op).s).nargs) := by
  obtain ⟨_, hc, hdone, _⟩ := llvm_gen_printf_returned_true shadername op emits h
  have hfa := format_arg_lt_of_constant op hc
  obtain ⟨pieces, h1, h2, h3, h4, _, h6⟩ := scan_pieces op _ _ _ _ _ hdone
  have h2' : (rewrite_format op).s = (pieces.map FormatPiece.rewritten_text).flatten := by
    simpa using h2
  have h3' : op.args.drop (op.format_arg + 1)
      = pieces.filterMap FormatPiece.argument ++ op.args.drop (rewrite_format op).arg := h3
  have h4' : (rewrite_format op).arg
      = op.format_arg + 1 + (pieces.filterMap FormatPiece.argument).length := h4
  have hargs : (rescan_op op (rewrite_format op).s).args.drop (op.format_arg + 1)
      = (pieces.filterMap FormatPiece.argument).flatMap Symbol.scalar_components
          ++ (op.args.drop (rewrite_format op).arg).flatMap Symbol.scalar_components := by
    rw [rescan_args_drop op _ hfa, h3', List.flatMap_append]
  obtain ⟨n, ca', hn, hscan⟩ :=
    scan_rewritten_pieces (rescan_op op (rewrite_format op).s) [] pieces h6 [] []
      (op.format_arg + 1) _ hargs
  have hrw : rewrite_format (rescan_op op (rewrite_format op).s)
      = { s := (rewrite_format op).s, call_args := ca',
          arg := op.format_arg + 1
            + ((pieces.filterMap FormatPiece.argument).flatMap
                Symbol.scalar_components).length,
          ending := ScanEnd.done } := by
    have e : rewrite_format (rescan_op op (rewrite_format op).s)
        = scan_format (rescan_op op (rewrite_format op).s)
            ((rescan_op op (rewrite_format op).s).format.length + 1)
            (rescan_op op (rewrite_format op).s).format [] [] (op.format_arg + 1) := rfl
    rw [e, rescan_format op _ hfa]
    generalize rescan_op op (rewrite_format op).s = op2 at hscan ⊢
    rw [h2']
    have hf : (pieces.map FormatPiece.rewritten_text).flatten.length + 1
        = ((pieces.map FormatPiece.rewritten_text).flatten.length - n + 1) + n := by omega
    have := hscan ((pieces.map FormatPiece.rewritten_text).flatten.length - n + 1)
    rw [List.append_nil] at this
    rw [hf, this]
    simp [scan_format]
  have hcomp : op.components_consumed ((rewrite_format op).arg - (op.format_arg + 1))
      = ((pieces.filterMap FormatPiece.argument).flatMap Symbol.scalar_components).length := by
    have : (rewrite_format op).arg - (op.format_arg + 1)
        = (pieces.filterMap FormatPiece.argument).length := by omega
    rw [Opcode.components_consumed, this, h3', List.take_left',
      length_flatMap_scalar_components]
    rfl
  rw [hrw]
  refine ⟨rfl, rfl, by rw [hcomp], ?_⟩
  intro hall
  have hnil : op.args.drop (rewrite_format op).arg = [] :=
    List.drop_eq_nil_of_le (by rw [hall]; exact le_refl _)
  rw [hnil] at hargs
  simp only [List.flatMap_nil, List.append_nil] at hargs
  have hl := congrArg List.length hargs
  simp only [List.length_drop] at hl
  have hge : op.format_arg + 1 ≤ (rescan_op op (rewrite_format op).s).args.length := by
    have : op.format_arg ≤ op.args.length := Nat.le_of_lt hfa
    simp [rescan_op, List.length_take, Nat.min_eq_left this]
  show _ = (rescan_op op (rewrite_format op).s).args.length
  simp only
  omega

/-- Witness of C13, amended: the rewritten format `"a %5.2f %5.2f %5.2f b %d%% c %s"` of
`printf ("a %5.2d b %s%% c %i", C, n, s)`, scanned again with the five scalar arguments,
is returned unchanged and all five arguments are consumed. -/
theorem format_rewriting_idempotent_witness :
    (llvm_gen_printf "shader" example_printf_rewrite).value = some true
    ∧ (rewrite_format example_printf_rewrite).s = "a %5.2f %5.2f %5.2f b %d%% c %s".toList
    ∧ (rewrite_format (rescan_op example_printf_rewrite
        (rewrite_format example_printf_rewrite).s)).s
        = (rewrite_format example_printf_rewrite).s
    ∧ (rewrite_format (rescan_op example_printf_rewrite
        (rewrite_format example_printf_rewrite).s)).ending = ScanEnd.done :=
  have h := format_rewriting_idempotent "shader" example_printf_rewrite
    (llvm_gen_printf "shader" example_printf_rewrite).state rfl
  ⟨rfl, by decide, h.2.1, h.1⟩

end

end OSL

namespace OSL

/-! ## Formatted output: the calls made at run time -/

section

variable {W : Nat} {β : Type}

theorem printf_lane_loop_spec {γ : Type} (call : Fin W → γ) (mask : Mask W) :
    ∀ (n i : Nat), i + n = W →
      printf_lane_loop call mask (n + 1) i
        = ((((List.finRange W).drop i).filter fun l => mask l).map call, true) := by
  intro n
  induction n with
  | zero =>
    intro i hi
    have : ¬ i < W := by omega
    simp only [printf_lane_loop, this, dite_false]
    rw [List.drop_eq_nil_of_le (by simp; omega)]
    rfl
  | succ n ih =>
    intro i hi
    have hlt : i < W := by omega
    have hdrop : (List.finRange W).drop i = ⟨i, hlt⟩ :: (List.finRange W).drop (i + 1) := by
      rw [List.drop_eq_getElem_cons (by simp; exact hlt)]
      simp
    rw [printf_lane_loop]
    simp only [hlt, dite_true, ih (i + 1) (by omega), hdrop, List.filter_cons]
    split_ifs <;> rfl

theorem has_varying_argument_eq (op : Opcode) :
    op.has_varying_argument = !op.printf_is_uniform := by
  simp only [Opcode.has_varying_argument, Opcode.printf_is_uniform]
  induction op.args.drop (op.format_arg + 1) with
  | nil => rfl
  | cons x t ih => simp only [List.any_cons, List.all_cons, ih, Bool.not_and]

theorem argument_values_kind (sym : Symbol) :
    ∀ a ∈ argument_values sym,
      (∃ ai c td, a = CallArg.value sym ai c td ∧ sym.is_uniform = true)
      ∨ (∃ ai c td, a = CallArg.lane_value sym ai c td ∧ sym.is_uniform = false)
      ∨ (∃ ai, a = CallArg.closure_string sym ai) := by
  intro a ha
  simp only [argument_values, expand_argument, List.map_map] at ha
  obtain ⟨i, ha⟩ := mem_flatten_map _ _ _ ha
  simp only [Function.comp_apply] at ha
  by_cases hcl : sym.typespec.is_closure_based = true
  · rw [if_pos hcl] at ha
    simp only [List.mem_singleton] at ha
    exact Or.inr (Or.inr ⟨_, ha⟩)
  · rw [if_neg hcl] at ha
    obtain ⟨c, ha⟩ := mem_flatten_map _ _ _ ha
    simp only [Function.comp_apply] at ha
    by_cases hu : sym.is_uniform = true
    · simp only [hu, if_true, List.mem_singleton] at ha
      exact Or.inl ⟨_, _, _, ha, hu⟩
    · have hu2 : sym.is_uniform = false := by simpa using hu
      simp only [hu2, Bool.false_eq_true, if_false, List.mem_singleton] at ha
      exact Or.inr (Or.inl ⟨_, _, _, ha, hu2⟩)

theorem scan_call_args_kind (op : Opcode) (hdone : (rewrite_format op).ending = ScanEnd.done) :
    ∀ a ∈ (rewrite_format op).call_args,
      ∃ sym, (∃ ai c td, a = CallArg.value sym ai c td ∧ sym.is_uniform = true)
        ∨ (∃ ai c td, a = CallArg.lane_value sym ai c td ∧ sym.is_uniform = false)
        ∨ (∃ ai, a = CallArg.closure_string sym ai) := by
  obtain ⟨pieces, _, _, _, _, h5, _⟩ := scan_pieces op _ _ _ _ _ hdone
  intro a ha
  have ha2 : a ∈ (pieces.filterMap FormatPiece.argument).flatMap argument_values := by
    have h5' : (rewrite_format op).call_args
        = [] ++ (pieces.filterMap FormatPiece.argument).flatMap argument_values := h5
    rw [h5', List.nil_append] at ha
    exact ha
  obtain ⟨sym, _, hs⟩ := List.mem_flatMap.1 ha2
  exact ⟨sym, argument_values_kind sym a hs⟩

theorem leading_args_masks (op : Opcode) (hop : is_printf_opname op.opname = true) :
    (op.printf_is_uniform = false →
      CallArg.lane_mask ∈ printf_leading_args op
      ∧ CallArg.current_mask ∉ printf_leading_args op)
    ∧ (op.printf_is_uniform = true → op.opname ≠ "format" →
      CallArg.current_mask ∈ printf_leading_args op)
    ∧ (op.printf_is_uniform = true → op.opname = "format" → printf_leading_args op = []) := by
  simp only [is_printf_opname, Bool.or_eq_true, decide_eq_true_eq] at hop
  refine ⟨fun hu => ?_, fun hu hf => ?_, fun hu hf => ?_⟩
  · rcases hop with (((h | h) | h) | h) | h <;>
      simp [printf_leading_args, hu, h]
  · rcases hop with (((h | h) | h) | h) | h
    · simp [printf_leading_args, hu, h]
    · simp [printf_leading_args, hu, h]
    · simp [printf_leading_args, hu, h]
    · exact absurd h hf
    · simp [printf_leading_args, hu, h]
  · simp [printf_leading_args, hu, hf]

theorem scan_call_args_no_mask (op : Opcode)
    (hdone : (rewrite_format op).ending = ScanEnd.done) :
    CallArg.current_mask ∉ (rewrite_format op).call_args
    ∧ CallArg.lane_mask ∉ (rewrite_format op).call_args := by
  constructor <;>
  · intro hm
    obtain ⟨sym, hk⟩ := scan_call_args_kind op hdone _ hm
    rcases hk with ⟨_, _, _, hk, _⟩ | ⟨_, _, _, hk, _⟩ | ⟨_, hk⟩ <;> exact absurd hk (by simp)

/-- C14, amended: let `llvm_gen_printf` return `true` on one of its five opcodes.  When some
argument after the format string is varying, it emits the lane loop and nothing else; run
under the mask `m` with `W + 1` evaluations of the loop condition, the loop ends and has made
one formatting call for each lane whose bit is set in `m` and none for the others, in
increasing lane order; the call of lane `i` receives the single-lane mask `1 << i` (never
the current mask), and each value argument is the scalar of a uniform argument or the value
extracted from lane `i` of a varying one.  When every argument is uniform, exactly one call
is emitted; for `printf`, `error`, `warning` and `fprintf` it receives the whole current
mask; for `format` it is the scalar routine and receives no mask. -/
theorem printf_calls_per_active_lane (shadername : String) (op : Opcode)
    (emits : List PrintfEmit) (env : PrintfEnv W β) (mask : Mask W)
    (hop : is_printf_opname op.opname = true)
    (h : llvm_gen_printf shadername op = GenResult.returned true emits) :
    (op.has_varying_argument = true →
      emits = [PrintfEmit.call_per_active_lane op.opname (printf_call_args shadername op)]
      ∧ emits.map (PrintfEmit.run env mask (W + 1))
          = [(((List.finRange W).filter fun l => mask l).map fun lane =>
                ({ name := op.opname, unbatched := false,
                   args := (printf_call_args shadername op).map (CallArg.eval env mask lane) }
                  : FormatCall β), true)]
      ∧ (∀ lane : Fin W, RuntimeArg.mask_int (1 <<< lane.val)
            ∈ (printf_call_args shadername op).map (CallArg.eval env mask lane))
      ∧ CallArg.current_mask ∉ printf_call_args shadername op
      ∧ (∀ a ∈ (rewrite_format op).call_args,
          ∃ sym, (∃ ai c td, a = CallArg.value sym ai c td ∧ sym.is_uniform = true)
            ∨ (∃ ai c td, a = CallArg.lane_value sym ai c td ∧ sym.is_uniform = false)
            ∨ (∃ ai, a = CallArg.closure_string sym ai))
      ∧ (∀ sym ai c td (lane : Fin W),
          (CallArg.lane_value sym ai c td).eval env mask lane
            = RuntimeArg.scalar (env.wide sym ai c lane) td))
    ∧ (op.has_varying_argument = false →
      emits.filter PrintfEmit.is_call
          = [PrintfEmit.call op.opname (op.opname = "format") (printf_call_args shadername op)]
      ∧ (op.opname ≠ "format" →
          RuntimeArg.mask_int (mask_as_int mask)
            ∈ (printf_call_args shadername op).map (CallArg.eval_uniform env mask))
      ∧ (op.opname = "format" →
          CallArg.current_mask ∉ printf_call_args shadername op
          ∧ CallArg.lane_mask ∉ printf_call_args shadername op)) := by
  obtain ⟨_, _, hdone, hemits⟩ := llvm_gen_printf_returned_true shadername op emits h
  obtain ⟨hL1, hL2, hL3⟩ := leading_args_masks op hop
  obtain ⟨hS1, hS2⟩ := scan_call_args_no_mask op hdone
  constructor
  · intro hv
    have hu : op.printf_is_uniform = false := by
      rw [has_varying_argument_eq] at hv
      simpa using hv
    rw [hu] at hemits
    simp only [Bool.false_eq_true, if_false] at hemits
    subst hemits
    refine ⟨rfl, ?_, ?_, ?_, scan_call_args_kind op hdone, fun _ _ _ _ _ => rfl⟩
    · simp only [List.map_cons, List.map_nil, PrintfEmit.run]
      rw [printf_lane_loop_spec _ mask W 0 (by omega)]
      rfl
    · intro lane
      apply List.mem_map.2
      refine ⟨CallArg.lane_mask, ?_, rfl⟩
      simp only [printf_call_args, List.mem_append]
      exact Or.inl (Or.inl (hL1 hu).1)
    · simp only [printf_call_args, List.mem_append, List.mem_singleton, not_or]
      exact ⟨⟨(hL1 hu).2, by simp⟩, hS1⟩
  · intro hv
    have hu : op.printf_is_uniform = true := by
      rw [has_varying_argument_eq] at hv
      simpa using hv
    rw [hu] at hemits
    simp only [if_true, Bool.and_true] at hemits
    subst hemits
    refine ⟨?_, fun hf => ?_, fun hf => ?_⟩
    · split_ifs <;> simp [PrintfEmit.is_call]
    · apply List.mem_map.2
      refine ⟨CallArg.current_mask, ?_, rfl⟩
      simp only [printf_call_args, List.mem_append]
      exact Or.inl (Or.inl (hL2 hu hf))
    · simp only [printf_call_args, hL3 hu hf, List.nil_append, List.mem_append,
        List.mem_singleton, not_or]
      exact ⟨⟨by simp, hS1⟩, ⟨by simp, hS2⟩⟩

/-- Witness of C14, amended: `printf ("x=%d y=%f", i, y)` with a uniform `i = 7` and a
varying `y` (lanes 10, 11, 12, 13), run on four lanes with lanes 0 and 2 active, calls the
routine for lane 0 with mask 1 and value 10, then for lane 2 with mask 4 and value 12. -/
theorem printf_calls_per_active_lane_witness :
    is_printf_opname example_printf_varying.opname = true
    ∧ example_printf_varying.has_varying_argument = true
    ∧ (llvm_gen_printf "shader" example_printf_varying).state.map
          (PrintfEmit.run example_env example_even_lanes 5)
        = [([{ name := "printf", unbatched := false,
               args := [RuntimeArg.sg_void_ptr, RuntimeArg.mask_int 1,
                        RuntimeArg.format_string "x=%d y=%f", RuntimeArg.scalar 7 false,
                        RuntimeArg.scalar 10 true] },
             { name := "printf", unbatched := false,
               args := [RuntimeArg.sg_void_ptr, RuntimeArg.mask_int 4,
                        RuntimeArg.format_string "x=%d y=%f", RuntimeArg.scalar 7 false,
                        RuntimeArg.scalar 12 true] }], true)] :=
  ⟨rfl, by decide,
    ((printf_calls_per_active_lane "shader" example_printf_varying
      (llvm_gen_printf "shader" example_printf_varying).state example_env example_even_lanes
      rfl rfl).1 (by decide)).2.1.trans (by decide)⟩

/-- C14 fails for `format` with uniform arguments: `format (Result, "x=%d", i)` is generated
as one call of the scalar routine whose arguments are the format string and the value; no
mask is passed. -/
theorem format_uniform_call_has_no_mask :
    example_format_uniform.has_varying_argument = false
    ∧ (llvm_gen_printf "shader" example_format_uniform).value = some true
    ∧ (llvm_gen_printf "shader" example_format_uniform).state.map
          (PrintfEmit.run example_env example_even_lanes 5)
        = [([{ name := "format", unbatched := true,
               args := [RuntimeArg.format_string "x=%d", RuntimeArg.scalar 7 false] }], true),
           ([], true)] := by
  refine ⟨by decide, by decide, by decide⟩

end

end OSL

namespace OSL

/-! ## Range checking of array indices -/

section

variable {W : Nat}

theorem aref_accesses (Src : Symbol) (index : IndexValue) (chans : List Nat) (n : Nat) :
    ∀ e ∈ (chans.map fun d =>
        ((List.range n).map fun c =>
          [ArrayEmit.load_array Src d index c, ArrayEmit.store_result c d]).flatten).flatten,
      e.is_range_check = false ∧ e.is_range_check_masked = false
        ∧ (∀ i, e.array_index = some i → i = index)
        ∧ e.is_access = true := by
  intro e he
  obtain ⟨d, he⟩ := mem_flatten_map _ _ _ he
  obtain ⟨c, he⟩ := mem_flatten_map _ _ _ he
  simp only [List.mem_cons, List.mem_singleton, List.not_mem_nil, or_false] at he
  rcases he with rfl | rfl
  · exact ⟨rfl, rfl, fun i hi => by simpa [ArrayEmit.array_index] using hi.symm, rfl⟩
  · exact ⟨rfl, rfl, fun i hi => by simp [ArrayEmit.array_index] at hi, rfl⟩

theorem aassign_accesses (Result : Symbol) (index : IndexValue) (chans : List Nat) (n : Nat) :
    ∀ e ∈ (chans.map fun d =>
        ((List.range n).map fun c =>
          [ArrayEmit.load_src c d, ArrayEmit.store_array Result d index c]).flatten).flatten,
      e.is_range_check = false ∧ e.is_range_check_masked = false
        ∧ (∀ i, e.array_index = some i → i = index)
        ∧ e.is_access = true := by
  intro e he
  obtain ⟨d, he⟩ := mem_flatten_map _ _ _ he
  obtain ⟨c, he⟩ := mem_flatten_map _ _ _ he
  simp only [List.mem_cons, List.mem_singleton, List.not_mem_nil, or_false] at he
  rcases he with rfl | rfl
  · exact ⟨rfl, rfl, fun i hi => by simp [ArrayEmit.array_index] at hi, rfl⟩
  · exact ⟨rfl, rfl, fun i hi => by simpa [ArrayEmit.array_index] using hi.symm, rfl⟩

theorem range_check_index_uniform (Index Array : Symbol) (hu : Index.is_uniform = true) :
    (¬ constant_in_range Index Array →
      llvm_range_check_index true Index Array
        = (IndexValue.range_checked,
            [ArrayEmit.call_range_check IndexValue.loaded Array.typespec.arraylen Array.name]))
    ∧ (constant_in_range Index Array →
      llvm_range_check_index true Index Array = (IndexValue.loaded, [])) := by
  constructor
  · intro h
    have : (Index.is_constant && decide (Index.int_data ≥ 0)
        && decide (Index.int_data < Array.typespec.arraylen)) = false := by
      by_contra hc
      apply h
      simp only [Bool.not_eq_false, Bool.and_eq_true, decide_eq_true_eq] at hc
      exact ⟨hc.1.1, hc.1.2, hc.2⟩
    simp only [llvm_range_check_index, hu, if_true, this, Bool.not_false]
  · intro h
    have : (Index.is_constant && decide (Index.int_data ≥ 0)
        && decide (Index.int_data < Array.typespec.arraylen)) = true := by
      simp only [Bool.and_eq_true, decide_eq_true_eq]
      exact ⟨⟨h.1, h.2.1⟩, h.2.2⟩
    simp only [llvm_range_check_index, hu, if_true, this, Bool.not_true, Bool.false_eq_true,
      if_false]

theorem any_false_of_forall {β : Type} (p : β → Bool) (l : List β)
    (h : ∀ e ∈ l, p e = false) : l.any p = false := by
  rw [List.any_eq_false]
  intro e he
  simp [h e he]

theorem llvm_gen_aref_state (rc : Bool) (op : Opcode) :
    ∃ acc, (llvm_gen_aref rc true op).state
        = (llvm_range_check_index rc (op.opargsym 2) (op.opargsym 1)).2 ++ acc
      ∧ (llvm_gen_aref rc true op).value = some true
      ∧ ∀ e ∈ acc, e.is_range_check = false ∧ e.is_range_check_masked = false
        ∧ (∀ i, e.array_index = some i →
            i = (llvm_range_check_index rc (op.opargsym 2) (op.opargsym 1)).1)
        ∧ e.is_access = true :=
  ⟨_, rfl, rfl, aref_accesses _ _ _ _⟩

theorem llvm_gen_aassign_state (rc : Bool) (op : Opcode)
    (h : ((op.opargsym 1).is_uniform || !(op.opargsym 0).is_uniform) = true) :
    ∃ acc, (llvm_gen_aassign rc true op).state
        = (llvm_range_check_index rc (op.opargsym 1) (op.opargsym 0)).2 ++ acc
      ∧ ∀ e ∈ acc, e.is_range_check = false ∧ e.is_range_check_masked = false
        ∧ (∀ i, e.array_index = some i →
            i = (llvm_range_check_index rc (op.opargsym 1) (op.opargsym 0)).1)
        ∧ e.is_access = true := by
  simp only [llvm_gen_aassign, h, Bool.not_true, Bool.false_eq_true, if_false]
  split_ifs
  · exact ⟨[], by simp [GenResult.state], by simp⟩
  · exact ⟨_, rfl, aassign_accesses _ _ _ _⟩

theorem scalar_check_shape (Index Array : Symbol) (hu : Index.is_uniform = true)
    (state acc : List ArrayEmit)
    (hs : state = (llvm_range_check_index true Index Array).2 ++ acc)
    (hacc : ∀ e ∈ acc, e.is_range_check = false ∧ e.is_range_check_masked = false
        ∧ (∀ i, e.array_index = some i → i = (llvm_range_check_index true Index Array).1)
        ∧ e.is_access = true) :
    (state.any ArrayEmit.is_range_check = true ↔ ¬ constant_in_range Index Array)
    ∧ state.any ArrayEmit.is_range_check_masked = false
    ∧ (¬ constant_in_range Index Array →
        state.head? = some (ArrayEmit.call_range_check IndexValue.loaded
                              Array.typespec.arraylen Array.name)
        ∧ state.tail.any ArrayEmit.is_range_check = false
        ∧ ∀ e ∈ state, ∀ i, e.array_index = some i → i = IndexValue.range_checked)
    ∧ (constant_in_range Index Array →
        ∀ e ∈ state, ∀ i, e.array_index = some i → i = IndexValue.loaded) := by
  have h1 : acc.any ArrayEmit.is_range_check = false :=
    any_false_of_forall _ _ (fun e he => (hacc e he).1)
  have h2 : acc.any ArrayEmit.is_range_check_masked = false :=
    any_false_of_forall _ _ (fun e he => (hacc e he).2.1)
  by_cases hc : constant_in_range Index Array
  · rw [(range_check_index_uniform Index Array hu).2 hc] at hs hacc
    simp only [List.nil_append] at hs
    subst hs
    refine ⟨⟨fun h => absurd h (by simp [h1]), fun h => absurd hc h⟩, h2,
      fun h => absurd hc h, fun _ e he i hi => (hacc e he).2.2.1 i hi⟩
  · rw [(range_check_index_uniform Index Array hu).1 hc] at hs hacc
    subst hs
    refine ⟨⟨fun _ => hc, fun _ => by simp [ArrayEmit.is_range_check]⟩, ?_, fun _ => ⟨rfl, ?_, ?_⟩,
      fun h => absurd h hc⟩
    · simp [ArrayEmit.is_range_check_masked, h2]
    · simpa using h1
    · intro e he i hi
      simp only [List.singleton_append, List.mem_cons] at he
      rcases he with rfl | he
      · simp [ArrayEmit.array_index] at hi
      · exact (hacc e he).2.2.1 i hi

/-- C15: with range checking enabled and a uniform index, `llvm_gen_aref` (index argument 2,
array argument 1) and `llvm_gen_aassign` (index argument 1, array argument 0) emit the call
of the scalar `range_check` routine if and only if the index is not a constant `c` with
`0 <= c < arraylength`, and never the masked routine.  When the call is emitted it comes
first, it is the only one, it receives the loaded index and the array length, and every load
or store of an array element that follows uses its return value; when it is not emitted, the
accesses use the loaded index. -/
theorem uniform_index_range_check (op : Opcode) :
    ∀ p ∈ [(llvm_gen_aref true true op, op.opargsym 2, op.opargsym 1),
           (llvm_gen_aassign true true op, op.opargsym 1, op.opargsym 0)],
      p.2.1.is_uniform = true →
        (p.1.state.any ArrayEmit.is_range_check = true ↔ ¬ constant_in_range p.2.1 p.2.2)
        ∧ p.1.state.any ArrayEmit.is_range_check_masked = false
        ∧ (¬ constant_in_range p.2.1 p.2.2 →
            p.1.state.head? = some (ArrayEmit.call_range_check IndexValue.loaded
                                      p.2.2.typespec.arraylen p.2.2.name)
            ∧ p.1.state.tail.any ArrayEmit.is_range_check = false
            ∧ ∀ e ∈ p.1.state, ∀ i, e.array_index = some i → i = IndexValue.range_checked)
        ∧ (constant_in_range p.2.1 p.2.2 →
            ∀ e ∈ p.1.state, ∀ i, e.array_index = some i → i = IndexValue.loaded) := by
  intro p hp hu
  simp only [List.mem_cons, List.mem_singleton, List.not_mem_nil, or_false] at hp
  rcases hp with rfl | rfl
  · obtain ⟨acc, hs, _, hacc⟩ := llvm_gen_aref_state true op
    exact scalar_check_shape _ _ hu _ acc hs hacc
  · simp only at hu
    obtain ⟨acc, hs, hacc⟩ := llvm_gen_aassign_state true op (by simp [hu])
    exact scalar_check_shape _ _ hu _ acc hs hacc

/-- Witness of C15: `aref` on an array of length 4 with a uniform index that is not a
constant emits the call of `range_check` first, and its accesses use the return value. -/
theorem uniform_index_range_check_witness :
    (example_aref_uniform.opargsym 2).is_uniform = true
    ∧ ¬ constant_in_range (example_aref_uniform.opargsym 2) (example_aref_uniform.opargsym 1)
    ∧ (llvm_gen_aref true true example_aref_uniform).state.head?
        = some (ArrayEmit.call_range_check IndexValue.loaded 4 "Src")
    ∧ ∀ e ∈ (llvm_gen_aref true true example_aref_uniform).state,
        ∀ i, e.array_index = some i → i = IndexValue.range_checked :=
  have hc : ¬ constant_in_range (example_aref_uniform.opargsym 2)
      (example_aref_uniform.opargsym 1) := fun h => absurd h.1 (by decide)
  have h := (uniform_index_range_check example_aref_uniform
    (llvm_gen_aref true true example_aref_uniform, example_aref_uniform.opargsym 2,
      example_aref_uniform.opargsym 1) (List.mem_cons_self _ _) rfl).2.2.1 hc
  ⟨rfl, hc, h.1, h.2.2⟩

end

end OSL

namespace OSL

/-! ## The select cascade of the component reference -/

section

variable {W : Nat} {α : Type}

/-- C17 fails when range checking is enabled: with the index vector -1, 0, 1, 5 on four
active lanes and the clamping routine, `llvm_gen_compref` stores component 0 (value 10) in
lane 0, whose index -1 is neither 0 nor 1, where the claim has component 2 (value 30).
Without range checking the same lane receives component 2. -/
theorem compref_negative_index_clamped :
    (llvm_gen_compref int32Ops true range_check range_check_masked (Mask.const 4 true)
        compref_Result compref_Val compref_Index 0 compref_index_lanes).value = some true
    ∧ stored_lanes (llvm_gen_compref int32Ops true range_check range_check_masked
        (Mask.const 4 true) compref_Result compref_Val compref_Index 0
        compref_index_lanes).state = [(0, [10, 10, 20, 30])]
    ∧ stored_lanes (llvm_gen_compref int32Ops false range_check range_check_masked
        (Mask.const 4 true) compref_Result compref_Val compref_Index 0
        compref_index_lanes).state = [(0, [30, 10, 20, 30])] := by
  refine ⟨rfl, by decide, by decide⟩

/-- C17, amended: `llvm_gen_compref` with a varying index that is not a constant and a
varying Result returns `true`; after the call of the masked `range_check` routine (emitted
only with range checking) it emits one store for the value and one for each derivative
channel that Result carries, and nothing else.  In every lane the value stored is component
0 of `Val` when the index tested by the cascade is 0, component 1 when it is 1 and component
2 for every other value; the index tested is the content of the Index symbol without range
checking and the vector left by the masked routine with range checking. -/
theorem compref_select_cascade (ops : ScalarOps α) (range_checking : Bool)
    (routine : Int → Int → Int) (masked_routine : Wide W Int → Mask W → Int → Wide W Int)
    (mask : Mask W) (Result Val : Operand W α) (Index : Symbol) (index_scalar : Int)
    (index_wide : Wide W Int)
    (hI : Index.is_uniform = false) (hc : Index.is_constant = false)
    (hR : Result.sym.is_uniform = false) :
    llvm_gen_compref ops range_checking routine masked_routine mask Result Val Index
        index_scalar index_wide
      = GenResult.returned true
          ((if range_checking then [Action.call "range_check" false true] else [])
            ++ (deriv_channels Result.sym.has_derivs).map fun d =>
                Action.store d 0 (Value.wide fun l =>
                  if cascade_index range_checking masked_routine mask index_wide l = 0 then
                    component_lane ops Val d 0 l
                  else if cascade_index range_checking masked_routine mask index_wide l = 1
                  then component_lane ops Val d 1 l
                  else component_lane ops Val d 2 l)) := by
  have hsel : ∀ d,
      (match llvm_load_value ops Val d 0 false, llvm_load_value ops Val d 1 false,
            llvm_load_value ops Val d 2 false with
          | some valc0, some valc1, some valc2 =>
            [Action.store d 0
                ((Value.wide fun l =>
                      decide
                        ((if range_checking = true then masked_routine index_wide mask 3
                          else index_wide) l = 1)).select
                  valc1
                  ((Value.wide fun l =>
                        decide
                          ((if range_checking = true then masked_routine index_wide mask 3
                            else index_wide) l = 0)).select
                    valc0 valc2))]
          | _, _, _ => [])
        = [Action.store d 0 (Value.wide fun l =>
            if cascade_index range_checking masked_routine mask index_wide l = 0 then
              component_lane ops Val d 0 l
            else if cascade_index range_checking masked_routine mask index_wide l = 1 then
              component_lane ops Val d 1 l
            else component_lane ops Val d 2 l)] := by
    intro d
    obtain ⟨v0, h0⟩ := llvm_load_value_isSome ops Val d 0 false
    obtain ⟨v1, h1⟩ := llvm_load_value_isSome ops Val d 1 false
    obtain ⟨v2, h2⟩ := llvm_load_value_isSome ops Val d 2 false
    simp only [h0, h1, h2, component_lane, cascade_index]
    congr 2
    have hsel2 : ∀ (c : Wide W Int),
        ((Value.wide fun l => decide (c l = 1)).select v1
          ((Value.wide fun l => decide (c l = 0)).select v0 v2))
        = Value.wide fun l =>
            if c l = 0 then v0.lane l else if c l = 1 then v1.lane l else v2.lane l := by
      intro c
      have inner : ((Value.wide fun l => decide (c l = 0)).select v0 v2)
          = Value.wide fun l => if c l = 0 then v0.lane l else v2.lane l := by
        simp only [Value.select, Value.lane, decide_eq_true_eq]
      rw [inner]
      simp only [Value.select, Value.lane, decide_eq_true_eq]
      congr 1
      funext l
      by_cases h1 : c l = 1
      · have h0 : c l ≠ 0 := by omega
        simp [h1]
      · simp [h1]
    exact hsel2 _
  simp only [llvm_gen_compref, hI, hc, hR, Bool.false_eq_true, if_false, beq_self_eq_true,
    Bool.not_true, hsel]
  congr 2
  generalize deriv_channels Result.sym.has_derivs = chans
  induction chans with
  | nil => rfl
  | cons d rest ih => simp only [List.map_cons, List.flatten_cons, ih, List.singleton_append]

/-- Witness of C17, amended: without range checking, the index vector -1, 0, 1, 5 selects the
components 2, 0, 1, 2 of a vector whose components hold 10, 20, 30. -/
theorem compref_select_cascade_witness :
    compref_Index.is_uniform = false ∧ compref_Index.is_constant = false
    ∧ compref_Result.sym.is_uniform = false
    ∧ stored_lanes (llvm_gen_compref int32Ops false range_check range_check_masked
        (Mask.const 4 true) compref_Result compref_Val compref_Index 0
        compref_index_lanes).state = [(0, [30, 10, 20, 30])] :=
  ⟨rfl, rfl, rfl, by
    rw [compref_select_cascade int32Ops false range_check range_check_masked
      (Mask.const 4 true) compref_Result compref_Val compref_Index 0 compref_index_lanes
      rfl rfl rfl]
    decide⟩

end

end OSL

namespace OSL

section GenericProofs

theorem generic_func_spec_args_false (Result : Symbol) (u : Bool) :
    ∀ (syms : List Symbol) (f : FuncSpec),
      (generic_func_spec_args Result false u syms f).args
          = f.args ++ syms.map (fun s => FuncArg.sym s false u)
        ∧ (generic_func_spec_args Result false u syms f).name = f.name
  | [], f => by simp [generic_func_spec_args]
  | s :: rest, f => by
    have ih := generic_func_spec_args_false Result u rest (f.arg s false u)
    simp only [generic_func_spec_args, Bool.false_and]
    refine ⟨?_, ?_⟩
    · rw [ih.1]; simp [FuncSpec.arg]
    · rw [ih.2]; rfl

/-- C21: for an opcode named `logb`, `floor`, `ceil`, `round`, `step`, `trunc` or `sign`,
whatever derivatives the operands carry, `llvm_gen_generic` returns `true` having emitted
one call, then (for a scalar uniform result) the store of the returned value, then the
zeroing of the derivatives of Result, and nothing else; the `FuncSpec` of the call bears the
name of the opcode and registers every argument of the opcode without derivatives, and the
call is made with `deriv_ptrs = false` (the branch with `deriv_ptrs = true` is not taken). -/
theorem generic_suppresses_derivs (op : Opcode) (h : has_no_derivs op.opname = true) :
    ∃ (func_spec : FuncSpec) (args : List Symbol) (returns_value : Bool),
      llvm_gen_generic op
          = GenResult.returned true
              ([GenericEmit.call_function func_spec args false
                  (op.args.all fun s => s.is_uniform) false (!returns_value)]
                ++ (if returns_value then [GenericEmit.store_value (op.opargsym 0)] else [])
                ++ [GenericEmit.zero_derivs (op.opargsym 0)])
      ∧ func_spec.name = op.opname
      ∧ func_spec.args
          = op.args.map (fun s => FuncArg.sym s false (op.args.all fun s => s.is_uniform))
      ∧ (∀ a ∈ func_spec.args, a.derivs = false)
      ∧ ∀ e ∈ (llvm_gen_generic op).state, ∀ fs a u i p,
          e ≠ GenericEmit.call_function fs a true u i p := by
  have hany : (if ((op.args.drop 1).any fun s => s.has_derivs && !s.typespec.is_matrix)
        && has_no_derivs op.opname then false
      else (op.args.drop 1).any fun s => s.has_derivs && !s.typespec.is_matrix) = false := by
    rw [h]
    cases (op.args.drop 1).any fun s => s.has_derivs && !s.typespec.is_matrix <;> simp
  have hgen : llvm_gen_generic op
      = GenResult.returned true
          ((if (op.opargsym 0).typespec.aggregate = 1
                && ((op.args.all fun s => s.is_uniform) || false) then
              [GenericEmit.call_function
                 (generic_func_spec_args (op.opargsym 0) false (op.args.all fun s => s.is_uniform)
                   op.args
                   (if (op.args.all fun s => s.is_uniform) then
                      ({ name := op.opname } : FuncSpec).unbatch
                    else { name := op.opname }))
                 (op.args.drop 1) false (op.args.all fun s => s.is_uniform) false false,
               GenericEmit.store_value (op.opargsym 0)]
            else
              [GenericEmit.call_function
                 (generic_func_spec_args (op.opargsym 0) false (op.args.all fun s => s.is_uniform)
                   op.args
                   (if (op.args.all fun s => s.is_uniform) then
                      ({ name := op.opname } : FuncSpec).unbatch
                    else { name := op.opname }))
                 op.args false (op.args.all fun s => s.is_uniform) false true])
            ++ [GenericEmit.zero_derivs (op.opargsym 0)]) := by
    unfold llvm_gen_generic
    simp only [hany]
    simp
  obtain ⟨hargs, hname⟩ := generic_func_spec_args_false (op.opargsym 0)
    (op.args.all fun s => s.is_uniform) op.args
    (if (op.args.all fun s => s.is_uniform) then ({ name := op.opname } : FuncSpec).unbatch
     else { name := op.opname })
  have hargs2 : (generic_func_spec_args (op.opargsym 0) false (op.args.all fun s => s.is_uniform)
      op.args
      (if (op.args.all fun s => s.is_uniform) then ({ name := op.opname } : FuncSpec).unbatch
       else { name := op.opname })).args
      = op.args.map (fun s => FuncArg.sym s false (op.args.all fun s => s.is_uniform)) := by
    rw [hargs]
    split_ifs <;> simp [FuncSpec.unbatch]
  have hname2 : (generic_func_spec_args (op.opargsym 0) false (op.args.all fun s => s.is_uniform)
      op.args
      (if (op.args.all fun s => s.is_uniform) then ({ name := op.opname } : FuncSpec).unbatch
       else { name := op.opname })).name = op.opname := by
    rw [hname]
    split_ifs <;> simp [FuncSpec.unbatch]
  by_cases hc : ((op.opargsym 0).typespec.aggregate = 1
      && ((op.args.all fun s => s.is_uniform) || false)) = true
  · refine ⟨_, op.args.drop 1, true, ?_, hname2, hargs2, ?_, ?_⟩
    · rw [hgen, if_pos hc]; simp
    · rw [hargs2]; intro a ha
      obtain ⟨s, _, rfl⟩ := List.mem_map.1 ha
      rfl
    · rw [hgen, if_pos hc]
      intro e he fs a u i p
      simp only [GenResult.state, List.cons_append, List.nil_append, List.mem_cons,
        List.mem_singleton, List.not_mem_nil, or_false] at he
      rcases he with rfl | rfl | rfl <;> simp
  · refine ⟨_, op.args, false, ?_, hname2, hargs2, ?_, ?_⟩
    · rw [hgen, if_neg hc]; simp
    · rw [hargs2]; intro a ha
      obtain ⟨s, _, rfl⟩ := List.mem_map.1 ha
      rfl
    · rw [hgen, if_neg hc]
      intro e he fs a u i p
      simp only [GenResult.state, List.cons_append, List.nil_append, List.mem_cons,
        List.mem_singleton, List.not_mem_nil, or_false] at he
      rcases he with rfl | rfl <;> simp

/-- Witness of C21: `floor (Result, x)` on varying floats with derivatives calls the function
with both arguments registered without derivatives and with `deriv_ptrs = false`, then zeroes
the derivatives of Result. -/
theorem generic_suppresses_derivs_witness :
    has_no_derivs example_floor.opname = true
    ∧ llvm_gen_generic example_floor
        = GenResult.returned true
            [GenericEmit.call_function
               { name := "floor",
                 args := [FuncArg.sym (dual_float "Result") false false,
                          FuncArg.sym (dual_float "x") false false] }
               [dual_float "Result", dual_float "x"] false false false true,
             GenericEmit.zero_derivs (dual_float "Result")]
    ∧ ∀ e ∈ (llvm_gen_generic example_floor).state, ∀ fs a u i p,
        e ≠ GenericEmit.call_function fs a true u i p :=
  ⟨by decide, by rfl,
    (generic_suppresses_derivs example_floor (by decide)).choose_spec.choose_spec.choose_spec.2.2.2.2⟩

end GenericProofs

end OSL

namespace OSL

section TransformProofs

theorem construct_triple_stores_no_call (op : Opcode) (Result : Symbol) (off dmax : Nat)
    (b : Bool) :
    ∀ e ∈ ((List.range dmax).map fun d =>
          (List.range 3).map fun c =>
            MatrixEmit.store_value (some (op.opargsym (c + 1 + off))) Result d c b).flatten,
      e.is_call = false := by
  intro e he
  simp only [List.mem_flatten, List.mem_map] at he
  obtain ⟨l, ⟨d, _, rfl⟩, he⟩ := he
  obtain ⟨c, _, rfl⟩ := List.mem_map.1 he
  rfl

theorem construct_triple_masked (commonspace_synonym : String) (rend_transform_points : Bool)
    (op : Opcode) :
    ∀ e ∈ (llvm_gen_construct_triple commonspace_synonym rend_transform_points op).state,
      e.is_masked_call_or_no_call = true := by
  have hst := fun off dmax b => construct_triple_stores_no_call op (op.opargsym 0) off dmax b
  have hst2 : ∀ off dmax b, ∀ e ∈ ((List.range dmax).map fun d =>
          (List.range 3).map fun c =>
            MatrixEmit.store_value (some (op.opargsym (c + 1 + off))) (op.opargsym 0) d c
              b).flatten, e.is_masked_call_or_no_call = true := by
    intro off dmax b e he
    have := hst off dmax b e he
    cases e <;> simp_all [MatrixEmit.is_call, MatrixEmit.is_masked_call_or_no_call]
  intro e he
  unfold llvm_gen_construct_triple at he
  simp only at he
  split_ifs at he <;>
    simp only [GenResult.state, List.not_mem_nil, List.mem_append, List.mem_cons,
      List.mem_singleton, or_false] at he
  all_goals
    first
    | exact hst2 _ _ _ e he
    | (rcases he with he | he
       · exact hst2 _ _ _ e he
       · rcases he with rfl | rfl <;>
           simp [MatrixEmit.is_masked_call_or_no_call, FuncSpec.mask])

theorem matrix_masked (commonspace_synonym : String) (op : Opcode) :
    ∀ e ∈ (llvm_gen_matrix commonspace_synonym op).state,
      e.is_masked_call_or_no_call = true := by
  intro e he
  unfold llvm_gen_matrix at he
  simp only at he
  split_ifs at he <;>
    simp only [GenResult.state, List.not_mem_nil, List.mem_append, List.mem_cons,
      List.mem_singleton, List.mem_map, or_false] at he
  all_goals
    first
    | (rcases he with rfl | rfl <;>
         simp [MatrixEmit.is_masked_call_or_no_call, FuncSpec.mask])
    | (rcases he with (⟨i, _, rfl⟩ | rfl) | rfl <;>
         simp [MatrixEmit.is_masked_call_or_no_call, FuncSpec.mask])
    | (rcases he with ⟨i, _, rfl⟩ | rfl <;>
         simp [MatrixEmit.is_masked_call_or_no_call, FuncSpec.mask])
    | (rcases he with ⟨i, _, rfl⟩
       simp [MatrixEmit.is_masked_call_or_no_call, FuncSpec.mask])

theorem getmatrix_masked (op : Opcode) :
    ∀ e ∈ (llvm_gen_getmatrix op).state, e.is_masked_call_or_no_call = true := by
  intro e he
  unfold llvm_gen_getmatrix at he
  simp only at he
  split_ifs at he <;>
    simp only [GenResult.state, List.not_mem_nil, List.mem_cons, List.mem_singleton,
      or_false] at he
  all_goals
    rcases he with rfl | rfl | rfl <;>
      simp [MatrixEmit.is_masked_call_or_no_call, FuncSpec.mask]

theorem transform_call_shape (op : Opcode) (Result To P : Symbol) (transform : TransformPtr)
    (succeeded : MatrixCallArg) (before : List MatrixEmit)
    (hb : ∀ e ∈ before, e.is_masked_call_or_no_call = true) :
    ∀ e ∈ (llvm_gen_transform_call op Result To P transform succeeded before).state,
      e.is_masked_call_or_no_call = true
      ∨ (Result.is_uniform = true
          ∧ ∃ func_spec,
              e = MatrixEmit.call_function func_spec
                    [MatrixCallArg.llvm_void_ptr Result, MatrixCallArg.void_ptr transform,
                     MatrixCallArg.llvm_void_ptr P]
              ∧ func_spec.name = op.opname
              ∧ func_spec.is_batched = false ∧ func_spec.is_masked = false) := by
  intro e he
  unfold llvm_gen_transform_call at he
  simp only at he
  split_ifs at he with h1 h2 h3 h4 <;>
    simp only [GenResult.state, List.not_mem_nil, List.mem_append, List.mem_cons,
      List.mem_singleton, or_false] at he
  all_goals
    first
    | exact Or.inl (hb e he)
    | (rcases he with (he | rfl) | rfl
       · exact Or.inl (hb e he)
       · exact Or.inr ⟨h1, _, rfl, by simp [FuncSpec.arg, FuncSpec.arg_type, FuncSpec.unbatch]⟩
       · exact Or.inl rfl)
    | (rcases he with he | rfl
       · exact Or.inl (hb e he)
       · exact Or.inr ⟨h1, _, rfl, by simp [FuncSpec.arg, FuncSpec.arg_type, FuncSpec.unbatch]⟩)
    | (rcases he with (he | rfl) | rfl
       · exact Or.inl (hb e he)
       · exact Or.inl (by simp [MatrixEmit.is_masked_call_or_no_call, FuncSpec.mask])
       · exact Or.inl rfl)
    | (rcases he with he | rfl
       · exact Or.inl (hb e he)
       · exact Or.inl (by simp [MatrixEmit.is_masked_call_or_no_call, FuncSpec.mask]))

theorem transform_named_shape (commonspace_synonym : String) (rend_transform_points : Bool)
    (op : Opcode) (Result : Symbol) (From : Option Symbol) (To P : Symbol) :
    ∀ e ∈ (llvm_gen_transform_named commonspace_synonym rend_transform_points op Result From
            To P).state,
      e.is_masked_call_or_no_call = true
      ∨ (Result.is_uniform = true
          ∧ ∃ func_spec transform,
              e = MatrixEmit.call_function func_spec
                    [MatrixCallArg.llvm_void_ptr Result, MatrixCallArg.void_ptr transform,
                     MatrixCallArg.llvm_void_ptr P]
              ∧ func_spec.name = op.opname
              ∧ func_spec.is_batched = false ∧ func_spec.is_masked = false) := by
  intro e he
  cases From with
  | none =>
    unfold llvm_gen_transform_named at he
    simp only at he
    split_ifs at he <;> simp only [GenResult.state, List.mem_singleton, List.not_mem_nil] at he
    all_goals
      subst he
      exact Or.inl rfl
  | some From =>
    unfold llvm_gen_transform_named at he
    simp only at he
    split_ifs at he
    any_goals
      (simp only [GenResult.state, List.mem_singleton, List.not_mem_nil] at he)
    any_goals
      first
      | (subst he; exact Or.inl rfl)
      | (rcases transform_call_shape op _ _ _ _ _ _
          (by
            intro x hx
            simp only [List.mem_singleton] at hx
            subst hx
            simp [MatrixEmit.is_masked_call_or_no_call, FuncSpec.mask]) e he with h | ⟨h, fs, h2⟩
         · exact Or.inl h
         · exact Or.inr ⟨h, fs, _, h2⟩)

theorem transform_shape (commonspace_synonym : String) (rend_transform_points : Bool)
    (op : Opcode) :
    ∀ e ∈ (llvm_gen_transform commonspace_synonym rend_transform_points op).state,
      e.is_masked_call_or_no_call = true
      ∨ ((op.opargsym 0).is_uniform = true
          ∧ ∃ func_spec transform,
              e = MatrixEmit.call_function func_spec
                    [MatrixCallArg.llvm_void_ptr (op.opargsym 0), MatrixCallArg.void_ptr transform,
                     MatrixCallArg.llvm_void_ptr (op.opargsym (if op.nargs = 3 then 2 else 3))]
              ∧ func_spec.name = op.opname
              ∧ func_spec.is_batched = false ∧ func_spec.is_masked = false) := by
  intro e he
  unfold llvm_gen_transform at he
  simp only at he
  by_cases h1 : (op.opargsym (if op.nargs = 3 then 1 else 2)).typespec.is_matrix = true
  · rw [if_pos h1] at he
    by_cases h2 : (!decide ((if op.nargs = 3 then none else some (op.opargsym 1)) = none)) = true
    · rw [if_pos h2] at he
      simp [GenResult.state] at he
    · rw [if_neg h2] at he
      rcases transform_call_shape op _ _ _ _ _ [] (by simp) e he with h | ⟨h, fs, h3⟩
      · exact Or.inl h
      · exact Or.inr ⟨h, fs, _, h3⟩
  · rw [if_neg h1] at he
    exact transform_named_shape _ _ _ _ _ _ _ e he

theorem masked_form_of_bool (e : MatrixEmit) (h : e.is_masked_call_or_no_call = true)
    (func_spec : FuncSpec) (args : List MatrixCallArg)
    (he : e = MatrixEmit.call_function func_spec args) :
    func_spec.is_masked = true
      ∧ args.getLast? = some MatrixCallArg.mask_as_int_current_mask := by
  subst he
  simpa [MatrixEmit.is_masked_call_or_no_call] using h

/-- C22 fails for `transform` with a uniform Result: `transform (Result, M, P)` with a
uniform matrix and uniform points returns `true` and emits one call, of the unbatched
routine, whose `FuncSpec` has no `mask()` applied and whose arguments are the three
pointers, without the current mask. -/
theorem transform_uniform_call_not_masked :
    (llvm_gen_transform "world" false example_transform_uniform).value = some true
    ∧ (llvm_gen_transform "world" false example_transform_uniform).state
        = [MatrixEmit.call_function
            { name := "transform",
              args := [FuncArg.sym (Symbol.mk_simple "P" TypeSpec.triple true false) false true,
                       FuncArg.type "matrix44" true,
                       FuncArg.sym (Symbol.mk_simple "Result" TypeSpec.triple true false)
                         false true],
              is_batched := false, is_masked := false }
            [MatrixCallArg.llvm_void_ptr (Symbol.mk_simple "Result" TypeSpec.triple true false),
             MatrixCallArg.void_ptr
               (TransformPtr.llvm_void_ptr (Symbol.mk_simple "M" TypeSpec.matrix true false)),
             MatrixCallArg.llvm_void_ptr (Symbol.mk_simple "P" TypeSpec.triple true false)]]
    ∧ (llvm_gen_transform "world" false example_transform_uniform).state.any
        MatrixEmit.passes_mask = false := by
  refine ⟨by decide, by decide, by decide⟩

/-- C22, amended: every call emitted by `llvm_gen_construct_triple`, `llvm_gen_matrix` and
`llvm_gen_getmatrix` has `mask()` applied to its `FuncSpec` and the current mask as last
argument, whatever the uniformity of the operands and of the result, and so has every call
emitted by `llvm_gen_transform` for a varying Result.  For a uniform Result,
`llvm_gen_transform` still emits the call that builds the matrix of named spaces in the
masked form, but the call of the transform routine itself is the unbatched one: no `mask()`
and the three pointers as arguments, without a mask. -/
theorem transform_call_forms (commonspace_synonym : String) (rend_transform_points : Bool)
    (op : Opcode) (func_spec : FuncSpec) (args : List MatrixCallArg) :
    (MatrixEmit.call_function func_spec args
        ∈ (llvm_gen_construct_triple commonspace_synonym rend_transform_points op).state →
      func_spec.is_masked = true
        ∧ args.getLast? = some MatrixCallArg.mask_as_int_current_mask)
    ∧ (MatrixEmit.call_function func_spec args
        ∈ (llvm_gen_matrix commonspace_synonym op).state →
      func_spec.is_masked = true
        ∧ args.getLast? = some MatrixCallArg.mask_as_int_current_mask)
    ∧ (MatrixEmit.call_function func_spec args ∈ (llvm_gen_getmatrix op).state →
      func_spec.is_masked = true
        ∧ args.getLast? = some MatrixCallArg.mask_as_int_current_mask)
    ∧ (MatrixEmit.call_function func_spec args
        ∈ (llvm_gen_transform commonspace_synonym rend_transform_points op).state →
      ((op.opargsym 0).is_uniform = false →
        func_spec.is_masked = true
          ∧ args.getLast? = some MatrixCallArg.mask_as_int_current_mask)
      ∧ ((op.opargsym 0).is_uniform = true →
        (func_spec.is_masked = true
          ∧ args.getLast? = some MatrixCallArg.mask_as_int_current_mask)
        ∨ (func_spec.name = op.opname ∧ func_spec.is_batched = false
            ∧ func_spec.is_masked = false
            ∧ MatrixCallArg.mask_as_int_current_mask ∉ args))) := by
  refine ⟨fun h => ?_, fun h => ?_, fun h => ?_, fun h => ⟨fun hu => ?_, fun _ => ?_⟩⟩
  · exact masked_form_of_bool _ (construct_triple_masked _ _ _ _ h) _ _ rfl
  · exact masked_form_of_bool _ (matrix_masked _ _ _ h) _ _ rfl
  · exact masked_form_of_bool _ (getmatrix_masked _ _ h) _ _ rfl
  · rcases transform_shape _ _ _ _ h with hm | ⟨hu2, _⟩
    · exact masked_form_of_bool _ hm _ _ rfl
    · rw [hu] at hu2
      exact absurd hu2 (by simp)
  · rcases transform_shape _ _ _ _ h with hm | ⟨_, fs, tr, he, h1, h2, h3⟩
    · exact Or.inl (masked_form_of_bool _ hm _ _ rfl)
    · injection he with he1 he2
      subst he1 he2
      exact Or.inr ⟨h1, h2, h3, by simp⟩

/-- Witness of C22, amended: `transform (Result, "object", "world", P)` on varying points
emits two calls, `build_transform_matrix` and `transform_point`; the second has `mask()`
applied and the current mask as last argument. -/
theorem transform_call_forms_witness :
    (example_transform_varying.opargsym 0).is_uniform = false
    ∧ ((llvm_gen_transform "" false example_transform_varying).state.map
        fun e => match e with
          | MatrixEmit.call_function func_spec _ => func_spec.name
          | _ => "") = ["build_transform_matrix", "transform_point"]
    ∧ (((({ name := "transform_point" } : FuncSpec).arg
          (Symbol.mk_simple "P" TypeSpec.triple false false) false false).arg
          (Symbol.mk_simple "Result" TypeSpec.triple false false) false false).arg_type
          "matrix44" false).mask.is_masked = true
    ∧ [MatrixCallArg.llvm_void_ptr (Symbol.mk_simple "P" TypeSpec.triple false false),
       MatrixCallArg.llvm_void_ptr (Symbol.mk_simple "Result" TypeSpec.triple false false),
       MatrixCallArg.void_ptr TransformPtr.temp_wide_matrix_ptr,
       MatrixCallArg.returned_by_previous_call,
       MatrixCallArg.mask_as_int_current_mask].getLast?
        = some MatrixCallArg.mask_as_int_current_mask :=
  ⟨by decide, by decide,
    ((transform_call_forms "" false example_transform_varying _ _).2.2.2 (by decide)).1
      (by decide)⟩

end TransformProofs

end OSL

namespace OSL

section ClosureProofs

variable {W : Nat} {α : Type}

/-- C23: `llvm_gen_add` and `llvm_gen_mul` on a Result of closure type, and
`llvm_gen_compare_op` on an operand `A` of closure type, stop at a failed assertion with
nothing emitted (no call, no store), whatever the other operands are; none of them
returns. -/
theorem closure_operands_are_fatal (ops : ScalarOps α) (opname : String)
    (forced_llvm_bool : Bool) (Result A B : Operand W α) :
    (Result.sym.typespec.is_closure = true →
      llvm_gen_add ops Result A B = GenResult.fatal []
      ∧ llvm_gen_mul ops Result A B = GenResult.fatal [])
    ∧ (A.sym.typespec.is_closure = true →
      llvm_gen_compare_op ops opname forced_llvm_bool Result A B = GenResult.fatal []) := by
  refine ⟨fun h => ⟨?_, ?_⟩, fun h => ?_⟩
  · unfold llvm_gen_add
    simp only [h]
    split_ifs <;> rfl
  · unfold llvm_gen_mul
    simp only [h]
    split_ifs <;> rfl
  · unfold llvm_gen_compare_op
    simp only [h]
    split_ifs <;> rfl

/-- Witness of C23: closure operands on four lanes. -/
theorem closure_operands_are_fatal_witness :
    (closure_operand "Result").sym.typespec.is_closure = true
    ∧ (closure_operand "A").sym.typespec.is_closure = true
    ∧ (llvm_gen_add int32Ops (closure_operand "Result") (closure_operand "A")
        (closure_operand "B")).is_fatal = true
    ∧ (llvm_gen_mul int32Ops (closure_operand "Result") (closure_operand "A")
        (closure_operand "B")).is_fatal = true
    ∧ (llvm_gen_compare_op int32Ops "eq" false (int_operand "Result") (closure_operand "A")
        (int_operand "B")).is_fatal = true :=
  ⟨rfl, rfl,
    by rw [((closure_operands_are_fatal int32Ops "eq" false (closure_operand "Result")
      (closure_operand "A") (closure_operand "B")).1 rfl).1]; rfl,
    by rw [((closure_operands_are_fatal int32Ops "eq" false (closure_operand "Result")
      (closure_operand "A") (closure_operand "B")).1 rfl).2]; rfl,
    by rw [(closure_operands_are_fatal int32Ops "eq" false (int_operand "Result")
      (closure_operand "A") (int_operand "B")).2 rfl]; rfl⟩

end ClosureProofs

end OSL

namespace OSL

section CompareProofs

variable {W : Nat} {α : Type}

theorem Value.lane_map2 {β γ δ : Type} (f : β → γ → δ) (a : Value W β) (b : Value W γ)
    (l : Fin W) : (Value.map2 f a b).lane l = f (a.lane l) (b.lane l) := by
  cases a <;> cases b <;> rfl

theorem Value.lane_map {β γ : Type} (f : β → γ) (a : Value W β) (l : Fin W) :
    (Value.map f a).lane l = f (a.lane l) := by
  cases a <;> rfl

theorem Value.lane_widen {β : Type} (a : Value W β) (l : Fin W) :
    a.widen.lane l = a.lane l := by
  cases a <;> rfl

theorem Value.lane_select {β : Type} (c : Value W Bool) (a b : Value W β) (l : Fin W) :
    (Value.select c a b).lane l = if c.lane l then a.lane l else b.lane l := by
  cases c <;> cases a <;> cases b <;> rfl

theorem constant_for_lane (u : Bool) (c : α) (l : Fin W) :
    (constant_for u c : Value W α).lane l = c := by
  unfold constant_for
  cases u <;> rfl

theorem llvm_load_value_lane (ops : ScalarOps α) (o : Operand W α) (i : Nat) (u : Bool) :
    ∃ v, llvm_load_value ops o 0 i u = some v ∧ ∀ l, v.lane l = o.lane_value i l := by
  unfold llvm_load_value Operand.lane_value Operand.component
  by_cases hu : o.sym.is_uniform = true
  · cases u <;> simp [hu, Value.lane]
  · simp [hu, Value.lane]

theorem compare_components_some (ops : ScalarOps α) (opname : String) (cmp : α → α → Bool)
    (hcmp : compare_instruction ops opname = some cmp) (A B : Operand W α) (u : Bool) :
    ∀ (is : List Nat) (acc : Value W Bool),
      ∃ v, compare_components ops opname A B u is (some acc) = some (some v)
        ∧ ∀ l, v.lane l
            = if opname ≠ "neq" then
                (acc.lane l && is.all fun i =>
                  cmp (compared_pair ops A B i l).1 (compared_pair ops A B i l).2)
              else
                (acc.lane l || is.any fun i =>
                  cmp (compared_pair ops A B i l).1 (compared_pair ops A B i l).2)
  | [], acc => ⟨acc, rfl, fun l => by split_ifs <;> simp⟩
  | i :: rest, acc => by
    obtain ⟨a, ha, hal⟩ := llvm_load_value_lane ops A i u
    obtain ⟨b, hb, hbl⟩ := llvm_load_value_lane ops B i u
    simp only [compare_components, ha, hb, hcmp]
    by_cases hn : opname ≠ "neq"
    · simp only [hn, ne_eq, not_false_eq_true, if_true]
      obtain ⟨v, hv, hvl⟩ := compare_components_some ops opname cmp hcmp A B u rest
        (Value.map2 (fun p q => p && q) acc
          (Value.map2 cmp
            (if (!A.sym.typespec.is_matrix && B.sym.typespec.is_matrix
                && decide (i / 4 ≠ i % 4)) = true then constant_for u ops.zero else a)
            (if (A.sym.typespec.is_matrix && !B.sym.typespec.is_matrix
                && decide (i / 4 ≠ i % 4)) = true then constant_for u ops.zero else b)))
      refine ⟨v, ?_, fun l => ?_⟩
      · simpa using hv
      · rw [hvl l]
        simp only [hn, ne_eq, not_false_eq_true, if_true, Value.lane_map2, List.all_cons,
          compared_pair]
        rw [Bool.and_assoc]
        congr 2
        congr 1
        · split_ifs <;> simp_all [constant_for_lane]
        · split_ifs <;> simp_all [constant_for_lane]
    · have hn2 : opname = "neq" := by simpa using hn
      simp only [hn2, ne_eq, not_true_eq_false, if_false]
      obtain ⟨v, hv, hvl⟩ := compare_components_some ops opname cmp hcmp A B u rest
        (Value.map2 (fun p q => p || q) acc
          (Value.map2 cmp
            (if (!A.sym.typespec.is_matrix && B.sym.typespec.is_matrix
                && decide (i / 4 ≠ i % 4)) = true then constant_for u ops.zero else a)
            (if (A.sym.typespec.is_matrix && !B.sym.typespec.is_matrix
                && decide (i / 4 ≠ i % 4)) = true then constant_for u ops.zero else b)))
      refine ⟨v, ?_, fun l => ?_⟩
      · subst hn2
        simpa using hv
      · rw [hvl l]
        simp only [hn2, ne_eq, not_true_eq_false, if_false, Value.lane_map2, List.any_cons,
          compared_pair]
        rw [Bool.or_assoc]
        congr 2
        congr 1
        · split_ifs <;> simp_all [constant_for_lane]
        · split_ifs <;> simp_all [constant_for_lane]

theorem compare_components_range (ops : ScalarOps α) (opname : String) (cmp : α → α → Bool)
    (hcmp : compare_instruction ops opname = some cmp) (A B : Operand W α) (u : Bool)
    (n : Nat) (hn : 0 < n) :
    ∃ v, compare_components ops opname A B u (List.range n) none = some (some v)
      ∧ ∀ l, v.lane l
          = if opname ≠ "neq" then
              ((List.range n).all fun i =>
                cmp (compared_pair ops A B i l).1 (compared_pair ops A B i l).2)
            else
              ((List.range n).any fun i =>
                cmp (compared_pair ops A B i l).1 (compared_pair ops A B i l).2) := by
  obtain ⟨m, rfl⟩ : ∃ m, n = m + 1 := ⟨n - 1, by omega⟩
  rw [List.range_succ_eq_map]
  obtain ⟨a, ha, hal⟩ := llvm_load_value_lane ops A 0 u
  obtain ⟨b, hb, hbl⟩ := llvm_load_value_lane ops B 0 u
  simp only [compare_components, ha, hb, hcmp]
  obtain ⟨v, hv, hvl⟩ := compare_components_some ops opname cmp hcmp A B u
    ((List.range m).map Nat.succ)
    (Value.map2 cmp
      (if (!A.sym.typespec.is_matrix && B.sym.typespec.is_matrix
          && decide (0 / 4 ≠ 0 % 4)) = true then constant_for u ops.zero else a)
      (if (A.sym.typespec.is_matrix && !B.sym.typespec.is_matrix
          && decide (0 / 4 ≠ 0 % 4)) = true then constant_for u ops.zero else b))
  refine ⟨v, hv, fun l => ?_⟩
  rw [hvl l]
  simp [Value.lane_map2, compared_pair, hal, hbl]

/-- C25: on operands that are not closures and whose components are compared exactly, with
`n = max (aggregate A) (aggregate B)` components, `llvm_gen_compare_op` returns `true` for
`eq` and for `neq` and stores one boolean result (converted to an int when Result is not
kept as a boolean); in every lane the result of `eq` is true iff all `n` pairs of compared
components are equal, the result of `neq` is true iff some pair differs, and the result of
`neq` is the negation of the result of `eq`.  When a matrix is compared with a scalar, the
pairs are the matrix components and the scalar on the diagonal, zero off the diagonal, so
`eq` is true iff the matrix is the scalar times the identity. -/
theorem compare_eq_neq [DecidableEq α] (ops : ScalarOps α) (forced_llvm_bool : Bool)
    (Result A B : Operand W α)
    (hR : (Result.sym.typespec.is_int && !Result.sym.has_derivs) = true)
    (hA : A.sym.typespec.is_closure = false)
    (hu : (A.sym.is_uniform && B.sym.is_uniform || !Result.sym.is_uniform) = true)
    (hn : 0 < max A.sym.typespec.aggregate B.sym.typespec.aggregate)
    (heq : ∀ x y, ops.eq x y = decide (x = y))
    (hne : ∀ x y, ops.ne x y = decide (x ≠ y)) :
    ∃ eq_result neq_result : Value W Bool,
      llvm_gen_compare_op ops "eq" forced_llvm_bool Result A B
          = GenResult.returned true [compare_store ops forced_llvm_bool eq_result]
      ∧ llvm_gen_compare_op ops "neq" forced_llvm_bool Result A B
          = GenResult.returned true [compare_store ops forced_llvm_bool neq_result]
      ∧ (∀ l, (eq_result.lane l = true ↔
            ∀ i < max A.sym.typespec.aggregate B.sym.typespec.aggregate,
              (compared_pair ops A B i l).1 = (compared_pair ops A B i l).2))
      ∧ (∀ l, (neq_result.lane l = true ↔
            ∃ i < max A.sym.typespec.aggregate B.sym.typespec.aggregate,
              (compared_pair ops A B i l).1 ≠ (compared_pair ops A B i l).2))
      ∧ (∀ l, neq_result.lane l = !eq_result.lane l)
      ∧ (A.sym.typespec.is_matrix = true → B.sym.typespec.is_matrix = false →
          A.sym.typespec.aggregate = 16 → B.sym.typespec.aggregate ≤ 1 →
          ∀ l, (eq_result.lane l = true ↔
            ∀ i < 16, A.lane_value i l
              = if i / 4 = i % 4 then B.lane_value 0 l else ops.zero)) := by
  obtain ⟨ve, hve, hvel⟩ := compare_components_range ops "eq" ops.eq
    (by simp [compare_instruction]) A B (A.sym.is_uniform && B.sym.is_uniform) _ hn
  obtain ⟨vn, hvn, hvnl⟩ := compare_components_range ops "neq" ops.ne
    (by simp [compare_instruction]) A B (A.sym.is_uniform && B.sym.is_uniform) _ hn
  have hR2 : (!(Result.sym.typespec.is_int && !Result.sym.has_derivs)) = false := by
    rw [hR]; rfl
  have hu2 : (!(A.sym.is_uniform && B.sym.is_uniform || !Result.sym.is_uniform)) = false := by
    rw [hu]; rfl
  have hel : ∀ l, (ve.lane l = true ↔
      ∀ i < max A.sym.typespec.aggregate B.sym.typespec.aggregate,
        (compared_pair ops A B i l).1 = (compared_pair ops A B i l).2) := by
    intro l
    rw [hvel l]
    simp [heq]
  have hnl : ∀ l, (vn.lane l = true ↔
      ∃ i < max A.sym.typespec.aggregate B.sym.typespec.aggregate,
        (compared_pair ops A B i l).1 ≠ (compared_pair ops A B i l).2) := by
    intro l
    rw [hvnl l]
    simp [hne]
  have hneg : ∀ l, vn.lane l = !ve.lane l := by
    intro l
    have h1 := hel l
    have h2 := hnl l
    by_cases hall : ∀ i < max A.sym.typespec.aggregate B.sym.typespec.aggregate,
        (compared_pair ops A B i l).1 = (compared_pair ops A B i l).2
    · have e1 : ve.lane l = true := h1.2 hall
      have e2 : vn.lane l = false := by
        by_contra hc
        obtain ⟨i, hi, hd⟩ := h2.1 (by simpa using hc)
        exact hd (hall i hi)
      rw [e1, e2]; rfl
    · have e1 : ve.lane l = false := by
        by_contra hc
        exact hall (h1.1 (by simpa using hc))
      have e2 : vn.lane l = true := by
        apply h2.2
        push_neg at hall
        exact hall
      rw [e1, e2]; rfl
  refine ⟨widen_bool_if (A.sym.is_uniform && B.sym.is_uniform) Result.sym.is_uniform ve,
    widen_bool_if (A.sym.is_uniform && B.sym.is_uniform) Result.sym.is_uniform vn,
    ?_, ?_, ?_, ?_, ?_, ?_⟩
  · unfold llvm_gen_compare_op
    simp only [hR2, hA, hve, hu2, compare_store, Bool.false_eq_true, if_false]
    split_ifs <;> rfl
  · unfold llvm_gen_compare_op
    simp only [hR2, hA, hvn, hu2, compare_store, Bool.false_eq_true, if_false]
    split_ifs <;> rfl
  · intro l
    rw [← hel l]
    unfold widen_bool_if
    split_ifs <;> simp [Value.lane_widen]
  · intro l
    rw [← hnl l]
    unfold widen_bool_if
    split_ifs <;> simp [Value.lane_widen]
  · intro l
    unfold widen_bool_if
    split_ifs <;> simp [Value.lane_widen, hneg l]
  · intro hAm hBm hA16 hB1 l
    have hmax : max A.sym.typespec.aggregate B.sym.typespec.aggregate = 16 := by
      rw [hA16]; omega
    have hw : (widen_bool_if (A.sym.is_uniform && B.sym.is_uniform) Result.sym.is_uniform
        ve).lane l = ve.lane l := by
      unfold widen_bool_if
      split_ifs <;> simp [Value.lane_widen]
    rw [hw, hel l, hmax]
    have hB0 : ∀ i, B.lane_value i l = B.lane_value 0 l := by
      intro i
      simp [Operand.lane_value, Operand.component, hB1]
    constructor
    · intro h i hi
      have := h i hi
      simp only [compared_pair, hAm, hBm, Bool.not_true, Bool.false_and, Bool.false_eq_true,
        if_false, Bool.not_false, Bool.true_and, decide_eq_true_eq] at this
      rw [this, hB0 i]
      by_cases hd : i / 4 = i % 4 <;> simp [hd]
    · intro h i hi
      simp only [compared_pair, hAm, hBm, Bool.not_true, Bool.false_and, Bool.false_eq_true,
        if_false, Bool.not_false, Bool.true_and, decide_eq_true_eq]
      rw [h i hi, hB0 i]
      by_cases hd : i / 4 = i % 4 <;> simp [hd]

/-- Witness of C25: a varying matrix that is twice the identity in lane 0 and has one more
non-zero component in lane 1, compared with the uniform scalar 2: `eq` is true in lane 0 and
false in lane 1, `neq` the opposite. -/
theorem compare_eq_neq_witness :
    (example_bool_Result.sym.typespec.is_int && !example_bool_Result.sym.has_derivs) = true
    ∧ example_matrix.sym.typespec.is_closure = false
    ∧ 0 < max example_matrix.sym.typespec.aggregate example_two.sym.typespec.aggregate
    ∧ stored_bool_lanes
        (llvm_gen_compare_op int32Ops "eq" true example_bool_Result example_matrix
          example_two).state = [[true, false]]
    ∧ stored_bool_lanes
        (llvm_gen_compare_op int32Ops "neq" true example_bool_Result example_matrix
          example_two).state = [[false, true]]
    ∧ ∃ eq_result neq_result : Value 2 Bool,
        llvm_gen_compare_op int32Ops "eq" true example_bool_Result example_matrix example_two
            = GenResult.returned true [compare_store int32Ops true eq_result]
        ∧ llvm_gen_compare_op int32Ops "neq" true example_bool_Result example_matrix
              example_two
            = GenResult.returned true [compare_store int32Ops true neq_result]
        ∧ ∀ l, neq_result.lane l = !eq_result.lane l := by
  refine ⟨by decide, by decide, by decide, by decide, by decide, ?_⟩
  obtain ⟨e, n, h1, h2, _, _, h5, _⟩ :=
    compare_eq_neq int32Ops true example_bool_Result example_matrix example_two
      (by decide) (by decide) (by decide) (by decide) (fun _ _ => rfl) (fun _ _ => rfl)
  exact ⟨e, n, h1, h2, h5⟩

end CompareProofs

end OSL

namespace OSL

section DivProofs

variable {W : Nat} {α : Type}

theorem div_quotient_int_shape (ops : ScalarOps α) (B : Operand W α) (u : Bool)
    (a b : Value W α) :
    div_quotient ops B u false a b
      = if (B.sym.is_constant && !is_zero ops B) = true then
          Value.map2 ops.div a (div_divisor ops B u b)
        else
          Value.select (Value.map2 ops.ne b (constant_for u ops.zero))
            (Value.map2 ops.div a (div_divisor ops B u b)) (constant_for u ops.zero) := by
  unfold div_quotient div_divisor
  by_cases h : (B.sym.is_constant && !is_zero ops B) = true
  · simp [h]
  · simp [h]

theorem div_components_int (ops : ScalarOps α) (Result A B : Operand W α) (u ru : Bool)
    (a : Nat → Value W α) (b : Value W α)
    (ha : ∀ i, llvm_load_value ops A 0 i u = some (a i))
    (hb : llvm_load_value ops B 0 0 u = some b) :
    ∀ (k s : Nat) (acc : Option (Value W α)), (s = 0 ∨ acc = some b) →
      div_components ops Result A B u ru false false 1 (List.range' s k) acc
        = ((List.range' s k).map fun i =>
            Action.store 0 i (widen_if u ru (div_quotient ops B u false (a i) b)),
           Step.next)
  | 0, _, _, _ => rfl
  | k + 1, s, acc, h => by
    have ih := div_components_int ops Result A B u ru a b ha hb k (s + 1) (some b) (Or.inr rfl)
    have hbb : (if s < 1 then llvm_load_value ops B 0 s u else acc) = some b := by
      rcases h with rfl | rfl
      · simp [hb]
      · by_cases hs : s < 1
        · have : s = 0 := by omega
          subst this
          simp [hb]
        · simp [hs]
    simp only [List.range'_succ, div_components, ha, hbb, List.map_cons, Bool.false_eq_true,
      if_false, ih]

theorem div_divisor_lane [DecidableEq α] (ops : ScalarOps α) (B : Operand W α) (u : Bool)
    (b : Value W α) (hne : ∀ x, ops.ne x ops.zero = decide (x ≠ ops.zero)) (l : Fin W) :
    (div_divisor ops B u b).lane l
      = if (B.sym.is_constant && !is_zero ops B) = true then b.lane l
        else if b.lane l ≠ ops.zero then b.lane l else ops.one := by
  unfold div_divisor
  by_cases h : (B.sym.is_constant && !is_zero ops B) = true
  · simp [h]
  · simp only [h, Bool.false_eq_true, if_false, Value.lane_select, Value.lane_map2,
      constant_for_lane, hne]
    by_cases hz : b.lane l = ops.zero <;> simp [hz]

theorem widen_if_lane (u ru : Bool) (v : Value W α) (l : Fin W) :
    (widen_if u ru v).lane l = v.lane l := by
  unfold widen_if
  split_ifs <;> simp [Value.lane_widen]

/-- C28: integer division in `llvm_gen_div` (Result not float based, neither closure nor
matrix, no derivatives to compute, divisor `B` an int, uniform when constant; operands
uniform or varying).  The generator returns `true` and stores one quotient per component.
Each quotient is the division instruction applied to the dividend and to a divisor that is
zero in no lane: the divisor `b` itself when `B` is a constant that is not zero, and
otherwise `b` in the lanes where `b != 0` and 1 in the lanes where `b == 0`, with zero
selected in those lanes.  In every lane the quotient stored is 0 when `b` is 0 and `a / b`
otherwise. -/
theorem int_division_never_by_zero [DecidableEq α] (ops : ScalarOps α)
    (Result A B : Operand W α)
    (hu : (A.sym.is_uniform && B.sym.is_uniform || !Result.sym.is_uniform) = true)
    (hcl : Result.sym.typespec.is_closure_based = false)
    (hmat : Result.sym.typespec.is_matrix = false)
    (hint : Result.sym.typespec.is_float_based = false)
    (hd : (Result.sym.has_derivs && (A.sym.has_derivs || B.sym.has_derivs)) = false)
    (hB1 : B.sym.typespec.aggregate = 1)
    (hBc : B.sym.is_constant = true → B.sym.is_uniform = true)
    (hne : ∀ x, ops.ne x ops.zero = decide (x ≠ ops.zero))
    (heq : ∀ x, ops.eq x ops.zero = decide (x = ops.zero))
    (hone : ops.one ≠ ops.zero) :
    (llvm_gen_div ops Result A B).value = some true
    ∧ ∃ (a : Nat → Value W α) (b : Value W α),
        (∀ i l, (a i).lane l = A.lane_value i l)
        ∧ (∀ l, b.lane l = B.lane_value 0 l)
        ∧ value_stores (llvm_gen_div ops Result A B).state
            = (List.range Result.sym.typespec.aggregate).map (fun i =>
                (i, widen_if (A.sym.is_uniform && B.sym.is_uniform) Result.sym.is_uniform
                      (div_quotient ops B (A.sym.is_uniform && B.sym.is_uniform) false (a i) b)))
        ∧ (∀ i, div_quotient ops B (A.sym.is_uniform && B.sym.is_uniform) false (a i) b
            = if (B.sym.is_constant && !is_zero ops B) = true then
                Value.map2 ops.div (a i)
                  (div_divisor ops B (A.sym.is_uniform && B.sym.is_uniform) b)
              else
                Value.select
                  (Value.map2 ops.ne b
                    (constant_for (A.sym.is_uniform && B.sym.is_uniform) ops.zero))
                  (Value.map2 ops.div (a i)
                    (div_divisor ops B (A.sym.is_uniform && B.sym.is_uniform) b))
                  (constant_for (A.sym.is_uniform && B.sym.is_uniform) ops.zero))
        ∧ (∀ l, (div_divisor ops B (A.sym.is_uniform && B.sym.is_uniform) b).lane l ≠ ops.zero)
        ∧ (∀ l, (div_divisor ops B (A.sym.is_uniform && B.sym.is_uniform) b).lane l
            = if (B.sym.is_constant && !is_zero ops B) = true then b.lane l
              else if b.lane l ≠ ops.zero then b.lane l else ops.one)
        ∧ ∀ i l,
            (widen_if (A.sym.is_uniform && B.sym.is_uniform) Result.sym.is_uniform
              (div_quotient ops B (A.sym.is_uniform && B.sym.is_uniform) false (a i) b)).lane l
              = if B.lane_value 0 l = ops.zero then ops.zero
                else ops.div (A.lane_value i l) (B.lane_value 0 l) := by
  have hload : ∀ (o : Operand W α) (i : Nat), ∃ v,
      llvm_load_value ops o 0 i (A.sym.is_uniform && B.sym.is_uniform) = some v
        ∧ ∀ l, v.lane l = o.lane_value i l := fun o i => llvm_load_value_lane ops o i _
  obtain ⟨b, hb, hbl⟩ := hload B 0
  let a : Nat → Value W α := fun i => (hload A i).choose
  have ha : ∀ i, llvm_load_value ops A 0 i (A.sym.is_uniform && B.sym.is_uniform)
      = some (a i) := fun i => (hload A i).choose_spec.1
  have hal : ∀ i l, (a i).lane l = A.lane_value i l := fun i => (hload A i).choose_spec.2
  have hcomp := div_components_int ops Result A B (A.sym.is_uniform && B.sym.is_uniform)
    Result.sym.is_uniform a b ha hb Result.sym.typespec.aggregate 0 none (Or.inl rfl)
  rw [← List.range_eq_range'] at hcomp
  have hu2 : (!(A.sym.is_uniform && B.sym.is_uniform || !Result.sym.is_uniform)) = false := by
    rw [hu]; rfl
  have hgen : llvm_gen_div ops Result A B
      = GenResult.returned true
          (((List.range Result.sym.typespec.aggregate).map fun i =>
              Action.store 0 i
                (widen_if (A.sym.is_uniform && B.sym.is_uniform) Result.sym.is_uniform
                  (div_quotient ops B (A.sym.is_uniform && B.sym.is_uniform) false (a i) b)))
            ++ (if (Result.sym.has_derivs && !(A.sym.has_derivs || B.sym.has_derivs)) = true then
                  [Action.zero_derivs]
                else [])) := by
    unfold llvm_gen_div
    simp only [hu2, hcl, hmat, hint, hd, hB1, hcomp, finish_loop, Bool.false_eq_true, if_false,
      Bool.not_false, Bool.not_true]
  have hzero : (B.sym.is_constant && !is_zero ops B) = true →
      ∀ l, b.lane l ≠ ops.zero := by
    intro hc l
    have hcB : B.sym.is_constant = true := by
      cases hB : B.sym.is_constant
      · rw [hB] at hc; simp at hc
      · rfl
    have hz : is_zero ops B = false := by
      cases hB : is_zero ops B
      · rfl
      · rw [hB] at hc; simp at hc
    have huB := hBc hcB
    rw [hbl l]
    unfold is_zero at hz
    rw [hcB, hB1] at hz
    have hr1 : List.range 1 = [0] := rfl
    simp only [Bool.true_and, hr1, List.all_cons, List.all_nil, Bool.and_true,
      heq, decide_eq_false_iff_not] at hz
    simpa [Operand.lane_value, Operand.component, huB, hB1] using hz
  have hdl := fun l => div_divisor_lane ops B (A.sym.is_uniform && B.sym.is_uniform) b hne l
  refine ⟨by rw [hgen]; rfl, a, b, hal, hbl, ?_, ?_, ?_, hdl, ?_⟩
  · rw [hgen]
    simp only [GenResult.state]
    rw [value_stores_append, value_stores_map_store]
    have htail : value_stores
        (if (Result.sym.has_derivs && !(A.sym.has_derivs || B.sym.has_derivs)) = true then
            [(Action.zero_derivs : Action W α)]
          else []) = [] := by
      split_ifs <;> rfl
    rw [htail, List.append_nil]
  · intro i
    exact div_quotient_int_shape ops B _ (a i) b
  · intro l
    rw [hdl l]
    by_cases hc : (B.sym.is_constant && !is_zero ops B) = true
    · rw [if_pos hc]; exact hzero hc l
    · rw [if_neg hc]
      by_cases hz : b.lane l = ops.zero
      · simp [hz, hone]
      · simp [hz]
  · intro i l
    rw [widen_if_lane, div_quotient_int_shape]
    by_cases hc : (B.sym.is_constant && !is_zero ops B) = true
    · rw [if_pos hc, Value.lane_map2, hdl l, if_pos hc, hal, ← hbl l]
      simp [hzero hc l]
    · rw [if_neg hc, Value.lane_select, Value.lane_map2, Value.lane_map2, constant_for_lane,
        hdl l, if_neg hc, hne, hal, ← hbl l]
      by_cases hz : b.lane l = ops.zero
      · simp [hz]
      · simp [hz]

/-- Witness of C28: the varying ints 7, -8, 9, 10 divided by 2, 0, -3, 0 give 3, 0, -3, 0. -/
theorem int_division_never_by_zero_witness :
    example_divisor.sym.typespec.aggregate = 1
    ∧ example_quotient.sym.typespec.is_float_based = false
    ∧ (llvm_gen_div int32Ops example_quotient example_dividend example_divisor).value
        = some true
    ∧ stored_lanes (llvm_gen_div int32Ops example_quotient example_dividend
        example_divisor).state = [(0, [3, 0, -3, 0])] :=
  ⟨rfl, rfl,
    (int_division_never_by_zero int32Ops example_quotient example_dividend example_divisor
      (by decide) (by decide) (by decide) (by decide) (by decide) rfl (by decide)
      (fun _ => rfl) (fun _ => rfl) (by decide)).1,
    by decide⟩

end DivProofs

end OSL

namespace OSL

section CompAssignProofs

/-- C24 fails on the code: `llvm_gen_compassign` without range checking, on four active
lanes with the index vector 0, 1, 2, 5, a Result holding (1, 2, 3) in every lane and the
value 9, returns `true` and stores 9 into component 0 in lane 0, into component 1 in lane 1
and into component 2 in lane 2; in lane 3, whose index 5 is neither 0 nor 1, component 2
keeps its old value 3 and no component receives 9. -/
theorem compassign_other_index_not_written :
    (llvm_gen_compassign int32Ops false range_check range_check_masked (Mask.const 4 true)
        compassign_Result compassign_Val compref_Index 0 compassign_index_lanes).value
      = some true
    ∧ stored_lanes (llvm_gen_compassign int32Ops false range_check range_check_masked
        (Mask.const 4 true) compassign_Result compassign_Val compref_Index 0
        compassign_index_lanes).state
      = [(0, [9, 1, 1, 1]), (1, [2, 9, 2, 2]), (2, [3, 3, 9, 3])] := by
  refine ⟨by decide, by decide⟩

end CompAssignProofs

end OSL

namespace OSL

section CallLayerProofs

variable {W : Nat}

theorem mask_as_int_succ (m : Mask (W + 1)) :
    mask_as_int m = (if m 0 then 1 else 0) + 2 * mask_as_int (fun i : Fin W => m i.succ) := by
  unfold mask_as_int
  rw [List.finRange_succ_eq_map]
  simp only [List.map_cons, List.sum_cons, List.map_map, Fin.val_zero, pow_zero]
  congr 1
  rw [← List.sum_map_mul_left]
  congr 1
  apply List.map_congr_left
  intro i _
  simp only [Function.comp, Fin.val_succ]
  split_ifs <;> simp [pow_succ, Nat.mul_comm]

theorem mask_as_int_testBit : ∀ (W : Nat) (m : Mask W) (i : Fin W),
    (mask_as_int m).testBit i.val = m i
  | 0, _, i => i.elim0
  | W + 1, m, i => by
    rw [mask_as_int_succ]
    have ih := mask_as_int_testBit W (fun j : Fin W => m j.succ)
    refine Fin.cases ?_ (fun j => ?_) i
    · simp only [Fin.val_zero, Nat.testBit_zero]
      cases m 0 <;> simp [Nat.add_mod]
    · rw [Fin.val_succ, Nat.testBit_succ]
      have : ((if m 0 = true then 1 else 0)
          + 2 * mask_as_int (fun j : Fin W => m j.succ)) / 2
          = mask_as_int (fun j : Fin W => m j.succ) := by
        cases m 0 <;> (simp; try omega)
      rw [this, ih j]

theorem mask_as_int_eq_zero : ∀ (W : Nat) (m : Mask W),
    mask_as_int m = 0 ↔ ∀ i, m i = false
  | 0, m => by
    constructor
    · intro _ i; exact i.elim0
    · intro _; rfl
  | W + 1, m => by
    rw [mask_as_int_succ]
    have ih := mask_as_int_eq_zero W (fun j : Fin W => m j.succ)
    constructor
    · intro h i
      have h0 : m 0 = false := by
        cases hm : m 0
        · rfl
        · rw [hm] at h; simp at h
      have h1 : mask_as_int (fun j : Fin W => m j.succ) = 0 := by
        rw [h0] at h; simpa using h
      refine Fin.cases h0 (fun j => ?_) i
      exact ih.1 h1 j
    · intro h
      rw [h 0, ih.2 (fun j => h j.succ)]
      rfl

theorem find_block_append (b : BasicBlock) :
    ∀ (pre post : List LayerInstr), LayerInstr.insert_point b ∉ pre →
      find_block b (pre ++ post) = find_block b post
  | [], _, _ => rfl
  | i :: pre, post, h => by
    have hi : i ≠ LayerInstr.insert_point b := fun e => h (e ▸ List.mem_cons_self _ _)
    have ih := find_block_append b pre post (fun hm => h (List.mem_cons_of_mem _ hm))
    simp [find_block, hi, ih]

theorem lanes_requiring_execution_eval (env : LayerEnv W) (layerfield : Nat) :
    (LayerMask.op_select (LayerMask.int_as_mask_op_load layerfield)
        (LayerMask.wide_constant_bool false) LayerMask.current_mask).eval env
      = lanes_requiring_execution env layerfield := by
  funext l
  simp only [LayerMask.eval, Mask.select, Mask.const, lanes_requiring_execution]
  cases env.layer_run layerfield l <;> simp

/-- C27: the code that `llvm_call_layer` emits, run under the current mask.  With
`unconditional = false` the layer function is called exactly when some lane is active in the
current mask and not set in the run field of the layer, and it then receives as mask
argument the integer whose bit `i` is set iff lane `i` is active and not set in the run
field; when there is no such lane the call is skipped, so that no call made receives the
mask zero.  With `unconditional = true` the call is always made, with the shader mask.  In
both cases the run reaches the end of the emitted code. -/
theorem call_layer_lanes (env : LayerEnv W) (g : LayerGroup) (layer : Nat) (s : LayerBuilder)
    (hs : s.blocks_created) :
    run_call_layer env g layer false s 4
        = (if Mask.nonzero (lanes_requiring_execution env (g.layer_remap layer)) then
             [{ name := g.m_library_selector ++ "_" ++ g.layer_function_name layer,
                lanes := mask_as_int (lanes_requiring_execution env (g.layer_remap layer)),
                fast_func_call := !g.entry_layer layer }]
           else [], true)
    ∧ (∀ i : Fin W,
        (mask_as_int (lanes_requiring_execution env (g.layer_remap layer))).testBit i.val
          = (env.current_mask i && !env.layer_run (g.layer_remap layer) i))
    ∧ (∀ c ∈ (run_call_layer env g layer false s 4).1, c.lanes ≠ 0)
    ∧ run_call_layer env g layer true s 4
        = ([{ name := g.m_library_selector ++ "_" ++ g.layer_function_name layer,
              lanes := mask_as_int env.shader_mask,
              fast_func_call := !g.entry_layer layer }], true) := by
  have hthen : LayerInstr.insert_point s.block_count ∉ s.code :=
    fun h => Nat.lt_irrefl _ (hs _ h)
  have hafter : LayerInstr.insert_point (s.block_count + 1) ∉ s.code :=
    fun h => Nat.lt_irrefl _ (Nat.lt_of_succ_lt (Nat.lt_of_lt_of_le (Nat.lt_succ_self _)
      (Nat.succ_le_of_lt (hs _ h))))
  have hz : (mask_as_int (lanes_requiring_execution env (g.layer_remap layer)) ≠ 0)
      ↔ Mask.nonzero (lanes_requiring_execution env (g.layer_remap layer)) = true := by
    rw [Ne, mask_as_int_eq_zero]
    simp [Mask.nonzero]
  have hrun : run_call_layer env g layer false s 4
      = (if Mask.nonzero (lanes_requiring_execution env (g.layer_remap layer)) then
           [{ name := g.m_library_selector ++ "_" ++ g.layer_function_name layer,
              lanes := mask_as_int (lanes_requiring_execution env (g.layer_remap layer)),
              fast_func_call := !g.entry_layer layer }]
         else [], true) := by
    unfold run_call_layer llvm_call_layer
    simp only [Bool.not_false, if_true, List.drop_left, run_layer_code, LayerInt.eval,
      lanes_requiring_execution_eval]
    by_cases hn : Mask.nonzero (lanes_requiring_execution env (g.layer_remap layer)) = true
    · have hne := hz.2 hn
      simp only [hne, ne_eq, not_false_eq_true, if_true, hn]
      rw [find_block_append _ _ _ hthen]
      simp only [find_block, LayerInstr.insert_point.injEq, reduceCtorEq, if_false, if_true,
        run_layer_code, LayerInt.eval, lanes_requiring_execution_eval]
      rw [find_block_append _ _ _ hafter]
      simp [find_block, run_layer_code]
    · have hne : ¬ mask_as_int (lanes_requiring_execution env (g.layer_remap layer)) ≠ 0 :=
        fun h => hn (hz.1 h)
      simp only [hne, if_false, hn]
      rw [find_block_append _ _ _ hafter]
      simp [find_block, run_layer_code]
  refine ⟨hrun, fun i => ?_, ?_, ?_⟩
  · rw [mask_as_int_testBit]
    rfl
  · rw [hrun]
    intro c hc
    by_cases hn : Mask.nonzero (lanes_requiring_execution env (g.layer_remap layer)) = true
    · simp only [hn, if_true, List.mem_singleton] at hc
      subst hc
      exact hz.2 hn
    · simp [hn] at hc
  · unfold run_call_layer llvm_call_layer
    simp [run_layer_code, LayerInt.eval, LayerMask.eval]

/-- Witness of C27: on four lanes with lanes 0, 1, 2 active and layer 0 already run for
lanes 0 and 3, the conditional call of layer 0 is made with the mask 6 (lanes 1 and 2);
with lanes 0 and 3 active it is skipped. -/
theorem call_layer_lanes_witness :
    LayerBuilder.blocks_created { block_count := 0, code := [] }
    ∧ run_call_layer example_layer_env example_group 0 false { block_count := 0, code := [] } 4
        = ([{ name := "b8_AVX2_layer_0", lanes := 6, fast_func_call := true }], true)
    ∧ run_call_layer example_layer_env_done example_group 0 false
          { block_count := 0, code := [] } 4 = ([], true) :=
  ⟨fun _ h => by simp at h,
    (call_layer_lanes example_layer_env example_group 0 { block_count := 0, code := [] }
      (fun _ h => by simp at h)).1.trans (by decide),
    by decide⟩

end CallLayerProofs

end OSL

namespace OSL

section ConnectedLayersProofs

theorem run_connections_spec (m_in_conditional : Nat → Bool) (inmain : Bool)
    (symindex opnum : Nat) :
    ∀ (cons : List Connection) (ar : Option (Finset Nat)) (st : LayerRunState),
      ∃ new : List Nat,
        (run_connections m_in_conditional inmain symindex opnum cons ar st).2.layer_calls
            = st.layer_calls ++ new
        ∧ st.m_layers_already_run
            ⊆ (run_connections m_in_conditional inmain symindex opnum cons ar
                st).2.m_layers_already_run
        ∧ (inmain = true → ∀ L ∈ new, L ∉ st.m_layers_already_run)
        ∧ (inmain = true → m_in_conditional opnum = false → ∀ L ∈ new,
            L ∈ (run_connections m_in_conditional inmain symindex opnum cons ar
                  st).2.m_layers_already_run)
        ∧ ((inmain && !m_in_conditional opnum) = false →
            (run_connections m_in_conditional inmain symindex opnum cons ar
                st).2.m_layers_already_run = st.m_layers_already_run)
        ∧ (∀ a, ar = some a →
            ∃ a2, (run_connections m_in_conditional inmain symindex opnum cons ar st).1
                = some a2
              ∧ a ⊆ a2 ∧ new.Nodup ∧ ∀ L ∈ new, L ∉ a ∧ L ∈ a2)
  | [], ar, st =>
    ⟨[], by simp [run_connections], Finset.Subset.refl _, by simp, by simp,
      fun _ => rfl, fun a ha => ⟨a, ha, Finset.Subset.refl _, List.nodup_nil, by simp⟩⟩
  | con :: rest, ar, st => by
    by_cases hd : con.dst_param = symindex
    · by_cases hseen : (match ar with
          | some ar => decide (con.srclayer ∈ ar)
          | none => false) = true
      · obtain ⟨new, h⟩ := run_connections_spec m_in_conditional inmain symindex opnum rest ar st
        refine ⟨new, ?_⟩
        simpa only [run_connections, hd, if_true, hseen] using h
      · have hnot : ∀ a, ar = some a → con.srclayer ∉ a := by
          intro a ha hm
          subst ha
          exact hseen (by simpa using hm)
        by_cases hrun : (inmain && decide (con.srclayer ∈ st.m_layers_already_run)) = true
        · obtain ⟨new, h1, h2, h3, h4, h5, h6⟩ :=
            run_connections_spec m_in_conditional inmain symindex opnum rest
              (ar.map fun a => insert con.srclayer a) st
          refine ⟨new, ?_⟩
          simp only [run_connections, hd, if_true, hseen, hrun, Bool.false_eq_true, if_false]
          refine ⟨h1, h2, h3, h4, h5, ?_⟩
          intro a ha
          subst ha
          obtain ⟨a2, e1, e2, e3, e4⟩ := h6 (insert con.srclayer a) rfl
          refine ⟨a2, e1, (Finset.subset_insert _ _).trans e2, e3, fun L hL => ?_⟩
          exact ⟨fun hm => (e4 L hL).1 (Finset.mem_insert_of_mem hm), (e4 L hL).2⟩
        · obtain ⟨new, h1, h2, h3, h4, h5, h6⟩ :=
            run_connections_spec m_in_conditional inmain symindex opnum rest
              (ar.map fun a => insert con.srclayer a)
              { (if (inmain && !m_in_conditional opnum) = true then
                  { st with
                    m_layers_already_run := insert con.srclayer st.m_layers_already_run }
                else st) with
                layer_calls :=
                  (if (inmain && !m_in_conditional opnum) = true then
                    { st with
                      m_layers_already_run := insert con.srclayer st.m_layers_already_run }
                  else st).layer_calls ++ [con.srclayer] }
          have hcalls : (if (inmain && !m_in_conditional opnum) = true then
                { st with
                  m_layers_already_run := insert con.srclayer st.m_layers_already_run }
              else st).layer_calls = st.layer_calls := by
            split_ifs <;> rfl
          have hsub : st.m_layers_already_run
              ⊆ (if (inmain && !m_in_conditional opnum) = true then
                  { st with
                    m_layers_already_run := insert con.srclayer st.m_layers_already_run }
                else st).m_layers_already_run := by
            split_ifs
            · exact Finset.subset_insert _ _
            · exact Finset.Subset.refl _
          refine ⟨con.srclayer :: new, ?_⟩
          simp only [run_connections, hd, if_true, hseen, hrun, Bool.false_eq_true, if_false]
          simp only [hcalls] at h1 h2 h3 h4 h5 h6 ⊢
          refine ⟨?_, ?_, ?_, ?_, ?_, ?_⟩
          · rw [h1]; simp
          · exact hsub.trans h2
          · intro hi L hL
            rcases List.mem_cons.1 hL with rfl | hL
            · intro hm
              apply hrun
              simp [hi, hm]
            · exact fun hm => h3 hi L hL (hsub hm)
          · intro hi hc L hL
            rcases List.mem_cons.1 hL with rfl | hL
            · apply h2
              simp [hi, hc]
            · exact h4 hi hc L hL
          · intro hf
            rw [h5 hf]
            simp [hf]
          · intro a ha
            subst ha
            obtain ⟨a2, e1, e2, e3, e4⟩ := h6 (insert con.srclayer a) rfl
            refine ⟨a2, e1, (Finset.subset_insert _ _).trans e2, ?_, fun L hL => ?_⟩
            · refine List.nodup_cons.2 ⟨fun hm => ?_, e3⟩
              exact (e4 _ hm).1 (Finset.mem_insert_self _ _)
            · rcases List.mem_cons.1 hL with rfl | hL
              · exact ⟨hnot a rfl, e2 (Finset.mem_insert_self _ _)⟩
              · exact ⟨fun hm => (e4 L hL).1 (Finset.mem_insert_of_mem hm), (e4 L hL).2⟩
    · obtain ⟨new, h⟩ := run_connections_spec m_in_conditional inmain symindex opnum rest ar st
      refine ⟨new, ?_⟩
      simpa only [run_connections, hd, if_false] using h

theorem run_call_spec (inst : ShaderInstance) (m_in_conditional : Nat → Bool) (c : RunCall)
    (st : LayerRunState) :
    ∃ new : List Nat,
      (c.run inst m_in_conditional st).layer_calls = st.layer_calls ++ new
      ∧ st.m_layers_already_run ⊆ (c.run inst m_in_conditional st).m_layers_already_run
      ∧ (inst.inmain c.opnum = true → ∀ L ∈ new, L ∉ st.m_layers_already_run)
      ∧ (inst.inmain c.opnum = true → m_in_conditional c.opnum = false → ∀ L ∈ new,
          L ∈ (c.run inst m_in_conditional st).m_layers_already_run)
      ∧ ((inst.inmain c.opnum && !m_in_conditional c.opnum) = false →
          (c.run inst m_in_conditional st).m_layers_already_run = st.m_layers_already_run) := by
  unfold RunCall.run llvm_run_connected_layers
  by_cases hv : c.valuesource ≠ ValueSource.ConnectedVal
  · rw [if_pos hv]
    exact ⟨[], by simp, Finset.Subset.refl _, by simp, by simp, fun _ => rfl⟩
  · rw [if_neg hv]
    obtain ⟨new, h1, h2, h3, h4, h5, _⟩ :=
      run_connections_spec m_in_conditional (inst.inmain c.opnum) c.symindex c.opnum
        inst.connections c.already_run st
    exact ⟨new, h1, h2, h3, h4, h5⟩

theorem emitted_calls_of_append (before after : LayerRunState) (new : List Nat)
    (h : after.layer_calls = before.layer_calls ++ new) : emitted_calls before after = new := by
  unfold emitted_calls
  rw [h, List.drop_left]

theorem run_calls_mono (inst : ShaderInstance) (m_in_conditional : Nat → Bool) :
    ∀ (calls : List RunCall) (st : LayerRunState),
      st.m_layers_already_run
        ⊆ (run_calls inst m_in_conditional calls st).m_layers_already_run
  | [], _ => Finset.Subset.refl _
  | c :: rest, st => by
    obtain ⟨_, _, h2, _⟩ := run_call_spec inst m_in_conditional c st
    exact h2.trans (run_calls_mono inst m_in_conditional rest _)

theorem useparam_args_spec (inst : ShaderInstance) (m_in_conditional : Nat → Bool)
    (lazy_userdata : Bool) (opnum : Nat) :
    ∀ (args : List UseparamArg) (ar : Finset Nat) (st : LayerRunState),
      ∃ new : List Nat,
        (useparam_args inst m_in_conditional lazy_userdata opnum args ar st).2.layer_calls
            = st.layer_calls ++ new
        ∧ new.Nodup ∧ ∀ L ∈ new, L ∉ ar
  | [], ar, st => ⟨[], by simp [useparam_args]⟩
  | a :: rest, ar, st => by
    have hstep : ∃ (new : List Nat) (ar2 : Finset Nat),
        (llvm_run_connected_layers inst m_in_conditional a.valuesource a.symindex opnum
            (some ar) st).1 = some ar2
        ∧ (llvm_run_connected_layers inst m_in_conditional a.valuesource a.symindex opnum
            (some ar) st).2.layer_calls = st.layer_calls ++ new
        ∧ ar ⊆ ar2 ∧ new.Nodup ∧ ∀ L ∈ new, L ∉ ar ∧ L ∈ ar2 := by
      unfold llvm_run_connected_layers
      by_cases hv : a.valuesource ≠ ValueSource.ConnectedVal
      · rw [if_pos hv]
        exact ⟨[], ar, rfl, by simp, Finset.Subset.refl _, List.nodup_nil, by simp⟩
      · rw [if_neg hv]
        obtain ⟨new, h1, _, _, _, _, h6⟩ :=
          run_connections_spec m_in_conditional (inst.inmain opnum) a.symindex opnum
            inst.connections (some ar) st
        obtain ⟨ar2, e1, e2, e3, e4⟩ := h6 ar rfl
        exact ⟨new, ar2, e1, h1, e2, e3, e4⟩
    obtain ⟨new, ar2, e1, e2, e3, e4, e5⟩ := hstep
    obtain ⟨new2, f1, f2, f3⟩ := useparam_args_spec inst m_in_conditional lazy_userdata opnum
      rest ar2
      (if (a.is_param && !a.lockgeom && !a.sym.typespec.is_closure && !a.connected
            && !a.connected_down && lazy_userdata) = true then
        { (llvm_run_connected_layers inst m_in_conditional a.valuesource a.symindex opnum
            (some ar) st).2 with
          initial_values :=
            (llvm_run_connected_layers inst m_in_conditional a.valuesource a.symindex opnum
              (some ar) st).2.initial_values ++ [a.sym] }
      else
        (llvm_run_connected_layers inst m_in_conditional a.valuesource a.symindex opnum
          (some ar) st).2)
    have hcalls : (if (a.is_param && !a.lockgeom && !a.sym.typespec.is_closure && !a.connected
            && !a.connected_down && lazy_userdata) = true then
        { (llvm_run_connected_layers inst m_in_conditional a.valuesource a.symindex opnum
            (some ar) st).2 with
          initial_values :=
            (llvm_run_connected_layers inst m_in_conditional a.valuesource a.symindex opnum
              (some ar) st).2.initial_values ++ [a.sym] }
      else
        (llvm_run_connected_layers inst m_in_conditional a.valuesource a.symindex opnum
          (some ar) st).2).layer_calls = st.layer_calls ++ new := by
      split_ifs <;> exact e2
    rw [hcalls] at f1
    refine ⟨new ++ new2, ?_, ?_, ?_⟩
    · simp only [useparam_args, e1, Option.getD_some]
      rw [f1, List.append_assoc]
    · refine List.nodup_append.2 ⟨e4, f2, ?_⟩
      intro L h1 h2
      exact f3 L h2 (e5 L h1).2
    · intro L hL
      rcases List.mem_append.1 hL with h | h
      · exact (e5 L h).1
      · exact fun hm => f3 L h (e3 hm)

/-- C26: for every instance and every state of the backend.  Once a call of
`llvm_run_connected_layers` made for a main-code op that is not inside a conditional has
emitted a call of the upstream layer `L`, no call made later for a main-code op emits a call
of `L`, whatever calls were made in between.  A call made for an op inside a conditional or
outside of the main code section leaves the set `m_layers_already_run` unchanged.  The layer
calls that one `llvm_gen_useparam` emits are pairwise distinct. -/
theorem layers_run_once (inst : ShaderInstance) (m_in_conditional : Nat → Bool) :
    (∀ (st : LayerRunState) (c : RunCall) (later : List RunCall) (c2 : RunCall) (L : Nat),
      inst.inmain c.opnum = true → m_in_conditional c.opnum = false →
      L ∈ emitted_calls st (c.run inst m_in_conditional st) →
      inst.inmain c2.opnum = true →
      L ∉ emitted_calls
            (run_calls inst m_in_conditional later (c.run inst m_in_conditional st))
            (c2.run inst m_in_conditional
              (run_calls inst m_in_conditional later (c.run inst m_in_conditional st))))
    ∧ (∀ (st : LayerRunState) (c : RunCall),
        inst.inmain c.opnum = false ∨ m_in_conditional c.opnum = true →
        (c.run inst m_in_conditional st).m_layers_already_run = st.m_layers_already_run)
    ∧ (∀ (lazy_userdata : Bool) (opnum : Nat) (args : List UseparamArg) (st : LayerRunState),
        (emitted_calls st
          (llvm_gen_useparam inst m_in_conditional lazy_userdata opnum args st).state).Nodup) := by
  refine ⟨?_, ?_, ?_⟩
  · intro st c later c2 L hmain hcond hL hmain2 hL2
    obtain ⟨new, h1, _, _, h4, _⟩ := run_call_spec inst m_in_conditional c st
    rw [emitted_calls_of_append _ _ _ h1] at hL
    have hin := run_calls_mono inst m_in_conditional later _ (h4 hmain hcond L hL)
    obtain ⟨new2, g1, _, g3, _⟩ := run_call_spec inst m_in_conditional c2
      (run_calls inst m_in_conditional later (c.run inst m_in_conditional st))
    rw [emitted_calls_of_append _ _ _ g1] at hL2
    exact g3 hmain2 L hL2 hin
  · intro st c h
    obtain ⟨_, _, _, _, _, h5⟩ := run_call_spec inst m_in_conditional c st
    apply h5
    rcases h with h | h <;> simp [h]
  · intro lazy_userdata opnum args st
    unfold llvm_gen_useparam
    split_ifs
    · simp [GenResult.state, emitted_calls]
    · obtain ⟨new, h1, h2, _⟩ := useparam_args_spec inst m_in_conditional lazy_userdata opnum
        args ∅ st
      simp only [GenResult.state]
      rw [emitted_calls_of_append _ _ _ h1]
      exact h2

/-- Witness of C26: in an instance whose parameter 0 is connected to the layers 5 and 6 and
whose parameter 1 is connected to layer 5, the call made for parameter 0 at op 3 (main code,
not in a conditional) emits the calls of the layers 5 and 6; after a call made for
parameter 1 at op 4 (in a conditional), the call made for parameter 1 at op 6 emits no call
of layer 5. -/
theorem layers_run_once_witness :
    example_instance.inmain 3 = true ∧ example_in_conditional 3 = false
    ∧ emitted_calls LayerRunState.start
        ((connected_call 0 3).run example_instance example_in_conditional
          LayerRunState.start) = [5, 6]
    ∧ example_instance.inmain 6 = true
    ∧ 5 ∉ emitted_calls
        (run_calls example_instance example_in_conditional [connected_call 1 4]
          ((connected_call 0 3).run example_instance example_in_conditional
            LayerRunState.start))
        ((connected_call 1 6).run example_instance example_in_conditional
          (run_calls example_instance example_in_conditional [connected_call 1 4]
            ((connected_call 0 3).run example_instance example_in_conditional
              LayerRunState.start))) :=
  ⟨by decide, by decide, by decide, by decide,
    (layers_run_once example_instance example_in_conditional).1 LayerRunState.start
      (connected_call 0 3) [connected_call 1 4] (connected_call 1 6) 5
      (by decide) (by decide) (by decide) (by decide)⟩

end ConnectedLayersProofs

end OSL

namespace OSL

section PrintfCountProofs

theorem length_flatten_const {β : Type} (k : Nat) :
    ∀ (ls : List (List β)), (∀ l ∈ ls, l.length = k) → ls.flatten.length = ls.length * k
  | [], _ => by simp
  | l :: ls, h => by
    have ih := length_flatten_const k ls (fun x hx => h x (List.mem_cons_of_mem _ hx))
    have hl := h l (List.mem_cons_self _ _)
    simp only [List.flatten_cons, List.length_append, List.length_cons, ih, hl]
    rw [Nat.add_mul, Nat.one_mul, Nat.add_comm]

theorem argument_values_length (sym : Symbol) (hcl : sym.typespec.is_closure_based = false) :
    (argument_values sym).length = sym.typespec.numelements * sym.typespec.aggregate := by
  unfold argument_values expand_argument
  simp only [hcl, Bool.false_eq_true, if_false, List.map_map]
  rw [length_flatten_const sym.typespec.aggregate]
  · simp
  · intro l hl
    obtain ⟨a, _, rfl⟩ := List.mem_map.1 hl
    simp only [Function.comp]
    rw [length_flatten_const 1]
    · simp
    · intro x hx
      obtain ⟨c, _, rfl⟩ := List.mem_map.1 hx
      rfl

theorem directive_count_one (body : List Char) (ch : Char) (rest : List Char)
    (hbody : ∀ x ∈ body, is_conversion_char x = false) (hch : is_conversion_char ch = true)
    (hhead : body.head? ≠ some '%') :
    directive_count_from ReadState.text (('%' :: body ++ [ch]) ++ rest)
      = 1 + directive_count_from ReadState.text rest := by
  have hpc : ch ≠ '%' := by
    intro e
    subst e
    exact absurd hch (by decide)
  have e : ('%' :: body ++ [ch]) ++ rest = '%' :: (body ++ ch :: rest) := by simp
  have hpercent : ∀ l, directive_count_from ReadState.text ('%' :: l)
      = directive_count_from ReadState.percent l := by
    intro l
    simp [directive_count_from]
  rw [e, hpercent]
  cases body with
  | nil =>
    rw [List.nil_append, directive_count_percent ch rest hpc]
    have := directive_count_directive ch rest hch [] (by simp)
    rw [List.nil_append] at this
    rw [this]
  | cons x body =>
    have hx : x ≠ '%' := by
      intro e2
      subst e2
      exact hhead rfl
    rw [List.cons_append, directive_count_percent x _ hx, ← List.cons_append,
      directive_count_directive ch rest hch (x :: body) hbody]

theorem directive_count_copies (d : List Char) (rest : List Char)
    (hd : ∀ r, directive_count_from ReadState.text (d ++ r)
      = 1 + directive_count_from ReadState.text r) :
    ∀ (n : Nat),
      directive_count_from ReadState.text ((List.replicate n (' ' :: d)).flatten ++ rest)
        = n + directive_count_from ReadState.text rest
  | 0 => by simp
  | n + 1 => by
    have ih := directive_count_copies d rest hd n
    have e : (List.replicate (n + 1) (' ' :: d)).flatten ++ rest
        = ' ' :: (d ++ ((List.replicate n (' ' :: d)).flatten ++ rest)) := by
      simp [List.replicate_succ]
    have hsp : ∀ l, directive_count_from ReadState.text (' ' :: l)
        = directive_count_from ReadState.text l := by
      intro l
      simp [directive_count_from]
    rw [e, hsp, hd, ih]
    omega

theorem directive_count_spaced (d : List Char) (rest : List Char)
    (hd : ∀ r, directive_count_from ReadState.text (d ++ r)
      = 1 + directive_count_from ReadState.text r) (n : Nat) :
    directive_count_from ReadState.text (spaced_copies n d ++ rest)
      = n + directive_count_from ReadState.text rest := by
  cases n with
  | zero => simp [spaced_copies]
  | succ n =>
    have e : spaced_copies (n + 1) d ++ rest
        = d ++ ((List.replicate n (' ' :: d)).flatten ++ rest) := by
      simp [spaced_copies]
    rw [e, hd, directive_count_copies d rest hd n]
    omega

theorem directive_count_rewritten :
    ∀ (pieces : List FormatPiece), (∀ p ∈ pieces, p.wellformed) →
      directive_count_from ReadState.text (pieces.map FormatPiece.rewritten_text).flatten
        = ((pieces.filterMap FormatPiece.argument).map fun sym =>
            sym.typespec.numelements * sym.typespec.aggregate).sum
  | [], _ => rfl
  | p :: pieces, h => by
    have ih := directive_count_rewritten pieces (fun q hq => h q (List.mem_cons_of_mem _ hq))
    have hp := h p (List.mem_cons_self _ _)
    cases p with
    | literal text =>
      rcases hp with rfl | ⟨c, rfl, hc⟩
      · simp [FormatPiece.rewritten_text, FormatPiece.argument, directive_count_from, ih]
      · simp [FormatPiece.rewritten_text, FormatPiece.argument, directive_count_from, hc, ih]
    | directive body ch sym ch2 =>
      obtain ⟨hbody, _, hhead, _, _, hch2, _⟩ := hp
      simp only [List.map_cons, List.flatten_cons, FormatPiece.rewritten_text,
        List.filterMap_cons, FormatPiece.argument, List.sum_cons]
      rw [directive_count_spaced _ _
        (fun r => directive_count_one body ch2 r hbody hch2 hhead), ih]

theorem length_flatMap_argument_values :
    ∀ (syms : List Symbol), (∀ sym ∈ syms, sym.typespec.is_closure_based = false) →
      (syms.flatMap argument_values).length
        = (syms.map fun sym => sym.typespec.numelements * sym.typespec.aggregate).sum
  | [], _ => rfl
  | sym :: syms, h => by
    have ih := length_flatMap_argument_values syms
      (fun s hs => h s (List.mem_cons_of_mem _ hs))
    simp only [List.flatMap_cons, List.length_append, List.map_cons, List.sum_cons, ih,
      argument_values_length sym (h sym (List.mem_cons_self _ _))]

/-- C29: whenever `llvm_gen_printf` returns `true`, it emits exactly one call, whose
arguments are the leading arguments, the format string and then the value arguments; the
value arguments that the emitted call carries after the format string are as many as the
`%` directives of the rewritten format string, and as many as the sum of `numelements * aggregate` over the arguments
consumed by directives (none of which is a closure); the rewritten format is made of the
literal text and, for each directive, of one copy per element and component of its
argument, the copies separated by single spaces, and the value arguments are those of the
consumed arguments, in order. -/
theorem printf_values_match_directives (shadername : String) (op : Opcode)
    (emits : List PrintfEmit)
    (h : llvm_gen_printf shadername op = GenResult.returned true emits) :
    (∃ e, emits.filter PrintfEmit.is_call = [e] ∧ e ∈ emits
      ∧ e.args = printf_leading_args op
          ++ [CallArg.format_string
                (String.mk (printf_lead_text shadername op ++ (rewrite_format op).s))]
          ++ (rewrite_format op).call_args
      ∧ (e.args.drop ((printf_leading_args op).length + 1)).length
          = directive_count (rewrite_format op).s
      ∧ (e.args.drop ((printf_leading_args op).length + 1)).length
          = op.components_consumed ((rewrite_format op).arg - (op.format_arg + 1)))
    ∧ (rewrite_format op).call_args.length = directive_count (rewrite_format op).s
    ∧ (rewrite_format op).call_args.length
        = op.components_consumed ((rewrite_format op).arg - (op.format_arg + 1))
    ∧ (∀ sym ∈ (op.args.drop (op.format_arg + 1)).take
          ((rewrite_format op).arg - (op.format_arg + 1)),
        sym.typespec.is_closure_based = false)
    ∧ (∀ e ∈ emits, e.is_call = true →
        e.args = printf_leading_args op
          ++ [CallArg.format_string
                (String.mk (printf_lead_text shadername op ++ (rewrite_format op).s))]
          ++ (rewrite_format op).call_args)
    ∧ ∃ pieces : List FormatPiece,
        (rewrite_format op).s = (pieces.map FormatPiece.rewritten_text).flatten
        ∧ (rewrite_format op).call_args
            = (pieces.filterMap FormatPiece.argument).flatMap argument_values
        ∧ pieces.filterMap FormatPiece.argument
            = (op.args.drop (op.format_arg + 1)).take
                ((rewrite_format op).arg - (op.format_arg + 1)) := by
  obtain ⟨_, _, hdone, hemits⟩ := llvm_gen_printf_returned_true shadername op emits h
  obtain ⟨pieces, _, h2, h3, h4, h5, h6⟩ := scan_pieces op _ _ _ _ _ hdone
  have h2b : (rewrite_format op).s = (pieces.map FormatPiece.rewritten_text).flatten := by
    simpa using h2
  have h3b : op.args.drop (op.format_arg + 1)
      = pieces.filterMap FormatPiece.argument ++ op.args.drop (rewrite_format op).arg := h3
  have h4b : (rewrite_format op).arg
      = op.format_arg + 1 + (pieces.filterMap FormatPiece.argument).length := h4
  have h5b : (rewrite_format op).call_args
      = (pieces.filterMap FormatPiece.argument).flatMap argument_values := by
    simpa using h5
  have hlen : (rewrite_format op).arg - (op.format_arg + 1)
      = (pieces.filterMap FormatPiece.argument).length := by omega
  have htake : pieces.filterMap FormatPiece.argument
      = (op.args.drop (op.format_arg + 1)).take
          ((rewrite_format op).arg - (op.format_arg + 1)) := by
    rw [hlen, h3b, List.take_left']
    rfl
  have hcl : ∀ sym ∈ pieces.filterMap FormatPiece.argument,
      sym.typespec.is_closure_based = false := by
    intro sym hs
    obtain ⟨p, hp, hps⟩ := List.mem_filterMap.1 hs
    have hw := h6 p hp
    cases p with
    | literal text => simp [FormatPiece.argument] at hps
    | directive body ch sym2 ch2 =>
      simp only [FormatPiece.argument, Option.some.injEq] at hps
      subst hps
      exact hw.2.2.2.1
  have hsum := length_flatMap_argument_values _ hcl
  have hcount : (rewrite_format op).call_args.length = directive_count (rewrite_format op).s := by
    rw [h5b, hsum, directive_count, h2b, directive_count_rewritten pieces h6]
  have hcomp : (rewrite_format op).call_args.length
      = op.components_consumed ((rewrite_format op).arg - (op.format_arg + 1)) := by
    rw [h5b, hsum, Opcode.components_consumed, ← htake]
  refine ⟨?_, hcount, hcomp, ?_, ?_, pieces, h2b, h5b, htake⟩
  · obtain ⟨e, he1, he2, _, he4⟩ := llvm_gen_printf_emits_call shadername op emits h
    have hdrop : e.args.drop ((printf_leading_args op).length + 1)
        = (rewrite_format op).call_args := by
      rw [he4]
      exact List.drop_left' (by simp)
    exact ⟨e, he1, he2, he4, by rw [hdrop, hcount], by rw [hdrop, hcomp]⟩
  · rw [← htake]
    exact hcl
  · intro e he hcall
    rw [hemits] at he
    split_ifs at he with hu hf
    · simp only [List.mem_cons, List.mem_singleton, List.not_mem_nil, or_false] at he
      rcases he with rfl | rfl
      · rfl
      · exact absurd hcall (by simp [PrintfEmit.is_call])
    · simp only [List.mem_cons, List.mem_singleton, List.not_mem_nil, or_false] at he
      subst he
      rfl
    · simp only [List.mem_cons, List.mem_singleton, List.not_mem_nil, or_false] at he
      subst he
      rfl

/-- Witness of C29: `printf ("%g", C)` with a varying color `C` emits one call, in the lane
loop, with the format string `"%g %g %g"` followed by three value arguments. -/
theorem printf_values_match_directives_witness :
    (llvm_gen_printf "shader" example_printf_triple).state
      = [PrintfEmit.call_per_active_lane "printf"
          [CallArg.sg_void_ptr, CallArg.lane_mask,
           CallArg.format_string "%g %g %g",
           CallArg.lane_value (Symbol.mk_simple "C" TypeSpec.color false false) none 0 true,
           CallArg.lane_value (Symbol.mk_simple "C" TypeSpec.color false false) none 1 true,
           CallArg.lane_value (Symbol.mk_simple "C" TypeSpec.color false false) none 2 true]]
    ∧ (rewrite_format example_printf_triple).s = "%g %g %g".toList
    ∧ (rewrite_format example_printf_triple).call_args.length = 3
    ∧ directive_count (rewrite_format example_printf_triple).s = 3
    ∧ example_printf_triple.components_consumed
        ((rewrite_format example_printf_triple).arg
          - (example_printf_triple.format_arg + 1)) = 3 := by
  have h := printf_values_match_directives "shader" example_printf_triple
    (llvm_gen_printf "shader" example_printf_triple).state rfl
  have h3 : (rewrite_format example_printf_triple).call_args.length = 3 := by decide
  exact ⟨by decide, by decide, h3, h.2.1 ▸ h3, h.2.2.1 ▸ h3⟩

end PrintfCountProofs

end OSL

namespace OSL

section ShadeImageProofs

variable {β : Type}

theorem wrap32_of_range (x : Int) (h0 : -(2 ^ 31) ≤ x) (h1 : x < 2 ^ 31) : wrap32 x = x := by
  unfold wrap32 Int.bmod
  norm_num at h0 h1 ⊢
  omega

theorem write_channels_exact (data : Nat → β) (N : Nat) (st : CopyState β) (o : ShaderOutput β)
    (hN : o.t.numelements * o.t.aggregate = N)
    (h0 : 0 ≤ st.chan) (h1 : st.chan + (N : Int) < 2 ^ 31) :
    write_channels data (N : Int) st
      = { chan := st.chan + (N : Int), writes := st.writes ++ output_writes st.chan o data,
          stopped := st.stopped } := by
  unfold write_channels output_writes
  rw [Int.toNat_ofNat, wrap32_of_range _ (by omega) h1, hN]
  congr 2
  apply List.map_congr_left
  intro c hc
  have hc2 : c < N := List.mem_range.1 hc
  have hc3 : (Int.ofNat c) < (N : Int) := by
    simp only [Int.ofNat_eq_coe]
    exact_mod_cast hc2
  have hc4 : (0 : Int) ≤ Int.ofNat c := Int.ofNat_nonneg c
  rw [wrap32_of_range _ (by omega) (by omega)]

theorem int_count_exact (t : TypeSpec)
    (h : ((t.numelements * t.aggregate : Nat) : Int) < 2 ^ 31) :
    wrap32 (wrap32 (t.numelements : Int) * (t.aggregate : Int))
      = ((t.numelements * t.aggregate : Nat) : Int) := by
  by_cases ha : t.aggregate = 0
  · rw [ha]
    simp [wrap32]
  · have hpos : 1 ≤ t.aggregate := Nat.one_le_iff_ne_zero.2 ha
    have hle : t.numelements ≤ t.numelements * t.aggregate := Nat.le_mul_of_pos_right _ hpos
    have hle2 : (t.numelements : Int) ≤ ((t.numelements * t.aggregate : Nat) : Int) := by
      exact_mod_cast hle
    have h0 : (0 : Int) ≤ (t.numelements : Int) := Int.ofNat_nonneg _
    rw [wrap32_of_range (t.numelements : Int) (by omega) (by omega)]
    have hm : (t.numelements : Int) * (t.aggregate : Int)
        = ((t.numelements * t.aggregate : Nat) : Int) := by push_cast; rfl
    rw [hm]
    have h00 : (0 : Int) ≤ ((t.numelements * t.aggregate : Nat) : Int) := Int.ofNat_nonneg _
    exact wrap32_of_range _ (by omega) h

theorem save_output_exact (n : Int) (st : CopyState β) (o : ShaderOutput β)
    (h0 : 0 ≤ st.chan) (h1 : st.chan ≤ n)
    (hfit : n + ((o.t.numelements * o.t.aggregate : Nat) : Int) < 2 ^ 31) :
    save_output n st o = save_output_spec n st o := by
  unfold save_output_spec
  have hN0 : (0 : Int) ≤ ((o.t.numelements * o.t.aggregate : Nat) : Int) := Int.ofNat_nonneg _
  have hnch : output_nchans o.t = ((o.t.numelements * o.t.aggregate : Nat) : Int) := by
    unfold output_nchans
    exact wrap32_of_range _ (by omega) (by omega)
  have hcount := int_count_exact o.t (by omega)
  unfold save_output
  generalize hN : o.t.numelements * o.t.aggregate = N at hfit hN0 hnch hcount ⊢
  by_cases hs : st.stopped = true
  · simp [hs]
  · have hsf : st.stopped = false := by simpa using hs
    simp only [hs, Bool.false_eq_true, if_false]
    cases hd : o.data with
    | none => rfl
    | some data =>
      simp only [hnch, hcount]
      rw [wrap32_of_range _ (by omega) (by omega)]
      by_cases hgt : st.chan + (N : Int) > n
      · rw [if_pos hgt, if_pos hgt]
      · rw [if_neg hgt, if_neg hgt]
        by_cases hf : o.t.basetype = BaseType.FLOAT
        · rw [if_pos hf, if_pos (Or.inl hf)]
          rw [write_channels_exact data N st o hN h0 (by omega), hsf]
        · by_cases hi : o.t.basetype = BaseType.INT
          · rw [if_neg hf, if_pos hi, if_pos (Or.inr hi)]
            rw [write_channels_exact data N st o hN h0 (by omega), hsf]
          · rw [if_neg hf, if_neg hi, if_neg (by simp [hf, hi])]

theorem output_writes_fst (chan : Int) (o : ShaderOutput β) (data : Nat → β) (len : Nat)
    (h : chan = (len : Int)) :
    (output_writes chan o data).map Prod.fst
      = (List.range (o.t.numelements * o.t.aggregate)).map fun c => Int.ofNat (len + c) := by
  unfold output_writes
  rw [List.map_map]
  apply List.map_congr_left
  intro c _
  simp [h]

theorem save_output_spec_inv (n : Int) (st : CopyState β) (o : ShaderOutput β)
    (h : st.inv n) : (save_output_spec n st o).inv n := by
  obtain ⟨h0, h1, h2, h3⟩ := h
  unfold save_output_spec
  by_cases hs : st.stopped = true
  · rw [if_pos hs]; exact ⟨h0, h1, h2, h3⟩
  · rw [if_neg hs]
    cases o.data with
    | none => exact ⟨h0, h1, h2, h3⟩
    | some data =>
      simp only
      by_cases hgt : st.chan + ((o.t.numelements * o.t.aggregate : Nat) : Int) > n
      · rw [if_pos hgt]; exact ⟨h0, h1, h2, h3⟩
      · rw [if_neg hgt]
        by_cases hf : o.t.basetype = BaseType.FLOAT ∨ o.t.basetype = BaseType.INT
        · rw [if_pos hf]
          have hlen : (output_writes st.chan o data).length
              = o.t.numelements * o.t.aggregate := by simp [output_writes]
          refine ⟨?_, ?_, ?_, ?_⟩
          · show 0 ≤ st.chan + ((o.t.numelements * o.t.aggregate : Nat) : Int)
            omega
          · show st.chan + ((o.t.numelements * o.t.aggregate : Nat) : Int) ≤ n
            omega
          · show st.chan + ((o.t.numelements * o.t.aggregate : Nat) : Int)
                = ((st.writes ++ output_writes st.chan o data).length : Int)
            rw [List.length_append, hlen]
            push_cast
            omega
          · show (st.writes ++ output_writes st.chan o data).map Prod.fst
                = (List.range (st.writes ++ output_writes st.chan o data).length).map Int.ofNat
            simp only [List.map_append, List.length_append, hlen, h3]
            rw [output_writes_fst st.chan o data st.writes.length h2, List.range_add,
              List.map_append, List.map_map]
            rfl
        · rw [if_neg hf]; exact ⟨h0, h1, h2, h3⟩

theorem save_outputs_foldl (n : Int) :
    ∀ (outputs : List (ShaderOutput β)) (st : CopyState β), st.inv n →
      sizes_fit_int n outputs →
      outputs.foldl (save_output n) st = outputs.foldl (save_output_spec n) st
        ∧ (outputs.foldl (save_output n) st).inv n
  | [], st, h, _ => ⟨rfl, h⟩
  | o :: rest, st, h, hfit => by
    have he := save_output_exact n st o h.1 h.2.1 (hfit o (List.mem_cons_self _ _))
    have hi := save_output_spec_inv n st o h
    have ih := save_outputs_foldl n rest (save_output_spec n st o) hi
      (fun x hx => hfit x (List.mem_cons_of_mem _ hx))
    simp only [List.foldl_cons, he]
    exact ih

theorem inv_start (n : Int) (hn0 : 0 ≤ n) :
    ({ chan := 0, writes := [], stopped := false } : CopyState β).inv n :=
  ⟨le_refl _, hn0, rfl, rfl⟩

/-- C30: for every list of outputs and every buffer with `n` channels, as long as the sizes
leave room in an `int` (no signed overflow), the loop of `shade_image` that saves the
outputs of a pixel writes only channels `0 <= chan < n`; after any number of outputs the
running channel index is between 0 and `n`; the channels written are 0, 1, 2, ... in order;
and each iteration does what the exact-arithmetic description says: nothing after the first
output that did not fit (the loop was left), nothing for an output whose address is null,
a stop for an output with an address whose values do not all fit, the copy of its values to
the next channels for a float or int output, and nothing for an output of another base
type. -/
theorem save_outputs_in_bounds (n : Int) (outputs : List (ShaderOutput β)) (hn0 : 0 ≤ n)
    (hfit : sizes_fit_int n outputs) :
    (∀ w ∈ (save_outputs n outputs).writes, 0 ≤ w.1 ∧ w.1 < n)
    ∧ (∀ k, 0 ≤ (save_outputs n (outputs.take k)).chan
        ∧ (save_outputs n (outputs.take k)).chan ≤ n)
    ∧ (save_outputs n outputs).writes.map Prod.fst
        = (List.range (save_outputs n outputs).writes.length).map Int.ofNat
    ∧ ∀ k o, outputs[k]? = some o →
        save_outputs n (outputs.take (k + 1))
          = save_output_spec n (save_outputs n (outputs.take k)) o := by
  have hall : (save_outputs n outputs).inv n :=
    (save_outputs_foldl n outputs _ (inv_start n hn0) hfit).2
  have htake : ∀ k, (save_outputs n (outputs.take k)).inv n := fun k =>
    (save_outputs_foldl n (outputs.take k) _ (inv_start n hn0)
      (fun x hx => hfit x (List.mem_of_mem_take hx))).2
  refine ⟨?_, fun k => ⟨(htake k).1, (htake k).2.1⟩, hall.2.2.2, ?_⟩
  · intro w hw
    obtain ⟨h0, h1, h2, h3⟩ := hall
    have hm : w.1 ∈ (save_outputs n outputs).writes.map Prod.fst := List.mem_map_of_mem _ hw
    rw [h3] at hm
    obtain ⟨i, hi, hiw⟩ := List.mem_map.1 hm
    have hi2 : i < (save_outputs n outputs).writes.length := List.mem_range.1 hi
    have hi3 : (i : Int) < ((save_outputs n outputs).writes.length : Int) := by
      exact_mod_cast hi2
    have hi4 : (0 : Int) ≤ (i : Int) := Int.ofNat_nonneg i
    simp only [Int.ofNat_eq_coe] at hiw
    omega
  · intro k o hk
    have hmem : o ∈ outputs := by
      obtain ⟨hlt, hget⟩ := List.getElem?_eq_some.1 hk
      rw [← hget]
      exact List.getElem_mem hlt
    have e : outputs.take (k + 1) = outputs.take k ++ [o] := by
      rw [List.take_succ, hk]
      rfl
    unfold save_outputs
    rw [e, List.foldl_append, List.foldl_cons, List.foldl_nil]
    exact save_output_exact n _ o (htake k).1 (htake k).2.1 (hfit o hmem)

/-- Witness of C30: with four channels, a color, an output that is not found, a string and a
float fill the channels 0 to 3; with three channels, a float is written to channel 0, the
color that follows does not fit and stops the copy, and the float after it is not
written. -/
theorem save_outputs_in_bounds_witness :
    sizes_fit_int 3 [example_float_output, example_color_output, example_float_output]
    ∧ (save_outputs 4 [example_color_output, example_missing_output, example_string_output,
        example_float_output]).summary = (4, [(0, 1), (1, 2), (2, 3), (3, 7)], false)
    ∧ (save_outputs 3 [example_float_output, example_color_output,
        example_float_output]).summary = (1, [(0, 7)], true)
    ∧ ∀ w ∈ (save_outputs 3 [example_float_output, example_color_output,
        example_float_output]).writes, 0 ≤ w.1 ∧ w.1 < 3 :=
  have hfit : sizes_fit_int 3
      [example_float_output, example_color_output, example_float_output] := by
    intro o ho
    simp only [List.mem_cons, List.mem_singleton, List.not_mem_nil, or_false] at ho
    rcases ho with rfl | rfl | rfl <;> decide
  ⟨hfit, by decide, by decide,
    (save_outputs_in_bounds 3 [example_float_output, example_color_output,
      example_float_output] (by decide) hfit).1⟩

end ShadeImageProofs

end OSL
